import Mathlib

/-!
# rocd: device manager, persistent store, event dispatcher and address model

A shallow embedding of the device reconciliation code of `rocd`
(`daemon/models`, `daemon/store`, `daemon/devices`, `daemon/events`) together
with theorems about it.

Conventions of the embedding.

* Go pointers to immutable structs are values; `Clone` is the identity.
* A Go `map[string]*Device` is an association list with unique keys
  (`DeviceMap`); ranging over the map visits the entries in list order, which
  is one of the orders Go may pick.  Two maps are the same map when they agree
  on every key (`DeviceMap.get`).
* `*AddressList` is `Option (List Address)`, `*bool` is `Option Bool`.
* The string-typed enums (`DeviceType`, `DeviceStatus`, `DeviceDriver`,
  `Interface`, `Fec`) stay strings, as in the source.
* Where the code writes through a pointer to a struct that a map holds
  (`deleteStreamDevice` hands the indexed struct to the backend), the write is
  carried to the entries that hold the struct (`DeviceMap.share`).
* Calls that leave the process (backend commands, file writes, `url.Parse`)
  are parameters: `Backend`, `NetLib`, and the pending write outcomes of
  `PersistStore`.  Every backend command and every store mutation issued by
  the device manager is appended to `DeviceManager.calls`.
* Generated code that is not among the sources (`deriveCompareDevice`) is a
  parameter of the function that calls it (`Device.Compare`).
* A `time.Duration` is its count of nanoseconds and a `rate.Limit` its count
  of events per second; the values that occur are whole numbers.
-/

namespace Rocd

/-! ## models/uri.go, models/address.go, models/address_list.go -/

/-- The fields of Go's `url.URL` read by `models.URI`. `User` is
`u.User.String()` when `u.User` is not nil. -/
structure URL where
  Scheme : String
  Opaque : String
  User : Option String
  Host : String
  EscapedPath : String
  RawQuery : String
  EscapedFragment : String
deriving DecidableEq, Repr

/-- Standard-library functions used by the models: `url.Parse`,
`net.SplitHostPort` and the `%q` verb of `fmt` (`strconv.Quote`). -/
structure NetLib where
  urlParse : String → Option URL
  splitHostPort : String → Option (String × String)
  quote : String → String

/-- Errors returned by the embedded functions, one constructor per error site
of the source. -/
inductive Err where
  /-- "invalid uri %q: %w" -/
  | uriInvalid (uri : String)
  /-- "invalid uri %q: unsupported format" -/
  | uriUnsupportedFormat (uri : String)
  /-- "invalid uri %q: 'user' component not supported" -/
  | uriUser (uri : String)
  /-- "invalid uri %q: 'host' component missing" -/
  | uriHost (uri : String)
  /-- "invalid uri %q: 'port' component missing" -/
  | uriPort (uri : String)
  /-- "invalid uri %q: 'resource' component not supported" -/
  | uriResource (uri : String)
  /-- "invalid uri %q: unknown scheme %q" -/
  | uriUnknownScheme (uri : String)
  /-- "%q uri does not support %q protocol" -/
  | uriProtocol (iface : String) (scheme : String)
  /-- "'audio_source' uri is missing" -/
  | sourceMissing
  /-- "... but 'audio_repair' uri is missing" -/
  | repairMissing (fec : String)
  /-- "... but 'audio_repair' uri implies fec scheme %q" -/
  | fecMismatch (src : String) (rep : String)
  /-- "device %q not found" -/
  | notFound (uid : String)
  /-- "not a stream device" -/
  | notStreamDevice
  /-- "'device_uid' should be same or empty" -/
  | uidImmutable
  /-- "'system_name' should be same or empty" -/
  | systemNameImmutable
  /-- "'display_name' should be same or empty" -/
  | displayNameImmutable
  /-- "'type' should be same or empty" -/
  | typeImmutable
  /-- "'status' should be %q, %q, or empty" -/
  | badStatus
  /-- "'device_uid' should be empty" -/
  | uidNotEmpty
  /-- "'type' should be %q or %q" -/
  | badType
  /-- "invalid 'to_address': %w" -/
  | invalidToAddress (cause : Err)
  /-- "invalid 'from_address': %w" -/
  | invalidFromAddress (cause : Err)
  /-- "with 'type' %q, use 'to_address', not 'from_address" -/
  | useToAddress (type : String)
  /-- "with 'type' %q, use 'from_address', not 'to_address" -/
  | useFromAddress (type : String)
  /-- "only stream devices can have 'status'" -/
  | onlyStreamStatus
  /-- "only stream device can have 'from_address' or 'to_address'" -/
  | onlyStreamAddress
  /-- "'system_name' %q already exists" -/
  | systemNameExists (name : String)
  /-- "device %q already exists" -/
  | deviceExists (uid : String)
  /-- An error returned by a backend command, passed through unchanged. -/
  | backend (msg : String)
  /-- "failed to save configuration to %q: %w" -/
  | writeFile (msg : String)
  /-- "failed to save device: %w" -/
  | saveDevice (cause : Err)
  /-- "failed to save updated devices: %w" -/
  | saveUpdated (cause : Err)
  /-- "failed to remove device: %w" -/
  | removeDevice (cause : Err)
  /-- "failed to remove device %q: %w" -/
  | migrateRemove (uid : String) (cause : Err)
  /-- "failed to save device %q: %w" -/
  | migrateSave (uid : String) (cause : Err)
  /-- The sentinel `errNotAvailable`, "not available". -/
  | notAvailable
  /-- "no device backend available" -/
  | noBackend
  /-- A Go panic with the given message. -/
  | panic (msg : String)
deriving DecidableEq, Repr

deriving instance DecidableEq for Except

def IfaceAudioSource : String := "audio_source"
def IfaceAudioRepair : String := "audio_repair"
def IfaceAudioControl : String := "audio_control"

def FecRs8m : String := "rs8m"
def FecLdpc : String := "ldpc"

/-- `URI.Scheme`. -/
def URI.Scheme (L : NetLib) (s : String) : String :=
  match L.urlParse s with
  | none => ""
  | some u => u.Scheme

/-- `URI.Fec`. -/
def URI.Fec (L : NetLib) (s : String) : String :=
  match L.urlParse s with
  | none => ""
  | some u =>
    if u.Scheme = "rs8m" ∨ u.Scheme = "rtp+rs8m" then FecRs8m
    else if u.Scheme = "ldpc" ∨ u.Scheme = "rtp+ldpc" then FecLdpc
    else ""

/-- `URI.User`. -/
def URI.User (L : NetLib) (s : String) : String :=
  match L.urlParse s with
  | none => ""
  | some u =>
    match u.User with
    | none => ""
    | some v => v

/-- `URI.Host`. -/
def URI.Host (L : NetLib) (s : String) : String :=
  match L.urlParse s with
  | none => ""
  | some u => u.Host

/-- `URI.IP`. -/
def URI.IP (L : NetLib) (s : String) : String :=
  let h := URI.Host L s
  if h = "" then ""
  else
    match L.splitHostPort h with
    | none => ""
    | some p => p.1

/-- `URI.Port`. -/
def URI.Port (L : NetLib) (s : String) : String :=
  let h := URI.Host L s
  if h = "" then ""
  else
    match L.splitHostPort h with
    | none => ""
    | some p => p.2

/-- `URI.Resource`. -/
def URI.Resource (L : NetLib) (s : String) : String :=
  match L.urlParse s with
  | none => ""
  | some u =>
    let ret := if u.EscapedPath ≠ "" then u.EscapedPath else ""
    let ret :=
      if u.RawQuery ≠ "" then (if ret = "" then "/" else ret) ++ "?" ++ u.RawQuery else ret
    if u.EscapedFragment ≠ "" then
      (if ret = "" then "/" else ret) ++ "#" ++ u.EscapedFragment
    else ret

/-- `URI.Validate`: the per-scheme component checks followed by the
per-interface scheme check. -/
def URI.Validate (L : NetLib) (s : String) (iface : String) : Except Err Unit :=
  match L.urlParse s with
  | none => .error (.uriInvalid s)
  | some u =>
    if u.Opaque ≠ "" then .error (.uriUnsupportedFormat s)
    else
      let sch := URI.Scheme L s
      let components : Except Err Unit :=
        if sch = "rtp" ∨ sch = "rtp+rs8m" ∨ sch = "rs8m" ∨ sch = "rtp+ldpc" ∨ sch = "ldpc"
            ∨ sch = "rtcp" then
          if URI.User L s ≠ "" then .error (.uriUser s)
          else if URI.Host L s = "" then .error (.uriHost s)
          else if URI.Port L s = "" then .error (.uriPort s)
          else if URI.Resource L s ≠ "" then .error (.uriResource s)
          else .ok ()
        else if sch = "rtsp" then
          if URI.User L s ≠ "" then .error (.uriUser s) else .ok ()
        else .error (.uriUnknownScheme s)
      match components with
      | .error e => .error e
      | .ok _ =>
        if iface = IfaceAudioSource then
          if sch = "rtp" ∨ sch = "rtp+rs8m" ∨ sch = "rtp+ldpc" then .ok ()
          else .error (.uriProtocol iface sch)
        else if iface = IfaceAudioRepair then
          if sch = "rs8m" ∨ sch = "ldpc" then .ok () else .error (.uriProtocol iface sch)
        else if iface = IfaceAudioControl then
          if sch = "rtcp" then .ok () else .error (.uriProtocol iface sch)
        else .ok ()

structure Address where
  AudioSource : String
  AudioRepair : String
  AudioControl : String
deriving DecidableEq, Repr

/-- Validation of one non-empty URI of an address; an empty URI is skipped. -/
def Address.validateURI (L : NetLib) (uri : String) (iface : String) : Except Err Unit :=
  if uri ≠ "" then URI.Validate L uri iface else .ok ()

/-- `Address.Validate`. -/
def Address.Validate (L : NetLib) (a : Address) : Except Err Unit :=
  match Address.validateURI L a.AudioSource IfaceAudioSource with
  | .error e => .error e
  | .ok _ =>
  match Address.validateURI L a.AudioRepair IfaceAudioRepair with
  | .error e => .error e
  | .ok _ =>
  match Address.validateURI L a.AudioControl IfaceAudioControl with
  | .error e => .error e
  | .ok _ =>
    if a.AudioSource = "" then .error .sourceMissing
    else if a.AudioRepair = "" then
      if URI.Fec L a.AudioSource ≠ "" then .error (.repairMissing (URI.Fec L a.AudioSource))
      else .ok ()
    else
      if URI.Fec L a.AudioSource ≠ URI.Fec L a.AudioRepair then
        .error (.fecMismatch (URI.Fec L a.AudioSource) (URI.Fec L a.AudioRepair))
      else .ok ()

/-- The loop of `AddressList.Validate` over the elements. -/
def AddressList.validateAll (L : NetLib) : List Address → Except Err Unit
  | [] => .ok ()
  | a :: rest =>
    match Address.Validate L a with
    | .error e => .error e
    | .ok _ => AddressList.validateAll L rest

/-- `AddressList.Validate` on a `*AddressList`: nil is valid. -/
def AddressList.Validate (L : NetLib) (l : Option (List Address)) : Except Err Unit :=
  match l with
  | none => .ok ()
  | some as => AddressList.validateAll L as

/-- `AddressList.Len` on a `*AddressList`: nil has length 0. -/
def AddressList.Len (l : Option (List Address)) : Nat :=
  match l with
  | none => 0
  | some as => as.length

/-! ## models/device.go -/

def Sink : String := "sink"
def Source : String := "source"

def StatusDisabled : String := "disabled"
def StatusEnabled : String := "enabled"
def StatusUnavailable : String := "unavailable"

def DriverPipewire : String := "pipewire"
def DriverPulseaudio : String := "pulseaudio"

/-- `models.Device`; the field `Type` of the source is `Typ` here. -/
structure Device where
  UID : String
  SystemName : String
  DisplayName : String
  Typ : String
  Driver : String
  IsHardware : Bool
  IsStream : Bool
  Status : String
  IsMuted : Option Bool
  ToAddress : Option (List Address)
  FromAddress : Option (List Address)
  NodeID : String
  ModuleID : String
deriving DecidableEq, Repr

/-- `Device.SetMuted`. -/
def Device.SetMuted (d : Device) (val : Bool) : Device := { d with IsMuted := some val }

/-- `Device.GetMuted`. -/
def Device.GetMuted (d : Device) : Bool :=
  match d.IsMuted with
  | none => false
  | some b => b

/-- `Device.GetEnabled`. -/
def Device.GetEnabled (d : Device) : Bool := d.Status ≠ StatusDisabled

/-- `Device.SetDefaults`. -/
def Device.SetDefaults (d : Device) : Device :=
  let d := if d.Status = "" then { d with Status := StatusEnabled } else d
  let d := if d.IsMuted = none then d.SetMuted false else d
  if d.IsStream then
    if d.Typ = Sink then
      if d.ToAddress = none then { d with ToAddress := some [] } else d
    else if d.Typ = Source then
      if d.FromAddress = none then { d with FromAddress := some [] } else d
    else d
  else d

/-- Modelled from the spec: `deriveEqualDevice` is generated code that is not
part of the sources; records are compared field by field ("entries present in
both whose value differs"), which on the embedding is equality of values. -/
def Device.Equal (d d2 : Device) : Bool := decide (d = d2)

/-- Modelled from the spec: `deriveEqualAddressList` is generated code that is
not part of the sources; two address lists are equal when both are nil or both
hold the same addresses in the same order. -/
def AddressList.Equal (l l2 : Option (List Address)) : Bool := decide (l = l2)

/-! ## Maps from string to device -/

/-- A Go `map[string]*models.Device`. -/
abbrev DeviceMap := List (String × Device)

/-- `m[k]` with the comma-ok idiom. -/
def DeviceMap.get (m : DeviceMap) (k : String) : Option Device := List.lookup k m

/-- `delete(m, k)`. -/
def DeviceMap.delete (m : DeviceMap) (k : String) : DeviceMap := m.filter fun e => e.1 != k

/-- `m[k] = d`. -/
def DeviceMap.set (m : DeviceMap) (k : String) (d : Device) : DeviceMap :=
  (k, d) :: m.delete k

/-- The devices visited by `for _, dev := range m`. -/
def DeviceMap.values (m : DeviceMap) : List Device := m.map Prod.snd

/-- Two maps hold the same entries. -/
def DeviceMap.Same (m m2 : DeviceMap) : Prop := ∀ k, m.get k = m2.get k

/-- No key occurs twice: the list stands for a map. -/
def DeviceMap.NodupKeys (m : DeviceMap) : Prop := (m.map Prod.fst).Nodup

/-- Every entry is stored under the uid of its device. -/
def DeviceMap.KeyedByUID (m : DeviceMap) : Prop := ∀ e ∈ m, e.1 = e.2.UID

instance (m : DeviceMap) : Decidable m.NodupKeys := by
  unfold DeviceMap.NodupKeys; infer_instance

instance (m : DeviceMap) : Decidable m.KeyedByUID := by
  unfold DeviceMap.KeyedByUID; infer_instance

/-! ## devices/device_uid.go -/

/-- The UTF-8 bytes of one character. -/
def utf8Char (c : Char) : List Nat :=
  let n := c.toNat
  if n < 0x80 then [n]
  else if n < 0x800 then [0xC0 + n / 64, 0x80 + n % 64]
  else if n < 0x10000 then [0xE0 + n / 4096, 0x80 + (n / 64) % 64, 0x80 + n % 64]
  else [0xF0 + n / 262144, 0x80 + (n / 4096) % 64, 0x80 + (n / 64) % 64, 0x80 + n % 64]

/-- The bytes of a Go string. -/
def utf8Bytes (s : String) : List Nat := s.toList.flatMap utf8Char

/-- Rotate a 32-bit word left. -/
def rotl32 (x n : Nat) : Nat := ((x <<< n) ||| (x >>> (32 - n))) % 2 ^ 32

/-- The `w` low bytes of `n`, most significant first. -/
def beBytes : Nat → Nat → List Nat
  | 0, _ => []
  | w + 1, n => (n / 256 ^ w) % 256 :: beBytes w n

/-- SHA-1 padding: a 0x80 byte, zeros up to 56 mod 64, the bit length. -/
def sha1Pad (msg : List Nat) : List Nat :=
  let l := msg.length
  let k := (119 - l % 64) % 64
  msg ++ [0x80] ++ List.replicate k 0 ++ beBytes 8 (8 * l % 2 ^ 64)

/-- The big-endian word made of the given bytes. -/
def beWord (bs : List Nat) : Nat := bs.foldl (fun acc b => acc * 256 + b) 0

/-- The first `n` 32-bit words of a block. -/
def chunkWords : Nat → List Nat → List Nat
  | 0, _ => []
  | n + 1, bs => beWord (bs.take 4) :: chunkWords n (bs.drop 4)

/-- Extend the message schedule by `n` words; `ws` holds the latest word
first. -/
def sha1Extend : Nat → List Nat → List Nat
  | 0, ws => ws
  | n + 1, ws =>
    let w := rotl32 (ws.getD 2 0 ^^^ ws.getD 7 0 ^^^ ws.getD 13 0 ^^^ ws.getD 15 0) 1
    sha1Extend n (w :: ws)

/-- The five working variables of SHA-1. -/
structure Sha1State where
  a : Nat
  b : Nat
  c : Nat
  d : Nat
  e : Nat
deriving DecidableEq, Repr

/-- Round `t` of the compression function on schedule word `w`. -/
def sha1Round (t : Nat) (s : Sha1State) (w : Nat) : Sha1State :=
  let fk : Nat × Nat :=
    if t < 20 then ((s.b &&& s.c) ||| ((s.b ^^^ 0xFFFFFFFF) &&& s.d), 0x5A827999)
    else if t < 40 then (s.b ^^^ s.c ^^^ s.d, 0x6ED9EBA1)
    else if t < 60 then ((s.b &&& s.c) ||| (s.b &&& s.d) ||| (s.c &&& s.d), 0x8F1BBCDC)
    else (s.b ^^^ s.c ^^^ s.d, 0xCA62C1D6)
  { a := (rotl32 s.a 5 + fk.1 + s.e + fk.2 + w) % 2 ^ 32
    b := s.a
    c := rotl32 s.b 30
    d := s.c
    e := s.d }

/-- The rounds over the schedule words, numbered from `t`. -/
def sha1Rounds : Nat → List Nat → Sha1State → Sha1State
  | _, [], s => s
  | t, w :: ws, s => sha1Rounds (t + 1) ws (sha1Round t s w)

/-- The compression of one 64-byte block. -/
def sha1Block (h : Sha1State) (block : List Nat) : Sha1State :=
  let w16 := chunkWords 16 block
  let ws := (sha1Extend 64 w16.reverse).reverse
  let r := sha1Rounds 0 ws h
  { a := (h.a + r.a) % 2 ^ 32, b := (h.b + r.b) % 2 ^ 32, c := (h.c + r.c) % 2 ^ 32,
    d := (h.d + r.d) % 2 ^ 32, e := (h.e + r.e) % 2 ^ 32 }

/-- The compression of `n` consecutive blocks. -/
def sha1Blocks : Nat → List Nat → Sha1State → Sha1State
  | 0, _, h => h
  | n + 1, bs, h => sha1Blocks n (bs.drop 64) (sha1Block h (bs.take 64))

/-- The 20 bytes of `sha1.New()` fed with `msg` (`crypto/sha1`). -/
def sha1 (msg : List Nat) : List Nat :=
  let p := sha1Pad msg
  let h := sha1Blocks (p.length / 64) p
    { a := 0x67452301, b := 0xEFCDAB89, c := 0x98BADCFE, d := 0x10325476, e := 0xC3D2E1F0 }
  beBytes 4 h.a ++ beBytes 4 h.b ++ beBytes 4 h.c ++ beBytes 4 h.d ++ beBytes 4 h.e

def hexDigit (n : Nat) : Char := "0123456789abcdef".toList.getD n '0'

/-- `hex.EncodeToString`. -/
def hexEncode (bs : List Nat) : String :=
  String.mk (bs.flatMap fun b => [hexDigit (b / 16), hexDigit (b % 16)])

/-- The loop of `makeDeviceUID` from index `i`: a dash before every eighth
character but the first. -/
def insertDashes : Nat → List Char → List Char
  | _, [] => []
  | i, c :: cs =>
    if 0 < i ∧ i % 8 = 0 then '-' :: c :: insertDashes (i + 1) cs
    else c :: insertDashes (i + 1) cs

/-- `makeDeviceUID`; `machine` is the machine id read once per process. -/
def makeDeviceUID (machine systemName : String) : String :=
  let hashsum := hexEncode (sha1 (utf8Bytes ("machine=" ++ machine ++ ",device=" ++ systemName)))
  String.mk (insertDashes 0 hashsum.toList)

/-! ## store/persist_store.go -/

/-- `store.PersistStore`, device part. `file` is the device section of the
last document written; `writeErrs` gives the outcome of the coming calls of
`atomic.WriteFile` (`some e`: the write fails with `e`; none left: success)
and `nWrites` counts the writes attempted. -/
structure PersistStore where
  devices : DeviceMap
  file : DeviceMap
  writeErrs : List (Option String)
  nWrites : Nat
deriving DecidableEq, Repr

/-- `PersistStore.save`. -/
def PersistStore.save (ps : PersistStore) : Except Err Unit × PersistStore :=
  match ps.writeErrs with
  | some e :: rest =>
    (.error (.writeFile e), { ps with writeErrs := rest, nWrites := ps.nWrites + 1 })
  | none :: rest =>
    (.ok (), { ps with file := ps.devices, writeErrs := rest, nWrites := ps.nWrites + 1 })
  | [] => (.ok (), { ps with file := ps.devices, nWrites := ps.nWrites + 1 })

/-- `PersistStore.HasStreamDevice`. -/
def PersistStore.HasStreamDevice (ps : PersistStore) (uid : String) : Bool :=
  (ps.devices.get uid).isSome

/-- `PersistStore.LoadStreamDevices`. -/
def PersistStore.LoadStreamDevices (ps : PersistStore) : List Device := ps.devices.values

/-- `PersistStore.LoadStreamDevice`; the error is "device not found". -/
def PersistStore.LoadStreamDevice (ps : PersistStore) (uid : String) : Option Device :=
  ps.devices.get uid

/-- The loop of `PersistStore.SaveStreamDevices`: the device map and the
`hasChanges` flag after the given devices. -/
def PersistStore.saveLoop : List Device → DeviceMap × Bool → Except Err (DeviceMap × Bool)
  | [], acc => .ok acc
  | newDev :: rest, acc =>
    if !newDev.IsStream then .error (.panic "not a stream device")
    else
      match acc.1.get newDev.UID with
      | some oldDev =>
        if oldDev.Equal newDev then PersistStore.saveLoop rest acc
        else PersistStore.saveLoop rest (acc.1.set newDev.UID newDev, true)
      | none => PersistStore.saveLoop rest (acc.1.set newDev.UID newDev, true)

/-- `PersistStore.SaveStreamDevices`. A panic leaves the store as it was. -/
def PersistStore.SaveStreamDevices (ps : PersistStore) (devices : DeviceMap) :
    Except Err Unit × PersistStore :=
  match PersistStore.saveLoop devices.values (ps.devices, false) with
  | .error e => (.error e, ps)
  | .ok (devs, hasChanges) =>
    if !hasChanges then (.ok (), { ps with devices := devs })
    else PersistStore.save { ps with devices := devs }

/-- `PersistStore.SaveStreamDevice`. -/
def PersistStore.SaveStreamDevice (ps : PersistStore) (device : Device) :
    Except Err Unit × PersistStore :=
  if !device.IsStream then (.error (.panic "not a stream device"), ps)
  else
    match ps.devices.get device.UID with
    | some oldDevice =>
      if oldDevice.Equal device then (.ok (), ps)
      else PersistStore.save { ps with devices := ps.devices.set device.UID device }
    | none => PersistStore.save { ps with devices := ps.devices.set device.UID device }

/-- `PersistStore.RemoveStreamDevice`. -/
def PersistStore.RemoveStreamDevice (ps : PersistStore) (uid : String) :
    Except Err Unit × PersistStore :=
  match ps.devices.get uid with
  | none => (.ok (), ps)
  | some _ => PersistStore.save { ps with devices := ps.devices.delete uid }

/-- The invariant of the store map: keys are unique and every device is kept
under its own uid (`ps.devices[dev.UID] = dev` is the only way in). -/
def PersistStore.WF (ps : PersistStore) : Prop :=
  ps.devices.NodupKeys ∧ ps.devices.KeyedByUID

instance (ps : PersistStore) : Decidable ps.WF := by
  unfold PersistStore.WF; infer_instance

/-! ## devices/backend.go, devices/constants.go -/

def fetchRetryCount : Nat := 5

/-- `deviceFilter`. -/
inductive deviceFilter where
  | anyDevice
  | streamDevice
deriving DecidableEq, Repr

/-- The internal handles of a device, the only fields a backend command
writes into the device struct it is given. -/
structure Handles where
  NodeID : String
  ModuleID : String
deriving DecidableEq, Repr

/-- The handles a device carries. -/
def Device.handles (d : Device) : Handles := { NodeID := d.NodeID, ModuleID := d.ModuleID }

/-- The `backend` interface over a backend with states `σ`. A command takes
the state and the device and gives the new state together with the error or,
on success, the handles left in the device struct. `fetchDevices` also sees
the devices of the store, which the backends consult. -/
structure Backend (σ : Type) where
  driver : String
  fetchDevices : σ → DeviceMap → Except String (List Device) × σ
  resetStreamDevice : σ → Device → Except String Handles × σ
  destroyStreamDevice : σ → Device → Except String Handles × σ
  applyEnabled : σ → Device → Except String Handles × σ
  applyMuted : σ → Device → Except String Handles × σ
  applyAddress : σ → Device → Except String Handles × σ

/-- What the device manager runs against: the standard library, the opened
backend and the machine id. -/
structure Env (σ : Type) where
  net : NetLib
  backend : Backend σ
  machine : String

/-- The calls the device manager issues to the backend and to the store. -/
inductive Call where
  | fetchDevices
  | resetStreamDevice (dev : Device)
  | destroyStreamDevice (dev : Device)
  | applyEnabled (dev : Device)
  | applyMuted (dev : Device)
  | applyAddress (dev : Device)
  | saveStreamDevice (dev : Device)
  | saveStreamDevices (devices : DeviceMap)
  | removeStreamDevice (uid : String)
deriving DecidableEq, Repr

/-- The call goes to the backend. -/
def Call.isBackend : Call → Bool
  | .saveStreamDevice _ => false
  | .saveStreamDevices _ => false
  | .removeStreamDevice _ => false
  | _ => true

/-- The call is one of `applyEnabled`, `applyMuted`, `applyAddress`. -/
def Call.isApply : Call → Bool
  | .applyEnabled _ => true
  | .applyMuted _ => true
  | .applyAddress _ => true
  | _ => false

/-- The name of the method called. -/
def Call.name : Call → String
  | .fetchDevices => "fetchDevices"
  | .resetStreamDevice _ => "resetStreamDevice"
  | .destroyStreamDevice _ => "destroyStreamDevice"
  | .applyEnabled _ => "applyEnabled"
  | .applyMuted _ => "applyMuted"
  | .applyAddress _ => "applyAddress"
  | .saveStreamDevice _ => "SaveStreamDevice"
  | .saveStreamDevices _ => "SaveStreamDevices"
  | .removeStreamDevice _ => "RemoveStreamDevice"

/-- A call as issued, with the error it returned, if any. -/
structure Issued where
  call : Call
  err : Option Err
deriving DecidableEq, Repr

/-! ## devices/backend_pipewire.go, devices/backend_pulseaudio.go -/

/-- How `waitDevice` ends: the device shows up in a fetch, the helper process
is gone from the map of stream devices, or the timeout fires. -/
inductive WaitOutcome where
  | appeared
  | helperExited
  | timeout
deriving DecidableEq, Repr

/-- The host the backends drive, with worlds `ω`: `run` is `cmd.Run()` of a
command line (the error, if any), `start` is `cmd.Start()` of a helper, `kill`
stops the helper of a uid, `wait` is the outcome of `waitDevice`, `pwDump` the
devices `pwBuildDevice` makes of the output of `pw-dump`, and `pulseList` the
result of `pulseBuildDeviceList` for sinks (`true`) or sources. -/
structure Host (ω : Type) where
  run : ω → List String → Option String × ω
  start : ω → List String → Option String × ω
  kill : ω → String → ω
  wait : ω → Device → WaitOutcome × ω
  pwDump : ω → Except String (List Device) × ω
  pulseList : ω → Bool → Except String (List Device) × ω

/-- The body of the loop shared by both `fetchDevices`: a stream device known
to the store takes its addresses from there, an unknown one is not shown as a
stream device. -/
def restoreFromStore (store : DeviceMap) (dev : Device) : Device :=
  if dev.IsStream then
    match store.get dev.UID with
    | some savedDev =>
      if dev.Typ = Sink then { dev with ToAddress := savedDev.ToAddress }
      else if dev.Typ = Source then { dev with FromAddress := savedDev.FromAddress }
      else dev
    | none => { dev with IsStream := false }
  else dev

/-- The address and the kind picked by the first switch of `pwModuleArgs` and
`pulseModuleArgs`; `who` is "pipewire" or "pulseaudio". A device that is
neither a sink nor a source leaves the address nil, and reading it panics. -/
def moduleAddress (who : String) (dev : Device) : Except String (Address × String) :=
  if dev.Typ = Sink then
    match dev.ToAddress with
    | some [a] => .ok (a, "remote")
    | _ => .error (who ++ " send stream device requires exactly one element in 'to_address'")
  else if dev.Typ = Source then
    match dev.FromAddress with
    | some [a] => .ok (a, "local")
    | _ => .error (who ++ " receive stream device requires exactly one element in 'from_address'")
  else .error "panic: nil pointer dereference"

/-- The checks of the address common to `pwModuleArgs` and
`pulseModuleArgs`. -/
def moduleAddressCheck (L : NetLib) (who : String) (addr : Address) : Except String Unit :=
  if addr.AudioSource = "" then
    .error (who ++ " stream device requires 'audio_source' to be present")
  else if (addr.AudioRepair ≠ "" ∧ URI.IP L addr.AudioRepair ≠ URI.IP L addr.AudioSource) ∨
      (addr.AudioControl ≠ "" ∧ URI.IP L addr.AudioControl ≠ URI.IP L addr.AudioSource) then
    .error (who ++ " stream device requires 'audio_source', 'audio_repair'," ++
      " and 'audio_control' URIs to use the same hostname")
  else .ok ()

/-- The FEC code rendered by both argument builders. -/
def moduleFecCode (L : NetLib) (addr : Address) : String :=
  if URI.Fec L addr.AudioSource = "" then "disable" else URI.Fec L addr.AudioSource

/-- `pwModuleArgs`. -/
def pwModuleArgs (L : NetLib) (dev : Device) : Except String String :=
  match moduleAddress "pipewire" dev with
  | .error e => .error e
  | .ok (addr, kind) =>
    match moduleAddressCheck L "pipewire" addr with
    | .error e => .error e
    | .ok _ =>
      .ok ("\x7b\n" ++
        "  sink.name = " ++ L.quote dev.DisplayName ++ "\n" ++
        "  sink.props = \x7b\n" ++
        "    node.name = " ++ L.quote dev.SystemName ++ "\n" ++
        "    node.description = " ++ L.quote dev.DisplayName ++ "\n" ++
        "  \x7d\n" ++
        "  " ++ kind ++ ".ip = " ++ URI.IP L addr.AudioSource ++ "\n" ++
        "  " ++ kind ++ ".source.port = " ++ URI.Port L addr.AudioSource ++ "\n" ++
        (if addr.AudioRepair ≠ "" then
          "  " ++ kind ++ ".repair.port = " ++ URI.Port L addr.AudioRepair ++ "\n" else "") ++
        (if addr.AudioControl ≠ "" then
          "  " ++ kind ++ ".control.port = " ++ URI.Port L addr.AudioControl ++ "\n" else "") ++
        "  fec.code = " ++ moduleFecCode L addr ++ "\n" ++
        "\x7d")

/-- `pulseModuleArgs`. -/
def pulseModuleArgs (L : NetLib) (dev : Device) : Except String (List String) :=
  match moduleAddress "pulseaudio" dev with
  | .error e => .error e
  | .ok (addr, kind) =>
    match moduleAddressCheck L "pulseaudio" addr with
    | .error e => .error e
    | .ok _ =>
      .ok ((if dev.Typ = Sink then
          ["sink_name=" ++ dev.SystemName,
           "sink_properties='device.description=" ++ L.quote dev.DisplayName ++ "'"]
        else
          ["source_name=" ++ dev.SystemName,
           "source_properties='device.description=" ++ L.quote dev.DisplayName ++ "'"]) ++
        [kind ++ "_ip=" ++ URI.IP L addr.AudioSource,
         kind ++ "_source_port=" ++ URI.Port L addr.AudioSource] ++
        (if addr.AudioRepair ≠ "" then
          [kind ++ "_repair_port=" ++ URI.Port L addr.AudioRepair] else []) ++
        (if addr.AudioControl ≠ "" then
          [kind ++ "_control_port=" ++ URI.Port L addr.AudioControl] else []) ++
        ["fec_encoding=" ++ moduleFecCode L addr])

/-- The state of `PipewireBackend`: the uids in `streamDevMap` and the world
of the host. -/
structure PwState (ω : Type) where
  streamDevMap : List String
  world : ω

/-- `PipewireBackend.fetchDevices`. -/
def PipewireBackend.fetchDevices {ω : Type} (H : Host ω) (b : PwState ω) (store : DeviceMap) :
    Except String (List Device) × PwState ω :=
  let r := H.pwDump b.world
  match r.1 with
  | .error e => (.error e, { b with world := r.2 })
  | .ok devs => (.ok (devs.map (restoreFromStore store)), { b with world := r.2 })

/-- `PipewireBackend.removeDevice`: it returns nil and leaves `NodeID` empty. -/
def PipewireBackend.removeDevice {ω : Type} (H : Host ω) (b : PwState ω) (dev : Device) :
    Device × PwState ω :=
  let w := if dev.NodeID ≠ "" then (H.run b.world ["pw-cli", "destroy", dev.NodeID]).2 else b.world
  let b2 : PwState ω :=
    if dev.UID ∈ b.streamDevMap then
      { streamDevMap := b.streamDevMap.filter (fun u => u != dev.UID), world := H.kill w dev.UID }
    else { b with world := w }
  ({ dev with NodeID := "" }, b2)

/-- `PipewireBackend.createDevice` with `startStreamDevice`. -/
def PipewireBackend.createDevice {ω : Type} (L : NetLib) (H : Host ω) (b : PwState ω)
    (dev : Device) : Option String × PwState ω :=
  let module := if dev.Typ = Sink then "libpipewire-module-roc-sink"
    else "libpipewire-module-roc-source"
  match pwModuleArgs L dev with
  | .error e => (some ("failed to start stream device: " ++ e), b)
  | .ok args =>
    let r := H.start b.world ["pw-cli", "-m", "load-module", module, args]
    match r.1 with
    | some e => (some ("failed to start stream device: " ++ e), { b with world := r.2 })
    | none =>
      (none, { streamDevMap := dev.UID :: b.streamDevMap.filter (fun u => u != dev.UID),
               world := r.2 })

/-- `PipewireBackend.waitDevice`. -/
def PipewireBackend.waitDevice {ω : Type} (H : Host ω) (b : PwState ω) (dev : Device) :
    Except String Handles × PwState ω :=
  let r := H.wait b.world dev
  match r.1 with
  | .appeared => (.ok dev.handles, { b with world := r.2 })
  | .helperExited =>
    (.error "failed to create device on backend",
      { streamDevMap := b.streamDevMap.filter (fun u => u != dev.UID), world := r.2 })
  | .timeout =>
    (.error "device did not appear on backend during timeout",
      (PipewireBackend.removeDevice H { b with world := r.2 } dev).2)

/-- `PipewireBackend.resetStreamDevice`. -/
def PipewireBackend.resetStreamDevice {ω : Type} (L : NetLib) (H : Host ω) (b : PwState ω)
    (dev : Device) : Except String Handles × PwState ω :=
  if !dev.GetEnabled then (.ok dev.handles, b)
  else
    let removed := PipewireBackend.removeDevice H b dev
    let created := PipewireBackend.createDevice L H removed.2 removed.1
    match created.1 with
    | some e => (.error e, created.2)
    | none => PipewireBackend.waitDevice H created.2 removed.1

/-- `PipewireBackend.destroyStreamDevice`. -/
def PipewireBackend.destroyStreamDevice {ω : Type} (H : Host ω) (b : PwState ω) (dev : Device) :
    Except String Handles × PwState ω :=
  let removed := PipewireBackend.removeDevice H b dev
  (.ok removed.1.handles, removed.2)

/-- `PipewireBackend.applyEnabled`. -/
def PipewireBackend.applyEnabled {ω : Type} (L : NetLib) (H : Host ω) (b : PwState ω)
    (dev : Device) : Except String Handles × PwState ω :=
  if dev.GetEnabled then PipewireBackend.resetStreamDevice L H b dev
  else PipewireBackend.destroyStreamDevice H b dev

/-- The `applyMuted` of both backends: `pactl set-sink-mute` or
`set-source-mute` for an enabled device. -/
def pactlMute {ω : Type} (H : Host ω) (w : ω) (dev : Device) : Except String Handles × ω :=
  if !dev.GetEnabled then (.ok dev.handles, w)
  else
    let subcmd := if dev.Typ = Sink then "set-sink-mute" else "set-source-mute"
    let value := if dev.GetMuted then "1" else "0"
    let r := H.run w ["pactl", subcmd, dev.SystemName, value]
    match r.1 with
    | some e => (.error ("failed to change device mute state: " ++ e), r.2)
    | none => (.ok dev.handles, r.2)

/-- `PipewireBackend.applyMuted`. -/
def PipewireBackend.applyMuted {ω : Type} (H : Host ω) (b : PwState ω) (dev : Device) :
    Except String Handles × PwState ω :=
  let r := pactlMute H b.world dev
  (r.1, { b with world := r.2 })

/-- `PipewireBackend.applyAddress`. -/
def PipewireBackend.applyAddress {ω : Type} (L : NetLib) (H : Host ω) (b : PwState ω)
    (dev : Device) : Except String Handles × PwState ω :=
  if !dev.GetEnabled then (.ok dev.handles, b)
  else PipewireBackend.resetStreamDevice L H b dev

/-- The PipeWire backend as a `Backend`. -/
def PipewireBackend {ω : Type} (L : NetLib) (H : Host ω) : Backend (PwState ω) where
  driver := DriverPipewire
  fetchDevices := PipewireBackend.fetchDevices H
  resetStreamDevice := PipewireBackend.resetStreamDevice L H
  destroyStreamDevice := PipewireBackend.destroyStreamDevice H
  applyEnabled := PipewireBackend.applyEnabled L H
  applyMuted := PipewireBackend.applyMuted H
  applyAddress := PipewireBackend.applyAddress L H

/-- `PulseaudioBackend.fetchDevices`: sinks, then sources. -/
def PulseaudioBackend.fetchDevices {ω : Type} (H : Host ω) (w : ω) (store : DeviceMap) :
    Except String (List Device) × ω :=
  let sinks := H.pulseList w true
  match sinks.1 with
  | .error e => (.error e, sinks.2)
  | .ok ds1 =>
    let sources := H.pulseList sinks.2 false
    match sources.1 with
    | .error e => (.error e, sources.2)
    | .ok ds2 => (.ok ((ds1 ++ ds2).map (restoreFromStore store)), sources.2)

/-- `PulseaudioBackend.destroyStreamDevice`. -/
def PulseaudioBackend.destroyStreamDevice {ω : Type} (H : Host ω) (w : ω) (dev : Device) :
    Except String Handles × ω :=
  if dev.ModuleID = "" then (.error "failed to delete device: owner module not known", w)
  else
    let r := H.run w ["pactl", "unload-module", dev.ModuleID]
    match r.1 with
    | some e => (.error ("failed to unload device module: " ++ e), r.2)
    | none => (.ok { NodeID := dev.NodeID, ModuleID := "" }, r.2)

/-- `PulseaudioBackend.resetStreamDevice`. -/
def PulseaudioBackend.resetStreamDevice {ω : Type} (L : NetLib) (H : Host ω) (w : ω)
    (dev : Device) : Except String Handles × ω :=
  if !dev.GetEnabled then (.ok dev.handles, w)
  else
    let destroyed : Device × ω :=
      if dev.ModuleID ≠ "" then
        let r := PulseaudioBackend.destroyStreamDevice H w dev
        match r.1 with
        | .ok h => ({ dev with NodeID := h.NodeID, ModuleID := h.ModuleID }, r.2)
        | .error _ => (dev, r.2)
      else (dev, w)
    let module := if dev.Typ = Sink then "module-roc-sink" else "module-roc-source"
    match pulseModuleArgs L destroyed.1 with
    | .error e => (.error e, destroyed.2)
    | .ok args =>
      let r := H.run destroyed.2 ("pactl" :: "load-module" :: module :: args)
      match r.1 with
      | some e => (.error ("failed to load device module: " ++ e), r.2)
      | none => (.ok destroyed.1.handles, r.2)

/-- `PulseaudioBackend.applyEnabled`. -/
def PulseaudioBackend.applyEnabled {ω : Type} (L : NetLib) (H : Host ω) (w : ω) (dev : Device) :
    Except String Handles × ω :=
  if dev.GetEnabled then PulseaudioBackend.resetStreamDevice L H w dev
  else PulseaudioBackend.destroyStreamDevice H w dev

/-- `PulseaudioBackend.applyAddress`. -/
def PulseaudioBackend.applyAddress {ω : Type} (L : NetLib) (H : Host ω) (w : ω) (dev : Device) :
    Except String Handles × ω :=
  if !dev.GetEnabled then (.ok dev.handles, w)
  else PulseaudioBackend.resetStreamDevice L H w dev

/-- The PulseAudio backend as a `Backend`; its state is the world. -/
def PulseaudioBackend {ω : Type} (L : NetLib) (H : Host ω) : Backend ω where
  driver := DriverPulseaudio
  fetchDevices := PulseaudioBackend.fetchDevices H
  resetStreamDevice := PulseaudioBackend.resetStreamDevice L H
  destroyStreamDevice := PulseaudioBackend.destroyStreamDevice H
  applyEnabled := PulseaudioBackend.applyEnabled L H
  applyMuted := pactlMute H
  applyAddress := PulseaudioBackend.applyAddress L H

/-! ## devices/device_manager.go -/

/-- `DeviceManager`; `backend` is the state of the opened backend and `calls`
the calls issued so far, oldest first. -/
structure DeviceManager (σ : Type) where
  deviceByUID : DeviceMap
  deviceByName : DeviceMap
  backend : σ
  store : PersistStore
  baseIndex : Nat
  lastIndex : Nat
  calls : List Issued

/-- The error of a result, if any. -/
def errOf {α : Type} (r : Except Err α) : Option Err :=
  match r with
  | .error e => some e
  | .ok _ => none

/-- One command sent to the backend for `dev`: the call is recorded, the
backend state replaced, and on success the handles are written to the device. -/
def callBackend {σ : Type} (op : σ → Device → Except String Handles × σ) (call : Device → Call)
    (dm : DeviceManager σ) (dev : Device) : Except Err Device × DeviceManager σ :=
  let r := op dm.backend dev
  match r.1 with
  | .error e =>
    (.error (.backend e), { dm with
      backend := r.2
      calls := dm.calls ++ [{ call := call dev, err := some (.backend e) }] })
  | .ok h =>
    (.ok { dev with NodeID := h.NodeID, ModuleID := h.ModuleID }, { dm with
      backend := r.2
      calls := dm.calls ++ [{ call := call dev, err := none }] })

/-- `DeviceManager.getDevice`. -/
def getDevice {σ : Type} (dm : DeviceManager σ) (uid : String) (filter : deviceFilter) :
    Except Err Device :=
  match dm.deviceByUID.get uid with
  | none => .error (.notFound uid)
  | some dev =>
    if filter = .streamDevice ∧ !dev.IsStream then .error .notStreamDevice
    else .ok dev

/-- `updateDevice`, "Refuse to update immutable fields". -/
def updateDevice.checkImmutable (dev updDev : Device) : Except Err Unit :=
  if updDev.UID ≠ "" ∧ updDev.UID ≠ dev.UID then .error .uidImmutable
  else if updDev.SystemName ≠ "" ∧ updDev.SystemName ≠ dev.SystemName then
    .error .systemNameImmutable
  else if updDev.DisplayName ≠ "" ∧ updDev.DisplayName ≠ dev.DisplayName then
    .error .displayNameImmutable
  else if updDev.Typ ≠ "" ∧ updDev.Typ ≠ dev.Typ then .error .typeImmutable
  else .ok ()

/-- `updateDevice`, "Validate fields". The status test reads `dev`, the
indexed device. -/
def updateDevice.validate (L : NetLib) (dev updDev : Device) : Except Err Unit :=
  if dev.Status ≠ "" ∧ dev.Status ≠ StatusDisabled ∧ dev.Status ≠ StatusEnabled
      ∧ dev.Status ≠ StatusUnavailable then .error .badStatus
  else if dev.IsStream then
    if dev.Typ = Sink then
      match AddressList.Validate L updDev.ToAddress with
      | .error e => .error (.invalidToAddress e)
      | .ok _ =>
        if AddressList.Len updDev.FromAddress ≠ 0 then .error (.useToAddress dev.Typ)
        else .ok ()
    else if dev.Typ = Source then
      match AddressList.Validate L updDev.FromAddress with
      | .error e => .error (.invalidFromAddress e)
      | .ok _ =>
        if AddressList.Len updDev.ToAddress ≠ 0 then .error (.useFromAddress dev.Typ)
        else .ok ()
    else .ok ()
  else
    if updDev.Status ≠ "" ∧ updDev.Status ≠ dev.Status then .error .onlyStreamStatus
    else if AddressList.Len updDev.FromAddress ≠ 0 ∨ AddressList.Len updDev.ToAddress ≠ 0 then
      .error .onlyStreamAddress
    else .ok ()

/-- The condition under which `updateDevice` changes the status. -/
def updateDevice.statusChanges (dev updDev : Device) : Bool :=
  (updDev.Status = StatusDisabled ∧ dev.Status ≠ StatusDisabled) ∨
  (updDev.Status = StatusEnabled ∧ dev.Status ≠ StatusEnabled) ∨
  (updDev.Status = StatusUnavailable ∧ dev.Status = StatusDisabled)

/-- The condition under which `updateDevice` changes the mute flag. -/
def updateDevice.mutedChanges (dev updDev : Device) : Bool :=
  updDev.IsMuted ≠ none ∧ updDev.GetMuted ≠ dev.GetMuted

/-- The condition under which `updateDevice` changes `to_address`. -/
def updateDevice.toAddressChanges (dev updDev : Device) : Bool :=
  updDev.ToAddress ≠ none ∧ !AddressList.Equal updDev.ToAddress dev.ToAddress

/-- The condition under which `updateDevice` changes `from_address`. -/
def updateDevice.fromAddressChanges (dev updDev : Device) : Bool :=
  updDev.FromAddress ≠ none ∧ !AddressList.Equal updDev.FromAddress dev.FromAddress

/-- One block of "Apply changes": unless an earlier block returned an error,
if `cond` holds of the working copy, the copy is changed and handed to the
backend command; an error of the command ends the update. -/
def updateDevice.step {σ : Type} (op : σ → Device → Except String Handles × σ)
    (call : Device → Call) (cond : Device → Bool) (change : Device → Device)
    (st : Except Err Device × DeviceManager σ) : Except Err Device × DeviceManager σ :=
  match st.1 with
  | .error e => (.error e, st.2)
  | .ok dev => if cond dev then callBackend op call st.2 (change dev) else (.ok dev, st.2)

/-- `updateDevice`, "Apply changes": status, mute, `to_address`,
`from_address`, in this order. -/
def updateDevice.apply {σ : Type} (E : Env σ) (dm : DeviceManager σ) (dev updDev : Device) :
    Except Err Device × DeviceManager σ :=
  let st : Except Err Device × DeviceManager σ := (.ok dev, dm)
  let st := updateDevice.step E.backend.applyEnabled Call.applyEnabled
    (fun d => updateDevice.statusChanges d updDev)
    (fun d => { d with Status := if updDev.GetEnabled then StatusEnabled else StatusDisabled }) st
  let st := updateDevice.step E.backend.applyMuted Call.applyMuted
    (fun d => updateDevice.mutedChanges d updDev)
    (fun d => d.SetMuted updDev.GetMuted) st
  let st := updateDevice.step E.backend.applyAddress Call.applyAddress
    (fun d => updateDevice.toAddressChanges d updDev)
    (fun d => { d with ToAddress := updDev.ToAddress }) st
  updateDevice.step E.backend.applyAddress Call.applyAddress
    (fun d => updateDevice.fromAddressChanges d updDev)
    (fun d => { d with FromAddress := updDev.FromAddress }) st

/-- `updateDevice`, from "Stream devices are stored persistently" to the end:
the save of a stream device and the commit to both maps (the second one under
the key `uid`, as in the source). -/
def updateDevice.commit {σ : Type} (dm : DeviceManager σ) (uid : String) (dev : Device) :
    Except Err Unit × DeviceManager σ :=
  let saved : Except Err Unit × DeviceManager σ :=
    if dev.IsStream then
      let r := dm.store.SaveStreamDevice dev
      (r.1, { dm with
        store := r.2
        calls := dm.calls ++ [{ call := .saveStreamDevice dev, err := errOf r.1 }] })
    else (.ok (), dm)
  match saved.1 with
  | .error e => (.error (.saveDevice e), saved.2)
  | .ok _ =>
    (.ok (), { saved.2 with
      deviceByUID := saved.2.deviceByUID.set uid dev
      deviceByName := saved.2.deviceByName.set uid dev })

/-- The calls issued between the state `before` and the later state `after`. -/
def DeviceManager.newCalls {σ : Type} (before after : DeviceManager σ) : List Issued :=
  after.calls.drop before.calls.length

/-- The state of "Apply changes" after some of its blocks, seen from the
manager `dm` it started on: only backend applies were issued, nothing was
stored or committed; a device in hand satisfies `R`, every apply succeeded and
their names are `names`; an error in hand is the error of the last apply, the
only one that failed, and the names issued are the first of `names`. -/
structure updateDevice.Applied {σ : Type} (dm : DeviceManager σ) (R : Device → Prop)
    (st : Except Err Device × DeviceManager σ) (names : List String) : Prop where
  calls : st.2.calls = dm.calls ++ dm.newCalls st.2
  store : st.2.store = dm.store
  byUID : st.2.deviceByUID = dm.deviceByUID
  byName : st.2.deviceByName = dm.deviceByName
  applies : ∀ ev ∈ dm.newCalls st.2, ev.call.isApply = true
  ok : ∀ d, st.1 = .ok d →
    R d ∧ (dm.newCalls st.2).map (fun ev => ev.call.name) = names ∧
      ∀ ev ∈ dm.newCalls st.2, ev.err = none
  err : ∀ e, st.1 = .error e →
    ∃ init last, dm.newCalls st.2 = init ++ [last] ∧ last.err = some e ∧
      (∀ ev ∈ init, ev.err = none) ∧
      (init ++ [last]).map (fun ev => ev.call.name) <+: names

/-- `DeviceManager.updateDevice`. -/
def updateDevice {σ : Type} (E : Env σ) (dm : DeviceManager σ) (uid : String) (updDev : Device)
    (filter : deviceFilter) : Except Err Unit × DeviceManager σ :=
  match dm.deviceByUID.get uid with
  | none => (.error (.notFound uid), dm)
  | some dev =>
    if filter = .streamDevice ∧ !dev.IsStream then (.error .notStreamDevice, dm)
    else
      match updateDevice.checkImmutable dev updDev with
      | .error e => (.error e, dm)
      | .ok _ =>
        match updateDevice.validate E.net dev updDev with
        | .error e => (.error e, dm)
        | .ok _ =>
          let st := updateDevice.apply E dm dev updDev
          match st.1 with
          | .error e => (.error e, st.2)
          | .ok dev2 => updateDevice.commit st.2 uid dev2

/-- The names `generateDeviceName` may not return: the keys of `deviceByName`
and the system names of the saved devices. -/
def DeviceManager.usedNames {σ : Type} (dm : DeviceManager σ) : List String :=
  dm.deviceByName.map Prod.fst ++ dm.store.LoadStreamDevices.map Device.SystemName

/-- The name tried by `generateDeviceName` for the index `n`. -/
def deviceName (dt : String) (baseIndex n : Nat) : String :=
  "rocd.stream_" ++ dt ++ "." ++ toString baseIndex ++ "." ++ toString n

/-- `DeviceManager.generateDeviceName`, at most `fuel` rounds of the loop;
`none` when no free name was reached. `lastIndex` is a `uint64`. -/
def generateDeviceName {σ : Type} (dt : String) :
    Nat → DeviceManager σ → Option (String × DeviceManager σ)
  | 0, _ => none
  | fuel + 1, dm =>
    let name := deviceName dt dm.baseIndex dm.lastIndex
    let dm2 := { dm with lastIndex := (dm.lastIndex + 1) % 2 ^ 64 }
    if (dm2.deviceByName.get name).isSome then generateDeviceName dt fuel dm2
    else if dm2.store.LoadStreamDevices.any (fun dev => name == dev.SystemName) then
      generateDeviceName dt fuel dm2
    else some (name, dm2)

/-- `createStreamDevice`, from "Refuse to set fields" to the address checks. -/
def createStreamDevice.validate (L : NetLib) (dev : Device) : Except Err Unit :=
  if dev.UID ≠ "" then .error .uidNotEmpty
  else if dev.Typ ≠ Sink ∧ dev.Typ ≠ Source then .error .badType
  else if dev.Status ≠ "" ∧ dev.Status ≠ StatusDisabled ∧ dev.Status ≠ StatusEnabled
      ∧ dev.Status ≠ StatusUnavailable then .error .badStatus
  else if dev.Typ = Sink then
    match AddressList.Validate L dev.ToAddress with
    | .error e => .error (.invalidToAddress e)
    | .ok _ =>
      if AddressList.Len dev.FromAddress ≠ 0 then .error (.useToAddress dev.Typ) else .ok ()
  else if dev.Typ = Source then
    match AddressList.Validate L dev.FromAddress with
    | .error e => .error (.invalidFromAddress e)
    | .ok _ =>
      if AddressList.Len dev.ToAddress ≠ 0 then .error (.useFromAddress dev.Typ) else .ok ()
  else .ok ()

/-- `createStreamDevice`, the system name: a given name must be free in
`deviceByName`, a missing one is generated. -/
def createStreamDevice.name {σ : Type} (fuel : Nat) (dm : DeviceManager σ) (dev : Device) :
    Option (Except Err Device × DeviceManager σ) :=
  if dev.SystemName ≠ "" then
    if (dm.deviceByName.get dev.SystemName).isSome then
      some (.error (.systemNameExists dev.SystemName), dm)
    else some (.ok dev, dm)
  else
    match generateDeviceName dev.Typ fuel dm with
    | none => none
    | some r => some (.ok { dev with SystemName := r.1 }, r.2)

/-- `createStreamDevice`, the fields set after the name: display name, status,
uid, driver and flags. -/
def createStreamDevice.fill {σ : Type} (E : Env σ) (dev : Device) : Device :=
  let dev :=
    if dev.DisplayName = "" then
      { dev with DisplayName := if dev.Typ = Sink then "Roc Sender" else "Roc Receiver" }
    else dev
  let dev :=
    if dev.Status = "" ∨ dev.Status = StatusUnavailable then { dev with Status := StatusEnabled }
    else dev
  let dev := { dev with UID := makeDeviceUID E.machine dev.SystemName }
  let dev := { dev with Driver := E.backend.driver }
  { dev with IsHardware := false, IsStream := true }

/-- `createStreamDevice`, "Set defaults" after the name, up to the call of
`SetDefaults`. -/
def createStreamDevice.defaults {σ : Type} (E : Env σ) (dev : Device) : Device :=
  (createStreamDevice.fill E dev).SetDefaults

/-- `createStreamDevice`, from the uid check to the end: the backend creates
the device, the store saves it, both maps receive it. -/
def createStreamDevice.create {σ : Type} (E : Env σ) (dm : DeviceManager σ) (dev : Device) :
    Except Err String × DeviceManager σ :=
  if (dm.deviceByUID.get dev.UID).isSome then (.error (.deviceExists dev.UID), dm)
  else
    let st := callBackend E.backend.resetStreamDevice Call.resetStreamDevice dm dev
    match st.1 with
    | .error e => (.error e, st.2)
    | .ok dev2 =>
      let r := st.2.store.SaveStreamDevice dev2
      let dm2 := { st.2 with
        store := r.2
        calls := st.2.calls ++ [{ call := .saveStreamDevice dev2, err := errOf r.1 }] }
      match r.1 with
      | .error e => (.error (.saveDevice e), dm2)
      | .ok _ =>
        (.ok dev2.UID, { dm2 with
          deviceByUID := dm2.deviceByUID.set dev2.UID dev2
          deviceByName := dm2.deviceByName.set dev2.SystemName dev2 })

/-- `DeviceManager.createStreamDevice`; `none` when `generateDeviceName` did
not finish within `fuel` rounds. -/
def createStreamDevice {σ : Type} (E : Env σ) (fuel : Nat) (dm : DeviceManager σ)
    (dev : Device) : Option (Except Err String × DeviceManager σ) :=
  match createStreamDevice.validate E.net dev with
  | .error e => some (.error e, dm)
  | .ok _ =>
    match createStreamDevice.name fuel dm dev with
    | none => none
    | some st =>
      match st.1 with
      | .error e => some (.error e, st.2)
      | .ok named => some (createStreamDevice.create E st.2 (createStreamDevice.defaults E named))

/-- The loop of `DeviceManager.fetchDevices` with `n` attempts left: the list
of the first attempt that succeeds, nil when none does. -/
def fetchAttempts {σ : Type} (E : Env σ) : Nat → DeviceManager σ → List Device × DeviceManager σ
  | 0, dm => ([], dm)
  | n + 1, dm =>
    let r := E.backend.fetchDevices dm.backend dm.store.devices
    match r.1 with
    | .ok devices =>
      (devices, { dm with
        backend := r.2
        calls := dm.calls ++ [{ call := Call.fetchDevices, err := none }] })
    | .error e =>
      fetchAttempts E n { dm with
        backend := r.2
        calls := dm.calls ++ [{ call := Call.fetchDevices, err := some (.backend e) }] }

/-- `DeviceManager.fetchDevices`. -/
def fetchDevices {σ : Type} (E : Env σ) (dm : DeviceManager σ) : List Device × DeviceManager σ :=
  fetchAttempts E fetchRetryCount dm

/-- The map built by the first two loops of `rereadDevices`: every device,
with defaults, under its uid. -/
def collectDevices (devices : List Device) : DeviceMap :=
  devices.foldl (fun (m : DeviceMap) dev => m.set dev.SetDefaults.UID dev.SetDefaults) []

/-- `rereadDevices`, "Propagate changes from backend to storage": the map
`updatedDevices`. -/
def rereadDevices.updated (savedDevices backendDevices : DeviceMap) : DeviceMap :=
  savedDevices.values.foldl (fun (m : DeviceMap) savedDev =>
    match backendDevices.get savedDev.UID with
    | none => m
    | some backendDev =>
      if !backendDev.IsStream || backendDev.Equal savedDev then m
      else m.set savedDev.UID backendDev) []

/-- `rereadDevices`, the rebuilt `deviceByUID`: the backend devices, then the
saved devices absent from the backend, an enabled one as unavailable. -/
def rereadDevices.byUID (savedDevices backendDevices : DeviceMap) : DeviceMap :=
  let m : DeviceMap := backendDevices.values.foldl (fun (m : DeviceMap) dev => m.set dev.UID dev) []
  savedDevices.values.foldl (fun (m : DeviceMap) dev =>
    if (m.get dev.UID).isSome then m
    else
      let dev := if dev.Status = StatusEnabled then { dev with Status := StatusUnavailable } else dev
      m.set dev.UID dev) m

/-- `rereadDevices`, the rebuilt `deviceByName`. -/
def rereadDevices.byName (backendDevices : DeviceMap) : DeviceMap :=
  backendDevices.values.foldl (fun (m : DeviceMap) dev => m.set dev.SystemName dev) []

/-- `DeviceManager.rereadDevices`. -/
def rereadDevices {σ : Type} (E : Env σ) (dm : DeviceManager σ) :
    Except Err Unit × DeviceManager σ :=
  let savedDevices := collectDevices dm.store.LoadStreamDevices
  let fetched := fetchDevices E dm
  let dm := fetched.2
  let backendDevices := collectDevices fetched.1
  let updatedDevices := rereadDevices.updated savedDevices backendDevices
  let saved : Except Err Unit × DeviceManager σ :=
    if updatedDevices.length ≠ 0 then
      let r := dm.store.SaveStreamDevices updatedDevices
      (r.1, { dm with
        store := r.2
        calls := dm.calls ++ [{ call := .saveStreamDevices updatedDevices, err := errOf r.1 }] })
    else (.ok (), dm)
  match saved.1 with
  | .error e => (.error (.saveUpdated e), saved.2)
  | .ok _ =>
    (.ok (), { saved.2 with
      deviceByUID := rereadDevices.byUID savedDevices backendDevices
      deviceByName := rereadDevices.byName backendDevices })

/-- The handles a successful backend command wrote into the struct of `old`
reach every entry that holds this struct: the entries are pointers to one
record, which the embedding tells apart by value. -/
def DeviceMap.share (m : DeviceMap) (old new : Device) : DeviceMap :=
  m.map fun e => if e.2 = old then (e.1, new) else e

/-- `deleteStreamDevice`, the removal from the store when the store had the
device at the start of the call. -/
def deleteStreamDevice.forget {σ : Type} (dm : DeviceManager σ) (uid : String)
    (hasInStore : Bool) : Except Err Unit × DeviceManager σ :=
  if hasInStore then
    let r := dm.store.RemoveStreamDevice uid
    let dm2 := { dm with
      store := r.2
      calls := dm.calls ++ [{ call := .removeStreamDevice uid, err := errOf r.1 }] }
    match r.1 with
    | .error e => (.error (.removeDevice e), dm2)
    | .ok _ => (.ok (), dm2)
  else (.ok (), dm)

/-- `DeviceManager.deleteStreamDevice`. The variable `hasOnBacked` of the
source is the presence of `uid` in `deviceByUID`. -/
def deleteStreamDevice {σ : Type} (E : Env σ) (dm : DeviceManager σ) (uid : String) :
    Except Err Unit × DeviceManager σ :=
  let hasInStore := dm.store.HasStreamDevice uid
  match dm.deviceByUID.get uid with
  | none =>
    if !hasInStore then (.error (.notFound uid), dm)
    else deleteStreamDevice.forget dm uid hasInStore
  | some dev =>
    if !dev.IsStream then (.error .notStreamDevice, dm)
    else
      let st := callBackend E.backend.destroyStreamDevice Call.destroyStreamDevice dm dev
      match st.1 with
      | .error e => (.error (.removeDevice e), st.2)
      | .ok dev2 =>
        let dm2 := { st.2 with
          deviceByUID := st.2.deviceByUID.share dev dev2
          deviceByName := st.2.deviceByName.share dev dev2 }
        let removed := deleteStreamDevice.forget dm2 uid hasInStore
        match removed.1 with
        | .error e => (.error e, removed.2)
        | .ok _ =>
          (.ok (), { removed.2 with
            deviceByUID := removed.2.deviceByUID.delete dev2.UID
            deviceByName := removed.2.deviceByName.delete dev2.SystemName })

/-- `DeviceManager.DeleteStreamDevice`, the public operation: reread, then
delete. -/
def DeleteStreamDevice {σ : Type} (E : Env σ) (dm : DeviceManager σ) (uid : String) :
    Except Err Unit × DeviceManager σ :=
  let r := rereadDevices E dm
  match r.1 with
  | .error e => (.error e, r.2)
  | .ok _ => deleteStreamDevice E r.2 uid

/-- `DeviceManager.processRemovedDevice`. -/
def processRemovedDevice {σ : Type} (dm : DeviceManager σ) (uid : String) :
    Except Err Unit × DeviceManager σ :=
  match dm.store.LoadStreamDevice uid with
  | none => (.ok (), dm)
  | some savedDev =>
    if !savedDev.GetEnabled then (.ok (), dm)
    else
      let savedDev := { savedDev with Status := StatusDisabled }
      let r := dm.store.SaveStreamDevice savedDev
      (r.1, { dm with
        store := r.2
        calls := dm.calls ++ [{ call := .saveStreamDevice savedDev, err := errOf r.1 }] })

/-- The loop of `DeviceManager.migrateDevices` over the devices loaded at its
start. -/
def migrateDevices.loop {σ : Type} (E : Env σ) :
    List Device → DeviceManager σ → Except Err Unit × DeviceManager σ
  | [], dm => (.ok (), dm)
  | savedDev :: rest, dm =>
    let recalcUID := makeDeviceUID E.machine savedDev.SystemName
    if savedDev.UID = recalcUID then migrateDevices.loop E rest dm
    else
      let r := dm.store.RemoveStreamDevice savedDev.UID
      let dm1 := { dm with
        store := r.2
        calls := dm.calls ++ [{ call := .removeStreamDevice savedDev.UID, err := errOf r.1 }] }
      match r.1 with
      | .error e => (.error (.migrateRemove savedDev.UID e), dm1)
      | .ok _ =>
        let migrated := { savedDev with UID := recalcUID }
        let r2 := dm1.store.SaveStreamDevice migrated
        let dm2 := { dm1 with
          store := r2.2
          calls := dm1.calls ++ [{ call := .saveStreamDevice migrated, err := errOf r2.1 }] }
        match r2.1 with
        | .error (.panic msg) => (.error (.panic msg), dm2)
        | .error e => (.error (.migrateSave migrated.UID e), dm2)
        | .ok _ => migrateDevices.loop E rest dm2

/-- `DeviceManager.migrateDevices`. -/
def migrateDevices {σ : Type} (E : Env σ) (dm : DeviceManager σ) :
    Except Err Unit × DeviceManager σ :=
  migrateDevices.loop E dm.store.LoadStreamDevices dm

/-- How `restoreDevices` ends: it returns after its log line with the two
counters, it panics, or a device name is still being generated when the
rounds given to `generateDeviceName` are used up. -/
inductive restoreDevices.Outcome where
  | finished (nRestored nErrors : Nat)
  | panicked (msg : String)
  | unfinished
deriving DecidableEq, Repr

/-- `restoreDevices`, "Save changes back to storage" for the device `savedDev`
as it is left by the create or update branch. -/
def restoreDevices.saveBack {σ : Type} (dm : DeviceManager σ) (savedDev : Device) :
    Except Err Unit × DeviceManager σ :=
  match dm.deviceByUID.get savedDev.UID with
  | none => (.ok (), dm)
  | some newDev =>
    if !newDev.Equal savedDev then
      let r := dm.store.SaveStreamDevice newDev
      (r.1, { dm with
        store := r.2
        calls := dm.calls ++ [{ call := .saveStreamDevice newDev, err := errOf r.1 }] })
    else (.ok (), dm)

/-- The body of the loop of `restoreDevices` for a saved device that is
enabled and not indexed as `enabled`: the device is created when it is missing
from the index and enabled through `updateDevice` otherwise. The result is the
error logged or the device the loop goes on with; `none` when
`generateDeviceName` used up its rounds. The struct handed to
`createStreamDevice` is cloned there, so `createDev` is read back as it was
passed. -/
def restoreDevices.branch {σ : Type} (E : Env σ) (fuel : Nat) (dm : DeviceManager σ)
    (savedDev : Device) : Option (Except Err Device × DeviceManager σ) :=
  match dm.deviceByUID.get savedDev.UID with
  | none =>
    let createDev := { savedDev with UID := "", Status := StatusEnabled }
    match createStreamDevice E fuel dm createDev with
    | none => none
    | some r =>
      match r.1 with
      | .error e => some (.error e, r.2)
      | .ok _ =>
        if createDev.UID ≠ savedDev.UID then some (.error (.panic "unexpected uid change"), r.2)
        else some (.ok createDev, r.2)
  | some _ =>
    let updateDev := { savedDev with Status := StatusEnabled }
    let r := updateDevice E dm updateDev.UID updateDev .streamDevice
    match r.1 with
    | .error e => some (.error e, r.2)
    | .ok _ => some (.ok updateDev, r.2)

/-- The loop of `DeviceManager.restoreDevices` over the devices loaded at its
start, with the counters `nRestored` and `nErrors`. -/
def restoreDevices.loop {σ : Type} (E : Env σ) (fuel : Nat) :
    List Device → DeviceManager σ → Nat → Nat → restoreDevices.Outcome × DeviceManager σ
  | [], dm, nRestored, nErrors => (.finished nRestored nErrors, dm)
  | savedDev :: rest, dm, nRestored, nErrors =>
    if !savedDev.GetEnabled then restoreDevices.loop E fuel rest dm nRestored nErrors
    else if (dm.deviceByUID.get savedDev.UID).map Device.Status = some StatusEnabled then
      restoreDevices.loop E fuel rest dm nRestored nErrors
    else
      match restoreDevices.branch E fuel dm savedDev with
      | none => (.unfinished, dm)
      | some (.error (.panic msg), dm2) => (.panicked msg, dm2)
      | some (.error _, dm2) => restoreDevices.loop E fuel rest dm2 nRestored (nErrors + 1)
      | some (.ok savedDev2, dm2) =>
        let saved := restoreDevices.saveBack dm2 savedDev2
        match saved.1 with
        | .error (.panic msg) => (.panicked msg, saved.2)
        | .error _ => restoreDevices.loop E fuel rest saved.2 (nRestored + 1) (nErrors + 1)
        | .ok _ => restoreDevices.loop E fuel rest saved.2 (nRestored + 1) nErrors

/-- `DeviceManager.restoreDevices`. -/
def restoreDevices {σ : Type} (E : Env σ) (fuel : Nat) (dm : DeviceManager σ) :
    restoreDevices.Outcome × DeviceManager σ :=
  restoreDevices.loop E fuel dm.store.LoadStreamDevices dm 0 0

/-- The device a call carries, if any. -/
def Call.device : Call → Option Device
  | .resetStreamDevice dev => some dev
  | .destroyStreamDevice dev => some dev
  | .applyEnabled dev => some dev
  | .applyMuted dev => some dev
  | .applyAddress dev => some dev
  | .saveStreamDevice dev => some dev
  | .fetchDevices => none
  | .saveStreamDevices _ => none
  | .removeStreamDevice _ => none

/-! ## The address lists of a stream device -/

/-- The address invariant as the specification words it: a stream sink has a
non-empty `to_address` and an empty or absent `from_address`, a stream source
a non-empty `from_address` and an empty or absent `to_address`. -/
def Device.AddressShaped (d : Device) : Prop :=
  d.IsStream = true →
    (d.Typ = Sink → AddressList.Len d.ToAddress ≠ 0 ∧ AddressList.Len d.FromAddress = 0) ∧
    (d.Typ = Source → AddressList.Len d.FromAddress ≠ 0 ∧ AddressList.Len d.ToAddress = 0)

/-- The part of the address invariant that the checks of the device manager
give: the list of the device's own direction is present, possibly empty, and
the list of the other direction is empty or absent. -/
def Device.AddressSided (d : Device) : Prop :=
  d.IsStream = true →
    (d.Typ = Sink → d.ToAddress ≠ none ∧ AddressList.Len d.FromAddress = 0) ∧
    (d.Typ = Source → d.FromAddress ≠ none ∧ AddressList.Len d.ToAddress = 0)

/-- The list of the other direction of a stream device is empty or absent. -/
def Device.OtherSideEmpty (d : Device) : Prop :=
  d.IsStream = true →
    (d.Typ = Sink → AddressList.Len d.FromAddress = 0) ∧
    (d.Typ = Source → AddressList.Len d.ToAddress = 0)

instance (d : Device) : Decidable d.AddressShaped := by
  unfold Device.AddressShaped; infer_instance

instance (d : Device) : Decidable d.AddressSided := by
  unfold Device.AddressSided; infer_instance

instance (d : Device) : Decidable d.OtherSideEmpty := by
  unfold Device.OtherSideEmpty; infer_instance

/-- Every device of the map has the address shape of the specification. -/
def DeviceMap.AddressShaped (m : DeviceMap) : Prop := ∀ e ∈ m, e.2.AddressShaped

/-- Every device of the map has its address lists on the side of its type. -/
def DeviceMap.AddressSided (m : DeviceMap) : Prop := ∀ e ∈ m, e.2.AddressSided

instance (m : DeviceMap) : Decidable m.AddressShaped := by
  unfold DeviceMap.AddressShaped; infer_instance

instance (m : DeviceMap) : Decidable m.AddressSided := by
  unfold DeviceMap.AddressSided; infer_instance

/-! ## models/event.go, models/stream.go, events/event_dispatcher.go -/

def EventDeviceAdded : String := "device_added"
def EventDeviceRemoved : String := "device_removed"
def EventDeviceUpdated : String := "device_updated"

/-- `models.Event`; the field `Type` of the source is `Typ` here. -/
structure Event where
  Typ : String
  DeviceUID : String
deriving DecidableEq, Repr

/-- `models.Stream`; the field `Type` of the source is `Typ` here. -/
structure Stream where
  UID : String
  Typ : String
  FromDevice : String
  ToAddress : List Address
  ToDevice : String
  FromAddress : List Address
deriving DecidableEq, Repr

/-- The `state` of the event dispatcher: the published maps. -/
structure state where
  devices : DeviceMap
  streams : List (String × Stream)
deriving DecidableEq, Repr

/-- `newState`. -/
def newState : state := { devices := [], streams := [] }

/-- Modelled from the spec: `deriveEqualDeviceMap` is generated code that is
not part of the sources; two published maps are the same ("publishing the same
state") when each holds every entry of the other, the devices compared with
`Device.Equal`. -/
def DeviceMap.Equal (m m2 : DeviceMap) : Bool :=
  m.all (fun e => match m2.get e.1 with
    | some d => e.2.Equal d
    | none => false) &&
  m2.all (fun e => match m.get e.1 with
    | some d => e.2.Equal d
    | none => false)

/-- `EventDispatcher`: the struct `state` points to, the address of that
struct (every allocation of a state takes an address not used before) and the
number of calls of `cond.Broadcast`. -/
structure EventDispatcher where
  state : state
  ptr : Nat
  broadcasts : Nat
deriving DecidableEq, Repr

/-- `NewEventDispatcher`. -/
def NewEventDispatcher : EventDispatcher := { state := newState, ptr := 0, broadcasts := 0 }

/-- `EventDispatcher.UpdateDevices`. -/
def EventDispatcher.UpdateDevices (ed : EventDispatcher) (devices : DeviceMap) :
    EventDispatcher :=
  if ed.state.devices.Equal devices then ed
  else
    { state := { ed.state with
        devices := devices.values.foldl (fun (m : DeviceMap) dev => m.set dev.UID dev) [] }
      ptr := ed.ptr + 1
      broadcasts := ed.broadcasts + 1 }

/-- `EventListener.report`: the events handed to `write`, in order. `write`
puts an event on the channel of the listener unless `Stop` was called. -/
def EventListener.report (lastState currState : state) : List Event :=
  let removed := lastState.devices.values.filterMap fun dev =>
    if (currState.devices.get dev.UID).isNone then
      some { Typ := EventDeviceRemoved, DeviceUID := dev.UID }
    else none
  let added := currState.devices.values.filterMap fun dev =>
    if (lastState.devices.get dev.UID).isNone then
      some { Typ := EventDeviceAdded, DeviceUID := dev.UID }
    else none
  let updated := currState.devices.values.filterMap fun currDev =>
    if (match lastState.devices.get currDev.UID with
        | some lastDev => !lastDev.Equal currDev
        | none => false) then
      some { Typ := EventDeviceUpdated, DeviceUID := currDev.UID }
    else none
  removed ++ added ++ updated

/-- A listener between two rounds of `EventListener.run`: the state it saw
last, the address of that state and the events written so far. -/
structure EventListener where
  lastState : state
  lastPtr : Nat
  written : List Event
deriving DecidableEq, Repr

/-- One round of the loop of `EventListener.run` against the dispatcher as it
is: the listener sleeps while the dispatcher holds the state it saw last, and
reports the difference to the current state otherwise. -/
def EventListener.round (el : EventListener) (ed : EventDispatcher) : EventListener :=
  if el.lastPtr = ed.ptr then el
  else
    { lastState := ed.state, lastPtr := ed.ptr,
      written := el.written ++ EventListener.report el.lastState ed.state }

/-! ## devices/backend.go: openBackend -/

def prioLow : Nat := 0
def prioMedium : Nat := 1
def prioHigh : Nat := 2

/-- A registered backend as `openBackend` uses it: `driver()`, `prio()` and
`init(store)`, which runs on the host and returns nil or an error;
`errNotAvailable` is `Err.notAvailable`. -/
structure Registered (ω : Type) where
  driver : String
  prio : Nat
  init : ω → Option Err × ω

/-- The function `less` that `openBackend` hands to `sort.Slice`. -/
def openBackend.less {ω : Type} (a b : Registered ω) : Bool :=
  if a.prio > b.prio then true
  else if a.prio < b.prio then false
  else a.driver < b.driver

/-- `sort.Slice(backends, less)`. The order of backends that `less` does not
tell apart is left open by `sort.Slice`; the insertion sort keeps them in the
order of registration, one of the results it may give. -/
def openBackend.sort {ω : Type} (backends : List (Registered ω)) : List (Registered ω) :=
  backends.insertionSort (fun a b => openBackend.less b a = false)

/-- The loop of `openBackend` over the sorted backends; `probed` lists the
backends initialised so far with what `init` returned. -/
def openBackend.probe {ω : Type} :
    List (Registered ω) → ω → List (Registered ω × Option Err) →
      Except Err (Registered ω) × List (Registered ω × Option Err) × ω
  | [], w, probed => (.error .noBackend, probed, w)
  | back :: rest, w, probed =>
    let r := back.init w
    match r.1 with
    | some err =>
      if err = .notAvailable then openBackend.probe rest r.2 (probed ++ [(back, some err)])
      else (.error err, probed ++ [(back, some err)], r.2)
    | none => (.ok back, probed ++ [(back, none)], r.2)

/-- `openBackend`: the backend or the error returned, the backends initialised
with the result of each `init`, and the host after it. -/
def openBackend {ω : Type} (backends : List (Registered ω)) (w : ω) :
    Except Err (Registered ω) × List (Registered ω × Option Err) × ω :=
  openBackend.probe (openBackend.sort backends) w []

/-! ## Rate limiters: devices/constants.go, events/constants.go, x/time/rate -/

/-- `time.Millisecond`: a `time.Duration` counts nanoseconds. -/
def Millisecond : Nat := 1000000

/-- `time.Second`. -/
def Second : Nat := 1000 * Millisecond

/-- "rate-limit backend events". -/
def eventMinInterval : Nat := 20 * Millisecond

/-- "rate-limit state updates". -/
def eventInterval : Nat := 10 * Millisecond

/-- The arguments of `rate.NewLimiter(r, b)`: `limit` is the `rate.Limit`, a
count of events per second, and `burst` the bucket size. `rate.Limit` is a
`float64`; the values built here are whole numbers below `2 ^ 53`, which the
conversion from a duration keeps as they are. -/
structure Limiter where
  limit : Nat
  burst : Nat
deriving DecidableEq, Repr

/-- The conversion `rate.Limit(d)` of a duration: the number stays, the count
of nanoseconds is read as events per second. -/
def rateLimit (d : Nat) : Nat := d

/-- The limiter built in `DeviceManager.listenEvents`. -/
def listenEvents.limiter : Limiter := { limit := rateLimit eventMinInterval, burst := 1 }

/-- The limiter built in `EventListener.run`. -/
def EventListener.limiter : Limiter := { limit := rateLimit eventInterval, burst := 1 }

/-! ## The rejection rule of the module arguments, in the words of the specification -/

/-- The address list a stream device is checked on: `to_address` for a sink,
`from_address` for a source. -/
def relevantAddress (dev : Device) : Option (List Address) :=
  if dev.Typ = Sink then dev.ToAddress else dev.FromAddress

/-- The rejection rule as the specification words it: the relevant list does
not have exactly one element, or the `audio_source` of that element is empty,
or its non-empty `audio_repair` or `audio_control` has another IP than its
`audio_source`. -/
def addressRejected (L : NetLib) (dev : Device) : Bool :=
  match relevantAddress dev with
  | some [a] =>
    a.AudioSource = "" ∨
    (a.AudioRepair ≠ "" ∧ URI.IP L a.AudioRepair ≠ URI.IP L a.AudioSource) ∨
    (a.AudioControl ≠ "" ∧ URI.IP L a.AudioControl ≠ URI.IP L a.AudioSource)
  | _ => true

/-! ## models/device.go: Compare; devices/device_manager.go: listDevices -/

/-- `Device.Compare`. `derived` is `deriveCompareDevice`, generated code that
is not among the sources. Go orders strings by their bytes, which for UTF-8
is the order of the lists of code points. -/
def Device.Compare (derived : Device → Device → Int) (d d2 : Device) : Int :=
  if d.Typ.toList < d2.Typ.toList then -1
  else if d.Typ.toList > d2.Typ.toList then 1
  else derived d d2

/-- What `sort.Slice` needs of the generated comparison to sort by it: it is
the three-way comparison of a total preorder. -/
structure CompareOrder (derived : Device → Device → Int) : Prop where
  swap : ∀ a b, derived a b < 0 ↔ 0 < derived b a
  trans : ∀ a b c, derived a b ≤ 0 → derived b c ≤ 0 → derived a c ≤ 0

/-- The `less` handed to `sort.Slice` by `listDevices`. -/
def listDevices.less (derived : Device → Device → Int) (a b : Device) : Bool :=
  Device.Compare derived a b < 0

/-- `DeviceManager.listDevices`; the error it returns is always nil. The
devices `less` does not tell apart come out of `sort.Slice` in an order it
leaves open; the insertion sort gives one such result. -/
def listDevices {σ : Type} (derived : Device → Device → Int) (dm : DeviceManager σ)
    (filter : deviceFilter) : List Device :=
  let devices := dm.deviceByUID.values.filter
    (fun dev => !(decide (filter = .streamDevice) && !dev.IsStream))
  devices.insertionSort (fun a b => listDevices.less derived b a = false)

/-! ## The invariant of the name index -/

/-- The invariant of `deviceByName` as the specification words it: every entry
is kept under the system name of its device, and the device is the entry of
`deviceByUID` under its uid. -/
def DeviceManager.NameIndexed {σ : Type} (dm : DeviceManager σ) : Prop :=
  ∀ e ∈ dm.deviceByName, e.1 = e.2.SystemName ∧ dm.deviceByUID.get e.2.UID = some e.2

instance {σ : Type} (dm : DeviceManager σ) : Decidable dm.NameIndexed := by
  unfold DeviceManager.NameIndexed; infer_instance

/-- The calls of `restoreDevices` when no device is created: applies of the
backend and saves of the store. -/
def Call.isApplyOrSave (c : Call) : Bool :=
  c.isApply || c.name == "SaveStreamDevice"

/-- `DeviceManager.processEvent`, the case `eventDeviceListWiped`, up to the
publication to the event dispatcher; it holds the one call of
`restoreDevices`. The result is `none` when the first reread fails and the
case returns; the error of the second reread is logged only; a panic of
`restoreDevices` leaves the case where it occurs. -/
def processEvent.listWiped {σ : Type} (E : Env σ) (fuel : Nat) (dm : DeviceManager σ) :
    Option restoreDevices.Outcome × DeviceManager σ :=
  let r := rereadDevices E dm
  match r.1 with
  | .error _ => (none, r.2)
  | .ok _ =>
    let s := restoreDevices E fuel r.2
    match s.1 with
    | .finished nRestored nErrors =>
      (some (.finished nRestored nErrors), (rereadDevices E s.2).2)
    | .panicked msg => (some (.panicked msg), s.2)
    | .unfinished => (some .unfinished, s.2)

/-! ## Sample data

A host on which every command succeeds and whose world is the list of the
command lines run so far, a parser that knows four URIs, and a few devices. -/

/-- A parsed `scheme://host` URI without further components. -/
def Sample.url (scheme host : String) : URL :=
  { Scheme := scheme, Opaque := "", User := none, Host := host, EscapedPath := "",
    RawQuery := "", EscapedFragment := "" }

def Sample.net : NetLib where
  urlParse s :=
    if s = "rtp://10.0.0.1:10001" then some (Sample.url "rtp" "10.0.0.1:10001")
    else if s = "rtp+rs8m://10.0.0.1:10001" then some (Sample.url "rtp+rs8m" "10.0.0.1:10001")
    else if s = "rs8m://10.0.0.1:10002" then some (Sample.url "rs8m" "10.0.0.1:10002")
    else if s = "rtcp://10.0.0.1:10003" then some (Sample.url "rtcp" "10.0.0.1:10003")
    else none
  splitHostPort h :=
    if h = "10.0.0.1:10001" then some ("10.0.0.1", "10001")
    else if h = "10.0.0.1:10002" then some ("10.0.0.1", "10002")
    else if h = "10.0.0.1:10003" then some ("10.0.0.1", "10003")
    else none
  quote s := "\"" ++ s ++ "\""

def Sample.host : Host (List (List String)) where
  run w cmd := (none, w ++ [cmd])
  start w cmd := (none, w ++ [cmd])
  kill w uid := w ++ [["kill", uid]]
  wait w _ := (.appeared, w)
  pwDump w := (.ok [], w)
  pulseList w _ := (.ok [], w)

/-- The PulseAudio backend on the sample host. -/
def Sample.pulse : Env (List (List String)) :=
  { net := Sample.net, backend := PulseaudioBackend Sample.net Sample.host, machine := "m" }

/-- The PipeWire backend on the sample host. -/
def Sample.pipewire : Env (PwState (List (List String))) :=
  { net := Sample.net, backend := PipewireBackend Sample.net Sample.host, machine := "m" }

/-- The address of the create scenario of the specification. -/
def Sample.address : Address :=
  { AudioSource := "rtp+rs8m://10.0.0.1:10001", AudioRepair := "rs8m://10.0.0.1:10002",
    AudioControl := "" }

/-- A device with every field empty. -/
def Sample.blank : Device :=
  { UID := "", SystemName := "", DisplayName := "", Typ := "", Driver := "", IsHardware := false,
    IsStream := false, Status := "", IsMuted := none, ToAddress := none, FromAddress := none,
    NodeID := "", ModuleID := "" }

/-- A stream sink as indexed, with the given status. -/
def Sample.sink (status : String) : Device :=
  { Sample.blank with
    UID := "u1", SystemName := "rocd.stream_sink.7.1", DisplayName := "Roc Sender", Typ := Sink,
    Driver := DriverPulseaudio, IsStream := true, Status := status, IsMuted := some false,
    ToAddress := some [Sample.address] }

/-- A hardware sink as reported by a backend. -/
def Sample.card : Device :=
  { Sample.blank with
    UID := "u2", SystemName := "alsa_output.pci", DisplayName := "Built-in Audio", Typ := Sink,
    Driver := DriverPulseaudio, IsHardware := true, Status := StatusEnabled,
    IsMuted := some false }

/-- A store holding the given devices under their uids, whose writes succeed. -/
def Sample.store (devs : List Device) : PersistStore :=
  { devices := devs.map (fun d => (d.UID, d)), file := devs.map (fun d => (d.UID, d)),
    writeErrs := [], nWrites := 0 }

/-- A manager over the given index and store, as `NewDeviceManager` leaves the
counters, with `baseIndex` 7. -/
def Sample.manager {σ : Type} (b : σ) (index : List Device) (stored : List Device) :
    DeviceManager σ :=
  { deviceByUID := index.map (fun d => (d.UID, d)),
    deviceByName := index.map (fun d => (d.SystemName, d)),
    backend := b, store := Sample.store stored, baseIndex := 7, lastIndex := 1, calls := [] }

/-- A create request as in the first scenario of the specification, muted. -/
def Sample.request : Device :=
  { Sample.blank with Typ := Sink, ToAddress := some [Sample.address], IsMuted := some true }

/-- The device made of `Sample.request` by a fresh manager with `baseIndex` 7
on the machine "m". -/
def Sample.created : Device :=
  { Sample.request with
    UID := makeDeviceUID "m" "rocd.stream_sink.7.1", SystemName := "rocd.stream_sink.7.1",
    DisplayName := "Roc Sender", Driver := DriverPulseaudio, IsStream := true,
    Status := StatusEnabled }

/-- A host that reports one stream sink with its handles and no source. -/
def Sample.liveHost : Host (List (List String)) :=
  { Sample.host with
    pulseList := fun w sinks =>
      if sinks then
        (.ok [{ Sample.sink "" with
          UID := "u1", ToAddress := none, NodeID := "42", ModuleID := "17" }], w)
      else (.ok [], w) }

/-- A host whose device listings always fail. -/
def Sample.deadHost : Host (List (List String)) :=
  { Sample.host with
    pwDump := fun w => (.error "connection refused", w)
    pulseList := fun w _ => (.error "connection refused", w) }

/-- The PulseAudio backend on a host. -/
def Sample.pulseOn (H : Host (List (List String))) : Env (List (List String)) :=
  { net := Sample.net, backend := PulseaudioBackend Sample.net H, machine := "m" }

/-- A saved stream sink named like `Sample.sink` whose uid is not the uid of
its name. -/
def Sample.stale (uid display : String) : Device :=
  { Sample.sink StatusEnabled with UID := uid, DisplayName := display }

/-- A snapshot with the sample sink, enabled. -/
def Sample.before : state :=
  { devices := [("u1", Sample.sink StatusEnabled)], streams := [] }

/-- A later snapshot: the sink is disabled and the sound card has appeared. -/
def Sample.after : state :=
  { devices := [("u1", Sample.sink StatusDisabled), ("u2", Sample.card)], streams := [] }

/-- The PipeWire backend as registered, available or not; the host world is
the list of the drivers initialised. -/
def Sample.pipewireEntry (available : Bool) : Registered (List String) :=
  { driver := DriverPipewire, prio := prioHigh,
    init := fun w => (if available then none else some .notAvailable, w ++ [DriverPipewire]) }

/-- The PulseAudio backend as registered, available. -/
def Sample.pulseEntry : Registered (List String) :=
  { driver := DriverPulseaudio, prio := prioMedium,
    init := fun w => (none, w ++ [DriverPulseaudio]) }

/-- A comparison that orders devices by uid, standing in for the generated
`deriveCompareDevice`. -/
def Sample.byUID (a b : Device) : Int :=
  if a.UID.toList < b.UID.toList then -1 else if b.UID.toList < a.UID.toList then 1 else 0

/-- The sample sink as a source with another uid. -/
def Sample.source : Device :=
  { Sample.sink StatusEnabled with
    UID := "u0", SystemName := "rocd.stream_source.7.2", Typ := Source, ToAddress := none,
    FromAddress := some [Sample.address] }

/-- A fresh manager whose store fails the next write of its file. -/
def Sample.fullDisk : DeviceManager (List (List String)) :=
  { Sample.manager [] [] [] with
    store := { Sample.store [] with writeErrs := [some "no space left on device"] } }

/-! # Theorems -/

/-! ## Maps -/

theorem DeviceMap.get_nil (k : String) : DeviceMap.get [] k = none := rfl

theorem DeviceMap.get_cons (e : String × Device) (m : DeviceMap) (k : String) :
    DeviceMap.get (e :: m) k = if k = e.1 then some e.2 else DeviceMap.get m k := by
  unfold DeviceMap.get
  rw [List.lookup_cons]
  by_cases h : k = e.1
  · simp [h]
  · have : (k == e.1) = false := by simpa using h
    simp [this, h]

theorem DeviceMap.get_delete (m : DeviceMap) (k k2 : String) :
    (m.delete k).get k2 = if k2 = k then none else m.get k2 := by
  induction m with
  | nil => simp [DeviceMap.delete, DeviceMap.get_nil]
  | cons e m ih =>
    by_cases h : e.1 = k
    · have : DeviceMap.delete (e :: m) k = DeviceMap.delete m k := by
        simp [DeviceMap.delete, h]
      rw [this, ih, DeviceMap.get_cons]
      by_cases h2 : k2 = k
      · simp [h2]
      · have : k2 ≠ e.1 := by rw [h]; exact h2
        simp [h2, this]
    · have : DeviceMap.delete (e :: m) k = e :: DeviceMap.delete m k := by
        simp [DeviceMap.delete, h]
      rw [this, DeviceMap.get_cons, ih, DeviceMap.get_cons]
      by_cases h2 : k2 = k
      · have : k ≠ e.1 := fun h3 => h h3.symm
        simp [h2, this]
      · simp [h2]

theorem DeviceMap.get_set (m : DeviceMap) (k k2 : String) (d : Device) :
    (m.set k d).get k2 = if k2 = k then some d else m.get k2 := by
  unfold DeviceMap.set
  rw [DeviceMap.get_cons, DeviceMap.get_delete]
  by_cases h : k2 = k <;> simp [h]

/-! ## updateDevice -/

theorem updateDevice.checkImmutable_ok_iff (dev updDev : Device) :
    updateDevice.checkImmutable dev updDev = .ok () ↔
      ¬ ((updDev.UID ≠ "" ∧ updDev.UID ≠ dev.UID) ∨
        (updDev.SystemName ≠ "" ∧ updDev.SystemName ≠ dev.SystemName) ∨
        (updDev.DisplayName ≠ "" ∧ updDev.DisplayName ≠ dev.DisplayName) ∨
        (updDev.Typ ≠ "" ∧ updDev.Typ ≠ dev.Typ)) := by
  unfold updateDevice.checkImmutable
  by_cases h1 : updDev.UID ≠ "" ∧ updDev.UID ≠ dev.UID
  · simp [h1]
  by_cases h2 : updDev.SystemName ≠ "" ∧ updDev.SystemName ≠ dev.SystemName
  · simp [h1, h2]
  by_cases h3 : updDev.DisplayName ≠ "" ∧ updDev.DisplayName ≠ dev.DisplayName
  · simp [h1, h2, h3]
  by_cases h4 : updDev.Typ ≠ "" ∧ updDev.Typ ≠ dev.Typ
  · simp [h1, h2, h3, h4]
  · simp [h1, h2, h3, h4]

/-- The errors of the immutable-field checks. -/
theorem updateDevice.validate_error (L : NetLib) (dev updDev : Device) (e : Err)
    (h : updateDevice.validate L dev updDev = .error e) :
    e ≠ .uidImmutable ∧ e ≠ .systemNameImmutable ∧ e ≠ .displayNameImmutable ∧
      e ≠ .typeImmutable := by
  unfold updateDevice.validate at h
  repeat' split at h
  all_goals first
    | (cases h; simp)
    | (simp at h)

theorem callBackend_error {σ : Type} (op : σ → Device → Except String Handles × σ)
    (call : Device → Call) (dm : DeviceManager σ) (dev : Device) (e : Err)
    (h : (callBackend op call dm dev).1 = .error e) : ∃ msg, e = .backend msg := by
  cases hop : (op dm.backend dev).1 with
  | error m =>
    simp [callBackend, hop] at h
    exact ⟨m, h.symm⟩
  | ok hd => simp [callBackend, hop] at h

theorem updateDevice.step_error {σ : Type} (op : σ → Device → Except String Handles × σ)
    (call : Device → Call) (cond : Device → Bool) (change : Device → Device)
    (st : Except Err Device × DeviceManager σ)
    (hst : ∀ e, st.1 = .error e → ∃ msg, e = .backend msg) (e : Err)
    (h : (updateDevice.step op call cond change st).1 = .error e) : ∃ msg, e = .backend msg := by
  unfold updateDevice.step at h
  split at h
  · rename_i e2 he
    simp at h
    exact hst e (by rw [he, h])
  · split at h
    · exact callBackend_error _ _ _ _ _ h
    · simp at h

theorem updateDevice.apply_error {σ : Type} (E : Env σ) (dm : DeviceManager σ)
    (dev updDev : Device) (e : Err) (h : (updateDevice.apply E dm dev updDev).1 = .error e) :
    ∃ msg, e = .backend msg := by
  unfold updateDevice.apply at h
  refine updateDevice.step_error _ _ _ _ _ ?_ e h
  intro e1 h1
  refine updateDevice.step_error _ _ _ _ _ ?_ e1 h1
  intro e2 h2
  refine updateDevice.step_error _ _ _ _ _ ?_ e2 h2
  intro e3 h3
  refine updateDevice.step_error _ _ _ _ _ ?_ e3 h3
  intro e4 h4
  simp at h4

theorem updateDevice.commit_error {σ : Type} (dm : DeviceManager σ) (uid : String) (dev : Device)
    (e : Err) (h : (updateDevice.commit dm uid dev).1 = .error e) : ∃ c, e = .saveDevice c := by
  by_cases hs : dev.IsStream = true
  · cases hr : (dm.store.SaveStreamDevice dev).1 with
    | error c =>
      simp [updateDevice.commit, hs, hr] at h
      exact ⟨c, h.symm⟩
    | ok u => simp [updateDevice.commit, hs, hr] at h
  · simp [updateDevice.commit, hs] at h

/-- C4: a patch that changes `uid`, `system_name`, `display_name` or `type` of
an indexed device makes `updateDevice` return an error and leaves the whole
manager (both maps, the store, the backend, the calls issued) as it was; a
patch that leaves the four fields empty or equal is never answered with one of
the four immutable-field errors. -/
theorem updateDevice_immutable_fields {σ : Type} (E : Env σ) (dm : DeviceManager σ)
    (uid : String) (dev updDev : Device) (filter : deviceFilter)
    (hidx : dm.deviceByUID.get uid = some dev) :
    (((updDev.UID ≠ "" ∧ updDev.UID ≠ dev.UID) ∨
        (updDev.SystemName ≠ "" ∧ updDev.SystemName ≠ dev.SystemName) ∨
        (updDev.DisplayName ≠ "" ∧ updDev.DisplayName ≠ dev.DisplayName) ∨
        (updDev.Typ ≠ "" ∧ updDev.Typ ≠ dev.Typ)) →
      (∃ e, (updateDevice E dm uid updDev filter).1 = .error e) ∧
        (updateDevice E dm uid updDev filter).2 = dm) ∧
    (¬ ((updDev.UID ≠ "" ∧ updDev.UID ≠ dev.UID) ∨
        (updDev.SystemName ≠ "" ∧ updDev.SystemName ≠ dev.SystemName) ∨
        (updDev.DisplayName ≠ "" ∧ updDev.DisplayName ≠ dev.DisplayName) ∨
        (updDev.Typ ≠ "" ∧ updDev.Typ ≠ dev.Typ)) →
      ∀ e, (updateDevice E dm uid updDev filter).1 = .error e →
        e ≠ .uidImmutable ∧ e ≠ .systemNameImmutable ∧ e ≠ .displayNameImmutable ∧
          e ≠ .typeImmutable) := by
  constructor
  · intro hchg
    have hne : updateDevice.checkImmutable dev updDev ≠ .ok () := by
      rw [Ne, updateDevice.checkImmutable_ok_iff]; exact fun h => h hchg
    unfold updateDevice
    rw [hidx]
    by_cases hf : filter = .streamDevice ∧ (!dev.IsStream) = true
    · simp [hf]
    · simp only [hf, if_false]
      cases hc : updateDevice.checkImmutable dev updDev with
      | error e => simp
      | ok u => exact absurd hc hne
  · intro hsame e he
    have hok : updateDevice.checkImmutable dev updDev = .ok () :=
      (updateDevice.checkImmutable_ok_iff dev updDev).2 hsame
    unfold updateDevice at he
    rw [hidx] at he
    by_cases hf : filter = .streamDevice ∧ (!dev.IsStream) = true
    · simp [hf] at he; subst he; simp
    · simp only [hf, if_false, hok] at he
      cases hv : updateDevice.validate E.net dev updDev with
      | error e2 =>
        rw [hv] at he
        simp at he
        subst he
        exact updateDevice.validate_error _ _ _ _ hv
      | ok u =>
        rw [hv] at he
        simp only at he
        cases ha : (updateDevice.apply E dm dev updDev).1 with
        | error e3 =>
          rw [ha] at he
          simp at he
          subst he
          obtain ⟨msg, rfl⟩ := updateDevice.apply_error E dm dev updDev _ ha
          simp
        | ok d2 =>
          rw [ha] at he
          simp only at he
          obtain ⟨c, rfl⟩ := updateDevice.commit_error _ _ _ _ he
          simp

theorem updateDevice.mutedChanges_congr (d d2 updDev : Device) (h : d2.IsMuted = d.IsMuted) :
    updateDevice.mutedChanges d2 updDev = updateDevice.mutedChanges d updDev := by
  simp [updateDevice.mutedChanges, Device.GetMuted, h]

theorem updateDevice.toAddressChanges_congr (d d2 updDev : Device)
    (h : d2.ToAddress = d.ToAddress) :
    updateDevice.toAddressChanges d2 updDev = updateDevice.toAddressChanges d updDev := by
  simp [updateDevice.toAddressChanges, h]

theorem updateDevice.fromAddressChanges_congr (d d2 updDev : Device)
    (h : d2.FromAddress = d.FromAddress) :
    updateDevice.fromAddressChanges d2 updDev = updateDevice.fromAddressChanges d updDev := by
  simp [updateDevice.fromAddressChanges, h]

/-- What one block of "Apply changes" does to a state that holds a device. -/
theorem updateDevice.step_ok {σ : Type} (op : σ → Device → Except String Handles × σ)
    (call : Device → Call) (cond : Device → Bool) (change : Device → Device)
    (dev : Device) (dm : DeviceManager σ) :
    updateDevice.step op call cond change (.ok dev, dm) =
      if cond dev then
        match (op dm.backend (change dev)).1 with
        | .error e =>
          (.error (.backend e), { dm with
            backend := (op dm.backend (change dev)).2
            calls := dm.calls ++ [{ call := call (change dev), err := some (.backend e) }] })
        | .ok h =>
          (.ok { change dev with NodeID := h.NodeID, ModuleID := h.ModuleID }, { dm with
            backend := (op dm.backend (change dev)).2
            calls := dm.calls ++ [{ call := call (change dev), err := none }] })
      else (.ok dev, dm) := by
  rfl

theorem updateDevice.step_err {σ : Type} (op : σ → Device → Except String Handles × σ)
    (call : Device → Call) (cond : Device → Bool) (change : Device → Device)
    (e : Err) (dm : DeviceManager σ) :
    updateDevice.step op call cond change (.error e, dm) = (.error e, dm) := by
  rfl

theorem DeviceManager.newCalls_append {σ : Type} (dm s s2 : DeviceManager σ) (evs : List Issued)
    (h : s.calls = dm.calls ++ dm.newCalls s) (h2 : s2.calls = s.calls ++ evs) :
    dm.newCalls s2 = dm.newCalls s ++ evs := by
  unfold DeviceManager.newCalls at *
  rw [h2, h, List.append_assoc, List.drop_left, ← h]

theorem updateDevice.step_applied {σ : Type} (op : σ → Device → Except String Handles × σ)
    (call : Device → Call) (cond : Device → Bool) (change : Device → Device)
    (dm : DeviceManager σ) (R R2 : Device → Prop)
    (st : Except Err Device × DeviceManager σ) (names : List String) (c : Bool) (nm : String)
    (hP : updateDevice.Applied dm R st names)
    (hc : ∀ d, R d → cond d = c)
    (hcall : ∀ d, (call d).name = nm ∧ (call d).isApply = true)
    (hR : ∀ d, R d → cond d = false → R2 d)
    (hR2 : ∀ d (h : Handles), R d → cond d = true →
      R2 { change d with NodeID := h.NodeID, ModuleID := h.ModuleID }) :
    updateDevice.Applied dm R2 (updateDevice.step op call cond change st)
      (names ++ if c then [nm] else []) := by
  obtain ⟨r, s⟩ := st
  cases r with
  | error e =>
    rw [updateDevice.step_err]
    refine ⟨hP.calls, hP.store, hP.byUID, hP.byName, hP.applies, ?_, ?_⟩
    · intro d hd; simp at hd
    · intro e2 he2
      obtain ⟨init, last, h1, h2, h3, h4⟩ := hP.err e2 he2
      exact ⟨init, last, h1, h2, h3, h4.trans (List.prefix_append _ _)⟩
  | ok d =>
    obtain ⟨hRd, hnames, hnone⟩ := hP.ok d rfl
    rw [updateDevice.step_ok]
    have hcd := hc d hRd
    cases c with
    | false =>
      simp only [hcd, Bool.false_eq_true, if_false, List.append_nil]
      refine ⟨hP.calls, hP.store, hP.byUID, hP.byName, hP.applies, ?_, ?_⟩
      · intro d2 hd2
        simp at hd2
        subst hd2
        exact ⟨hR d hRd hcd, hnames, hnone⟩
      · intro e2 he2; simp at he2
    | true =>
      simp only [hcd, if_true]
      cases hop : (op s.backend (change d)).1 with
      | error m =>
        simp only
        have hnew := DeviceManager.newCalls_append dm s
          { s with
            backend := (op s.backend (change d)).2
            calls := s.calls ++ [{ call := call (change d), err := some (.backend m) }] }
          [{ call := call (change d), err := some (.backend m) }] hP.calls rfl
        refine ⟨?_, hP.store, hP.byUID, hP.byName, ?_, ?_, ?_⟩
        · rw [hnew, ← List.append_assoc, ← hP.calls]
        · intro ev hev
          rw [hnew] at hev
          rcases List.mem_append.1 hev with h | h
          · exact hP.applies ev h
          · simp at h; subst h; exact (hcall _).2
        · intro d2 hd2; simp at hd2
        · intro e2 he2
          simp at he2
          subst he2
          refine ⟨dm.newCalls s, _, hnew, rfl, hnone, ?_⟩
          rw [List.map_append, hnames]
          simp [(hcall (change d)).1]
      | ok h =>
        simp only
        have hnew := DeviceManager.newCalls_append dm s
          { s with
            backend := (op s.backend (change d)).2
            calls := s.calls ++ [{ call := call (change d), err := none }] }
          [{ call := call (change d), err := none }] hP.calls rfl
        refine ⟨?_, hP.store, hP.byUID, hP.byName, ?_, ?_, ?_⟩
        · rw [hnew, ← List.append_assoc, ← hP.calls]
        · intro ev hev
          rw [hnew] at hev
          rcases List.mem_append.1 hev with h | h
          · exact hP.applies ev h
          · simp at h; subst h; exact (hcall _).2
        · intro d2 hd2
          simp at hd2
          subst hd2
          refine ⟨hR2 d h hRd hcd, ?_, ?_⟩
          · rw [hnew, List.map_append, hnames]
            simp [(hcall (change d)).1]
          · intro ev hev
            rw [hnew] at hev
            rcases List.mem_append.1 hev with h | h
            · exact hnone ev h
            · simp at h; subst h; rfl
        · intro e2 he2; simp at he2

theorem DeviceManager.newCalls_self {σ : Type} (dm : DeviceManager σ) : dm.newCalls dm = [] := by
  simp [DeviceManager.newCalls]

theorem updateDevice.apply_applied {σ : Type} (E : Env σ) (dm : DeviceManager σ)
    (dev updDev : Device) :
    updateDevice.Applied dm
      (fun d => d.IsStream = dev.IsStream ∧ d.UID = dev.UID ∧ d.SystemName = dev.SystemName ∧
        d.Status = if updateDevice.statusChanges dev updDev then
          (if updDev.GetEnabled then StatusEnabled else StatusDisabled) else dev.Status)
      (updateDevice.apply E dm dev updDev)
      ((if updateDevice.statusChanges dev updDev then ["applyEnabled"] else []) ++
        (if updateDevice.mutedChanges dev updDev then ["applyMuted"] else []) ++
        (if updateDevice.toAddressChanges dev updDev then ["applyAddress"] else []) ++
        (if updateDevice.fromAddressChanges dev updDev then ["applyAddress"] else [])) := by
  have h0 : updateDevice.Applied dm (fun d => d = dev) (.ok dev, dm) [] := by
    refine ⟨by simp [DeviceManager.newCalls_self], rfl, rfl, rfl, ?_, ?_, ?_⟩
    · intro ev hev; simp [DeviceManager.newCalls_self] at hev
    · intro d hd
      simp at hd
      subst hd
      simp [DeviceManager.newCalls_self]
    · intro e he; simp at he
  have h1 := updateDevice.step_applied E.backend.applyEnabled Call.applyEnabled
    (fun d => updateDevice.statusChanges d updDev)
    (fun d => { d with Status := if updDev.GetEnabled then StatusEnabled else StatusDisabled })
    dm (fun d => d = dev)
    (fun d => d.IsMuted = dev.IsMuted ∧ d.ToAddress = dev.ToAddress ∧
      d.FromAddress = dev.FromAddress ∧ d.IsStream = dev.IsStream ∧ d.UID = dev.UID ∧
      d.SystemName = dev.SystemName ∧
      d.Status = if updateDevice.statusChanges dev updDev then
        (if updDev.GetEnabled then StatusEnabled else StatusDisabled) else dev.Status)
    _ [] (updateDevice.statusChanges dev updDev) "applyEnabled" h0
    (by intro d hd; rw [hd]) (by intro d; exact ⟨rfl, rfl⟩)
    (by
      intro d hd hc
      subst hd
      simp only at hc
      simp [hc])
    (by
      intro d h hd hc
      subst hd
      simp only at hc
      simp [hc])
  have h2 := updateDevice.step_applied E.backend.applyMuted Call.applyMuted
    (fun d => updateDevice.mutedChanges d updDev)
    (fun d => d.SetMuted updDev.GetMuted)
    dm _
    (fun d => d.ToAddress = dev.ToAddress ∧ d.FromAddress = dev.FromAddress ∧
      d.IsStream = dev.IsStream ∧ d.UID = dev.UID ∧ d.SystemName = dev.SystemName ∧
      d.Status = if updateDevice.statusChanges dev updDev then
        (if updDev.GetEnabled then StatusEnabled else StatusDisabled) else dev.Status)
    _ _ (updateDevice.mutedChanges dev updDev) "applyMuted" h1
    (by intro d hd; exact updateDevice.mutedChanges_congr dev d updDev hd.1)
    (by intro d; exact ⟨rfl, rfl⟩)
    (by intro d hd _; exact hd.2)
    (by intro d h hd _; exact hd.2)
  have h3 := updateDevice.step_applied E.backend.applyAddress Call.applyAddress
    (fun d => updateDevice.toAddressChanges d updDev)
    (fun d => { d with ToAddress := updDev.ToAddress })
    dm _
    (fun d => d.FromAddress = dev.FromAddress ∧ d.IsStream = dev.IsStream ∧ d.UID = dev.UID ∧
      d.SystemName = dev.SystemName ∧
      d.Status = if updateDevice.statusChanges dev updDev then
        (if updDev.GetEnabled then StatusEnabled else StatusDisabled) else dev.Status)
    _ _ (updateDevice.toAddressChanges dev updDev) "applyAddress" h2
    (by intro d hd; exact updateDevice.toAddressChanges_congr dev d updDev hd.1)
    (by intro d; exact ⟨rfl, rfl⟩)
    (by intro d hd _; exact hd.2)
    (by intro d h hd _; exact hd.2)
  have h4 := updateDevice.step_applied E.backend.applyAddress Call.applyAddress
    (fun d => updateDevice.fromAddressChanges d updDev)
    (fun d => { d with FromAddress := updDev.FromAddress })
    dm _
    (fun d => d.IsStream = dev.IsStream ∧ d.UID = dev.UID ∧ d.SystemName = dev.SystemName ∧
      d.Status = if updateDevice.statusChanges dev updDev then
        (if updDev.GetEnabled then StatusEnabled else StatusDisabled) else dev.Status)
    _ _ (updateDevice.fromAddressChanges dev updDev) "applyAddress" h3
    (by intro d hd; exact updateDevice.fromAddressChanges_congr dev d updDev hd.1)
    (by intro d; exact ⟨rfl, rfl⟩)
    (by intro d hd _; exact hd.2)
    (by intro d h hd _; exact hd.2)
  simpa [List.append_assoc] using h4

/-- `updateDevice` once the device is found and the checks are passed. -/
theorem updateDevice_of_accepted {σ : Type} (E : Env σ) (dm : DeviceManager σ)
    (uid : String) (dev updDev : Device) (filter : deviceFilter)
    (hidx : dm.deviceByUID.get uid = some dev)
    (hfilter : ¬ (filter = .streamDevice ∧ dev.IsStream = false))
    (himm : updateDevice.checkImmutable dev updDev = .ok ())
    (hval : updateDevice.validate E.net dev updDev = .ok ()) :
    (∀ e, (updateDevice.apply E dm dev updDev).1 = .error e →
      updateDevice E dm uid updDev filter = (.error e, (updateDevice.apply E dm dev updDev).2)) ∧
    (∀ d, (updateDevice.apply E dm dev updDev).1 = .ok d →
      updateDevice E dm uid updDev filter =
        updateDevice.commit (updateDevice.apply E dm dev updDev).2 uid d) := by
  have hf : ¬ (filter = .streamDevice ∧ (!dev.IsStream) = true) := by simpa using hfilter
  constructor
  · intro e he
    unfold updateDevice
    rw [hidx]
    simp only [hf, if_false, himm, hval, he]
  · intro d hd
    unfold updateDevice
    rw [hidx]
    simp only [hf, if_false, himm, hval, hd]

/-- The calls and the state of `updateDevice.commit`. -/
theorem updateDevice.commit_spec {σ : Type} (s : DeviceManager σ) (uid : String) (d : Device) :
    (updateDevice.commit s uid d).2.calls = s.calls ++
      (if d.IsStream then
        [{ call := .saveStreamDevice d, err := errOf (s.store.SaveStreamDevice d).1 }] else []) ∧
    (∀ e, (updateDevice.commit s uid d).1 = .error e →
      (updateDevice.commit s uid d).2.deviceByUID = s.deviceByUID ∧
      (updateDevice.commit s uid d).2.deviceByName = s.deviceByName) ∧
    ((updateDevice.commit s uid d).1 = .ok () →
      (updateDevice.commit s uid d).2.deviceByUID = s.deviceByUID.set uid d ∧
      (updateDevice.commit s uid d).2.deviceByName = s.deviceByName.set uid d) := by
  by_cases hs : d.IsStream = true
  · cases hr : (s.store.SaveStreamDevice d).1 with
    | error c => simp [updateDevice.commit, hs, hr]
    | ok u => simp [updateDevice.commit, hs, hr]
  · simp [updateDevice.commit, hs]

/-- A block of "Apply changes" runs only for a field that the patch carries
and that differs from the stored one. -/
theorem updateDevice.changes_present (dev updDev : Device) :
    (updateDevice.statusChanges dev updDev = true →
        updDev.Status ≠ "" ∧ updDev.Status ≠ dev.Status) ∧
      (updateDevice.mutedChanges dev updDev = true →
        updDev.IsMuted ≠ none ∧ updDev.IsMuted ≠ dev.IsMuted) ∧
      (updateDevice.toAddressChanges dev updDev = true →
        updDev.ToAddress ≠ none ∧ updDev.ToAddress ≠ dev.ToAddress) ∧
      (updateDevice.fromAddressChanges dev updDev = true →
        updDev.FromAddress ≠ none ∧ updDev.FromAddress ≠ dev.FromAddress) := by
  refine ⟨?_, ?_, ?_, ?_⟩
  · intro h
    simp only [updateDevice.statusChanges, decide_eq_true_eq] at h
    rcases h with ⟨h1, h2⟩ | ⟨h1, h2⟩ | ⟨h1, h2⟩
    · exact ⟨by rw [h1]; decide, by rw [h1]; exact fun h => h2 h.symm⟩
    · exact ⟨by rw [h1]; decide, by rw [h1]; exact fun h => h2 h.symm⟩
    · exact ⟨by rw [h1]; decide, by rw [h1, h2]; decide⟩
  · intro h
    simp only [updateDevice.mutedChanges, decide_eq_true_eq] at h
    refine ⟨h.1, ?_⟩
    intro heq
    apply h.2
    simp [Device.GetMuted, heq]
  · intro h
    simp only [updateDevice.toAddressChanges, AddressList.Equal, decide_eq_true_eq,
      Bool.not_eq_true', decide_eq_false_iff_not] at h
    exact h
  · intro h
    simp only [updateDevice.fromAddressChanges, AddressList.Equal, decide_eq_true_eq,
      Bool.not_eq_true', decide_eq_false_iff_not] at h
    exact h

/-- C6: for an accepted patch the applies issued by `updateDevice` are, by
name, the first of the list applyEnabled (status changes), applyMuted (mute
changes), applyAddress (`to_address` changes), applyAddress (`from_address`
changes), and all of it when no apply fails; these are the only backend calls;
only the last call issued can have failed; when an apply fails its error is
returned and the store and both maps are as before; and an apply is due only
for a field that the patch carries and that differs from the stored one. -/
theorem updateDevice_apply_order {σ : Type} (E : Env σ) (dm : DeviceManager σ)
    (uid : String) (dev updDev : Device) (filter : deviceFilter)
    (hidx : dm.deviceByUID.get uid = some dev)
    (hfilter : ¬ (filter = .streamDevice ∧ dev.IsStream = false))
    (himm : updateDevice.checkImmutable dev updDev = .ok ())
    (hval : updateDevice.validate E.net dev updDev = .ok ()) :
    (updateDevice E dm uid updDev filter).2.calls =
        dm.calls ++ dm.newCalls (updateDevice E dm uid updDev filter).2 ∧
    (((dm.newCalls (updateDevice E dm uid updDev filter).2).filter
        (fun ev => ev.call.isApply)).map (fun ev => ev.call.name) <+:
      (if updateDevice.statusChanges dev updDev then ["applyEnabled"] else []) ++
      (if updateDevice.mutedChanges dev updDev then ["applyMuted"] else []) ++
      (if updateDevice.toAddressChanges dev updDev then ["applyAddress"] else []) ++
      (if updateDevice.fromAddressChanges dev updDev then ["applyAddress"] else [])) ∧
    (∀ ev ∈ (dm.newCalls (updateDevice E dm uid updDev filter).2).dropLast, ev.err = none) ∧
    (∀ ev ∈ dm.newCalls (updateDevice E dm uid updDev filter).2, ev.call.isBackend = true →
      ev.call.isApply = true) ∧
    (∀ ev ∈ dm.newCalls (updateDevice E dm uid updDev filter).2, ev.call.isApply = true →
      ∀ e, ev.err = some e →
        (updateDevice E dm uid updDev filter).1 = .error e ∧
        (updateDevice E dm uid updDev filter).2.store = dm.store ∧
        (updateDevice E dm uid updDev filter).2.deviceByUID = dm.deviceByUID ∧
        (updateDevice E dm uid updDev filter).2.deviceByName = dm.deviceByName) ∧
    ((∀ ev ∈ dm.newCalls (updateDevice E dm uid updDev filter).2, ev.call.isApply = true →
        ev.err = none) →
      ((dm.newCalls (updateDevice E dm uid updDev filter).2).filter
        (fun ev => ev.call.isApply)).map (fun ev => ev.call.name) =
      (if updateDevice.statusChanges dev updDev then ["applyEnabled"] else []) ++
      (if updateDevice.mutedChanges dev updDev then ["applyMuted"] else []) ++
      (if updateDevice.toAddressChanges dev updDev then ["applyAddress"] else []) ++
      (if updateDevice.fromAddressChanges dev updDev then ["applyAddress"] else [])) ∧
    ((updateDevice.statusChanges dev updDev = true →
        updDev.Status ≠ "" ∧ updDev.Status ≠ dev.Status) ∧
      (updateDevice.mutedChanges dev updDev = true →
        updDev.IsMuted ≠ none ∧ updDev.IsMuted ≠ dev.IsMuted) ∧
      (updateDevice.toAddressChanges dev updDev = true →
        updDev.ToAddress ≠ none ∧ updDev.ToAddress ≠ dev.ToAddress) ∧
      (updateDevice.fromAddressChanges dev updDev = true →
        updDev.FromAddress ≠ none ∧ updDev.FromAddress ≠ dev.FromAddress)) := by
  have hchg := updateDevice.changes_present dev updDev
  have hA := updateDevice.apply_applied E dm dev updDev
  obtain ⟨hE, hO⟩ := updateDevice_of_accepted E dm uid dev updDev filter hidx hfilter himm hval
  cases hr : (updateDevice.apply E dm dev updDev).1 with
  | error e =>
    rw [hE e hr]
    obtain ⟨init, last, h1, h2, h3, h4⟩ := hA.err e hr
    have hall : (dm.newCalls (updateDevice.apply E dm dev updDev).2).filter
        (fun ev => ev.call.isApply) = dm.newCalls (updateDevice.apply E dm dev updDev).2 :=
      List.filter_eq_self.2 hA.applies
    refine ⟨hA.calls, ?_, ?_, ?_, ?_, ?_, hchg⟩
    · show (List.map _ (List.filter _ (dm.newCalls (updateDevice.apply E dm dev updDev).2))) <+: _
      rw [hall, h1]; exact h4
    · intro ev hev
      have : ev ∈ (dm.newCalls (updateDevice.apply E dm dev updDev).2).dropLast := hev
      rw [h1, List.dropLast_concat] at this
      exact h3 ev this
    · intro ev hev _
      exact hA.applies ev hev
    · intro ev hev _ e2 he2
      have hev2 : ev ∈ dm.newCalls (updateDevice.apply E dm dev updDev).2 := hev
      rw [h1] at hev2
      rcases List.mem_append.1 hev2 with h | h
      · rw [h3 ev h] at he2; simp at he2
      · simp at h
        subst h
        rw [h2] at he2
        simp at he2
        subst he2
        exact ⟨rfl, hA.store, hA.byUID, hA.byName⟩
    · intro hnone
      have hl : last ∈ dm.newCalls (updateDevice.apply E dm dev updDev).2 := by
        rw [h1]; simp
      have := hnone last hl (hA.applies last hl)
      rw [h2] at this
      simp at this
  | ok d =>
    rw [hO d hr]
    obtain ⟨hRd, hnames, hnone⟩ := hA.ok d hr
    obtain ⟨hc1, hc2, hc3⟩ := updateDevice.commit_spec (updateDevice.apply E dm dev updDev).2 uid d
    have hnew := DeviceManager.newCalls_append dm (updateDevice.apply E dm dev updDev).2
      (updateDevice.commit (updateDevice.apply E dm dev updDev).2 uid d).2 _ hA.calls hc1
    have hall : (dm.newCalls (updateDevice.apply E dm dev updDev).2).filter
        (fun ev => ev.call.isApply) = dm.newCalls (updateDevice.apply E dm dev updDev).2 :=
      List.filter_eq_self.2 hA.applies
    have hfil : (dm.newCalls (updateDevice.commit (updateDevice.apply E dm dev updDev).2 uid d).2).filter
        (fun ev => ev.call.isApply) = dm.newCalls (updateDevice.apply E dm dev updDev).2 := by
      rw [hnew, List.filter_append, hall]
      by_cases hs : d.IsStream = true <;> simp [hs, Call.isApply]
    refine ⟨?_, ?_, ?_, ?_, ?_, ?_, hchg⟩
    · rw [hnew, ← List.append_assoc, ← hA.calls, hc1]
    · rw [hfil, hnames]
    · intro ev hev
      rw [hnew] at hev
      by_cases hs : d.IsStream = true
      · simp only [hs, if_true] at hev
        rw [List.dropLast_concat] at hev
        exact hnone ev hev
      · simp only [hs, Bool.false_eq_true, if_false, List.append_nil] at hev
        exact hnone ev (List.dropLast_subset _ hev)
    · intro ev hev hb
      rw [hnew] at hev
      rcases List.mem_append.1 hev with h | h
      · exact hA.applies ev h
      · by_cases hs : d.IsStream = true
        · simp [hs] at h
          subst h
          simp [Call.isBackend] at hb
        · simp [hs] at h
    · intro ev hev ha e2 he2
      rw [hnew] at hev
      rcases List.mem_append.1 hev with h | h
      · rw [hnone ev h] at he2; simp at he2
      · by_cases hs : d.IsStream = true
        · simp [hs] at h
          subst h
          simp [Call.isApply] at ha
        · simp [hs] at h
    · intro _
      rw [hfil, hnames]

theorem updateDevice.checkImmutable_error (dev updDev : Device) (e : Err)
    (h : updateDevice.checkImmutable dev updDev = .error e) :
    e = .uidImmutable ∨ e = .systemNameImmutable ∨ e = .displayNameImmutable ∨
      e = .typeImmutable := by
  unfold updateDevice.checkImmutable at h
  repeat' split at h
  all_goals first
    | (cases h; simp)
    | (simp at h)

theorem updateDevice.validate_status (L : NetLib) (dev updDev : Device)
    (hs : dev.Status = "" ∨ dev.Status = StatusDisabled ∨ dev.Status = StatusEnabled ∨
      dev.Status = StatusUnavailable) :
    updateDevice.validate L dev updDev ≠ .error .badStatus := by
  have hn : ¬ (dev.Status ≠ "" ∧ dev.Status ≠ StatusDisabled ∧ dev.Status ≠ StatusEnabled
      ∧ dev.Status ≠ StatusUnavailable) := by
    rintro ⟨h1, h2, h3, h4⟩
    rcases hs with h | h | h | h
    · exact h1 h
    · exact h2 h
    · exact h3 h
    · exact h4 h
  intro h
  unfold updateDevice.validate at h
  rw [if_neg hn] at h
  repeat' split at h
  all_goals cases h

theorem updateDevice.validate_hardware_status (L : NetLib) (dev updDev : Device)
    (hstream : dev.IsStream = false) (h1 : updDev.Status ≠ "") (h2 : updDev.Status ≠ dev.Status) :
    ∃ e, updateDevice.validate L dev updDev = .error e := by
  unfold updateDevice.validate
  by_cases hn : dev.Status ≠ "" ∧ dev.Status ≠ StatusDisabled ∧ dev.Status ≠ StatusEnabled
      ∧ dev.Status ≠ StatusUnavailable
  · rw [if_pos hn]; exact ⟨_, rfl⟩
  · rw [if_neg hn]
    simp [hstream, h1, h2]

/-- A successful `updateDevice` went through "Apply changes" and the commit. -/
theorem updateDevice_ok_inv {σ : Type} (E : Env σ) (dm : DeviceManager σ)
    (uid : String) (dev updDev : Device) (filter : deviceFilter)
    (hidx : dm.deviceByUID.get uid = some dev)
    (hok : (updateDevice E dm uid updDev filter).1 = .ok ()) :
    ∃ d2, (updateDevice.apply E dm dev updDev).1 = .ok d2 ∧
      updateDevice E dm uid updDev filter =
        updateDevice.commit (updateDevice.apply E dm dev updDev).2 uid d2 := by
  unfold updateDevice at hok ⊢
  rw [hidx] at hok ⊢
  by_cases hf2 : filter = .streamDevice ∧ dev.IsStream = false
  · simp [hf2] at hok
  · have hf : ¬ (filter = .streamDevice ∧ (!dev.IsStream) = true) := by simpa using hf2
    cases hc : updateDevice.checkImmutable dev updDev with
    | error e2 => simp [hf2, hc] at hok
    | ok u =>
      cases hv : updateDevice.validate E.net dev updDev with
      | error e3 => simp [hf2, hc, hv] at hok
      | ok u2 =>
        cases ha : (updateDevice.apply E dm dev updDev).1 with
        | error e4 => simp [hf2, hc, hv, ha] at hok
        | ok d2 =>
          refine ⟨d2, rfl, ?_⟩
          simp only [hf, if_false, hc, hv, ha]

/-- C5, as the code has it: on a device that is not a stream device every
non-empty patched status that differs from the stored one is refused and
nothing is applied; on a stream device with a well-formed stored status a
patch whose status is empty, `disabled`, `enabled` or `unavailable` is never
answered with the status error; and when a patch with status `unavailable`
goes through, the committed status is `enabled` if the stored one was
`disabled` and the stored one otherwise. -/
theorem updateDevice_status_rules {σ : Type} (E : Env σ) (dm : DeviceManager σ)
    (uid : String) (dev updDev : Device) (filter : deviceFilter)
    (hidx : dm.deviceByUID.get uid = some dev) :
    (dev.IsStream = false → updDev.Status ≠ "" → updDev.Status ≠ dev.Status →
      (∃ e, (updateDevice E dm uid updDev filter).1 = .error e) ∧
        (updateDevice E dm uid updDev filter).2 = dm) ∧
    (dev.IsStream = true →
      (dev.Status = "" ∨ dev.Status = StatusDisabled ∨ dev.Status = StatusEnabled ∨
        dev.Status = StatusUnavailable) →
      (updDev.Status = "" ∨ updDev.Status = StatusDisabled ∨ updDev.Status = StatusEnabled ∨
        updDev.Status = StatusUnavailable) →
      (updateDevice E dm uid updDev filter).1 ≠ .error .badStatus) ∧
    (updDev.Status = StatusUnavailable → (updateDevice E dm uid updDev filter).1 = .ok () →
      ∃ d, (updateDevice E dm uid updDev filter).2.deviceByUID.get uid = some d ∧
        d.Status = if dev.Status = StatusDisabled then StatusEnabled else dev.Status) := by
  refine ⟨?_, ?_, ?_⟩
  · intro hstream h1 h2
    obtain ⟨e, he⟩ := updateDevice.validate_hardware_status E.net dev updDev hstream h1 h2
    unfold updateDevice
    rw [hidx]
    by_cases hf : filter = .streamDevice ∧ (!dev.IsStream) = true
    · simp [hf]
    · simp only [hf, if_false]
      cases hc : updateDevice.checkImmutable dev updDev with
      | error e2 => simp
      | ok u => simp [he]
  · intro hstream hs _ hbad
    unfold updateDevice at hbad
    rw [hidx] at hbad
    have hf : ¬ (filter = .streamDevice ∧ (!dev.IsStream) = true) := by simp [hstream]
    simp only [hf, if_false] at hbad
    cases hc : updateDevice.checkImmutable dev updDev with
    | error e2 =>
      rw [hc] at hbad
      simp at hbad
      rcases updateDevice.checkImmutable_error _ _ _ hc with h | h | h | h <;>
        rw [h] at hbad <;> cases hbad
    | ok u =>
      rw [hc] at hbad
      simp only at hbad
      cases hv : updateDevice.validate E.net dev updDev with
      | error e3 =>
        rw [hv] at hbad
        simp at hbad
        rw [hbad] at hv
        exact updateDevice.validate_status E.net dev updDev hs hv
      | ok u2 =>
        rw [hv] at hbad
        simp only at hbad
        cases ha : (updateDevice.apply E dm dev updDev).1 with
        | error e4 =>
          rw [ha] at hbad
          simp at hbad
          obtain ⟨msg, hm⟩ := updateDevice.apply_error E dm dev updDev _ ha
          rw [hbad] at hm
          cases hm
        | ok d2 =>
          rw [ha] at hbad
          simp only at hbad
          obtain ⟨c, hm⟩ := updateDevice.commit_error _ _ _ _ hbad
          cases hm
  · intro hun hok
    obtain ⟨d2, ha, heq⟩ := updateDevice_ok_inv E dm uid dev updDev filter hidx hok
    rw [heq] at hok ⊢
    obtain ⟨_, _, hc3⟩ := updateDevice.commit_spec
      (updateDevice.apply E dm dev updDev).2 uid d2
    obtain ⟨hR, _, _⟩ := (updateDevice.apply_applied E dm dev updDev).ok d2 ha
    refine ⟨d2, ?_, ?_⟩
    · rw [(hc3 hok).1, DeviceMap.get_set]; simp
    · rw [hR.2.2.2]
      by_cases hd : dev.Status = StatusDisabled
      · have hge : updDev.GetEnabled = true := by
          simp [Device.GetEnabled, hun, StatusUnavailable, StatusDisabled]
        simp [updateDevice.statusChanges, hun, hd, hge, StatusUnavailable,
          StatusDisabled, StatusEnabled]
      · have hd2 : ¬ dev.Status = "disabled" := hd
        simp [updateDevice.statusChanges, hun, hd2, StatusUnavailable,
          StatusDisabled, StatusEnabled]

/-- C5 fails as stated: a patch with status `unavailable` for a disabled
stream sink is accepted, the backend loads the module again and the device is
committed as `enabled`. -/
theorem updateDevice_accepts_unavailable :
    (updateDevice Sample.pulse
        (Sample.manager [] [Sample.sink StatusDisabled] [Sample.sink StatusDisabled]) "u1"
        { Sample.blank with Status := StatusUnavailable } .anyDevice).1 = .ok () ∧
    ((updateDevice Sample.pulse
        (Sample.manager [] [Sample.sink StatusDisabled] [Sample.sink StatusDisabled]) "u1"
        { Sample.blank with Status := StatusUnavailable } .anyDevice).2.deviceByUID.get "u1").map
      Device.Status = some StatusEnabled ∧
    ((updateDevice Sample.pulse
        (Sample.manager [] [Sample.sink StatusDisabled] [Sample.sink StatusDisabled]) "u1"
        { Sample.blank with Status := StatusUnavailable } .anyDevice).2.calls.map
      (fun ev => (ev.call.name, ev.err))) = [("applyEnabled", none), ("SaveStreamDevice", none)] := by
  decide


/-- C4 at a hardware sink and a patch that renames it. -/
theorem updateDevice_immutable_fields_witness :
    (∃ e, (updateDevice Sample.pulse (Sample.manager [] [Sample.card] []) "u2"
        { Sample.blank with SystemName := "other" } .anyDevice).1 = .error e) ∧
    (updateDevice Sample.pulse (Sample.manager [] [Sample.card] []) "u2"
        { Sample.blank with SystemName := "other" } .anyDevice).2 =
      Sample.manager [] [Sample.card] [] :=
  (updateDevice_immutable_fields Sample.pulse (Sample.manager [] [Sample.card] []) "u2"
    Sample.card { Sample.blank with SystemName := "other" } .anyDevice (by decide)).1
    (by decide)

/-- C5 (as the code has it) at a disabled stream sink and the patch
`unavailable`: the committed status is `enabled`. -/
theorem updateDevice_status_rules_witness :
    ∃ d, (updateDevice Sample.pulse
        (Sample.manager [] [Sample.sink StatusDisabled] [Sample.sink StatusDisabled]) "u1"
        { Sample.blank with Status := StatusUnavailable } .anyDevice).2.deviceByUID.get "u1"
          = some d ∧
      d.Status =
        if (Sample.sink StatusDisabled).Status = StatusDisabled then StatusEnabled
        else (Sample.sink StatusDisabled).Status :=
  (updateDevice_status_rules Sample.pulse
    (Sample.manager [] [Sample.sink StatusDisabled] [Sample.sink StatusDisabled]) "u1"
    (Sample.sink StatusDisabled) { Sample.blank with Status := StatusUnavailable } .anyDevice
    (by decide)).2.2 (by decide) (by decide)

/-- C6 at an enabled stream sink and a patch that disables and mutes it. -/
theorem updateDevice_apply_order_witness :
    ((Sample.manager ([] : List (List String)) [Sample.sink StatusEnabled]
        [Sample.sink StatusEnabled]).newCalls
      (updateDevice Sample.pulse
        (Sample.manager [] [Sample.sink StatusEnabled] [Sample.sink StatusEnabled]) "u1"
        { Sample.blank with Status := StatusDisabled, IsMuted := some true }
        .anyDevice).2).dropLast.all (fun ev => ev.err = none) = true :=
  List.all_eq_true.2 (fun ev hev => decide_eq_true
    ((updateDevice_apply_order Sample.pulse
      (Sample.manager [] [Sample.sink StatusEnabled] [Sample.sink StatusEnabled]) "u1"
      (Sample.sink StatusEnabled)
      { Sample.blank with Status := StatusDisabled, IsMuted := some true } .anyDevice
      (by decide) (by decide) (by decide) (by decide)).2.2.1 ev hev))

/-! ## Names -/

/-- The value of a string of decimal digits, read onto `acc`. -/
theorem toDigitsCore_value (fuel : Nat) : ∀ (n : Nat) (ds : List Char), n < fuel →
    List.foldl (fun a c => 10 * a + (c.toNat - 48)) 0 (Nat.toDigitsCore 10 fuel n ds) =
      List.foldl (fun a c => 10 * a + (c.toNat - 48)) n ds := by
  induction fuel with
  | zero => intro n ds h; omega
  | succ fuel ih =>
    intro n ds h
    have hd : (Nat.digitChar (n % 10)).toNat - 48 = n % 10 := by
      have : n % 10 < 10 := Nat.mod_lt _ (by decide)
      interval_cases (n % 10) <;> rfl
    unfold Nat.toDigitsCore
    by_cases h0 : n / 10 = 0
    · simp only [h0, if_true, List.foldl_cons, hd]
      have : n % 10 = n := by omega
      simp [this]
    · simp only [h0, if_false]
      rw [ih (n / 10) _ (by omega)]
      simp only [List.foldl_cons, hd]
      have : 10 * (n / 10) + n % 10 = n := by omega
      rw [this]

theorem toString_nat_injective (a b : Nat) (h : toString a = toString b) : a = b := by
  have h2 : Nat.toDigits 10 a = Nat.toDigits 10 b := by
    have : (Nat.toDigits 10 a).asString = (Nat.toDigits 10 b).asString := h
    exact congrArg String.data this
  have ha := toDigitsCore_value (a + 1) a [] (by omega)
  have hb := toDigitsCore_value (b + 1) b [] (by omega)
  simp only [List.foldl_nil] at ha hb
  unfold Nat.toDigits at h2
  rw [← ha, ← hb, h2]

theorem deviceName_injective (dt : String) (base a b : Nat)
    (h : deviceName dt base a = deviceName dt base b) : a = b := by
  unfold deviceName at h
  have h2 := congrArg String.data h
  simp only [String.data_append] at h2
  have h3 := List.append_cancel_left h2
  exact toString_nat_injective a b (String.ext h3)

theorem DeviceMap.get_isSome_iff (m : DeviceMap) (k : String) :
    (m.get k).isSome = true ↔ k ∈ m.map Prod.fst := by
  induction m with
  | nil => simp [DeviceMap.get_nil]
  | cons e m ih =>
    rw [DeviceMap.get_cons]
    by_cases h : k = e.1
    · simp [h]
    · simp only [h, if_false, ih, List.map_cons, List.mem_cons, false_or]

theorem DeviceMap.get_eq_none_iff (m : DeviceMap) (k : String) :
    m.get k = none ↔ k ∉ m.map Prod.fst := by
  rw [← DeviceMap.get_isSome_iff]
  cases m.get k <;> simp

/-- The test of `generateDeviceName` on a candidate. -/
theorem generateDeviceName.taken_iff {σ : Type} (dm : DeviceManager σ) (name : String) :
    ((dm.deviceByName.get name).isSome = true ∨
        dm.store.LoadStreamDevices.any (fun dev => name == dev.SystemName) = true) ↔
      name ∈ dm.usedNames := by
  unfold DeviceManager.usedNames
  rw [List.mem_append, DeviceMap.get_isSome_iff]
  constructor
  · rintro (h | h)
    · exact Or.inl h
    · right
      rw [List.any_eq_true] at h
      obtain ⟨d, hd, he⟩ := h
      have : name = d.SystemName := by simpa using he
      rw [this]
      exact List.mem_map_of_mem _ hd
  · rintro (h | h)
    · exact Or.inl h
    · right
      rw [List.mem_map] at h
      obtain ⟨d, hd, he⟩ := h
      rw [List.any_eq_true]
      exact ⟨d, hd, by simp [he]⟩

/-- One round of `generateDeviceName`. -/
theorem generateDeviceName.succ {σ : Type} (dt : String) (fuel : Nat) (dm : DeviceManager σ) :
    generateDeviceName dt (fuel + 1) dm =
      if deviceName dt dm.baseIndex dm.lastIndex ∈ dm.usedNames then
        generateDeviceName dt fuel { dm with lastIndex := (dm.lastIndex + 1) % 2 ^ 64 }
      else
        some (deviceName dt dm.baseIndex dm.lastIndex,
          { dm with lastIndex := (dm.lastIndex + 1) % 2 ^ 64 }) := by
  have ht := generateDeviceName.taken_iff dm (deviceName dt dm.baseIndex dm.lastIndex)
  by_cases h1 : (dm.deviceByName.get (deviceName dt dm.baseIndex dm.lastIndex)).isSome = true
  · have hm := ht.1 (Or.inl h1)
    simp [generateDeviceName, h1, hm]
  · by_cases h2 : dm.store.LoadStreamDevices.any
        (fun dev => deviceName dt dm.baseIndex dm.lastIndex == dev.SystemName) = true
    · have hm := ht.1 (Or.inr h2)
      simp only [generateDeviceName, h1, h2, hm, if_true]
      simp
    · have hm : deviceName dt dm.baseIndex dm.lastIndex ∉ dm.usedNames := by
        intro h
        rcases ht.2 h with h | h
        · exact h1 h
        · exact h2 h
      simp only [generateDeviceName, h1, h2, hm, if_false]
      simp

/-- The result of `generateDeviceName`: a free name `deviceName dt base n`, and
`lastIndex` left at `n + 1` as a `uint64`. -/
theorem generateDeviceName.result {σ : Type} (dt : String) :
    ∀ (fuel : Nat) (dm : DeviceManager σ) (r : String × DeviceManager σ),
      generateDeviceName dt fuel dm = some r →
        ∃ n, r.1 = deviceName dt dm.baseIndex n ∧ r.1 ∉ dm.usedNames ∧
          r.2 = { dm with lastIndex := (n + 1) % 2 ^ 64 } ∧
          (deviceName dt dm.baseIndex dm.lastIndex ∉ dm.usedNames → n = dm.lastIndex) := by
  intro fuel
  induction fuel with
  | zero => intro dm r h; simp [generateDeviceName] at h
  | succ fuel ih =>
    intro dm r h
    rw [generateDeviceName.succ] at h
    by_cases hm : deviceName dt dm.baseIndex dm.lastIndex ∈ dm.usedNames
    · rw [if_pos hm] at h
      obtain ⟨n, h1, h2, h3, _⟩ := ih _ r h
      exact ⟨n, h1, h2, h3, fun hn => absurd hm hn⟩
    · rw [if_neg hm] at h
      simp only [Option.some.injEq] at h
      subst h
      exact ⟨dm.lastIndex, rfl, hm, rfl, fun _ => rfl⟩

/-- More fuel does not change a result. -/
theorem generateDeviceName.mono {σ : Type} (dt : String) :
    ∀ (fuel : Nat) (dm : DeviceManager σ) (r : String × DeviceManager σ) (k : Nat),
      generateDeviceName dt fuel dm = some r → generateDeviceName dt (fuel + k) dm = some r := by
  intro fuel
  induction fuel with
  | zero => intro dm r k h; simp [generateDeviceName] at h
  | succ fuel ih =>
    intro dm r k h
    have : fuel + 1 + k = (fuel + k) + 1 := by omega
    rw [this, generateDeviceName.succ]
    rw [generateDeviceName.succ] at h
    by_cases hm : deviceName dt dm.baseIndex dm.lastIndex ∈ dm.usedNames
    · rw [if_pos hm] at h ⊢
      exact ih _ r k h
    · rw [if_neg hm] at h ⊢
      exact h

/-- When `fuel` rounds all fail, the `fuel` candidates from `lastIndex` on are
all taken. -/
theorem generateDeviceName.none_taken {σ : Type} (dt : String) :
    ∀ (fuel : Nat) (dm : DeviceManager σ), dm.lastIndex < 2 ^ 64 →
      generateDeviceName dt fuel dm = none →
        ∀ i < fuel, deviceName dt dm.baseIndex ((dm.lastIndex + i) % 2 ^ 64) ∈ dm.usedNames := by
  intro fuel
  induction fuel with
  | zero => intro dm _ _ i hi; omega
  | succ fuel ih =>
    intro dm hl h i hi
    rw [generateDeviceName.succ] at h
    by_cases hm : deviceName dt dm.baseIndex dm.lastIndex ∈ dm.usedNames
    · rw [if_pos hm] at h
      cases i with
      | zero =>
        have : (dm.lastIndex + 0) % 2 ^ 64 = dm.lastIndex := by
          rw [Nat.add_zero]; exact Nat.mod_eq_of_lt hl
        rw [this]; exact hm
      | succ j =>
        have h2 := ih { dm with lastIndex := (dm.lastIndex + 1) % 2 ^ 64 }
          (Nat.mod_lt _ (by decide)) h j (by omega)
        have : ((dm.lastIndex + 1) % 2 ^ 64 + j) % 2 ^ 64 = (dm.lastIndex + (j + 1)) % 2 ^ 64 := by
          omega
        simp only [this] at h2
        exact h2
    · rw [if_neg hm] at h
      simp at h

/-- `generateDeviceName` returns within one round more than there are names in
use, as long as these are fewer than the values of a `uint64`. -/
theorem generateDeviceName.terminates {σ : Type} (dt : String) (dm : DeviceManager σ)
    (hl : dm.lastIndex < 2 ^ 64) (hsize : dm.usedNames.length < 2 ^ 64) (fuel : Nat)
    (hfuel : dm.usedNames.length < fuel) :
    ∃ r, generateDeviceName dt fuel dm = some r := by
  have key : ∃ r, generateDeviceName dt (dm.usedNames.length + 1) dm = some r := by
    cases h : generateDeviceName dt (dm.usedNames.length + 1) dm with
    | some r => exact ⟨r, rfl⟩
    | none =>
      exfalso
      have htaken := generateDeviceName.none_taken dt _ dm hl h
      have hnodup : ((List.range (dm.usedNames.length + 1)).map
          (fun i => deviceName dt dm.baseIndex ((dm.lastIndex + i) % 2 ^ 64))).Nodup := by
        refine List.Nodup.map_on ?_ (List.nodup_range _)
        intro a ha b hb hab
        have := deviceName_injective _ _ _ _ hab
        rw [List.mem_range] at ha hb
        omega
      have hsub : (List.range (dm.usedNames.length + 1)).map
          (fun i => deviceName dt dm.baseIndex ((dm.lastIndex + i) % 2 ^ 64)) ⊆ dm.usedNames := by
        intro x hx
        rw [List.mem_map] at hx
        obtain ⟨i, hi, rfl⟩ := hx
        exact htaken i (List.mem_range.1 hi)
      have hle := (List.subperm_of_subset hnodup hsub).length_le
      simp at hle
  obtain ⟨r, hr⟩ := key
  obtain ⟨k, rfl⟩ : ∃ k, fuel = dm.usedNames.length + 1 + k := ⟨fuel - (dm.usedNames.length + 1), by omega⟩
  exact ⟨r, generateDeviceName.mono dt _ dm r k hr⟩

/-! ## SetDefaults -/

/-- What `SetDefaults` leaves and what it sets. -/
theorem Device.SetDefaults_fields (d : Device) :
    d.SetDefaults.UID = d.UID ∧ d.SetDefaults.SystemName = d.SystemName ∧
    d.SetDefaults.DisplayName = d.DisplayName ∧ d.SetDefaults.Typ = d.Typ ∧
    d.SetDefaults.Driver = d.Driver ∧ d.SetDefaults.IsHardware = d.IsHardware ∧
    d.SetDefaults.IsStream = d.IsStream ∧ d.SetDefaults.NodeID = d.NodeID ∧
    d.SetDefaults.ModuleID = d.ModuleID ∧
    d.SetDefaults.Status = (if d.Status = "" then StatusEnabled else d.Status) ∧
    d.SetDefaults.IsMuted = some d.GetMuted ∧
    AddressList.Len d.SetDefaults.ToAddress = AddressList.Len d.ToAddress ∧
    AddressList.Len d.SetDefaults.FromAddress = AddressList.Len d.FromAddress := by
  have hss : ¬ Source = Sink := by decide
  cases hm : d.IsMuted <;>
  by_cases hs : d.Status = "" <;>
  by_cases hst : d.IsStream = true <;>
  by_cases h1 : d.Typ = Sink <;>
  by_cases h2 : d.Typ = Source <;>
  cases hto : d.ToAddress <;>
  cases hfrom : d.FromAddress <;>
  simp [Device.SetDefaults, Device.SetMuted, Device.GetMuted, AddressList.Len, hm, hs, hst, h1,
    h2, hto, hfrom, hss]

theorem Device.SetDefaults_idem (d : Device) : d.SetDefaults.SetDefaults = d.SetDefaults := by
  have hss : ¬ Source = Sink := by decide
  cases hm : d.IsMuted <;>
  by_cases hs : d.Status = "" <;>
  by_cases hst : d.IsStream = true <;>
  by_cases h1 : d.Typ = Sink <;>
  by_cases h2 : d.Typ = Source <;>
  cases hto : d.ToAddress <;>
  cases hfrom : d.FromAddress <;>
  simp [Device.SetDefaults, Device.SetMuted, hm, hs, hst, h1, h2, hto, hfrom, StatusEnabled, hss]

/-! ## Store -/

theorem PersistStore.save_devices (ps : PersistStore) : ps.save.2.devices = ps.devices := by
  unfold PersistStore.save
  cases h : ps.writeErrs with
  | nil => rfl
  | cons w rest => cases w <;> rfl

/-- After a successful `SaveStreamDevice` the store holds the device under its
uid; the other entries are as before. -/
theorem PersistStore.SaveStreamDevice_ok (ps : PersistStore) (d : Device)
    (h : (ps.SaveStreamDevice d).1 = .ok ()) :
    d.IsStream = true ∧ ∀ k, (ps.SaveStreamDevice d).2.devices.get k =
      if k = d.UID then some d else ps.devices.get k := by
  unfold PersistStore.SaveStreamDevice at h ⊢
  by_cases hs : d.IsStream = true
  · refine ⟨hs, ?_⟩
    simp only [hs, Bool.not_true, Bool.false_eq_true, if_false] at h ⊢
    cases hg : ps.devices.get d.UID with
    | none =>
      intro k
      simp only [PersistStore.save_devices, DeviceMap.get_set]
    | some old =>
      by_cases he : old.Equal d = true
      · have hod : old = d := by simpa [Device.Equal] using he
        intro k
        simp only [he, if_true]
        by_cases hk : k = d.UID
        · rw [hk, hg, hod]; simp
        · simp [hk]
      · intro k
        have he2 : old.Equal d = false := by simpa using he
        simp only [he2, Bool.false_eq_true, if_false, PersistStore.save_devices,
          DeviceMap.get_set]
  · simp [hs] at h

/-! ## createStreamDevice -/

/-- The fields of the device `createStreamDevice` hands to the backend. -/
theorem createStreamDevice.defaults_fields {σ : Type} (E : Env σ) (d : Device) :
    (createStreamDevice.defaults E d).SystemName = d.SystemName ∧
    (createStreamDevice.defaults E d).Typ = d.Typ ∧
    (createStreamDevice.defaults E d).UID = makeDeviceUID E.machine d.SystemName ∧
    (createStreamDevice.defaults E d).Driver = E.backend.driver ∧
    (createStreamDevice.defaults E d).IsHardware = false ∧
    (createStreamDevice.defaults E d).IsStream = true ∧
    (createStreamDevice.defaults E d).DisplayName =
      (if d.DisplayName = "" then (if d.Typ = Sink then "Roc Sender" else "Roc Receiver")
        else d.DisplayName) ∧
    (createStreamDevice.defaults E d).Status =
      (if d.Status = "" ∨ d.Status = StatusUnavailable then StatusEnabled else d.Status) ∧
    (createStreamDevice.defaults E d).IsMuted = some d.GetMuted ∧
    (createStreamDevice.defaults E d).NodeID = d.NodeID ∧
    (createStreamDevice.defaults E d).ModuleID = d.ModuleID ∧
    AddressList.Len (createStreamDevice.defaults E d).ToAddress = AddressList.Len d.ToAddress ∧
    AddressList.Len (createStreamDevice.defaults E d).FromAddress =
      AddressList.Len d.FromAddress := by
  obtain ⟨h1, h2, h3, h4, h5, h6, h7, h8, h9, h10, h11, h12, h13⟩ :=
    Device.SetDefaults_fields (createStreamDevice.fill E d)
  unfold createStreamDevice.defaults
  rw [h1, h2, h3, h4, h5, h6, h7, h8, h9, h10, h11, h12, h13]
  have hne : ¬ StatusEnabled = "" := by decide
  by_cases hd : d.DisplayName = "" <;>
  by_cases hs : d.Status = "" <;>
  by_cases hu : d.Status = StatusUnavailable <;>
  simp [createStreamDevice.fill, hd, hs, hu, hne, Device.GetMuted]

/-- The four ways `createStreamDevice` ends once the device is named and
filled in: the uid is taken, the backend fails, the save fails, or the device
is created, saved and put into both maps, in this order. -/
theorem createStreamDevice.create_spec {σ : Type} (E : Env σ) (dm : DeviceManager σ)
    (d : Device) :
    ((dm.deviceByUID.get d.UID).isSome = true ∧
      createStreamDevice.create E dm d = (.error (.deviceExists d.UID), dm)) ∨
    (dm.deviceByUID.get d.UID = none ∧ ∃ e,
      (E.backend.resetStreamDevice dm.backend d).1 = .error e ∧
      (createStreamDevice.create E dm d).1 = .error (.backend e) ∧
      (createStreamDevice.create E dm d).2 = { dm with
        backend := (E.backend.resetStreamDevice dm.backend d).2
        calls := dm.calls ++ [{ call := .resetStreamDevice d, err := some (.backend e) }] }) ∨
    (dm.deviceByUID.get d.UID = none ∧ ∃ h e,
      (E.backend.resetStreamDevice dm.backend d).1 = .ok h ∧
      (dm.store.SaveStreamDevice { d with NodeID := h.NodeID, ModuleID := h.ModuleID }).1 =
        .error e ∧
      (createStreamDevice.create E dm d).1 = .error (.saveDevice e) ∧
      (createStreamDevice.create E dm d).2 = { dm with
        backend := (E.backend.resetStreamDevice dm.backend d).2
        store := (dm.store.SaveStreamDevice
          { d with NodeID := h.NodeID, ModuleID := h.ModuleID }).2
        calls := dm.calls ++ [{ call := .resetStreamDevice d, err := none },
          { call := .saveStreamDevice { d with NodeID := h.NodeID, ModuleID := h.ModuleID },
            err := some e }] }) ∨
    (dm.deviceByUID.get d.UID = none ∧ ∃ h,
      (E.backend.resetStreamDevice dm.backend d).1 = .ok h ∧
      (dm.store.SaveStreamDevice { d with NodeID := h.NodeID, ModuleID := h.ModuleID }).1 =
        .ok () ∧
      (createStreamDevice.create E dm d).1 = .ok d.UID ∧
      (createStreamDevice.create E dm d).2 = { dm with
        deviceByUID := dm.deviceByUID.set d.UID
          { d with NodeID := h.NodeID, ModuleID := h.ModuleID }
        deviceByName := dm.deviceByName.set d.SystemName
          { d with NodeID := h.NodeID, ModuleID := h.ModuleID }
        backend := (E.backend.resetStreamDevice dm.backend d).2
        store := (dm.store.SaveStreamDevice
          { d with NodeID := h.NodeID, ModuleID := h.ModuleID }).2
        calls := dm.calls ++ [{ call := .resetStreamDevice d, err := none },
          { call := .saveStreamDevice { d with NodeID := h.NodeID, ModuleID := h.ModuleID },
            err := none }] }) := by
  cases hg : dm.deviceByUID.get d.UID with
  | some old =>
    left
    simp [createStreamDevice.create, hg]
  | none =>
    right
    cases hr : (E.backend.resetStreamDevice dm.backend d).1 with
    | error e =>
      left
      refine ⟨rfl, e, rfl, ?_, ?_⟩ <;>
        simp [createStreamDevice.create, hg, callBackend, hr]
    | ok h =>
      right
      cases hs : (dm.store.SaveStreamDevice
          { d with NodeID := h.NodeID, ModuleID := h.ModuleID }).1 with
      | error e =>
        left
        refine ⟨rfl, h, e, rfl, hs, ?_, ?_⟩ <;>
          simp [createStreamDevice.create, hg, callBackend, hr, hs, errOf]
      | ok u =>
        right
        refine ⟨rfl, h, rfl, hs, ?_, ?_⟩ <;>
          simp [createStreamDevice.create, hg, callBackend, hr, hs, errOf]

/-- The naming step of `createStreamDevice` returns with enough fuel, changes
nothing but `lastIndex`, and fails only on a given name that is a key of
`deviceByName`. -/
theorem createStreamDevice.name_spec {σ : Type} (fuel : Nat) (dm : DeviceManager σ) (dev : Device)
    (hl : dm.lastIndex < 2 ^ 64) (hsize : dm.usedNames.length < 2 ^ 64)
    (hfuel : dm.usedNames.length < fuel) :
    (dev.SystemName ≠ "" ∧ (dm.deviceByName.get dev.SystemName).isSome = true ∧
      createStreamDevice.name fuel dm dev =
        some (.error (.systemNameExists dev.SystemName), dm)) ∨
    (dev.SystemName ≠ "" ∧ dm.deviceByName.get dev.SystemName = none ∧
      createStreamDevice.name fuel dm dev = some (.ok dev, dm)) ∨
    (dev.SystemName = "" ∧ ∃ n, deviceName dev.Typ dm.baseIndex n ∉ dm.usedNames ∧
      (deviceName dev.Typ dm.baseIndex dm.lastIndex ∉ dm.usedNames → n = dm.lastIndex) ∧
      createStreamDevice.name fuel dm dev =
        some (.ok { dev with SystemName := deviceName dev.Typ dm.baseIndex n },
          { dm with lastIndex := (n + 1) % 2 ^ 64 })) := by
  by_cases hn : dev.SystemName = ""
  · right; right
    obtain ⟨r, hr⟩ := generateDeviceName.terminates dev.Typ dm hl hsize fuel hfuel
    obtain ⟨n, h1, h2, h3, h4⟩ := generateDeviceName.result dev.Typ fuel dm r hr
    refine ⟨hn, n, h1 ▸ h2, h4, ?_⟩
    simp [createStreamDevice.name, hn, hr, h1, h3]
  · cases hg : dm.deviceByName.get dev.SystemName with
    | some old =>
      left
      exact ⟨hn, rfl, by simp [createStreamDevice.name, hn, hg]⟩
    | none =>
      right; left
      exact ⟨hn, rfl, by simp [createStreamDevice.name, hn, hg]⟩

/-- The naming step, whenever it returns. -/
theorem createStreamDevice.name_inv {σ : Type} (fuel : Nat) (dm : DeviceManager σ) (dev : Device)
    (st : Except Err Device × DeviceManager σ) (h : createStreamDevice.name fuel dm dev = some st) :
    (dev.SystemName ≠ "" ∧ (dm.deviceByName.get dev.SystemName).isSome = true ∧
      st = (.error (.systemNameExists dev.SystemName), dm)) ∨
    (dev.SystemName ≠ "" ∧ dm.deviceByName.get dev.SystemName = none ∧ st = (.ok dev, dm)) ∨
    (dev.SystemName = "" ∧ ∃ n, deviceName dev.Typ dm.baseIndex n ∉ dm.usedNames ∧
      (deviceName dev.Typ dm.baseIndex dm.lastIndex ∉ dm.usedNames → n = dm.lastIndex) ∧
      st = (.ok { dev with SystemName := deviceName dev.Typ dm.baseIndex n },
          { dm with lastIndex := (n + 1) % 2 ^ 64 })) := by
  by_cases hn : dev.SystemName = ""
  · right; right
    cases hr : generateDeviceName dev.Typ fuel dm with
    | none => simp [createStreamDevice.name, hn, hr] at h
    | some r =>
      obtain ⟨n, h1, h2, h3, h4⟩ := generateDeviceName.result dev.Typ fuel dm r hr
      refine ⟨hn, n, h1 ▸ h2, h4, ?_⟩
      simp [createStreamDevice.name, hn, hr, h1, h3] at h
      exact h.symm
  · cases hg : dm.deviceByName.get dev.SystemName with
    | some old =>
      left
      refine ⟨hn, rfl, ?_⟩
      simp [createStreamDevice.name, hn, hg] at h
      exact h.symm
    | none =>
      right; left
      refine ⟨hn, rfl, ?_⟩
      simp [createStreamDevice.name, hn, hg] at h
      exact h.symm

/-- `createStreamDevice` split at its steps, whenever it returns. -/
theorem createStreamDevice_inv {σ : Type} (E : Env σ) (fuel : Nat) (dm : DeviceManager σ)
    (dev : Device) (r : Except Err String × DeviceManager σ)
    (h : createStreamDevice E fuel dm dev = some r) :
    (∃ e, createStreamDevice.validate E.net dev = .error e ∧ r = (.error e, dm)) ∨
    (createStreamDevice.validate E.net dev = .ok () ∧ ∃ st,
      createStreamDevice.name fuel dm dev = some st ∧
      ((∃ e, st.1 = .error e ∧ r = (.error e, st.2)) ∨
        (∃ named, st.1 = .ok named ∧
          r = createStreamDevice.create E st.2 (createStreamDevice.defaults E named)))) := by
  unfold createStreamDevice at h
  cases hv : createStreamDevice.validate E.net dev with
  | error e =>
    left
    rw [hv] at h
    simp at h
    exact ⟨e, rfl, h.symm⟩
  | ok u =>
    right
    rw [hv] at h
    refine ⟨rfl, ?_⟩
    cases hn : createStreamDevice.name fuel dm dev with
    | none => rw [hn] at h; simp at h
    | some st =>
      rw [hn] at h
      refine ⟨st, rfl, ?_⟩
      cases hs : st.1 with
      | error e =>
        left
        simp [hs] at h
        exact ⟨e, rfl, h.symm⟩
      | ok named =>
        right
        simp [hs] at h
        exact ⟨named, rfl, h.symm⟩

/-- The order of the effects of the last part of `createStreamDevice`, seen
from a manager `dm` that differs from the current one in `lastIndex` only. -/
theorem createStreamDevice.create_order {σ : Type} (E : Env σ) (dm dm1 : DeviceManager σ)
    (d : Device) (hc : dm1.calls = dm.calls) (hs : dm1.store = dm.store)
    (hu : dm1.deviceByUID = dm.deviceByUID) (hn : dm1.deviceByName = dm.deviceByName)
    (hb : dm1.backend = dm.backend) :
    (dm.newCalls (createStreamDevice.create E dm1 d).2 = [] ∧
      (createStreamDevice.create E dm1 d).1 = .error (.deviceExists d.UID) ∧
      (dm.deviceByUID.get d.UID).isSome = true ∧
      (createStreamDevice.create E dm1 d).2.backend = dm.backend ∧
      (createStreamDevice.create E dm1 d).2.store = dm.store ∧
      (createStreamDevice.create E dm1 d).2.deviceByUID = dm.deviceByUID ∧
      (createStreamDevice.create E dm1 d).2.deviceByName = dm.deviceByName) ∨
    (∃ e, dm.newCalls (createStreamDevice.create E dm1 d).2 =
        [{ call := .resetStreamDevice d, err := some (.backend e) }] ∧
      (E.backend.resetStreamDevice dm.backend d).1 = .error e ∧
      (createStreamDevice.create E dm1 d).1 = .error (.backend e) ∧
      (createStreamDevice.create E dm1 d).2.backend =
        (E.backend.resetStreamDevice dm.backend d).2 ∧
      (createStreamDevice.create E dm1 d).2.store = dm.store ∧
      (createStreamDevice.create E dm1 d).2.deviceByUID = dm.deviceByUID ∧
      (createStreamDevice.create E dm1 d).2.deviceByName = dm.deviceByName) ∨
    (∃ h e, dm.newCalls (createStreamDevice.create E dm1 d).2 =
        [{ call := .resetStreamDevice d, err := none },
          { call := .saveStreamDevice { d with NodeID := h.NodeID, ModuleID := h.ModuleID },
            err := some e }] ∧
      (E.backend.resetStreamDevice dm.backend d).1 = .ok h ∧
      (dm.store.SaveStreamDevice { d with NodeID := h.NodeID, ModuleID := h.ModuleID }).1 =
        .error e ∧
      (createStreamDevice.create E dm1 d).1 = .error (.saveDevice e) ∧
      (createStreamDevice.create E dm1 d).2.deviceByUID = dm.deviceByUID ∧
      (createStreamDevice.create E dm1 d).2.deviceByName = dm.deviceByName) ∨
    (∃ h, dm.newCalls (createStreamDevice.create E dm1 d).2 =
        [{ call := .resetStreamDevice d, err := none },
          { call := .saveStreamDevice { d with NodeID := h.NodeID, ModuleID := h.ModuleID },
            err := none }] ∧
      (E.backend.resetStreamDevice dm.backend d).1 = .ok h ∧
      (dm.store.SaveStreamDevice { d with NodeID := h.NodeID, ModuleID := h.ModuleID }).1 =
        .ok () ∧
      (createStreamDevice.create E dm1 d).1 = .ok d.UID ∧
      dm.deviceByUID.get d.UID = none ∧
      (createStreamDevice.create E dm1 d).2.store =
        (dm.store.SaveStreamDevice { d with NodeID := h.NodeID, ModuleID := h.ModuleID }).2 ∧
      (createStreamDevice.create E dm1 d).2.deviceByUID =
        dm.deviceByUID.set d.UID { d with NodeID := h.NodeID, ModuleID := h.ModuleID } ∧
      (createStreamDevice.create E dm1 d).2.deviceByName =
        dm.deviceByName.set d.SystemName
          { d with NodeID := h.NodeID, ModuleID := h.ModuleID }) := by
  rcases createStreamDevice.create_spec E dm1 d with
    ⟨h1, h2⟩ | ⟨h0, e, h1, h2, h3⟩ | ⟨h0, h, e, h1, h2, h3, h4⟩ | ⟨h0, h, h1, h2, h3, h4⟩
  · left
    rw [h2]
    rw [hu] at h1
    exact ⟨by simp [DeviceManager.newCalls, hc], rfl, h1, hb, hs, hu, hn⟩
  · right; left
    rw [hb] at h1
    refine ⟨e, ?_, h1, h2, ?_, ?_, ?_, ?_⟩ <;> rw [h3] <;>
      simp [DeviceManager.newCalls, hc, hs, hu, hn, hb]
  · right; right; left
    rw [hb] at h1
    rw [hs] at h2
    refine ⟨h, e, ?_, h1, h2, h3, ?_, ?_⟩ <;> rw [h4] <;>
      simp [DeviceManager.newCalls, hc, hs, hu, hn, hb]
  · right; right; right
    rw [hb] at h1
    rw [hs] at h2
    rw [hu] at h0
    refine ⟨h, ?_, h1, h2, h3, h0, ?_, ?_, ?_⟩ <;> rw [h4] <;>
      simp [DeviceManager.newCalls, hc, hs, hu, hn, hb]

/-- `createStreamDevice` returns once `generateDeviceName` has one round more
than there are names in use, and then ends in one of five ways. -/
theorem createStreamDevice_total {σ : Type} (E : Env σ) (fuel : Nat) (dm : DeviceManager σ)
    (dev : Device) (hl : dm.lastIndex < 2 ^ 64) (hsize : dm.usedNames.length < 2 ^ 64)
    (hfuel : dm.usedNames.length < fuel) :
    (∃ e, createStreamDevice.validate E.net dev = .error e ∧
      createStreamDevice E fuel dm dev = some (.error e, dm)) ∨
    (createStreamDevice.validate E.net dev = .ok () ∧ dev.SystemName ≠ "" ∧
      (dm.deviceByName.get dev.SystemName).isSome = true ∧
      createStreamDevice E fuel dm dev = some (.error (.systemNameExists dev.SystemName), dm)) ∨
    (createStreamDevice.validate E.net dev = .ok () ∧ ∃ named dm1,
      dm1.calls = dm.calls ∧ dm1.store = dm.store ∧ dm1.deviceByUID = dm.deviceByUID ∧
      dm1.deviceByName = dm.deviceByName ∧ dm1.backend = dm.backend ∧
      ((dev.SystemName ≠ "" ∧ named = dev) ∨
        (dev.SystemName = "" ∧ ∃ n, deviceName dev.Typ dm.baseIndex n ∉ dm.usedNames ∧
          (deviceName dev.Typ dm.baseIndex dm.lastIndex ∉ dm.usedNames → n = dm.lastIndex) ∧
          named = { dev with SystemName := deviceName dev.Typ dm.baseIndex n })) ∧
      createStreamDevice E fuel dm dev =
        some (createStreamDevice.create E dm1 (createStreamDevice.defaults E named))) := by
  cases hv : createStreamDevice.validate E.net dev with
  | error e =>
    left
    exact ⟨e, rfl, by simp [createStreamDevice, hv]⟩
  | ok u =>
    right
    rcases createStreamDevice.name_spec fuel dm dev hl hsize hfuel with
      ⟨h1, h2, h3⟩ | ⟨h1, h2, h3⟩ | ⟨h1, n, h2, h3, h4⟩
    · left
      exact ⟨rfl, h1, h2, by simp [createStreamDevice, hv, h3]⟩
    · right
      refine ⟨rfl, dev, dm, rfl, rfl, rfl, rfl, rfl, Or.inl ⟨h1, rfl⟩, ?_⟩
      simp [createStreamDevice, hv, h3]
    · right
      refine ⟨rfl, _, { dm with lastIndex := (n + 1) % 2 ^ 64 }, rfl, rfl, rfl, rfl, rfl,
        Or.inr ⟨h1, n, h2, h3, rfl⟩, ?_⟩
      simp [createStreamDevice, hv, h4]

/-- C9: a create request that passes validation either is refused for a name
or uid that exists, with no call issued, or reaches the backend: when
`resetStreamDevice` fails its error is returned, no save is issued and the
store and both maps are as before; when the save fails after it both maps are
as before; otherwise the calls are the reset, then the save, and only then
both maps hold the device. -/
theorem createStreamDevice_backend_first {σ : Type} (E : Env σ) (fuel : Nat)
    (dm : DeviceManager σ) (dev : Device) (hl : dm.lastIndex < 2 ^ 64)
    (hsize : dm.usedNames.length < 2 ^ 64) (hfuel : dm.usedNames.length < fuel)
    (hval : createStreamDevice.validate E.net dev = .ok ()) :
    ∃ r, createStreamDevice E fuel dm dev = some r ∧
      ((dm.newCalls r.2 = [] ∧
          (r.1 = .error (.systemNameExists dev.SystemName) ∨
            ∃ uid, r.1 = .error (.deviceExists uid)) ∧
          r.2.backend = dm.backend ∧ r.2.store = dm.store ∧
          r.2.deviceByUID = dm.deviceByUID ∧ r.2.deviceByName = dm.deviceByName) ∨
        (∃ d e, dm.newCalls r.2 = [{ call := .resetStreamDevice d, err := some (.backend e) }] ∧
          (E.backend.resetStreamDevice dm.backend d).1 = .error e ∧
          r.1 = .error (.backend e) ∧ r.2.store = dm.store ∧
          r.2.deviceByUID = dm.deviceByUID ∧ r.2.deviceByName = dm.deviceByName) ∨
        (∃ d d2 e, dm.newCalls r.2 = [{ call := .resetStreamDevice d, err := none },
              { call := .saveStreamDevice d2, err := some e }] ∧
          (dm.store.SaveStreamDevice d2).1 = .error e ∧
          r.1 = .error (.saveDevice e) ∧
          r.2.deviceByUID = dm.deviceByUID ∧ r.2.deviceByName = dm.deviceByName) ∨
        (∃ d d2, dm.newCalls r.2 = [{ call := .resetStreamDevice d, err := none },
              { call := .saveStreamDevice d2, err := none }] ∧
          r.1 = .ok d2.UID ∧
          r.2.store = (dm.store.SaveStreamDevice d2).2 ∧
          r.2.deviceByUID = dm.deviceByUID.set d2.UID d2 ∧
          r.2.deviceByName = dm.deviceByName.set d2.SystemName d2)) := by
  rcases createStreamDevice_total E fuel dm dev hl hsize hfuel with
    ⟨e, h1, _⟩ | ⟨_, _, _, h⟩ | ⟨_, named, dm1, hc, hs, hu, hn, hb, _, h⟩
  · rw [hval] at h1; cases h1
  · refine ⟨_, h, Or.inl ?_⟩
    exact ⟨by simp [DeviceManager.newCalls], Or.inl rfl, rfl, rfl, rfl, rfl⟩
  · refine ⟨_, h, ?_⟩
    rcases createStreamDevice.create_order E dm dm1 (createStreamDevice.defaults E named)
        hc hs hu hn hb with
      ⟨h1, h2, _, h3, h4, h5, h6⟩ | ⟨e, h1, h2, h3, _, h4, h5, h6⟩ |
      ⟨hd, e, h1, _, h2, h3, h4, h5⟩ | ⟨hd, h1, _, _, h2, _, h3, h4, h5⟩
    · exact Or.inl ⟨h1, Or.inr ⟨_, h2⟩, h3, h4, h5, h6⟩
    · exact Or.inr (Or.inl ⟨_, e, h1, h2, h3, h4, h5, h6⟩)
    · exact Or.inr (Or.inr (Or.inl ⟨_, _, e, h1, h2, h3, h4, h5⟩))
    · exact Or.inr (Or.inr (Or.inr ⟨_, _, h1, h2, h3, h4, h5⟩))

theorem createStreamDevice.validate_type (L : NetLib) (dev : Device)
    (h : createStreamDevice.validate L dev = .ok ()) :
    dev.UID = "" ∧ (dev.Typ = Sink ∨ dev.Typ = Source) := by
  unfold createStreamDevice.validate at h
  by_cases h1 : dev.UID ≠ ""
  · simp [h1] at h
  · by_cases h2 : dev.Typ ≠ Sink ∧ dev.Typ ≠ Source
    · simp [h1, h2] at h
    · refine ⟨by simpa using h1, ?_⟩
      by_cases h3 : dev.Typ = Sink
      · exact Or.inl h3
      · right
        by_contra h4
        exact h2 ⟨h3, h4⟩

/-- C7, as the code has it: a successful `createStreamDevice` on a request
with empty uid, system name, display name and status creates a device named
`rocd.stream_<type>.<baseIndex>.<n>` with a name not in use (`n` is
`lastIndex` when that candidate is free, so 1 on a fresh manager), display
name "Roc Sender" for a sink and "Roc Receiver" for a source, status
`enabled`, the mute flag of the request (false when the request has none),
the stream flag set, the hardware flag cleared and the uid of its name; this
record is the one saved last, held by the store under the uid and held by both
maps. -/
theorem createStreamDevice_defaults {σ : Type} (E : Env σ) (fuel : Nat) (dm : DeviceManager σ)
    (dev : Device) (uid : String) (dm2 : DeviceManager σ)
    (hres : createStreamDevice E fuel dm dev = some (.ok uid, dm2))
    (_huid : dev.UID = "") (hname : dev.SystemName = "") (hdisp : dev.DisplayName = "")
    (hstatus : dev.Status = "") :
    ∃ n created,
      created.SystemName = deviceName dev.Typ dm.baseIndex n ∧
      created.SystemName ∉ dm.usedNames ∧
      (deviceName dev.Typ dm.baseIndex dm.lastIndex ∉ dm.usedNames → n = dm.lastIndex) ∧
      (dm.deviceByName = [] → dm.store.devices = [] → dm.lastIndex = 1 → n = 1) ∧
      ((dev.Typ = Sink ∧ created.DisplayName = "Roc Sender") ∨
        (dev.Typ = Source ∧ created.DisplayName = "Roc Receiver")) ∧
      created.Typ = dev.Typ ∧
      created.Status = StatusEnabled ∧
      created.IsMuted = some dev.GetMuted ∧
      created.IsStream = true ∧
      created.IsHardware = false ∧
      created.UID = makeDeviceUID E.machine created.SystemName ∧
      uid = created.UID ∧
      dm2.calls.getLast? = some { call := .saveStreamDevice created, err := none } ∧
      dm2.store.devices.get uid = some created ∧
      dm2.deviceByUID.get uid = some created ∧
      dm2.deviceByName.get created.SystemName = some created := by
  rcases createStreamDevice_inv E fuel dm dev _ hres with
    ⟨e, _, h⟩ | ⟨hv, st, hn, ⟨e, _, h⟩ | ⟨named, hst, h⟩⟩
  · cases h
  · cases h
  obtain ⟨_, htyp⟩ := createStreamDevice.validate_type E.net dev hv
  rcases createStreamDevice.name_inv fuel dm dev st hn with
    ⟨h1, _⟩ | ⟨h1, _⟩ | ⟨_, n, hfree, hfirst, hst2⟩
  · exact absurd hname h1
  · exact absurd hname h1
  have hnamed : named = { dev with SystemName := deviceName dev.Typ dm.baseIndex n } := by
    rw [hst2] at hst
    simp only [Except.ok.injEq] at hst
    exact hst.symm
  have hdm1 : st.2 = { dm with lastIndex := (n + 1) % 2 ^ 64 } := by rw [hst2]
  have g1 : named.SystemName = deviceName dev.Typ dm.baseIndex n := by rw [hnamed]
  have g2 : named.Typ = dev.Typ := by rw [hnamed]
  have g3 : named.DisplayName = "" := by rw [hnamed]; exact hdisp
  have g4 : named.Status = "" := by rw [hnamed]; exact hstatus
  have g5 : named.GetMuted = dev.GetMuted := by rw [hnamed]; rfl
  obtain ⟨f1, f2, f3, _, f5, f6, f7, f8, f9, _, _, _, _⟩ :=
    createStreamDevice.defaults_fields E named
  rw [g1] at f1 f3
  rw [g2] at f2 f7
  rw [g3] at f7
  rw [g4] at f8
  rw [g5] at f9
  simp only [if_true, true_or] at f7 f8
  rw [hdm1] at h
  generalize createStreamDevice.defaults E named = d0 at h f1 f2 f3 f5 f6 f7 f8 f9
  rcases createStreamDevice.create_spec E { dm with lastIndex := (n + 1) % 2 ^ 64 } d0
    with ⟨_, h2⟩ | ⟨_, e, _, h2, _⟩ | ⟨_, hd, e, _, _, h2, _⟩ | ⟨_, hd, _, hsave, h3, h4⟩
  · rw [h2] at h; cases h
  · rw [← h] at h2; cases h2
  · rw [← h] at h2; cases h2
  have hu : uid = d0.UID := by
    rw [← h] at h3
    simpa using h3
  have hdm := h4
  rw [← h] at hdm
  simp only at hdm
  obtain ⟨_, hstore⟩ := PersistStore.SaveStreamDevice_ok _ _ hsave
  refine ⟨n, { d0 with NodeID := hd.NodeID, ModuleID := hd.ModuleID }, f1, ?_, hfirst, ?_, ?_,
    f2, f8, f9, f6, f5, ?_, hu, ?_, ?_, ?_, ?_⟩
  · show d0.SystemName ∉ dm.usedNames
    rw [f1]; exact hfree
  · intro hn0 hs0 hl1
    rw [← hl1]
    apply hfirst
    simp [DeviceManager.usedNames, hn0, PersistStore.LoadStreamDevices, DeviceMap.values, hs0]
  · rcases htyp with ht | ht
    · left
      refine ⟨ht, ?_⟩
      show d0.DisplayName = _
      rw [f7]; simp [ht]
    · right
      refine ⟨ht, ?_⟩
      show d0.DisplayName = _
      rw [f7]
      have : ¬ Source = Sink := by decide
      simp [ht, this]
  · show d0.UID = makeDeviceUID E.machine d0.SystemName
    rw [f3, f1]
  · rw [hdm]; simp
  · rw [hdm, hu]
    simp only
    rw [hstore]
    simp
  · rw [hdm, hu]
    simp only
    rw [DeviceMap.get_set]
    simp
  · rw [hdm]
    simp only
    rw [DeviceMap.get_set]
    simp

theorem Sample.create_result :
    createStreamDevice Sample.pulse 1 (Sample.manager [] [] []) Sample.request =
      some (.ok (makeDeviceUID "m" "rocd.stream_sink.7.1"),
        { deviceByUID := [(makeDeviceUID "m" "rocd.stream_sink.7.1", Sample.created)],
          deviceByName := [("rocd.stream_sink.7.1", Sample.created)],
          backend := [["pactl", "load-module", "module-roc-sink",
            "sink_name=rocd.stream_sink.7.1",
            "sink_properties='device.description=\"Roc Sender\"'", "remote_ip=10.0.0.1",
            "remote_source_port=10001", "remote_repair_port=10002", "fec_encoding=rs8m"]],
          store :=
            { devices := [(makeDeviceUID "m" "rocd.stream_sink.7.1", Sample.created)],
              file := [(makeDeviceUID "m" "rocd.stream_sink.7.1", Sample.created)],
              writeErrs := [], nWrites := 1 },
          baseIndex := 7, lastIndex := 2,
          calls := [{ call := .resetStreamDevice Sample.created, err := none },
            { call := .saveStreamDevice Sample.created, err := none }] }) := by
  rfl

theorem DeviceMap.mem_of_get (m : DeviceMap) (k : String) (d : Device)
    (h : m.get k = some d) : (k, d) ∈ m := by
  induction m with
  | nil => simp [DeviceMap.get_nil] at h
  | cons e m ih =>
    rw [DeviceMap.get_cons] at h
    by_cases hk : k = e.1
    · simp only [hk, if_true, Option.some.injEq] at h
      rw [hk, ← h]
      exact List.mem_cons_self _ _
    · simp only [hk, if_false] at h
      exact List.mem_cons_of_mem _ (ih h)

/-- C10: when every indexed device is kept under its own uid and that uid is
the uid of its system name, a create request that carries the system name of
an indexed device is refused with an error and the manager, its calls
included, is as before; when the request passes validation the error is
"'system_name' already exists" or "device already exists". -/
theorem createStreamDevice_name_conflict {σ : Type} (E : Env σ) (fuel : Nat)
    (dm : DeviceManager σ) (dev : Device) (k : String) (d0 : Device)
    (hinv : ∀ e ∈ dm.deviceByUID,
      e.1 = e.2.UID ∧ e.2.UID = makeDeviceUID E.machine e.2.SystemName)
    (hidx : dm.deviceByUID.get k = some d0)
    (hname : dev.SystemName = d0.SystemName) (hne : dev.SystemName ≠ "") :
    ∃ e, createStreamDevice E fuel dm dev = some (.error e, dm) ∧
      (createStreamDevice.validate E.net dev = .ok () →
        e = .systemNameExists dev.SystemName ∨
          e = .deviceExists (makeDeviceUID E.machine dev.SystemName)) := by
  cases hv : createStreamDevice.validate E.net dev with
  | error e =>
    exact ⟨e, by simp [createStreamDevice, hv], fun h => by cases h⟩
  | ok u =>
    cases hg : dm.deviceByName.get dev.SystemName with
    | some old =>
      refine ⟨.systemNameExists dev.SystemName, ?_, fun _ => Or.inl rfl⟩
      simp [createStreamDevice, hv, createStreamDevice.name, hne, hg]
    | none =>
      obtain ⟨hk1, hk2⟩ := hinv (k, d0) (DeviceMap.mem_of_get _ _ _ hidx)
      simp only at hk1 hk2
      obtain ⟨_, _, f3, _⟩ := createStreamDevice.defaults_fields E dev
      have hsome : (dm.deviceByUID.get (createStreamDevice.defaults E dev).UID).isSome = true := by
        rw [f3, hname, ← hk2, ← hk1, hidx]; rfl
      refine ⟨.deviceExists (makeDeviceUID E.machine dev.SystemName), ?_, fun _ => Or.inr rfl⟩
      rcases createStreamDevice.create_spec E dm (createStreamDevice.defaults E dev) with
        ⟨_, h2⟩ | ⟨h0, _⟩ | ⟨h0, _⟩ | ⟨h0, _⟩
      · simp [createStreamDevice, hv, createStreamDevice.name, hne, hg, h2, f3]
      · rw [h0] at hsome; cases hsome
      · rw [h0] at hsome; cases hsome
      · rw [h0] at hsome; cases hsome

/-- C10 at a manager that holds a saved device in the uid index only, as
`rereadDevices` leaves a device missing from the backend. -/
theorem createStreamDevice_name_conflict_witness :
    ∃ e, createStreamDevice Sample.pulse 1
        { Sample.manager [] [Sample.created] [Sample.created] with deviceByName := [] }
        { Sample.request with SystemName := "rocd.stream_sink.7.1" } =
          some (.error e,
            { Sample.manager [] [Sample.created] [Sample.created] with deviceByName := [] }) ∧
      (createStreamDevice.validate Sample.pulse.net
          { Sample.request with SystemName := "rocd.stream_sink.7.1" } = .ok () →
        e = .systemNameExists "rocd.stream_sink.7.1" ∨
          e = .deviceExists (makeDeviceUID "m" "rocd.stream_sink.7.1")) :=
  createStreamDevice_name_conflict Sample.pulse 1
    { Sample.manager [] [Sample.created] [Sample.created] with deviceByName := [] }
    { Sample.request with SystemName := "rocd.stream_sink.7.1" }
    (makeDeviceUID "m" "rocd.stream_sink.7.1") Sample.created
    (by
      intro e he
      have : e = (makeDeviceUID "m" "rocd.stream_sink.7.1", Sample.created) := by
        simpa [Sample.manager] using he
      rw [this]
      exact ⟨rfl, rfl⟩)
    ((DeviceMap.get_cons _ _ _).trans (if_pos rfl)) rfl (by decide)

/-! ## Address count in the backends -/

/-- The address list a backend reads for the device does not hold exactly one
address. -/
theorem moduleAddress_count (who : String) (d : Device)
    (h : (d.Typ = Sink ∧ AddressList.Len d.ToAddress ≠ 1) ∨
      (d.Typ = Source ∧ AddressList.Len d.FromAddress ≠ 1)) :
    ∃ e, moduleAddress who d = .error e := by
  have hss : ¬ Source = Sink := by decide
  rcases h with ⟨ht, hl⟩ | ⟨ht, hl⟩
  · refine ⟨who ++ " send stream device requires exactly one element in 'to_address'", ?_⟩
    cases hto : d.ToAddress with
    | none => simp [moduleAddress, ht, hto]
    | some as =>
      match as, hto with
      | [], hto => simp [moduleAddress, ht, hto]
      | [a], hto => simp [AddressList.Len, hto] at hl
      | a :: b :: rest, hto => simp [moduleAddress, ht, hto]
  · refine ⟨who ++ " receive stream device requires exactly one element in 'from_address'", ?_⟩
    cases hfrom : d.FromAddress with
    | none => simp [moduleAddress, ht, hss, hfrom]
    | some as =>
      match as, hfrom with
      | [], hfrom => simp [moduleAddress, ht, hss, hfrom]
      | [a], hfrom => simp [AddressList.Len, hfrom] at hl
      | a :: b :: rest, hfrom => simp [moduleAddress, ht, hss, hfrom]

theorem PipewireBackend.pw_reset_count {ω : Type} (L : NetLib) (H : Host ω)
    (b : PwState ω) (d : Device) (hen : d.GetEnabled = true)
    (h : (d.Typ = Sink ∧ AddressList.Len d.ToAddress ≠ 1) ∨
      (d.Typ = Source ∧ AddressList.Len d.FromAddress ≠ 1)) :
    (∃ e, (PipewireBackend.resetStreamDevice L H b d).1 = .error e) ∧
      (PipewireBackend.resetStreamDevice L H b d).2 = (PipewireBackend.removeDevice H b d).2 := by
  have hrem : (PipewireBackend.removeDevice H b d).1 = { d with NodeID := "" } := rfl
  obtain ⟨e, he⟩ := moduleAddress_count "pipewire" { d with NodeID := "" } h
  have hargs : pwModuleArgs L { d with NodeID := "" } = .error e := by
    simp [pwModuleArgs, he]
  constructor
  · refine ⟨"failed to start stream device: " ++ e, ?_⟩
    simp [PipewireBackend.resetStreamDevice, hen, hrem, PipewireBackend.createDevice, hargs]
  · simp [PipewireBackend.resetStreamDevice, hen, hrem, PipewireBackend.createDevice, hargs]

theorem PulseaudioBackend.pulse_reset_count {ω : Type} (L : NetLib) (H : Host ω)
    (w : ω) (d : Device) (hen : d.GetEnabled = true)
    (h : (d.Typ = Sink ∧ AddressList.Len d.ToAddress ≠ 1) ∨
      (d.Typ = Source ∧ AddressList.Len d.FromAddress ≠ 1)) :
    (∃ e, (PulseaudioBackend.resetStreamDevice L H w d).1 = .error e) ∧
      ((PulseaudioBackend.resetStreamDevice L H w d).2 = w ∨
        (PulseaudioBackend.resetStreamDevice L H w d).2 =
          (PulseaudioBackend.destroyStreamDevice H w d).2) := by
  by_cases hm : d.ModuleID = ""
  · obtain ⟨e, he⟩ := moduleAddress_count "pulseaudio" d h
    have hargs : pulseModuleArgs L d = .error e := by simp [pulseModuleArgs, he]
    constructor
    · exact ⟨e, by simp [PulseaudioBackend.resetStreamDevice, hen, hm, hargs]⟩
    · left
      simp [PulseaudioBackend.resetStreamDevice, hen, hm, hargs]
  · cases hd : (PulseaudioBackend.destroyStreamDevice H w d).1 with
    | error e0 =>
      obtain ⟨e, he⟩ := moduleAddress_count "pulseaudio" d h
      have hargs : pulseModuleArgs L d = .error e := by simp [pulseModuleArgs, he]
      constructor
      · exact ⟨e, by simp [PulseaudioBackend.resetStreamDevice, hen, hm, hd, hargs]⟩
      · right
        simp [PulseaudioBackend.resetStreamDevice, hen, hm, hd, hargs]
    | ok hh =>
      obtain ⟨e, he⟩ := moduleAddress_count "pulseaudio"
        { d with NodeID := hh.NodeID, ModuleID := hh.ModuleID } h
      have hargs : pulseModuleArgs L { d with NodeID := hh.NodeID, ModuleID := hh.ModuleID }
          = .error e := by simp [pulseModuleArgs, he]
      constructor
      · exact ⟨e, by simp [PulseaudioBackend.resetStreamDevice, hen, hm, hd, hargs]⟩
      · right
        simp [PulseaudioBackend.resetStreamDevice, hen, hm, hd, hargs]

/-- A create request whose address list has the wrong length and whose status
is not `disabled`, on a backend that refuses every such enabled device. -/
theorem createStreamDevice_count_refused {σ : Type} (E : Env σ) (fuel : Nat)
    (dm : DeviceManager σ) (dev : Device) (hl : dm.lastIndex < 2 ^ 64)
    (hsize : dm.usedNames.length < 2 ^ 64) (hfuel : dm.usedNames.length < fuel)
    (hB : ∀ b d, d.GetEnabled = true →
      ((d.Typ = Sink ∧ AddressList.Len d.ToAddress ≠ 1) ∨
        (d.Typ = Source ∧ AddressList.Len d.FromAddress ≠ 1)) →
      ∃ e, (E.backend.resetStreamDevice b d).1 = .error e)
    (hcount : (dev.Typ = Sink ∧ AddressList.Len dev.ToAddress ≠ 1) ∨
      (dev.Typ = Source ∧ AddressList.Len dev.FromAddress ≠ 1))
    (hstatus : dev.Status ≠ StatusDisabled) :
    ∃ e dm2, createStreamDevice E fuel dm dev = some (.error e, dm2) ∧
      dm2.store = dm.store ∧ dm2.deviceByUID = dm.deviceByUID ∧
      dm2.deviceByName = dm.deviceByName ∧
      (dm2.backend = dm.backend ∨ ∃ d, d.GetEnabled = true ∧
        ((d.Typ = Sink ∧ AddressList.Len d.ToAddress ≠ 1) ∨
          (d.Typ = Source ∧ AddressList.Len d.FromAddress ≠ 1)) ∧
        dm2.backend = (E.backend.resetStreamDevice dm.backend d).2) := by
  rcases createStreamDevice_total E fuel dm dev hl hsize hfuel with
    ⟨e, _, h⟩ | ⟨_, _, _, h⟩ | ⟨_, named, dm1, hc, hs, hu, hn, hb, hnamed, h⟩
  · exact ⟨e, dm, h, rfl, rfl, rfl, Or.inl rfl⟩
  · exact ⟨_, dm, h, rfl, rfl, rfl, Or.inl rfl⟩
  · have g : named.Typ = dev.Typ ∧ named.ToAddress = dev.ToAddress ∧
        named.FromAddress = dev.FromAddress ∧ named.Status = dev.Status := by
      rcases hnamed with ⟨_, h1⟩ | ⟨_, n, _, _, h1⟩ <;> rw [h1] <;> exact ⟨rfl, rfl, rfl, rfl⟩
    obtain ⟨_, f2, _, _, _, _, _, f8, _, _, _, f12, f13⟩ :=
      createStreamDevice.defaults_fields E named
    rw [g.1] at f2
    rw [g.2.2.2] at f8
    rw [g.2.1] at f12
    rw [g.2.2.1] at f13
    generalize createStreamDevice.defaults E named = d0 at h f2 f8 f12 f13
    have hen : d0.GetEnabled = true := by
      have : d0.Status ≠ StatusDisabled := by
        rw [f8]
        by_cases hc2 : dev.Status = "" ∨ dev.Status = StatusUnavailable
        · rw [if_pos hc2]; decide
        · rw [if_neg hc2]; exact hstatus
      simpa [Device.GetEnabled] using this
    have hbad : (d0.Typ = Sink ∧ AddressList.Len d0.ToAddress ≠ 1) ∨
        (d0.Typ = Source ∧ AddressList.Len d0.FromAddress ≠ 1) := by
      rw [f2, f12, f13]; exact hcount
    obtain ⟨e0, he0⟩ := hB dm.backend d0 hen hbad
    rcases createStreamDevice.create_order E dm dm1 d0 hc hs hu hn hb with
      ⟨_, h2, _, h3, h4, h5, h6⟩ | ⟨e, _, _, h2, h3, h4, h5, h6⟩ |
      ⟨hd, e, _, h1, _⟩ | ⟨hd, _, h1, _⟩
    · exact ⟨.deviceExists d0.UID, (createStreamDevice.create E dm1 d0).2,
        by rw [h]; exact congrArg some (Prod.ext h2 rfl), h4, h5, h6, Or.inl h3⟩
    · exact ⟨.backend e, (createStreamDevice.create E dm1 d0).2,
        by rw [h]; exact congrArg some (Prod.ext h2 rfl), h4, h5, h6,
        Or.inr ⟨d0, hen, hbad, h3⟩⟩
    · rw [he0] at h1; cases h1
    · rw [he0] at h1; cases h1

/-- C8, as the code has it: a create request for a sink whose `to_address`
does not hold exactly one address, or for a source whose `from_address` does
not, with a status other than `disabled`, is answered with an error by the
manager over the PipeWire backend and by the manager over the PulseAudio
backend; the store and both maps are as before and the backend is either
untouched or has only removed the previous incarnation of the device. -/
theorem createStreamDevice_address_count {ω : Type} (L : NetLib) (H : Host ω) (machine : String)
    (fuel : Nat) (dev : Device)
    (hcount : (dev.Typ = Sink ∧ AddressList.Len dev.ToAddress ≠ 1) ∨
      (dev.Typ = Source ∧ AddressList.Len dev.FromAddress ≠ 1))
    (hstatus : dev.Status ≠ StatusDisabled) :
    (∀ dm : DeviceManager (PwState ω), dm.lastIndex < 2 ^ 64 → dm.usedNames.length < 2 ^ 64 →
      dm.usedNames.length < fuel →
      ∃ e dm2,
        createStreamDevice { net := L, backend := PipewireBackend L H, machine := machine }
          fuel dm dev = some (.error e, dm2) ∧
        dm2.store = dm.store ∧ dm2.deviceByUID = dm.deviceByUID ∧
        dm2.deviceByName = dm.deviceByName ∧
        (dm2.backend = dm.backend ∨
          ∃ d, dm2.backend = (PipewireBackend.removeDevice H dm.backend d).2)) ∧
    (∀ dm : DeviceManager ω, dm.lastIndex < 2 ^ 64 → dm.usedNames.length < 2 ^ 64 →
      dm.usedNames.length < fuel →
      ∃ e dm2,
        createStreamDevice { net := L, backend := PulseaudioBackend L H, machine := machine }
          fuel dm dev = some (.error e, dm2) ∧
        dm2.store = dm.store ∧ dm2.deviceByUID = dm.deviceByUID ∧
        dm2.deviceByName = dm.deviceByName ∧
        (dm2.backend = dm.backend ∨
          ∃ d, dm2.backend = (PulseaudioBackend.destroyStreamDevice H dm.backend d).2)) := by
  constructor
  · intro dm hl hsize hfuel
    obtain ⟨e, dm2, h1, h2, h3, h4, h5⟩ := createStreamDevice_count_refused
      { net := L, backend := PipewireBackend L H, machine := machine } fuel dm dev hl hsize hfuel
      (fun b d hen hbad => (PipewireBackend.pw_reset_count L H b d hen hbad).1)
      hcount hstatus
    refine ⟨e, dm2, h1, h2, h3, h4, ?_⟩
    rcases h5 with h5 | ⟨d, hen, hbad, h5⟩
    · exact Or.inl h5
    · right
      refine ⟨d, ?_⟩
      rw [h5]
      exact (PipewireBackend.pw_reset_count L H dm.backend d hen hbad).2
  · intro dm hl hsize hfuel
    obtain ⟨e, dm2, h1, h2, h3, h4, h5⟩ := createStreamDevice_count_refused
      { net := L, backend := PulseaudioBackend L H, machine := machine } fuel dm dev hl hsize hfuel
      (fun b d hen hbad => (PulseaudioBackend.pulse_reset_count L H b d hen hbad).1)
      hcount hstatus
    refine ⟨e, dm2, h1, h2, h3, h4, ?_⟩
    rcases h5 with h5 | ⟨d, hen, hbad, h5⟩
    · exact Or.inl h5
    · rcases (PulseaudioBackend.pulse_reset_count L H dm.backend d hen hbad).2 with h6 | h6
      · left
        rw [h5]; exact h6
      · right
        exact ⟨d, by rw [h5]; exact h6⟩

/-- C7 fails as stated: a request with empty uid, names and status that
carries `muted: true` is created muted, in the index and in the store. -/
theorem createStreamDevice_keeps_muted :
    (createStreamDevice Sample.pulse 1 (Sample.manager [] [] []) Sample.request).map
      (fun r => (errOf r.1, r.2.deviceByUID.values.map Device.IsMuted,
        r.2.store.devices.values.map Device.IsMuted)) =
      some (none, [some true], [some true]) := by
  decide

/-- C7 (as the code has it) at the muted request on a fresh manager. -/
theorem createStreamDevice_defaults_witness :
    ∃ created : Device,
      created.SystemName = deviceName Sink 7 1 ∧ created.DisplayName = "Roc Sender" ∧
      created.Status = StatusEnabled ∧ created.IsMuted = some true ∧
      created.UID = makeDeviceUID "m" created.SystemName := by
  obtain ⟨n, c, h1, _, _, h4, h5, _, h7, h8, _, _, h11, _⟩ :=
    createStreamDevice_defaults Sample.pulse 1 (Sample.manager [] [] []) Sample.request _ _
      Sample.create_result rfl rfl rfl rfl
  have hn : n = 1 := h4 rfl rfl rfl
  rw [hn] at h1
  refine ⟨c, h1, ?_, h7, h8, h11⟩
  rcases h5 with ⟨_, h⟩ | ⟨h, _⟩
  · exact h
  · exact absurd h (by decide)

/-- C8 fails as stated: a sink request with status `disabled` and no
`to_address` is created by the manager over the PipeWire backend; the device
is saved and indexed with an empty address list. -/
theorem createStreamDevice_disabled_without_address :
    (createStreamDevice Sample.pipewire 1
        (Sample.manager { streamDevMap := [], world := [] } [] [])
        { Sample.blank with Typ := Sink, Status := StatusDisabled }).map
      (fun r => (errOf r.1,
        r.2.deviceByUID.values.map Device.Status, r.2.deviceByUID.values.map Device.ToAddress)) =
      some (none, [StatusDisabled], [some []]) ∧
    (createStreamDevice Sample.pipewire 1
        (Sample.manager { streamDevMap := [], world := [] } [] [])
        { Sample.blank with Typ := Sink, Status := StatusDisabled }).map
      (fun r => (r.2.store.devices.values.map Device.Status,
        r.2.store.devices.values.map Device.ToAddress)) =
      some ([StatusDisabled], [some []]) := by
  decide

/-- C8 (as the code has it) at a sink request without `to_address` and with
empty status, on the PulseAudio backend of the sample host. -/
theorem createStreamDevice_address_count_witness :
    ∃ e dm2,
      createStreamDevice
        { net := Sample.net, backend := PulseaudioBackend Sample.net Sample.host, machine := "m" }
        1 (Sample.manager [] [] []) { Sample.blank with Typ := Sink } = some (.error e, dm2) ∧
      dm2.store = (Sample.manager ([] : List (List String)) [] []).store ∧
      dm2.deviceByUID = (Sample.manager ([] : List (List String)) [] []).deviceByUID ∧
      dm2.deviceByName = (Sample.manager ([] : List (List String)) [] []).deviceByName ∧
      (dm2.backend = (Sample.manager ([] : List (List String)) [] []).backend ∨
        ∃ d, dm2.backend = (PulseaudioBackend.destroyStreamDevice Sample.host
          (Sample.manager ([] : List (List String)) [] []).backend d).2) :=
  (createStreamDevice_address_count Sample.net Sample.host "m" 1 { Sample.blank with Typ := Sink }
    (by decide) (by decide)).2 (Sample.manager [] [] []) (by decide) (by decide) (by decide)

/-- C9 at the sample request on a fresh manager over the PulseAudio backend. -/
theorem createStreamDevice_backend_first_witness :
    (createStreamDevice Sample.pulse 1 (Sample.manager [] [] []) Sample.request).isSome = true := by
  obtain ⟨r, h, _⟩ := createStreamDevice_backend_first Sample.pulse 1 (Sample.manager [] [] [])
    Sample.request (by decide) (by decide) (by decide) (by decide)
  rw [h]; rfl

/-! ## rereadDevices -/

theorem DeviceMap.delete_subset (m : DeviceMap) (k : String) : m.delete k ⊆ m := by
  intro e he
  exact (List.mem_filter.1 he).1

theorem DeviceMap.not_mem_keys_delete (m : DeviceMap) (k : String) :
    k ∉ (m.delete k).map Prod.fst := by
  intro h
  rw [List.mem_map] at h
  obtain ⟨e, he, hk⟩ := h
  have := (List.mem_filter.1 he).2
  simp [hk] at this

theorem DeviceMap.nodupKeys_delete (m : DeviceMap) (k : String) (h : m.NodupKeys) :
    (m.delete k).NodupKeys := by
  unfold DeviceMap.NodupKeys at *
  exact List.Nodup.sublist (List.Sublist.map _ (List.filter_sublist m)) h

theorem DeviceMap.nodupKeys_set (m : DeviceMap) (k : String) (d : Device) (h : m.NodupKeys) :
    (m.set k d).NodupKeys := by
  unfold DeviceMap.NodupKeys DeviceMap.set
  rw [List.map_cons, List.nodup_cons]
  exact ⟨DeviceMap.not_mem_keys_delete m k, DeviceMap.nodupKeys_delete m k h⟩

theorem DeviceMap.keyedByUID_set (m : DeviceMap) (k : String) (d : Device)
    (h : m.KeyedByUID) (hk : k = d.UID) : (m.set k d).KeyedByUID := by
  intro e he
  unfold DeviceMap.set at he
  rcases List.mem_cons.1 he with h1 | h1
  · rw [h1]; exact hk
  · exact h e (DeviceMap.delete_subset m k h1)

/-- In a map without repeated keys an entry is what `get` returns. -/
theorem DeviceMap.get_of_mem (m : DeviceMap) (h : m.NodupKeys) (k : String) (d : Device)
    (hm : (k, d) ∈ m) : m.get k = some d := by
  induction m with
  | nil => simp at hm
  | cons e m ih =>
    unfold DeviceMap.NodupKeys at h
    rw [List.map_cons, List.nodup_cons] at h
    rw [DeviceMap.get_cons]
    rcases List.mem_cons.1 hm with h1 | h1
    · rw [← h1]; simp
    · have hne : k ≠ e.1 := by
        intro hk
        apply h.1
        rw [← hk]
        exact List.mem_map.2 ⟨(k, d), h1, rfl⟩
      simp only [hne, if_false]
      exact ih h.2 h1

/-- A map on which every `get` misses is empty. -/
theorem DeviceMap.eq_nil_of_get (m : DeviceMap) (h : ∀ k, m.get k = none) : m = [] := by
  cases m with
  | nil => rfl
  | cons e m =>
    have := h e.1
    rw [DeviceMap.get_cons] at this
    simp at this

/-- The uid of a device found under `k` in a map keyed by uid. -/
theorem DeviceMap.uid_of_get (m : DeviceMap) (h : m.KeyedByUID) (k : String) (d : Device)
    (hg : m.get k = some d) : d.UID = k :=
  (h (k, d) (DeviceMap.mem_of_get m k d hg)).symm

/-- In a map keyed by uid, `get` is the search of the values by uid. -/
theorem DeviceMap.get_eq_find (m : DeviceMap) (h : m.KeyedByUID) (k : String) :
    m.get k = m.values.find? (fun d => d.UID == k) := by
  induction m with
  | nil => rfl
  | cons e m ih =>
    have he : e.1 = e.2.UID := h e (List.mem_cons_self _ _)
    have hm : DeviceMap.KeyedByUID m := fun x hx => h x (List.mem_cons_of_mem _ hx)
    rw [DeviceMap.get_cons]
    show _ = List.find? _ (e.2 :: DeviceMap.values m)
    rw [List.find?_cons]
    by_cases hk : k = e.1
    · have : (e.2.UID == k) = true := by rw [← he, hk]; simp
      rw [this, if_pos hk]
    · have : (e.2.UID == k) = false := by
        rw [← he]; simpa using fun h2 => hk h2.symm
      rw [this, if_neg hk]
      exact ih hm

theorem DeviceMap.values_uid_nodup (m : DeviceMap) (h1 : m.NodupKeys) (h2 : m.KeyedByUID) :
    (m.values.map Device.UID).Nodup := by
  have : m.values.map Device.UID = m.map Prod.fst := by
    unfold DeviceMap.values
    rw [List.map_map]
    apply List.map_congr_left
    intro e he
    exact (h2 e he).symm
  rw [this]; exact h1

/-- A loop that stores, for each device of a list without repeated uids, a
value chosen by `pick` under the uid of the device, or nothing. -/
theorem DeviceMap.get_foldl_pick (pick : Device → Option Device) :
    ∀ (l : List Device) (m0 : DeviceMap) (k : String), (l.map Device.UID).Nodup →
      (l.foldl (fun (m : DeviceMap) d => (pick d).elim m (fun v => m.set d.UID v)) m0).get k =
        match l.find? (fun d => d.UID == k) with
        | none => m0.get k
        | some d =>
          match pick d with
          | none => m0.get k
          | some v => some v := by
  intro l
  induction l with
  | nil => intro m0 k _; rfl
  | cons d l ih =>
    intro m0 k hnd
    rw [List.map_cons, List.nodup_cons] at hnd
    rw [List.foldl_cons, ih _ k hnd.2, List.find?_cons]
    by_cases hk : d.UID = k
    · have hb : (d.UID == k) = true := by simp [hk]
      have hnone : l.find? (fun d => d.UID == k) = none := by
        rw [List.find?_eq_none]
        intro x hx hxk
        apply hnd.1
        have : x.UID = k := by simpa using hxk
        rw [hk, ← this]
        exact List.mem_map_of_mem _ hx
      simp only [hb, hnone]
      cases hp : pick d with
      | none => rfl
      | some v => simp [Option.elim, DeviceMap.get_set, hk]
    · have hb : (d.UID == k) = false := by simpa using hk
      simp only [hb]
      have hm : ∀ m1 : DeviceMap, (pick d).elim m0 (fun v => m0.set d.UID v) = m1 →
          m1.get k = m0.get k := by
        intro m1 h1
        rw [← h1]
        cases pick d with
        | none => rfl
        | some v =>
          simp only [Option.elim, DeviceMap.get_set]
          have : k ≠ d.UID := fun h => hk h.symm
          simp [this]
      rw [hm _ rfl]

theorem DeviceMap.foldl_pick_inv (pick : Device → Option Device)
    (hp : ∀ d v, pick d = some v → v.UID = d.UID) :
    ∀ (l : List Device) (m0 : DeviceMap), m0.NodupKeys → m0.KeyedByUID →
      (l.foldl (fun (m : DeviceMap) d => (pick d).elim m (fun v => m.set d.UID v)) m0).NodupKeys ∧
      (l.foldl (fun (m : DeviceMap) d => (pick d).elim m (fun v => m.set d.UID v)) m0).KeyedByUID := by
  intro l
  induction l with
  | nil => intro m0 h1 h2; exact ⟨h1, h2⟩
  | cons d l ih =>
    intro m0 h1 h2
    rw [List.foldl_cons]
    apply ih
    · cases hpd : pick d with
      | none => exact h1
      | some v => exact DeviceMap.nodupKeys_set _ _ _ h1
    · cases hpd : pick d with
      | none => exact h2
      | some v => exact DeviceMap.keyedByUID_set _ _ _ h2 (hp d v hpd).symm

theorem collectDevices_eq (l : List Device) :
    collectDevices l = l.foldl (fun (m : DeviceMap) d =>
      ((fun x : Device => some x.SetDefaults) d).elim m (fun v => m.set d.UID v)) [] := by
  unfold collectDevices
  congr 1
  funext m d
  simp only [Option.elim, (Device.SetDefaults_fields d).1]

/-- The map collected from a list of devices has unique keys and holds every
device under its uid. -/
theorem collectDevices_inv (l : List Device) :
    (collectDevices l).NodupKeys ∧ (collectDevices l).KeyedByUID := by
  rw [collectDevices_eq]
  apply DeviceMap.foldl_pick_inv (fun x : Device => some x.SetDefaults)
  · intro d v h
    simp only [Option.some.injEq] at h
    rw [← h]
    exact (Device.SetDefaults_fields d).1
  · exact List.nodup_nil
  · intro e he; simp at he

/-- The devices collected from a store are its devices with defaults. -/
theorem collectDevices_store (ps : PersistStore) (h : ps.WF) (k : String) :
    (collectDevices ps.LoadStreamDevices).get k = (ps.devices.get k).map Device.SetDefaults := by
  rw [collectDevices_eq]
  unfold PersistStore.LoadStreamDevices
  rw [DeviceMap.get_foldl_pick (fun x : Device => some x.SetDefaults) _ _ _
    (DeviceMap.values_uid_nodup ps.devices h.1 h.2)]
  rw [DeviceMap.get_eq_find ps.devices h.2 k]
  cases List.find? (fun d => d.UID == k) ps.devices.values with
  | none => rfl
  | some d => rfl

/-- Every device of a collected map has its defaults. -/
theorem collectDevices_defaulted (l : List Device) (k : String) (d : Device)
    (h : (collectDevices l).get k = some d) : d.SetDefaults = d := by
  have key : ∀ (l : List Device) (m0 : DeviceMap),
      (∀ k d, m0.get k = some d → d.SetDefaults = d) →
      ∀ k d, (l.foldl (fun (m : DeviceMap) dev => m.set dev.SetDefaults.UID dev.SetDefaults)
        m0).get k = some d → d.SetDefaults = d := by
    intro l
    induction l with
    | nil => intro m0 h0 k d h; exact h0 k d h
    | cons a l ih =>
      intro m0 h0 k d h
      rw [List.foldl_cons] at h
      refine ih _ ?_ k d h
      intro k2 d2 h2
      rw [DeviceMap.get_set] at h2
      by_cases hk : k2 = a.SetDefaults.UID
      · simp only [hk, if_true, Option.some.injEq] at h2
        rw [← h2]
        exact Device.SetDefaults_idem a
      · simp only [hk, if_false] at h2
        exact h0 k2 d2 h2
  exact key l [] (fun k d h => by simp [DeviceMap.get_nil] at h) k d h

/-- A uid is missing from the collected map exactly when no device of the
list has it. -/
theorem collectDevices_get_none (l : List Device) (k : String) :
    (collectDevices l).get k = none ↔ ∀ a ∈ l, a.UID ≠ k := by
  have key : ∀ (l : List Device) (m0 : DeviceMap),
      (l.foldl (fun (m : DeviceMap) dev => m.set dev.SetDefaults.UID dev.SetDefaults)
        m0).get k = none ↔ (m0.get k = none ∧ ∀ a ∈ l, a.UID ≠ k) := by
    intro l
    induction l with
    | nil => intro m0; simp
    | cons a l ih =>
      intro m0
      rw [List.foldl_cons, ih, DeviceMap.get_set, (Device.SetDefaults_fields a).1]
      by_cases hk : k = a.UID
      · simp [hk]
      · have hk2 : a.UID ≠ k := fun h => hk h.symm
        simp [hk, hk2]
  have := key l []
  simpa [DeviceMap.get_nil] using this

theorem rereadDevices.updated_eq (S B : DeviceMap) :
    rereadDevices.updated S B = S.values.foldl (fun (m : DeviceMap) d =>
      ((fun s : Device => (B.get s.UID).bind (fun b =>
        if (!b.IsStream || b.Equal s) = true then none else some b)) d).elim m
        (fun v => m.set d.UID v)) [] := by
  unfold rereadDevices.updated
  congr 1
  funext m d
  cases hg : B.get d.UID with
  | none => simp [hg]
  | some b =>
    by_cases hc : (!b.IsStream || b.Equal d) = true
    · have hc2 : b.IsStream = false ∨ b.Equal d = true := by simpa using hc
      simp [hg, hc2]
    · have hc2 : ¬ (b.IsStream = false ∨ b.Equal d = true) := by simpa using hc
      have hc3 : ¬ (b.IsStream = false) ∧ ¬ (b.Equal d = true) := not_or.1 hc2
      simp [hg, hc2, hc3.1, hc3.2]

/-- The map `updatedDevices`: a saved device is replaced by the backend device
of the same uid when that one is a stream device and differs. -/
theorem rereadDevices.updated_get (S B : DeviceMap) (h1 : S.NodupKeys) (h2 : S.KeyedByUID)
    (k : String) :
    (rereadDevices.updated S B).get k =
      match S.get k with
      | none => none
      | some s =>
        match B.get k with
        | none => none
        | some b => if (!b.IsStream || b.Equal s) = true then none else some b := by
  rw [rereadDevices.updated_eq, DeviceMap.get_foldl_pick (fun s : Device => (B.get s.UID).bind
    (fun b => if (!b.IsStream || b.Equal s) = true then none else some b)) _ _ _
    (DeviceMap.values_uid_nodup S h1 h2), DeviceMap.get_eq_find S h2 k]
  cases hf : List.find? (fun d => d.UID == k) S.values with
  | none => rfl
  | some s =>
    have hs : s.UID = k := by
      have := List.find?_some hf
      simpa using this
    simp only [hs]
    cases hg : B.get k with
    | none => rfl
    | some b =>
      by_cases hc : (!b.IsStream || b.Equal s) = true
      · simp only [Option.some_bind, hc, if_true]
        rfl
      · simp only [Option.some_bind, hc, if_false]
        rfl

theorem rereadDevices.updated_inv (S B : DeviceMap) (hB : B.KeyedByUID) :
    (rereadDevices.updated S B).NodupKeys ∧ (rereadDevices.updated S B).KeyedByUID := by
  rw [rereadDevices.updated_eq]
  apply DeviceMap.foldl_pick_inv (fun s : Device => (B.get s.UID).bind
    (fun b => if (!b.IsStream || b.Equal s) = true then none else some b))
  · intro d v h
    cases hg : B.get d.UID with
    | none => simp [hg] at h
    | some b =>
      simp only [hg, Option.some_bind] at h
      by_cases hc : (!b.IsStream || b.Equal d) = true
      · rw [if_pos hc] at h; cases h
      · rw [if_neg hc] at h
        simp only [Option.some.injEq] at h
        rw [← h]
        exact DeviceMap.uid_of_get B hB _ _ hg
  · exact List.nodup_nil
  · intro e he; simp at he

/-- The second loop of the rebuilt `deviceByUID`: a saved device enters only
under a uid the map does not hold yet, an enabled one as unavailable. -/
theorem rereadDevices.byUID_loop (l : List Device) :
    ∀ (m0 : DeviceMap) (k : String),
      (l.foldl (fun (m : DeviceMap) dev =>
        if (m.get dev.UID).isSome then m
        else
          let dev := if dev.Status = StatusEnabled then { dev with Status := StatusUnavailable }
            else dev
          m.set dev.UID dev) m0).get k =
        match m0.get k with
        | some b => some b
        | none => (l.find? (fun d => d.UID == k)).map (fun dev =>
            if dev.Status = StatusEnabled then { dev with Status := StatusUnavailable } else dev)
      := by
  induction l with
  | nil =>
    intro m0 k
    simp only [List.foldl_nil, List.find?_nil, Option.map_none']
    cases m0.get k <;> rfl
  | cons d l ih =>
    intro m0 k
    have huid : (if d.Status = StatusEnabled then { d with Status := StatusUnavailable }
        else d).UID = d.UID := by
      by_cases hs : d.Status = StatusEnabled <;> simp [hs]
    rw [List.foldl_cons, ih, List.find?_cons]
    by_cases hsome : (m0.get d.UID).isSome = true
    · simp only [hsome, if_true]
      by_cases hk : d.UID = k
      · have hb : (d.UID == k) = true := by simp [hk]
        rw [hk] at hsome
        cases hg : m0.get k with
        | none => rw [hg] at hsome; cases hsome
        | some b => rfl
      · have hb : (d.UID == k) = false := by simpa using hk
        simp only [hb]
    · simp only [hsome, Bool.false_eq_true, if_false]
      rw [DeviceMap.get_set, huid]
      by_cases hk : d.UID = k
      · have hb : (d.UID == k) = true := by simp [hk]
        have hnone : m0.get k = none := by
          rw [hk] at hsome
          cases hg : m0.get k with
          | none => rfl
          | some b => rw [hg] at hsome; simp at hsome
        simp [hk, hb, hnone]
      · have hb : (d.UID == k) = false := by simpa using hk
        have hk2 : k ≠ d.UID := fun h => hk h.symm
        simp only [hb, hk2, if_false]

/-- The rebuilt `deviceByUID`: the backend device of a uid, or else the saved
one, an enabled one as unavailable. -/
theorem rereadDevices.byUID_get (S B : DeviceMap) (hS : S.KeyedByUID) (hB1 : B.NodupKeys)
    (hB2 : B.KeyedByUID) (k : String) :
    (rereadDevices.byUID S B).get k =
      match B.get k with
      | some b => some b
      | none => (S.get k).map (fun dev =>
          if dev.Status = StatusEnabled then { dev with Status := StatusUnavailable } else dev)
      := by
  unfold rereadDevices.byUID
  simp only []
  rw [rereadDevices.byUID_loop]
  have hfirst : (B.values.foldl (fun (m : DeviceMap) dev => m.set dev.UID dev) []).get k
      = B.get k := by
    have := DeviceMap.get_foldl_pick (fun d => some d) B.values [] k
      (DeviceMap.values_uid_nodup B hB1 hB2)
    have h2 : (B.values.foldl (fun (m : DeviceMap) dev => m.set dev.UID dev) []).get k =
        (List.foldl (fun (m : DeviceMap) d => (some d).elim m fun v => m.set d.UID v)
          [] B.values).get k := rfl
    rw [h2, this, DeviceMap.get_eq_find B hB2 k]
    cases List.find? (fun d => d.UID == k) B.values <;> rfl
  rw [hfirst, DeviceMap.get_eq_find S hS k]

/-- `fetchDevices` touches the backend and the calls only, and every call it
issues is a `fetchDevices` of the backend; the attempts but the last failed. -/
theorem fetchAttempts_frame {σ : Type} (E : Env σ) :
    ∀ (n : Nat) (dm : DeviceManager σ),
      (fetchAttempts E n dm).2.store = dm.store ∧
      (fetchAttempts E n dm).2.deviceByUID = dm.deviceByUID ∧
      (fetchAttempts E n dm).2.deviceByName = dm.deviceByName ∧
      (fetchAttempts E n dm).2.baseIndex = dm.baseIndex ∧
      (fetchAttempts E n dm).2.lastIndex = dm.lastIndex ∧
      ∃ evs, (fetchAttempts E n dm).2.calls = dm.calls ++ evs ∧
        evs.length ≤ n ∧
        (∀ ev ∈ evs, ev.call = Call.fetchDevices) ∧
        ((∀ ev ∈ evs, ev.err ≠ none) → evs.length = n ∧ (fetchAttempts E n dm).1 = []) := by
  intro n
  induction n with
  | zero =>
    intro dm
    exact ⟨rfl, rfl, rfl, rfl, rfl, [], by simp [fetchAttempts], by simp, by simp,
      fun _ => ⟨rfl, rfl⟩⟩
  | succ n ih =>
    intro dm
    cases hr : (E.backend.fetchDevices dm.backend dm.store.devices).1 with
    | ok devices =>
      have heq : fetchAttempts E (n + 1) dm = (devices, { dm with
          backend := (E.backend.fetchDevices dm.backend dm.store.devices).2
          calls := dm.calls ++ [{ call := Call.fetchDevices, err := none }] }) := by
        simp only [fetchAttempts, hr]
      rw [heq]
      refine ⟨rfl, rfl, rfl, rfl, rfl, [{ call := Call.fetchDevices, err := none }], rfl,
        by simp, by simp, ?_⟩
      intro h
      have := h _ (List.mem_singleton.2 rfl)
      simp at this
    | error e =>
      have heq : fetchAttempts E (n + 1) dm = fetchAttempts E n { dm with
          backend := (E.backend.fetchDevices dm.backend dm.store.devices).2
          calls := dm.calls ++ [{ call := Call.fetchDevices, err := some (.backend e) }] } := by
        simp only [fetchAttempts, hr]
      rw [heq]
      obtain ⟨h1, h2, h3, h4, h5, evs, h6, h7, h8, h9⟩ := ih { dm with
        backend := (E.backend.fetchDevices dm.backend dm.store.devices).2
        calls := dm.calls ++ [{ call := Call.fetchDevices, err := some (.backend e) }] }
      refine ⟨h1, h2, h3, h4, h5,
        { call := Call.fetchDevices, err := some (.backend e) } :: evs, ?_, ?_, ?_, ?_⟩
      · rw [h6]; simp
      · simp; exact h7
      · intro ev hev
        rcases List.mem_cons.1 hev with h | h
        · rw [h]
        · exact h8 ev h
      · intro h
        obtain ⟨h10, h11⟩ := h9 (fun ev hev => h ev (List.mem_cons_of_mem _ hev))
        exact ⟨by simp [h10], h11⟩

theorem PersistStore.saveLoop_get :
    ∀ (l : List Device) (acc r : DeviceMap × Bool), (l.map Device.UID).Nodup →
      PersistStore.saveLoop l acc = .ok r →
      ∀ k, r.1.get k =
        match l.find? (fun d => d.UID == k) with
        | some d => some d
        | none => acc.1.get k := by
  intro l
  induction l with
  | nil =>
    intro acc r _ h k
    simp only [PersistStore.saveLoop, Except.ok.injEq] at h
    rw [← h]; rfl
  | cons d l ih =>
    intro acc r hnd h k
    rw [List.map_cons, List.nodup_cons] at hnd
    have hnone : d.UID = k → l.find? (fun d => d.UID == k) = none := by
      intro hk
      rw [List.find?_eq_none]
      intro x hx hxk
      apply hnd.1
      have : x.UID = k := by simpa using hxk
      rw [hk, ← this]
      exact List.mem_map_of_mem _ hx
    rw [List.find?_cons]
    unfold PersistStore.saveLoop at h
    by_cases hs : d.IsStream = true
    · simp only [hs, Bool.not_true, Bool.false_eq_true, if_false] at h
      by_cases hk : d.UID = k
      · have hb : (d.UID == k) = true := by simp [hk]
        simp only [hb]
        cases hg : acc.1.get d.UID with
        | none =>
          rw [hg] at h
          rw [ih _ r hnd.2 h k, hnone hk]
          simp [DeviceMap.get_set, hk]
        | some old =>
          rw [hg] at h
          by_cases he : old.Equal d = true
          · simp only [he, if_true] at h
            rw [ih _ r hnd.2 h k, hnone hk]
            have : old = d := by simpa [Device.Equal] using he
            simp only
            rw [← hk, hg, this]
          · simp only [he, if_false] at h
            rw [ih _ r hnd.2 h k, hnone hk]
            simp [DeviceMap.get_set, hk]
      · have hb : (d.UID == k) = false := by simpa using hk
        have hk2 : k ≠ d.UID := fun h => hk h.symm
        simp only [hb]
        cases hg : acc.1.get d.UID with
        | none =>
          rw [hg] at h
          rw [ih _ r hnd.2 h k]
          simp [DeviceMap.get_set, hk2]
        | some old =>
          rw [hg] at h
          by_cases he : old.Equal d = true
          · simp only [he, if_true] at h
            rw [ih _ r hnd.2 h k]
          · simp only [he, if_false] at h
            rw [ih _ r hnd.2 h k]
            simp [DeviceMap.get_set, hk2]
    · simp [hs] at h

theorem PersistStore.saveLoop_inv :
    ∀ (l : List Device) (acc r : DeviceMap × Bool),
      PersistStore.saveLoop l acc = .ok r → acc.1.NodupKeys → acc.1.KeyedByUID →
      r.1.NodupKeys ∧ r.1.KeyedByUID := by
  intro l
  induction l with
  | nil =>
    intro acc r h h1 h2
    simp only [PersistStore.saveLoop, Except.ok.injEq] at h
    rw [← h]; exact ⟨h1, h2⟩
  | cons d l ih =>
    intro acc r h h1 h2
    unfold PersistStore.saveLoop at h
    by_cases hs : d.IsStream = true
    · simp only [hs, Bool.not_true, Bool.false_eq_true, if_false] at h
      cases hg : acc.1.get d.UID with
      | none =>
        rw [hg] at h
        exact ih _ r h (DeviceMap.nodupKeys_set _ _ _ h1)
          (DeviceMap.keyedByUID_set _ _ _ h2 rfl)
      | some old =>
        rw [hg] at h
        by_cases he : old.Equal d = true
        · simp only [he, if_true] at h
          exact ih _ r h h1 h2
        · simp only [he, if_false] at h
          exact ih _ r h (DeviceMap.nodupKeys_set _ _ _ h1)
            (DeviceMap.keyedByUID_set _ _ _ h2 rfl)
    · simp [hs] at h

/-- After a successful `SaveStreamDevices` of a map keyed by uid the store
holds its devices and, under the other uids, what it held; its map is still
keyed by uid without repeated keys. -/
theorem PersistStore.SaveStreamDevices_ok (ps : PersistStore) (U : DeviceMap)
    (hU1 : U.NodupKeys) (hU2 : U.KeyedByUID) (hwf : ps.WF)
    (h : (ps.SaveStreamDevices U).1 = .ok ()) :
    (ps.SaveStreamDevices U).2.WF ∧
    ∀ k, (ps.SaveStreamDevices U).2.devices.get k =
      match U.get k with
      | some d => some d
      | none => ps.devices.get k := by
  unfold PersistStore.SaveStreamDevices at h ⊢
  cases hl : PersistStore.saveLoop U.values (ps.devices, false) with
  | error e => rw [hl] at h; simp at h
  | ok r =>
    obtain ⟨m2, c2⟩ := r
    have hget := PersistStore.saveLoop_get U.values _ _ (DeviceMap.values_uid_nodup U hU1 hU2) hl
    have hinv := PersistStore.saveLoop_inv U.values _ _ hl hwf.1 hwf.2
    simp only at hget hinv
    have hdev : (if (!c2) = true then
          ((Except.ok () : Except Err Unit), ({ ps with devices := m2 } : PersistStore))
        else PersistStore.save { ps with devices := m2 }).2.devices = m2 := by
      cases c2 with
      | false => rfl
      | true => exact PersistStore.save_devices _
    simp only []
    constructor
    · unfold PersistStore.WF
      rw [hdev]
      exact hinv
    · intro k
      rw [hdev, hget k, DeviceMap.get_eq_find U hU2 k]

theorem fetchDevices_store {σ : Type} (E : Env σ) (dm : DeviceManager σ) :
    (fetchDevices E dm).2.store = dm.store :=
  (fetchAttempts_frame E fetchRetryCount dm).1

/-- A successful `rereadDevices`: both maps are rebuilt from the saved and the
fetched devices, and the store is written only when `updatedDevices` is not
empty. -/
theorem rereadDevices_ok {σ : Type} (E : Env σ) (dm : DeviceManager σ)
    (h : (rereadDevices E dm).1 = .ok ()) :
    (rereadDevices E dm).2.deviceByUID =
      rereadDevices.byUID (collectDevices dm.store.LoadStreamDevices)
        (collectDevices (fetchDevices E dm).1) ∧
    (rereadDevices E dm).2.deviceByName =
      rereadDevices.byName (collectDevices (fetchDevices E dm).1) ∧
    (rereadDevices E dm).2.backend = (fetchDevices E dm).2.backend ∧
    ((rereadDevices.updated (collectDevices dm.store.LoadStreamDevices)
          (collectDevices (fetchDevices E dm).1) = [] ∧
        (rereadDevices E dm).2.store = dm.store ∧
        (rereadDevices E dm).2.calls = (fetchDevices E dm).2.calls) ∨
      (rereadDevices.updated (collectDevices dm.store.LoadStreamDevices)
          (collectDevices (fetchDevices E dm).1) ≠ [] ∧
        (dm.store.SaveStreamDevices (rereadDevices.updated
          (collectDevices dm.store.LoadStreamDevices)
          (collectDevices (fetchDevices E dm).1))).1 = .ok () ∧
        (rereadDevices E dm).2.store = (dm.store.SaveStreamDevices (rereadDevices.updated
          (collectDevices dm.store.LoadStreamDevices)
          (collectDevices (fetchDevices E dm).1))).2 ∧
        (rereadDevices E dm).2.calls = (fetchDevices E dm).2.calls ++
          [{ call := .saveStreamDevices (rereadDevices.updated
              (collectDevices dm.store.LoadStreamDevices)
              (collectDevices (fetchDevices E dm).1)), err := none }])) := by
  have hst := fetchDevices_store E dm
  generalize hU : rereadDevices.updated (collectDevices dm.store.LoadStreamDevices)
    (collectDevices (fetchDevices E dm).1) = U at *
  unfold rereadDevices at h ⊢
  simp only [hU, hst] at h ⊢
  cases U with
  | nil =>
    simp [hst]
  | cons e U =>
    simp only [List.length_cons, ne_eq, Nat.add_one_ne_zero, not_false_eq_true, if_true] at h ⊢
    cases hs : (dm.store.SaveStreamDevices (e :: U)).1 with
    | error err => rw [hs] at h; simp at h
    | ok u =>
      simp [errOf]

/-- C1, as the code has it: after a successful `rereadDevices` over a
well-formed store and the fetched list `A`, the uid index holds a device with
status `unavailable` under a uid exactly when the backend device of that uid
is reported as `unavailable`, or no device of `A` has the uid and the device
saved under it has, after defaults, status `enabled` or `unavailable`. -/
theorem rereadDevices_unavailable {σ : Type} (E : Env σ) (dm : DeviceManager σ)
    (A : List Device) (hwf : dm.store.WF) (hfetch : (fetchDevices E dm).1 = A)
    (hok : (rereadDevices E dm).1 = .ok ()) (u : String) :
    (∃ d, (rereadDevices E dm).2.deviceByUID.get u = some d ∧ d.Status = StatusUnavailable) ↔
      ((∃ a, (collectDevices A).get u = some a ∧ a.Status = StatusUnavailable) ∨
        ((∀ a ∈ A, a.UID ≠ u) ∧ ∃ p, dm.store.devices.get u = some p ∧
          (p.SetDefaults.Status = StatusEnabled ∨ p.SetDefaults.Status = StatusUnavailable))) := by
  obtain ⟨hidx, _, _, _⟩ := rereadDevices_ok E dm hok
  rw [hfetch] at hidx
  rw [hidx, rereadDevices.byUID_get _ _ (collectDevices_inv _).2 (collectDevices_inv A).1
    (collectDevices_inv A).2, collectDevices_store dm.store hwf, ← collectDevices_get_none]
  cases hB : (collectDevices A).get u with
  | some b =>
    simp only
    constructor
    · rintro ⟨d, hd, hs⟩
      left
      simp only [Option.some.injEq] at hd
      exact ⟨d, by rw [hd], hs⟩
    · rintro (⟨a, ha, hs⟩ | ⟨h, _⟩)
      · exact ⟨a, ha, hs⟩
      · cases h
  | none =>
    simp only
    constructor
    · rintro ⟨d, hd, hs⟩
      right
      refine ⟨trivial, ?_⟩
      cases hp : dm.store.devices.get u with
      | none => rw [hp] at hd; simp at hd
      | some p =>
        rw [hp] at hd
        simp only [Option.map_some', Option.some.injEq] at hd
        refine ⟨p, rfl, ?_⟩
        by_cases he : p.SetDefaults.Status = StatusEnabled
        · exact Or.inl he
        · right
          rw [if_neg he] at hd
          rw [hd]; exact hs
    · rintro (⟨a, ha, _⟩ | ⟨_, p, hp, hs⟩)
      · cases ha
      · rw [hp]
        simp only [Option.map_some']
        by_cases he : p.SetDefaults.Status = StatusEnabled
        · exact ⟨_, by rw [if_pos he], rfl⟩
        · rcases hs with hs | hs
          · exact absurd hs he
          · exact ⟨_, by rw [if_neg he], hs⟩

/-- C1 fails as stated: a device saved with status `unavailable` and missing
from the backend is indexed as `unavailable`, although its status after
defaults is not `enabled`. -/
theorem rereadDevices_keeps_unavailable :
    (rereadDevices Sample.pulse (Sample.manager [] [] [Sample.sink StatusUnavailable])).1
      = .ok () ∧
    ((rereadDevices Sample.pulse
      (Sample.manager [] [] [Sample.sink StatusUnavailable])).2.deviceByUID.get "u1").map
        Device.Status = some StatusUnavailable ∧
    ((Sample.manager ([] : List (List String)) []
      [Sample.sink StatusUnavailable]).store.devices.get "u1").map
        (fun p => p.SetDefaults.Status) = some StatusUnavailable ∧
    (fetchDevices Sample.pulse (Sample.manager [] [] [Sample.sink StatusUnavailable])).1 = [] := by
  decide

/-- C1 (as the code has it) at a store with one enabled sink and a backend
that reports no device. -/
theorem rereadDevices_unavailable_witness :
    (∃ d, (rereadDevices Sample.pulse
        (Sample.manager [] [] [Sample.sink StatusEnabled])).2.deviceByUID.get "u1" = some d ∧
        d.Status = StatusUnavailable) ↔
      ((∃ a, (collectDevices []).get "u1" = some a ∧ a.Status = StatusUnavailable) ∨
        ((∀ a ∈ ([] : List Device), a.UID ≠ "u1") ∧
          ∃ p, (Sample.manager ([] : List (List String)) []
              [Sample.sink StatusEnabled]).store.devices.get "u1" = some p ∧
            (p.SetDefaults.Status = StatusEnabled ∨
              p.SetDefaults.Status = StatusUnavailable))) :=
  rereadDevices_unavailable Sample.pulse (Sample.manager [] [] [Sample.sink StatusEnabled]) []
    (by decide) (by decide) (by decide) "u1"

/-- The store after a successful `rereadDevices` over a well-formed store: it
is well-formed, and under a uid it holds the updated device when there is one
and what it held otherwise. -/
theorem rereadDevices_store {σ : Type} (E : Env σ) (dm : DeviceManager σ) (hwf : dm.store.WF)
    (hok : (rereadDevices E dm).1 = .ok ()) :
    (rereadDevices E dm).2.store.WF ∧
    ∀ k, (rereadDevices E dm).2.store.devices.get k =
      match (rereadDevices.updated (collectDevices dm.store.LoadStreamDevices)
          (collectDevices (fetchDevices E dm).1)).get k with
      | some d => some d
      | none => dm.store.devices.get k := by
  obtain ⟨_, _, _, h⟩ := rereadDevices_ok E dm hok
  rcases h with ⟨hU, hs, _⟩ | ⟨_, hsave, hs, _⟩
  · rw [hs, hU]
    exact ⟨hwf, fun k => rfl⟩
  · rw [hs]
    obtain ⟨hU1, hU2⟩ := rereadDevices.updated_inv (collectDevices dm.store.LoadStreamDevices)
      (collectDevices (fetchDevices E dm).1) (collectDevices_inv _).2
    exact PersistStore.SaveStreamDevices_ok dm.store _ hU1 hU2 hwf hsave

/-- C2: when `rereadDevices` has succeeded over a well-formed store and the
next fetch returns the same list, a second `rereadDevices` succeeds, leaves
both maps holding the same entries, leaves the store as it is (no write), and
issues nothing but fetches. -/
theorem rereadDevices_twice {σ : Type} (E : Env σ) (dm : DeviceManager σ) (A : List Device)
    (hwf : dm.store.WF) (h1 : (fetchDevices E dm).1 = A)
    (hok : (rereadDevices E dm).1 = .ok ())
    (h2 : (fetchDevices E (rereadDevices E dm).2).1 = A) :
    (rereadDevices E (rereadDevices E dm).2).1 = .ok () ∧
    (rereadDevices E (rereadDevices E dm).2).2.deviceByUID.Same
      (rereadDevices E dm).2.deviceByUID ∧
    (rereadDevices E (rereadDevices E dm).2).2.deviceByName =
      (rereadDevices E dm).2.deviceByName ∧
    (rereadDevices E (rereadDevices E dm).2).2.store = (rereadDevices E dm).2.store ∧
    (∀ ev ∈ (rereadDevices E dm).2.newCalls (rereadDevices E (rereadDevices E dm).2).2,
      ev.call = Call.fetchDevices) := by
  obtain ⟨hwf1, hst1⟩ := rereadDevices_store E dm hwf hok
  obtain ⟨hidx, hname, _, _⟩ := rereadDevices_ok E dm hok
  rw [h1] at hidx hname hst1
  generalize hdm1 : (rereadDevices E dm).2 = dm1 at *
  obtain ⟨hSn, hSk⟩ := collectDevices_inv dm.store.LoadStreamDevices
  obtain ⟨hBn, hBk⟩ := collectDevices_inv A
  obtain ⟨hS1n, hS1k⟩ := collectDevices_inv dm1.store.LoadStreamDevices
  -- the saved devices of the second run
  have hS1 : ∀ k, (collectDevices dm1.store.LoadStreamDevices).get k =
      match (rereadDevices.updated (collectDevices dm.store.LoadStreamDevices)
          (collectDevices A)).get k with
      | some d => some d
      | none => (collectDevices dm.store.LoadStreamDevices).get k := by
    intro k
    rw [collectDevices_store dm1.store hwf1, hst1 k, collectDevices_store dm.store hwf]
    cases hU : (rereadDevices.updated (collectDevices dm.store.LoadStreamDevices)
        (collectDevices A)).get k with
    | none => rfl
    | some d =>
      simp only [Option.map_some', Option.some.injEq]
      rw [rereadDevices.updated_get _ _ hSn hSk] at hU
      cases hs : (collectDevices dm.store.LoadStreamDevices).get k with
      | none => rw [hs] at hU; simp at hU
      | some s =>
        rw [hs] at hU
        cases hb : (collectDevices A).get k with
        | none => rw [hb] at hU; simp at hU
        | some b =>
          rw [hb] at hU
          simp only at hU
          by_cases hc : (!b.IsStream || b.Equal s) = true
          · rw [if_pos hc] at hU; cases hU
          · rw [if_neg hc] at hU
            simp only [Option.some.injEq] at hU
            rw [← hU]
            exact collectDevices_defaulted A k b hb
  -- nothing is left to update
  have hU1 : rereadDevices.updated (collectDevices dm1.store.LoadStreamDevices)
      (collectDevices A) = [] := by
    apply DeviceMap.eq_nil_of_get
    intro k
    rw [rereadDevices.updated_get _ _ hS1n hS1k, hS1 k,
      rereadDevices.updated_get _ _ hSn hSk]
    cases hs : (collectDevices dm.store.LoadStreamDevices).get k with
    | none => rfl
    | some s =>
      cases hb : (collectDevices A).get k with
      | none => rfl
      | some b =>
        simp only
        by_cases hc : (!b.IsStream || b.Equal s) = true
        · simp only [hc, if_true]
        · simp only [hc, if_false]
          simp [Device.Equal]
  have hfr := fetchAttempts_frame E fetchRetryCount dm1
  obtain ⟨hfs, _, _, _, _, evs, hcalls, _, hfetch, _⟩ := hfr
  have hrun : rereadDevices E dm1 = (.ok (), { (fetchDevices E dm1).2 with
      deviceByUID := rereadDevices.byUID (collectDevices dm1.store.LoadStreamDevices)
        (collectDevices A)
      deviceByName := rereadDevices.byName (collectDevices A) }) := by
    unfold rereadDevices
    simp only [h2, hU1, List.length_nil, ne_eq, not_true_eq_false, if_false]
  rw [hrun]
  refine ⟨rfl, ?_, ?_, ?_, ?_⟩
  · intro k
    simp only
    rw [hidx, rereadDevices.byUID_get _ _ hS1k hBn hBk, rereadDevices.byUID_get _ _ hSk hBn hBk]
    cases hb : (collectDevices A).get k with
    | some b => rfl
    | none =>
      simp only
      rw [hS1 k, rereadDevices.updated_get _ _ hSn hSk, hb]
      cases (collectDevices dm.store.LoadStreamDevices).get k <;> rfl
  · simp only
    rw [hname]
  · exact hfs
  · intro ev hev
    have hc : (fetchDevices E dm1).2.calls = dm1.calls ++ evs := hcalls
    simp only [DeviceManager.newCalls, hc, List.drop_left] at hev
    exact hfetch ev hev

/-- C2 at a store with one enabled sink that the backend reports with its
handles: the first run writes the handles to the store, the second run leaves
the store as it is. -/
theorem rereadDevices_twice_witness :
    (rereadDevices (Sample.pulseOn Sample.liveHost)
      (rereadDevices (Sample.pulseOn Sample.liveHost)
        (Sample.manager [] [] [Sample.sink StatusEnabled])).2).2.store =
      (rereadDevices (Sample.pulseOn Sample.liveHost)
        (Sample.manager [] [] [Sample.sink StatusEnabled])).2.store :=
  (rereadDevices_twice (Sample.pulseOn Sample.liveHost)
    (Sample.manager [] [] [Sample.sink StatusEnabled])
    [{ Sample.sink "" with NodeID := "42", ModuleID := "17" }]
    (by decide) (by decide) (by decide) (by decide)).2.2.2.1

/-- C3, as the code has it: when every fetch attempt fails there are
`fetchRetryCount` attempts, `rereadDevices` goes on with an empty backend
list and returns no error, the store is as before, the uid index holds
exactly the saved devices with defaults, an enabled one as unavailable, and
`deviceByName` is empty. -/
theorem rereadDevices_fetch_failed {σ : Type} (E : Env σ) (dm : DeviceManager σ)
    (hwf : dm.store.WF)
    (hfail : ∀ ev ∈ dm.newCalls (fetchDevices E dm).2, ev.err ≠ none) :
    (dm.newCalls (fetchDevices E dm).2).length = fetchRetryCount ∧
    (rereadDevices E dm).1 = .ok () ∧
    (rereadDevices E dm).2.store = dm.store ∧
    (∀ k, (rereadDevices E dm).2.deviceByUID.get k =
      (dm.store.devices.get k).map (fun p =>
        if p.SetDefaults.Status = StatusEnabled then
          { p.SetDefaults with Status := StatusUnavailable }
        else p.SetDefaults)) ∧
    (rereadDevices E dm).2.deviceByName = [] := by
  obtain ⟨hfs, _, _, _, _, evs, hcalls, _, _, hall⟩ := fetchAttempts_frame E fetchRetryCount dm
  have hnew : dm.newCalls (fetchDevices E dm).2 = evs := by
    have hc : (fetchDevices E dm).2.calls = dm.calls ++ evs := hcalls
    simp only [DeviceManager.newCalls, hc, List.drop_left]
  rw [hnew] at hfail ⊢
  obtain ⟨hlen, hnil⟩ := hall hfail
  have hA : (fetchDevices E dm).1 = [] := hnil
  obtain ⟨hSn, hSk⟩ := collectDevices_inv dm.store.LoadStreamDevices
  have hB : collectDevices [] = [] := rfl
  have hU : rereadDevices.updated (collectDevices dm.store.LoadStreamDevices) [] = [] := by
    apply DeviceMap.eq_nil_of_get
    intro k
    rw [rereadDevices.updated_get _ _ hSn hSk]
    cases (collectDevices dm.store.LoadStreamDevices).get k <;> rfl
  have hrun : rereadDevices E dm = (.ok (), { (fetchDevices E dm).2 with
      deviceByUID := rereadDevices.byUID (collectDevices dm.store.LoadStreamDevices) []
      deviceByName := rereadDevices.byName [] }) := by
    unfold rereadDevices
    simp only [hA, hB, hU, List.length_nil, ne_eq, not_true_eq_false, if_false]
  rw [hrun]
  refine ⟨hlen, rfl, hfs, ?_, rfl⟩
  intro k
  simp only
  rw [rereadDevices.byUID_get _ [] hSk (collectDevices_inv []).1 (collectDevices_inv []).2,
    collectDevices_store dm.store hwf]
  cases dm.store.devices.get k <;> rfl

/-- C3 fails as stated: a hardware sink that was indexed from the backend is
gone from both maps after a `rereadDevices` whose five fetch attempts fail. -/
theorem rereadDevices_drops_backend_devices :
    (Sample.manager ([] : List (List String)) [Sample.card] []).deviceByUID.get "u2"
      = some Sample.card ∧
    (rereadDevices (Sample.pulseOn Sample.deadHost) (Sample.manager [] [Sample.card] [])).1
      = .ok () ∧
    (rereadDevices (Sample.pulseOn Sample.deadHost)
      (Sample.manager [] [Sample.card] [])).2.deviceByUID.get "u2" = none ∧
    (rereadDevices (Sample.pulseOn Sample.deadHost)
      (Sample.manager [] [Sample.card] [])).2.deviceByName = [] ∧
    (rereadDevices (Sample.pulseOn Sample.deadHost)
      (Sample.manager [] [Sample.card] [])).2.calls.map (fun ev => (ev.call.name, ev.err)) =
      List.replicate 5 ("fetchDevices", some (.backend "connection refused")) := by
  decide

/-- C3 (as the code has it) at a store with one enabled sink over a backend
whose listings fail. -/
theorem rereadDevices_fetch_failed_witness :
    (rereadDevices (Sample.pulseOn Sample.deadHost)
      (Sample.manager [] [Sample.sink StatusEnabled] [Sample.sink StatusEnabled])).1 = .ok () :=
  (rereadDevices_fetch_failed (Sample.pulseOn Sample.deadHost)
    (Sample.manager [] [Sample.sink StatusEnabled] [Sample.sink StatusEnabled])
    (by decide) (by decide)).2.1

/-! ## deleteStreamDevice -/

/-- The removal from the store never answers "device not found". -/
theorem deleteStreamDevice.forget_not_found {σ : Type} (dm : DeviceManager σ) (uid : String)
    (b : Bool) (u : String) : (deleteStreamDevice.forget dm uid b).1 ≠ .error (.notFound u) := by
  unfold deleteStreamDevice.forget
  cases b with
  | false => simp
  | true =>
    cases h : (dm.store.RemoveStreamDevice uid).1 <;> simp [h]

/-- C11: `deleteStreamDevice` answers with "device not found" exactly when
the uid is neither in the uid index nor in the store, and then the manager is
as before; when the indexed device is not a stream device the answer is "not a
stream device" and the manager is as before. -/
theorem deleteStreamDevice_not_found {σ : Type} (E : Env σ) (dm : DeviceManager σ)
    (uid : String) :
    ((∃ u, (deleteStreamDevice E dm uid).1 = .error (.notFound u)) ↔
      (dm.deviceByUID.get uid = none ∧ dm.store.HasStreamDevice uid = false)) ∧
    (dm.deviceByUID.get uid = none → dm.store.HasStreamDevice uid = false →
      deleteStreamDevice E dm uid = (.error (.notFound uid), dm)) ∧
    (∀ dev, dm.deviceByUID.get uid = some dev → dev.IsStream = false →
      deleteStreamDevice E dm uid = (.error .notStreamDevice, dm)) := by
  have habsent : dm.deviceByUID.get uid = none → dm.store.HasStreamDevice uid = false →
      deleteStreamDevice E dm uid = (.error (.notFound uid), dm) := by
    intro h1 h2
    simp [deleteStreamDevice, h1, h2]
  refine ⟨⟨?_, fun h => ⟨uid, by rw [habsent h.1 h.2]⟩⟩, habsent, ?_⟩
  · rintro ⟨u, hu⟩
    cases hidx : dm.deviceByUID.get uid with
    | none =>
      cases hst : dm.store.HasStreamDevice uid with
      | false => exact ⟨rfl, rfl⟩
      | true =>
        exfalso
        simp only [deleteStreamDevice, hidx, hst] at hu
        exact deleteStreamDevice.forget_not_found dm uid true u (by simpa using hu)
    | some dev =>
      exfalso
      simp only [deleteStreamDevice, hidx] at hu
      cases hs : dev.IsStream with
      | false => simp [hs] at hu
      | true =>
        simp only [hs] at hu
        cases hd : (callBackend E.backend.destroyStreamDevice Call.destroyStreamDevice dm dev).1 with
        | error e => simp [hd] at hu
        | ok dev2 =>
          simp only [hd] at hu
          revert hu
          generalize hdm2 : ({ (callBackend E.backend.destroyStreamDevice Call.destroyStreamDevice
            dm dev).2 with
            deviceByUID := (callBackend E.backend.destroyStreamDevice Call.destroyStreamDevice
              dm dev).2.deviceByUID.share dev dev2
            deviceByName := (callBackend E.backend.destroyStreamDevice Call.destroyStreamDevice
              dm dev).2.deviceByName.share dev dev2 } : DeviceManager σ) = dm2
          intro hu
          cases hf : (deleteStreamDevice.forget dm2 uid (dm.store.HasStreamDevice uid)).1 with
          | error e =>
            simp [hf] at hu
            exact deleteStreamDevice.forget_not_found dm2 uid _ u (by rw [hf, hu])
          | ok _ => simp [hf] at hu
  · intro dev h1 h2
    simp [deleteStreamDevice, h1, h2]

/-- C12 at a sink that is saved and not reported by PulseAudio:
`DeleteStreamDevice` rereads, finds the device in the uid index as
`unavailable`, asks the backend to destroy it, and returns the error of the
backend; the record stays in the store and in the index. -/
theorem DeleteStreamDevice_destroys_absent :
    (fetchDevices Sample.pulse (Sample.manager [] [] [Sample.sink StatusEnabled])).1 = [] ∧
    (DeleteStreamDevice Sample.pulse
        (Sample.manager [] [] [Sample.sink StatusEnabled]) "u1").1 =
      .error (.removeDevice (.backend "failed to delete device: owner module not known")) ∧
    ((DeleteStreamDevice Sample.pulse
        (Sample.manager [] [] [Sample.sink StatusEnabled]) "u1").2.calls.map
      (fun ev => ev.call.name)) = ["fetchDevices", "destroyStreamDevice"] ∧
    (DeleteStreamDevice Sample.pulse
        (Sample.manager [] [] [Sample.sink StatusEnabled]) "u1").2.store.devices.get "u1" =
      some (Sample.sink StatusEnabled) ∧
    ((DeleteStreamDevice Sample.pulse
        (Sample.manager [] [] [Sample.sink StatusEnabled]) "u1").2.deviceByUID.get "u1").map
      Device.Status = some StatusUnavailable := by
  decide

/-- C11 at a uid that no device has. -/
theorem deleteStreamDevice_not_found_witness :
    deleteStreamDevice Sample.pulse (Sample.manager [] [Sample.card] [Sample.sink StatusEnabled])
        "u9" =
      (.error (.notFound "u9"), Sample.manager [] [Sample.card] [Sample.sink StatusEnabled]) :=
  (deleteStreamDevice_not_found Sample.pulse
    (Sample.manager [] [Sample.card] [Sample.sink StatusEnabled]) "u9").2.1
    (by decide) (by decide)

/-! ## Devices handed to the backend -/

/-- One block of "Apply changes" keeps a property of the devices handed to
the backend. -/
theorem updateDevice.step_carried {σ : Type} (op : σ → Device → Except String Handles × σ)
    (call : Device → Call) (cond : Device → Bool) (change : Device → Device)
    (dm : DeviceManager σ) (Q : Device → Prop) (st : Except Err Device × DeviceManager σ)
    (hst : st.2.calls = dm.calls ++ dm.newCalls st.2 ∧
      (∀ ev ∈ dm.newCalls st.2, ∀ dv, ev.call.device = some dv → Q dv) ∧
      (∀ d, st.1 = .ok d → Q d))
    (hcall : ∀ d, (call d).device = some d)
    (hchange : ∀ d, Q d → cond d = true → Q (change d))
    (hh : ∀ d (h : Handles), Q d → Q { d with NodeID := h.NodeID, ModuleID := h.ModuleID }) :
    (updateDevice.step op call cond change st).2.calls =
        dm.calls ++ dm.newCalls (updateDevice.step op call cond change st).2 ∧
      (∀ ev ∈ dm.newCalls (updateDevice.step op call cond change st).2,
        ∀ dv, ev.call.device = some dv → Q dv) ∧
      (∀ d, (updateDevice.step op call cond change st).1 = .ok d → Q d) := by
  obtain ⟨r, s⟩ := st
  obtain ⟨h1, h2, h3⟩ := hst
  cases r with
  | error e =>
    rw [updateDevice.step_err]
    exact ⟨h1, h2, by intro d hd; simp at hd⟩
  | ok d =>
    have hQ := h3 d rfl
    rw [updateDevice.step_ok]
    cases hc : cond d with
    | false =>
      simp only [Bool.false_eq_true, if_false]
      exact ⟨h1, h2, h3⟩
    | true =>
      simp only [if_true]
      have hQc := hchange d hQ hc
      cases hop : (op s.backend (change d)).1 with
      | error e =>
        simp only []
        have hn := DeviceManager.newCalls_append dm s
          { s with backend := (op s.backend (change d)).2
                   calls := s.calls ++ [{ call := call (change d), err := some (.backend e) }] }
          [{ call := call (change d), err := some (.backend e) }] h1 rfl
        refine ⟨?_, ?_, ?_⟩
        · rw [hn, ← List.append_assoc, ← h1]
        · intro ev hev dv hdv
          rw [hn] at hev
          rcases List.mem_append.1 hev with hev | hev
          · exact h2 ev hev dv hdv
          · simp at hev; subst hev
            simp only [hcall] at hdv
            cases hdv; exact hQc
        · intro d2 hd2; simp at hd2
      | ok h =>
        simp only []
        have hn := DeviceManager.newCalls_append dm s
          { s with backend := (op s.backend (change d)).2
                   calls := s.calls ++ [{ call := call (change d), err := none }] }
          [{ call := call (change d), err := none }] h1 rfl
        refine ⟨?_, ?_, ?_⟩
        · rw [hn, ← List.append_assoc, ← h1]
        · intro ev hev dv hdv
          rw [hn] at hev
          rcases List.mem_append.1 hev with hev | hev
          · exact h2 ev hev dv hdv
          · simp at hev; subst hev
            simp only [hcall] at hdv
            cases hdv; exact hQc
        · intro d2 hd2
          simp at hd2; subst hd2
          exact hh _ h hQc

/-- A property of devices that the four changes of "Apply changes" and the
writing of handles keep holds of every device handed to the backend and of the
device left in hand. -/
theorem updateDevice.apply_carried {σ : Type} (E : Env σ) (dm : DeviceManager σ)
    (dev updDev : Device) (Q : Device → Prop) (hdev : Q dev)
    (hh : ∀ d (h : Handles), Q d → Q { d with NodeID := h.NodeID, ModuleID := h.ModuleID })
    (h1 : ∀ d, Q d → updateDevice.statusChanges d updDev = true → Q { d with
      Status := if updDev.GetEnabled then StatusEnabled else StatusDisabled })
    (h2 : ∀ d, Q d → updateDevice.mutedChanges d updDev = true → Q (d.SetMuted updDev.GetMuted))
    (h3 : ∀ d, Q d → updateDevice.toAddressChanges d updDev = true →
      Q { d with ToAddress := updDev.ToAddress })
    (h4 : ∀ d, Q d → updateDevice.fromAddressChanges d updDev = true →
      Q { d with FromAddress := updDev.FromAddress }) :
    (∀ ev ∈ dm.newCalls (updateDevice.apply E dm dev updDev).2,
        ∀ dv, ev.call.device = some dv → Q dv) ∧
      (∀ d, (updateDevice.apply E dm dev updDev).1 = .ok d → Q d) := by
  have s0 : ((.ok dev, dm) : Except Err Device × DeviceManager σ).2.calls =
        dm.calls ++ dm.newCalls ((.ok dev, dm) : Except Err Device × DeviceManager σ).2 ∧
      (∀ ev ∈ dm.newCalls ((.ok dev, dm) : Except Err Device × DeviceManager σ).2,
        ∀ dv, ev.call.device = some dv → Q dv) ∧
      (∀ d, ((.ok dev, dm) : Except Err Device × DeviceManager σ).1 = .ok d → Q d) := by
    refine ⟨by simp [DeviceManager.newCalls], ?_, ?_⟩
    · intro ev hev; simp [DeviceManager.newCalls] at hev
    · intro d hd; simp at hd; subst hd; exact hdev
  have s1 := updateDevice.step_carried E.backend.applyEnabled Call.applyEnabled
    (fun d => updateDevice.statusChanges d updDev)
    (fun d => { d with Status := if updDev.GetEnabled then StatusEnabled else StatusDisabled })
    dm Q _ s0 (fun _ => rfl) h1 hh
  have s2 := updateDevice.step_carried E.backend.applyMuted Call.applyMuted
    (fun d => updateDevice.mutedChanges d updDev)
    (fun d => d.SetMuted updDev.GetMuted) dm Q _ s1 (fun _ => rfl) h2 hh
  have s3 := updateDevice.step_carried E.backend.applyAddress Call.applyAddress
    (fun d => updateDevice.toAddressChanges d updDev)
    (fun d => { d with ToAddress := updDev.ToAddress }) dm Q _ s2 (fun _ => rfl) h3 hh
  have s4 := updateDevice.step_carried E.backend.applyAddress Call.applyAddress
    (fun d => updateDevice.fromAddressChanges d updDev)
    (fun d => { d with FromAddress := updDev.FromAddress }) dm Q _ s3 (fun _ => rfl) h4 hh
  exact s4.2

theorem DeviceManager.newCalls_trans {σ : Type} (dm s r : DeviceManager σ)
    (h : s.calls = dm.calls ++ dm.newCalls s) (h2 : r.calls = s.calls ++ s.newCalls r) :
    r.calls = dm.calls ++ dm.newCalls r ∧ dm.newCalls r = dm.newCalls s ++ s.newCalls r := by
  have hn := DeviceManager.newCalls_append dm s r (s.newCalls r) h h2
  refine ⟨?_, hn⟩
  rw [hn, ← List.append_assoc, ← h, ← h2]

/-- The ways `updateDevice` ends: before "Apply changes" with the manager as
it was, in "Apply changes" with the error of an apply, or in the commit. -/
theorem updateDevice_cases {σ : Type} (E : Env σ) (dm : DeviceManager σ) (uid : String)
    (updDev : Device) (filter : deviceFilter) :
    ((∃ e, (updateDevice E dm uid updDev filter).1 = .error e) ∧
        (updateDevice E dm uid updDev filter).2 = dm) ∨
    ∃ dev, dm.deviceByUID.get uid = some dev ∧
      ¬ (filter = .streamDevice ∧ dev.IsStream = false) ∧
      updateDevice.checkImmutable dev updDev = .ok () ∧
      updateDevice.validate E.net dev updDev = .ok () ∧
      ((∃ e, (updateDevice.apply E dm dev updDev).1 = .error e ∧
          updateDevice E dm uid updDev filter =
            (.error e, (updateDevice.apply E dm dev updDev).2)) ∨
        (∃ d, (updateDevice.apply E dm dev updDev).1 = .ok d ∧
          updateDevice E dm uid updDev filter =
            updateDevice.commit (updateDevice.apply E dm dev updDev).2 uid d)) := by
  cases hidx : dm.deviceByUID.get uid with
  | none => left; simp [updateDevice, hidx]
  | some dev =>
    by_cases hf : filter = .streamDevice ∧ dev.IsStream = false
    · left
      have hf2 : filter = .streamDevice ∧ (!dev.IsStream) = true := by simpa using hf
      simp [updateDevice, hidx, hf2]
    · cases himm : updateDevice.checkImmutable dev updDev with
      | error e =>
        left
        have hf2 : ¬ (filter = .streamDevice ∧ (!dev.IsStream) = true) := by simpa using hf
        simp [updateDevice, hidx, hf2, hf, himm]
      | ok _ =>
        cases hval : updateDevice.validate E.net dev updDev with
        | error e =>
          left
          have hf2 : ¬ (filter = .streamDevice ∧ (!dev.IsStream) = true) := by simpa using hf
          simp [updateDevice, hidx, hf2, hf, himm, hval]
        | ok _ =>
          right
          refine ⟨dev, rfl, hf, himm, hval, ?_⟩
          have h := updateDevice_of_accepted E dm uid dev updDev filter hidx hf himm hval
          cases hap : (updateDevice.apply E dm dev updDev).1 with
          | error e => left; exact ⟨e, rfl, h.1 e hap⟩
          | ok d => right; exact ⟨d, rfl, h.2 d hap⟩

/-- A property `Q` of the indexed device that "Apply changes" keeps holds of
every device `updateDevice` hands to the backend or to the store, and of the
device it commits. -/
theorem updateDevice_carried {σ : Type} (E : Env σ) (dm : DeviceManager σ) (uid : String)
    (updDev : Device) (filter : deviceFilter) (Q : Device → Prop)
    (hh : ∀ d (h : Handles), Q d → Q { d with NodeID := h.NodeID, ModuleID := h.ModuleID })
    (hQ : ∀ dev, dm.deviceByUID.get uid = some dev →
      updateDevice.validate E.net dev updDev = .ok () →
      Q dev ∧
      (∀ d, Q d → updateDevice.statusChanges d updDev = true → Q { d with
        Status := if updDev.GetEnabled then StatusEnabled else StatusDisabled }) ∧
      (∀ d, Q d → updateDevice.mutedChanges d updDev = true → Q (d.SetMuted updDev.GetMuted)) ∧
      (∀ d, Q d → updateDevice.toAddressChanges d updDev = true →
        Q { d with ToAddress := updDev.ToAddress }) ∧
      (∀ d, Q d → updateDevice.fromAddressChanges d updDev = true →
        Q { d with FromAddress := updDev.FromAddress })) :
    (updateDevice E dm uid updDev filter).2.calls =
      dm.calls ++ dm.newCalls (updateDevice E dm uid updDev filter).2 ∧
    (∀ ev ∈ dm.newCalls (updateDevice E dm uid updDev filter).2,
      ∀ dv, ev.call.device = some dv → Q dv) ∧
    (((∃ e, (updateDevice E dm uid updDev filter).1 = .error e) ∧
        (updateDevice E dm uid updDev filter).2.deviceByUID = dm.deviceByUID ∧
        (updateDevice E dm uid updDev filter).2.deviceByName = dm.deviceByName) ∨
      ∃ d2, Q d2 ∧ (updateDevice E dm uid updDev filter).1 = .ok () ∧
        (updateDevice E dm uid updDev filter).2.deviceByUID = dm.deviceByUID.set uid d2 ∧
        (updateDevice E dm uid updDev filter).2.deviceByName = dm.deviceByName.set uid d2) := by
  rcases updateDevice_cases E dm uid updDev filter with ⟨he, h⟩ | ⟨dev, hidx, _, _, hval, h⟩
  · rw [h]
    refine ⟨by simp [DeviceManager.newCalls], ?_, Or.inl ⟨?_, rfl, rfl⟩⟩
    · intro ev hev; simp [DeviceManager.newCalls] at hev
    · exact he
  · obtain ⟨hdev, h1, h2, h3, h4⟩ := hQ dev hidx hval
    have hc := updateDevice.apply_carried E dm dev updDev Q hdev hh h1 h2 h3 h4
    have hap := updateDevice.apply_applied E dm dev updDev
    rcases h with ⟨e, hae, hr⟩ | ⟨d, had, hr⟩
    · rw [hr]
      exact ⟨hap.calls, hc.1, Or.inl ⟨⟨e, rfl⟩, hap.byUID, hap.byName⟩⟩
    · rw [hr]
      have hQd := hc.2 d had
      have hcs := updateDevice.commit_spec (updateDevice.apply E dm dev updDev).2 uid d
      have hn := DeviceManager.newCalls_append dm (updateDevice.apply E dm dev updDev).2
        (updateDevice.commit (updateDevice.apply E dm dev updDev).2 uid d).2 _ hap.calls hcs.1
      refine ⟨?_, ?_, ?_⟩
      · rw [hn, ← List.append_assoc, ← hap.calls]; exact hcs.1
      · intro ev hev dv hdv
        rw [hn] at hev
        rcases List.mem_append.1 hev with hev | hev
        · exact hc.1 ev hev dv hdv
        · by_cases hs : d.IsStream = true
          · simp [hs] at hev; subst hev
            simp [Call.device] at hdv; subst hdv; exact hQd
          · simp [hs] at hev
      · cases hco : (updateDevice.commit (updateDevice.apply E dm dev updDev).2 uid d).1 with
        | error e =>
          left
          have := hcs.2.1 e hco
          exact ⟨⟨e, rfl⟩, this.1.trans hap.byUID, this.2.trans hap.byName⟩
        | ok u =>
          right
          have := hcs.2.2 hco
          refine ⟨d, hQd, rfl, ?_, ?_⟩
          · rw [this.1, hap.byUID]
          · rw [this.2, hap.byName]

/-- A property `Q` of the named and filled-in device that the writing of
handles keeps holds of every device `createStreamDevice` hands to the backend
or to the store, and of the device it puts into the maps. -/
theorem createStreamDevice_carried {σ : Type} (E : Env σ) (fuel : Nat) (dm : DeviceManager σ)
    (dev : Device) (r : Except Err String × DeviceManager σ)
    (h : createStreamDevice E fuel dm dev = some r) (Q : Device → Prop)
    (hh : ∀ d (h : Handles), Q d → Q { d with NodeID := h.NodeID, ModuleID := h.ModuleID })
    (hQ : createStreamDevice.validate E.net dev = .ok () → ∀ name,
      (dev.SystemName ≠ "" → name = dev.SystemName) →
      Q (createStreamDevice.defaults E { dev with SystemName := name })) :
    r.2.calls = dm.calls ++ dm.newCalls r.2 ∧
    (∀ ev ∈ dm.newCalls r.2, ∀ dv, ev.call.device = some dv → Q dv) ∧
    (((∃ e, r.1 = .error e) ∧ r.2.deviceByUID = dm.deviceByUID ∧
        r.2.deviceByName = dm.deviceByName) ∨
      ∃ d1, Q d1 ∧ r.1 = .ok d1.UID ∧ r.2.deviceByUID = dm.deviceByUID.set d1.UID d1 ∧
        r.2.deviceByName = dm.deviceByName.set d1.SystemName d1) := by
  have hnil : ∀ s : DeviceManager σ, s.calls = dm.calls → dm.newCalls s = [] := by
    intro s hs; simp [DeviceManager.newCalls, hs]
  rcases createStreamDevice_inv E fuel dm dev r h with ⟨e, _, hr⟩ | ⟨hval, st, hname, hst⟩
  · subst hr
    refine ⟨by simp [DeviceManager.newCalls], ?_, Or.inl ⟨⟨e, rfl⟩, rfl, rfl⟩⟩
    intro ev hev; simp [DeviceManager.newCalls] at hev
  · have hnamed : ∃ name dm1, (dev.SystemName ≠ "" → name = dev.SystemName) ∧
        st.2 = dm1 ∧ dm1.calls = dm.calls ∧ dm1.deviceByUID = dm.deviceByUID ∧
        dm1.deviceByName = dm.deviceByName ∧
        (∀ named, st.1 = .ok named → named = { dev with SystemName := name }) ∧
        (∀ e, st.1 = .error e → st.2 = dm) := by
      rcases createStreamDevice.name_inv fuel dm dev st hname with
        ⟨_, _, hs⟩ | ⟨hn, _, hs⟩ | ⟨hn, n, _, _, hs⟩
      · subst hs
        exact ⟨dev.SystemName, dm, fun _ => rfl, rfl, rfl, rfl, rfl,
          by intro named hnm; simp at hnm, fun _ _ => rfl⟩
      · subst hs
        exact ⟨dev.SystemName, dm, fun _ => rfl, rfl, rfl, rfl, rfl,
          by intro named hnm; simp at hnm; subst hnm; rfl, fun _ _ => rfl⟩
      · subst hs
        exact ⟨deviceName dev.Typ dm.baseIndex n, _, fun h => absurd hn h, rfl, rfl, rfl, rfl,
          by intro named hnm; simp at hnm; subst hnm; rfl, by intro e he; simp at he⟩
    obtain ⟨name, dm1, hnm, hdm1, hc1, hu1, hn1, hok, herr⟩ := hnamed
    rcases hst with ⟨e, he, hr⟩ | ⟨named, hnd, hr⟩
    · subst hr
      rw [herr e he]
      refine ⟨by simp [DeviceManager.newCalls], ?_, Or.inl ⟨⟨e, rfl⟩, rfl, rfl⟩⟩
      intro ev hev; simp [DeviceManager.newCalls] at hev
    · have hq := hQ hval name hnm
      rw [← hok named hnd] at hq
      rw [hdm1] at hr
      generalize createStreamDevice.defaults E named = d at hq hr
      subst hr
      rcases createStreamDevice.create_spec E dm1 d with
        ⟨_, hr⟩ | ⟨_, e, _, h1, h2⟩ | ⟨_, hd, e, _, _, h1, h2⟩ | ⟨_, hd, _, _, h1, h2⟩
      · rw [hr]
        refine ⟨by simp [hnil dm1 hc1, hc1], ?_, Or.inl ⟨⟨_, rfl⟩, hu1, hn1⟩⟩
        intro ev hev; simp [hnil dm1 hc1] at hev
      · have hnew : dm.newCalls (createStreamDevice.create E dm1 d).2 =
            [{ call := .resetStreamDevice d, err := some (.backend e) }] := by
          rw [h2]; simp [DeviceManager.newCalls, hc1]
        refine ⟨?_, ?_, Or.inl ⟨⟨_, h1⟩, ?_, ?_⟩⟩
        · rw [hnew, h2]; simp [hc1]
        · intro ev hev dv hdv
          rw [hnew] at hev; simp at hev; subst hev
          simp [Call.device] at hdv; subst hdv; exact hq
        · rw [h2]; exact hu1
        · rw [h2]; exact hn1
      · have hnew : dm.newCalls (createStreamDevice.create E dm1 d).2 =
            [{ call := .resetStreamDevice d, err := none },
              { call := .saveStreamDevice { d with NodeID := hd.NodeID, ModuleID := hd.ModuleID },
                err := some e }] := by
          rw [h2]; simp [DeviceManager.newCalls, hc1]
        refine ⟨?_, ?_, Or.inl ⟨⟨_, h1⟩, ?_, ?_⟩⟩
        · rw [hnew, h2]; simp [hc1]
        · intro ev hev dv hdv
          rw [hnew] at hev; simp at hev
          rcases hev with hev | hev <;> subst hev <;> simp [Call.device] at hdv <;> subst hdv
          · exact hq
          · exact hh d hd hq
        · rw [h2]; exact hu1
        · rw [h2]; exact hn1
      · have hnew : dm.newCalls (createStreamDevice.create E dm1 d).2 =
            [{ call := .resetStreamDevice d, err := none },
              { call := .saveStreamDevice { d with NodeID := hd.NodeID, ModuleID := hd.ModuleID },
                err := none }] := by
          rw [h2]; simp [DeviceManager.newCalls, hc1]
        refine ⟨?_, ?_, Or.inr ⟨{ d with NodeID := hd.NodeID, ModuleID := hd.ModuleID },
          hh d hd hq, h1, ?_, ?_⟩⟩
        · rw [hnew, h2]; simp [hc1]
        · intro ev hev dv hdv
          rw [hnew] at hev; simp at hev
          rcases hev with hev | hev <;> subst hev <;> simp [Call.device] at hdv <;> subst hdv
          · exact hq
          · exact hh d hd hq
        · rw [h2, ← hu1]
        · rw [h2, ← hn1]

/-! ## processRemovedDevice and restoreDevices -/

theorem createStreamDevice_named {σ : Type} (E : Env σ) (fuel : Nat) (dm : DeviceManager σ)
    (dev : Device) (hn : dev.SystemName ≠ "") : ∃ r, createStreamDevice E fuel dm dev = some r := by
  unfold createStreamDevice
  cases createStreamDevice.validate E.net dev with
  | error e => exact ⟨_, rfl⟩
  | ok _ =>
    simp only [createStreamDevice.name, hn, ne_eq, not_false_eq_true, if_true]
    by_cases hk : (dm.deviceByName.get dev.SystemName).isSome = true
    · simp only [hk, if_true]; exact ⟨_, rfl⟩
    · simp only [hk]; exact ⟨_, rfl⟩

/-- The create-or-enable step of `restoreDevices` for a saved device with a
system name and the uid of that name, over an index keyed by uid: it ends, and
every device it hands to the backend or the store has the uid of the saved
device. -/
theorem restoreDevices.branch_spec {σ : Type} (E : Env σ) (fuel : Nat) (dm : DeviceManager σ)
    (savedDev : Device) (hidx : dm.deviceByUID.KeyedByUID) (hname : savedDev.SystemName ≠ "")
    (huid : savedDev.UID = makeDeviceUID E.machine savedDev.SystemName) :
    ∃ res dm2, restoreDevices.branch E fuel dm savedDev = some (res, dm2) ∧
      dm2.calls = dm.calls ++ dm.newCalls dm2 ∧
      (∀ ev ∈ dm.newCalls dm2, ∀ dv, ev.call.device = some dv → dv.UID = savedDev.UID) ∧
      dm2.deviceByUID.KeyedByUID ∧
      (∀ d, res = .ok d → d.UID = savedDev.UID) := by
  have hh : ∀ (d : Device) (h : Handles), d.UID = savedDev.UID →
      ({ d with NodeID := h.NodeID, ModuleID := h.ModuleID } : Device).UID = savedDev.UID :=
    fun _ _ h => h
  unfold restoreDevices.branch
  cases hold : dm.deviceByUID.get savedDev.UID with
  | none =>
    simp only []
    obtain ⟨r, hr⟩ := createStreamDevice_named E fuel dm
      { savedDev with UID := "", Status := StatusEnabled } hname
    have hc := createStreamDevice_carried E fuel dm _ r hr (fun dv => dv.UID = savedDev.UID) hh
      (by
        intro _ name hnm
        rw [(createStreamDevice.defaults_fields E _).2.2.1]
        simp only []
        rw [hnm hname, huid])
    have hk : r.2.deviceByUID.KeyedByUID := by
      rcases hc.2.2 with ⟨_, h1, _⟩ | ⟨d1, _, _, h1, _⟩
      · rw [h1]; exact hidx
      · rw [h1]; exact DeviceMap.keyedByUID_set _ _ _ hidx rfl
    rw [hr]
    simp only []
    cases hr1 : r.1 with
    | error e =>
      exact ⟨_, _, rfl, hc.1, hc.2.1, hk, by intro d hd; simp at hd⟩
    | ok u =>
      simp only []
      by_cases hg : "" = savedDev.UID
      · simp only [ne_eq, hg, not_true_eq_false, if_false]
        refine ⟨_, _, rfl, hc.1, hc.2.1, hk, ?_⟩
        intro d hd; simp at hd; subst hd; rfl
      · simp only [ne_eq, hg, not_false_eq_true, if_true]
        exact ⟨_, _, rfl, hc.1, hc.2.1, hk, by intro d hd; simp at hd⟩
  | some old =>
    simp only []
    have hc := updateDevice_carried E dm savedDev.UID { savedDev with Status := StatusEnabled }
      .streamDevice (fun dv => dv.UID = savedDev.UID) hh
      (by
        intro dev hdev _
        exact ⟨DeviceMap.uid_of_get _ hidx _ _ hdev, fun _ h _ => h, fun _ h _ => h,
          fun _ h _ => h, fun _ h _ => h⟩)
    have hk : (updateDevice E dm savedDev.UID { savedDev with Status := StatusEnabled }
        .streamDevice).2.deviceByUID.KeyedByUID := by
      rcases hc.2.2 with ⟨_, h1, _⟩ | ⟨d2, hd2, _, h1, _⟩
      · rw [h1]; exact hidx
      · rw [h1]; exact DeviceMap.keyedByUID_set _ _ _ hidx hd2.symm
    cases hr1 : (updateDevice E dm savedDev.UID { savedDev with Status := StatusEnabled }
        .streamDevice).1 with
    | error e =>
      exact ⟨_, _, rfl, hc.1, hc.2.1, hk, by intro d hd; simp at hd⟩
    | ok u =>
      refine ⟨_, _, rfl, hc.1, hc.2.1, hk, ?_⟩
      intro d hd; simp at hd; subst hd; rfl

/-- The save at the end of a round of `restoreDevices`. -/
theorem restoreDevices.saveBack_spec {σ : Type} (dm : DeviceManager σ) (d : Device)
    (hidx : dm.deviceByUID.KeyedByUID) :
    (restoreDevices.saveBack dm d).2.calls =
        dm.calls ++ dm.newCalls (restoreDevices.saveBack dm d).2 ∧
      (∀ ev ∈ dm.newCalls (restoreDevices.saveBack dm d).2,
        ∀ dv, ev.call.device = some dv → dv.UID = d.UID) ∧
      (restoreDevices.saveBack dm d).2.deviceByUID = dm.deviceByUID := by
  unfold restoreDevices.saveBack
  cases hg : dm.deviceByUID.get d.UID with
  | none =>
    refine ⟨by simp [DeviceManager.newCalls], ?_, rfl⟩
    intro ev hev; simp [DeviceManager.newCalls] at hev
  | some newDev =>
    by_cases he : newDev.Equal d = true
    · simp only [he, Bool.not_true, Bool.false_eq_true, if_false]
      refine ⟨by simp [DeviceManager.newCalls], ?_, by trivial⟩
      intro ev hev; simp [DeviceManager.newCalls] at hev
    · simp only [he, Bool.not_false, if_true]
      refine ⟨by simp [DeviceManager.newCalls], ?_, by trivial⟩
      intro ev hev dv hdv
      simp [DeviceManager.newCalls] at hev; subst hev
      simp [Call.device] at hdv; subst hdv
      exact DeviceMap.uid_of_get _ hidx _ _ hg

theorem restoreDevices.loop_glue {σ : Type} (dm dm2 r : DeviceManager σ) (s0 : Device)
    (rest : List Device) (hen : s0.GetEnabled = true)
    (h1 : dm2.calls = dm.calls ++ dm.newCalls dm2)
    (h1d : ∀ ev ∈ dm.newCalls dm2, ∀ dv, ev.call.device = some dv → dv.UID = s0.UID)
    (h2 : r.calls = dm2.calls ++ dm2.newCalls r)
    (h2d : ∀ ev ∈ dm2.newCalls r, ∀ dv, ev.call.device = some dv →
      ∃ s ∈ rest, s.GetEnabled = true ∧ dv.UID = s.UID) :
    r.calls = dm.calls ++ dm.newCalls r ∧
      ∀ ev ∈ dm.newCalls r, ∀ dv, ev.call.device = some dv →
        ∃ s ∈ s0 :: rest, s.GetEnabled = true ∧ dv.UID = s.UID := by
  obtain ⟨ha, hb⟩ := DeviceManager.newCalls_trans dm dm2 r h1 h2
  refine ⟨ha, ?_⟩
  intro ev hev dv hdv
  rw [hb] at hev
  rcases List.mem_append.1 hev with hev | hev
  · exact ⟨s0, List.mem_cons_self _ _, hen, h1d ev hev dv hdv⟩
  · obtain ⟨s, hs, h3, h4⟩ := h2d ev hev dv hdv
    exact ⟨s, List.mem_cons_of_mem _ hs, h3, h4⟩

/-- Over an index keyed by uid and saved devices that have a system name and
the uid of that name, `restoreDevices` ends, and every device it hands to the
backend or the store has the uid of a saved device that is not disabled. -/
theorem restoreDevices.loop_calls {σ : Type} (E : Env σ) (fuel : Nat) :
    ∀ (l : List Device) (dm : DeviceManager σ) (nR nE : Nat),
    dm.deviceByUID.KeyedByUID →
    (∀ s ∈ l, s.SystemName ≠ "" ∧ s.UID = makeDeviceUID E.machine s.SystemName) →
    (restoreDevices.loop E fuel l dm nR nE).2.calls =
        dm.calls ++ dm.newCalls (restoreDevices.loop E fuel l dm nR nE).2 ∧
      (∀ ev ∈ dm.newCalls (restoreDevices.loop E fuel l dm nR nE).2, ∀ dv,
        ev.call.device = some dv → ∃ s ∈ l, s.GetEnabled = true ∧ dv.UID = s.UID) ∧
      (restoreDevices.loop E fuel l dm nR nE).1 ≠ .unfinished := by
  intro l
  induction l with
  | nil =>
    intro dm nR nE _ _
    refine ⟨by simp [restoreDevices.loop, DeviceManager.newCalls], ?_, by simp [restoreDevices.loop]⟩
    intro ev hev; simp [restoreDevices.loop, DeviceManager.newCalls] at hev
  | cons s0 rest ih =>
    intro dm nR nE hidx hl
    have hrest : ∀ s ∈ rest, s.SystemName ≠ "" ∧ s.UID = makeDeviceUID E.machine s.SystemName :=
      fun s hs => hl s (List.mem_cons_of_mem _ hs)
    have weaken : ∀ (x : restoreDevices.Outcome × DeviceManager σ),
        (x.2.calls = dm.calls ++ dm.newCalls x.2 ∧
          (∀ ev ∈ dm.newCalls x.2, ∀ dv, ev.call.device = some dv →
            ∃ s ∈ rest, s.GetEnabled = true ∧ dv.UID = s.UID) ∧ x.1 ≠ .unfinished) →
        (x.2.calls = dm.calls ++ dm.newCalls x.2 ∧
          (∀ ev ∈ dm.newCalls x.2, ∀ dv, ev.call.device = some dv →
            ∃ s ∈ s0 :: rest, s.GetEnabled = true ∧ dv.UID = s.UID) ∧ x.1 ≠ .unfinished) := by
      intro x hx
      refine ⟨hx.1, ?_, hx.2.2⟩
      intro ev hev dv hdv
      obtain ⟨s, hs, h⟩ := hx.2.1 ev hev dv hdv
      exact ⟨s, List.mem_cons_of_mem _ hs, h⟩
    rw [restoreDevices.loop]
    by_cases hen : s0.GetEnabled = true
    · simp only [hen, Bool.not_true, Bool.false_eq_true, if_false]
      by_cases hst : (dm.deviceByUID.get s0.UID).map Device.Status = some StatusEnabled
      · simp only [hst, if_true]
        exact weaken _ (ih dm nR nE hidx hrest)
      · simp only [hst, if_false]
        obtain ⟨res, dm2, hb, hc, hdv, hk, hres⟩ :=
          restoreDevices.branch_spec E fuel dm s0 hidx (hl s0 (List.mem_cons_self _ _)).1
            (hl s0 (List.mem_cons_self _ _)).2
        have here : ∀ ev ∈ dm.newCalls dm2, ∀ dv, ev.call.device = some dv →
            ∃ s ∈ s0 :: rest, s.GetEnabled = true ∧ dv.UID = s.UID :=
          fun ev hev dv h => ⟨s0, List.mem_cons_self _ _, hen, hdv ev hev dv h⟩
        rw [hb]
        split
        · rename_i heq; simp at heq
        · rename_i msg dm3 heq
          simp at heq
          obtain ⟨_, h2⟩ := heq
          subst h2
          exact ⟨hc, here, by simp⟩
        · rename_i e dm3 _ heq
          simp at heq
          obtain ⟨_, h2⟩ := heq
          subst h2
          have := ih dm2 nR (nE + 1) hk hrest
          obtain ⟨ha, hb2⟩ := restoreDevices.loop_glue dm dm2 _ s0 rest hen hc hdv this.1 this.2.1
          exact ⟨ha, hb2, this.2.2⟩
        · rename_i d dm3 heq
          simp at heq
          obtain ⟨h1, h2⟩ := heq
          subst h2
          have hd := hres d h1
          have hsb := restoreDevices.saveBack_spec dm2 d hk
          rw [hd] at hsb
          obtain ⟨hs1, hs2⟩ := DeviceManager.newCalls_trans dm dm2 _ hc hsb.1
          have hs3 : ∀ ev ∈ dm.newCalls (restoreDevices.saveBack dm2 d).2, ∀ dv,
              ev.call.device = some dv → dv.UID = s0.UID := by
            intro ev hev dv h
            rw [hs2] at hev
            rcases List.mem_append.1 hev with hev | hev
            · exact hdv ev hev dv h
            · exact hsb.2.1 ev hev dv h
          have hk2 : (restoreDevices.saveBack dm2 d).2.deviceByUID.KeyedByUID := by
            rw [hsb.2.2]; exact hk
          split
          · exact ⟨hs1, fun ev hev dv h => ⟨s0, List.mem_cons_self _ _, hen, hs3 ev hev dv h⟩,
              by simp⟩
          · have := ih (restoreDevices.saveBack dm2 d).2 (nR + 1) (nE + 1) hk2 hrest
            obtain ⟨ha, hb2⟩ := restoreDevices.loop_glue dm _ _ s0 rest hen hs1 hs3
              this.1 this.2.1
            exact ⟨ha, hb2, this.2.2⟩
          · have := ih (restoreDevices.saveBack dm2 d).2 (nR + 1) nE hk2 hrest
            obtain ⟨ha, hb2⟩ := restoreDevices.loop_glue dm _ _ s0 rest hen hs1 hs3
              this.1 this.2.1
            exact ⟨ha, hb2, this.2.2⟩
    · have hen2 : s0.GetEnabled = false := by simpa using hen
      simp only [hen2, Bool.not_false, if_true]
      exact weaken _ (ih dm nR nE hidx hrest)

theorem PersistStore.save_file (ps : PersistStore) (h : ps.save.1 = .ok ()) :
    ps.save.2.file = ps.devices := by
  unfold PersistStore.save at h ⊢
  cases hw : ps.writeErrs with
  | nil => rfl
  | cons w rest =>
    cases w with
    | none => rfl
    | some e => rw [hw] at h; simp at h

/-- `SaveStreamDevice` of a stream device that differs from the one saved
under its uid puts it into the map and writes the file. -/
theorem PersistStore.SaveStreamDevice_new (ps : PersistStore) (d : Device)
    (hs : d.IsStream = true) (hne : ps.devices.get d.UID ≠ some d) :
    ps.SaveStreamDevice d = PersistStore.save { ps with devices := ps.devices.set d.UID d } := by
  unfold PersistStore.SaveStreamDevice
  simp only [hs, Bool.not_true, Bool.false_eq_true, if_false]
  cases hg : ps.devices.get d.UID with
  | none => rfl
  | some old =>
    have : old.Equal d = false := by
      simp only [Device.Equal, decide_eq_false_iff_not]
      intro h; rw [hg, h] at hne; exact hne rfl
    simp [this]

/-- The store after `processRemovedDevice`. -/
theorem processRemovedDevice_store {σ : Type} (dm : DeviceManager σ) (uid : String)
    (hwf : dm.store.WF) (hstream : ∀ d ∈ dm.store.LoadStreamDevices, d.IsStream = true) :
    (processRemovedDevice dm uid).2.deviceByUID = dm.deviceByUID ∧
    (processRemovedDevice dm uid).2.deviceByName = dm.deviceByName ∧
    (processRemovedDevice dm uid).2.backend = dm.backend ∧
    ((∃ d, dm.store.devices.get uid = some d ∧ d.Status ≠ StatusDisabled ∧
        (processRemovedDevice dm uid).2.store.devices =
          dm.store.devices.set uid { d with Status := StatusDisabled } ∧
        dm.newCalls (processRemovedDevice dm uid).2 =
          [{ call := .saveStreamDevice { d with Status := StatusDisabled },
             err := errOf (processRemovedDevice dm uid).1 }] ∧
        ((processRemovedDevice dm uid).1 = .ok () →
          (processRemovedDevice dm uid).2.store.file =
            (processRemovedDevice dm uid).2.store.devices)) ∨
      ((dm.store.devices.get uid = none ∨
          ∃ d, dm.store.devices.get uid = some d ∧ d.Status = StatusDisabled) ∧
        processRemovedDevice dm uid = (.ok (), dm))) := by
  cases hg : dm.store.devices.get uid with
  | none =>
    have hpr : processRemovedDevice dm uid = (.ok (), dm) := by
      simp [processRemovedDevice, PersistStore.LoadStreamDevice, hg]
    rw [hpr]
    exact ⟨rfl, rfl, rfl, Or.inr ⟨Or.inl rfl, rfl⟩⟩
  | some d =>
    by_cases hd : d.Status = StatusDisabled
    · have hpr : processRemovedDevice dm uid = (.ok (), dm) := by
        simp [processRemovedDevice, PersistStore.LoadStreamDevice, hg, Device.GetEnabled, hd]
      rw [hpr]
      exact ⟨rfl, rfl, rfl, Or.inr ⟨Or.inr ⟨d, rfl, hd⟩, rfl⟩⟩
    · have hmem := DeviceMap.mem_of_get _ _ _ hg
      have huid : d.UID = uid := DeviceMap.uid_of_get _ hwf.2 _ _ hg
      have hs : d.IsStream = true :=
        hstream d (List.mem_map.2 ⟨(uid, d), hmem, rfl⟩)
      have hnew := PersistStore.SaveStreamDevice_new dm.store { d with Status := StatusDisabled }
        hs (by
          simp only []
          rw [huid, hg]
          intro h
          have := congrArg Device.Status (Option.some.inj h)
          exact hd this)
      have hpr : processRemovedDevice dm uid =
          ((dm.store.SaveStreamDevice { d with Status := StatusDisabled }).1,
            { dm with
              store := (dm.store.SaveStreamDevice { d with Status := StatusDisabled }).2
              calls := dm.calls ++ [Issued.mk (.saveStreamDevice { d with Status := StatusDisabled })
                (errOf (dm.store.SaveStreamDevice { d with Status := StatusDisabled }).1)] }) := by
        simp [processRemovedDevice, PersistStore.LoadStreamDevice, hg, Device.GetEnabled, hd]
      rw [hpr]
      refine ⟨rfl, rfl, rfl, Or.inl ⟨d, rfl, hd, ?_, ?_, ?_⟩⟩
      · show (dm.store.SaveStreamDevice { d with Status := StatusDisabled }).2.devices = _
        rw [hnew, PersistStore.save_devices]
        show dm.store.devices.set d.UID _ = _
        rw [huid]
      · simp [DeviceManager.newCalls]
      · intro hok
        show (dm.store.SaveStreamDevice { d with Status := StatusDisabled }).2.file =
          (dm.store.SaveStreamDevice { d with Status := StatusDisabled }).2.devices
        have hok2 : (dm.store.SaveStreamDevice { d with Status := StatusDisabled }).1 = .ok () :=
          hok
        rw [hnew] at hok2 ⊢
        rw [PersistStore.save_file _ hok2, PersistStore.save_devices]

/-- C13: over a well-formed store of stream devices, `processRemovedDevice`
replaces a device saved under the uid with a status other than `disabled` by
the same device with status `disabled` (and the file holds the new map when the
write succeeds), leaves every other record as it is, leaves the store as it is
when the uid is not saved or saved as `disabled`, issues no backend call and
leaves the backend state and both maps alone; a `restoreDevices` that follows
ends and hands no device of this uid to the backend or to the store. -/
theorem processRemovedDevice_disables {σ : Type} (E : Env σ) (fuel : Nat)
    (dm : DeviceManager σ) (uid : String) (hwf : dm.store.WF)
    (hstream : ∀ d ∈ dm.store.LoadStreamDevices, d.IsStream = true)
    (hidx : dm.deviceByUID.KeyedByUID)
    (hmig : ∀ d ∈ dm.store.LoadStreamDevices,
      d.SystemName ≠ "" ∧ d.UID = makeDeviceUID E.machine d.SystemName) :
    (∀ d, dm.store.devices.get uid = some d → d.Status ≠ StatusDisabled →
      (processRemovedDevice dm uid).2.store.devices.get uid =
          some { d with Status := StatusDisabled } ∧
        ((processRemovedDevice dm uid).1 = .ok () →
          (processRemovedDevice dm uid).2.store.file.get uid =
            some { d with Status := StatusDisabled })) ∧
    (∀ k, k ≠ uid →
      (processRemovedDevice dm uid).2.store.devices.get k = dm.store.devices.get k) ∧
    ((dm.store.devices.get uid = none ∨
        ∃ d, dm.store.devices.get uid = some d ∧ d.Status = StatusDisabled) →
      processRemovedDevice dm uid = (.ok (), dm)) ∧
    (∀ ev ∈ dm.newCalls (processRemovedDevice dm uid).2, ev.call.isBackend = false) ∧
    (processRemovedDevice dm uid).2.backend = dm.backend ∧
    (processRemovedDevice dm uid).2.deviceByUID = dm.deviceByUID ∧
    (processRemovedDevice dm uid).2.deviceByName = dm.deviceByName ∧
    (restoreDevices E fuel (processRemovedDevice dm uid).2).1 ≠ .unfinished ∧
    (∀ ev ∈ (processRemovedDevice dm uid).2.newCalls
        (restoreDevices E fuel (processRemovedDevice dm uid).2).2,
      ∀ dv, ev.call.device = some dv → dv.UID ≠ uid) := by
  obtain ⟨h1, h2, h3, h4⟩ := processRemovedDevice_store dm uid hwf hstream
  have hfacts : ∀ s ∈ (processRemovedDevice dm uid).2.store.LoadStreamDevices,
      (s.SystemName ≠ "" ∧ s.UID = makeDeviceUID E.machine s.SystemName) ∧
      (s.GetEnabled = true → s.UID ≠ uid) := by
    intro s hs
    rcases h4 with ⟨d, hg, hd, hdev, _, _⟩ | ⟨hcase, hpr⟩
    · have hdm := hmig d (List.mem_map.2 ⟨(uid, d), DeviceMap.mem_of_get _ _ _ hg, rfl⟩)
      have hduid : d.UID = uid := DeviceMap.uid_of_get _ hwf.2 _ _ hg
      unfold PersistStore.LoadStreamDevices DeviceMap.values at hs
      rw [hdev] at hs
      obtain ⟨e, he, hes⟩ := List.mem_map.1 hs
      unfold DeviceMap.set at he
      rcases List.mem_cons.1 he with he | he
      · subst he; subst hes
        exact ⟨hdm, by intro hen; simp [Device.GetEnabled] at hen⟩
      · have hin := DeviceMap.delete_subset _ _ he
        have hk : e.1 ≠ uid := by
          intro hk
          exact DeviceMap.not_mem_keys_delete dm.store.devices uid
            (List.mem_map.2 ⟨e, he, hk⟩)
        subst hes
        refine ⟨hmig e.2 (List.mem_map.2 ⟨e, hin, rfl⟩), ?_⟩
        intro _ hu
        exact hk ((hwf.2 e hin).trans hu)
    · rw [hpr] at hs
      refine ⟨hmig s hs, ?_⟩
      intro hen hu
      obtain ⟨e, he, hes⟩ := List.mem_map.1 hs
      have hkey : e.1 = uid := by rw [hwf.2 e he, hes, hu]
      have hget : dm.store.devices.get uid = some s := by
        apply DeviceMap.get_of_mem _ hwf.1
        rw [← hkey, ← hes]; exact he
      rcases hcase with hnone | ⟨d, hg, hd⟩
      · rw [hnone] at hget; simp at hget
      · rw [hg] at hget
        have : d = s := Option.some.inj hget
        subst this
        simp [Device.GetEnabled, hd] at hen
  have hloop := restoreDevices.loop_calls E fuel
    (processRemovedDevice dm uid).2.store.LoadStreamDevices (processRemovedDevice dm uid).2 0 0
    (by rw [h1]; exact hidx) (fun s hs => (hfacts s hs).1)
  refine ⟨?_, ?_, ?_, ?_, h3, h1, h2, hloop.2.2, ?_⟩
  · intro d hg hd
    rcases h4 with ⟨d2, hg2, _, hdev, _, hfile⟩ | ⟨hcase, _⟩
    · rw [hg] at hg2
      have : d = d2 := Option.some.inj hg2
      subst this
      have hget : (processRemovedDevice dm uid).2.store.devices.get uid =
          some { d with Status := StatusDisabled } := by
        rw [hdev, DeviceMap.get_set]; simp
      exact ⟨hget, fun hok => by rw [hfile hok]; exact hget⟩
    · rcases hcase with hnone | ⟨d2, hg2, hd2⟩
      · rw [hnone] at hg; simp at hg
      · rw [hg] at hg2
        have : d = d2 := Option.some.inj hg2
        subst this
        exact absurd hd2 hd
  · intro k hk
    rcases h4 with ⟨d, _, _, hdev, _, _⟩ | ⟨_, hpr⟩
    · rw [hdev, DeviceMap.get_set]; simp [hk]
    · rw [hpr]
  · intro hcase
    rcases h4 with ⟨d, hg, hd, _, _, _⟩ | ⟨_, hpr⟩
    · rcases hcase with hnone | ⟨d2, hg2, hd2⟩
      · rw [hnone] at hg; simp at hg
      · rw [hg] at hg2
        have : d = d2 := Option.some.inj hg2
        subst this
        exact absurd hd2 hd
    · exact hpr
  · intro ev hev
    rcases h4 with ⟨d, _, _, _, hcalls, _⟩ | ⟨_, hpr⟩
    · rw [hcalls] at hev
      simp at hev; subst hev; rfl
    · rw [hpr] at hev; simp [DeviceManager.newCalls] at hev
  · intro ev hev dv hdv hu
    obtain ⟨s, hs, hen, hsu⟩ := hloop.2.1 ev hev dv hdv
    exact (hfacts s hs).2 hen (hsu.symm.trans hu)

/-- C13 at the device of the create scenario, saved and indexed as `enabled`:
after `processRemovedDevice` the store holds it as `disabled`. -/
theorem processRemovedDevice_disables_witness :
    (processRemovedDevice
        (Sample.manager ([] : List (List String)) [Sample.created] [Sample.created])
        Sample.created.UID).2.store.devices.get Sample.created.UID =
      some { Sample.created with Status := StatusDisabled } :=
  ((processRemovedDevice_disables Sample.pulse 1
      (Sample.manager ([] : List (List String)) [Sample.created] [Sample.created])
      Sample.created.UID
      ⟨by simp [DeviceMap.NodupKeys, Sample.manager, Sample.store],
        by intro e he; simp [Sample.manager, Sample.store] at he; subst he; rfl⟩
      (by
        intro d hd
        simp [PersistStore.LoadStreamDevices, DeviceMap.values, Sample.manager, Sample.store] at hd
        subst hd; rfl)
      (by intro e he; simp [Sample.manager] at he; subst he; rfl)
      (by
        intro d hd
        simp [PersistStore.LoadStreamDevices, DeviceMap.values, Sample.manager, Sample.store] at hd
        subst hd
        exact ⟨by decide, rfl⟩)).1
    Sample.created ((DeviceMap.get_cons _ _ _).trans (if_pos rfl)) (by decide)).1

/-- The out-of-band removal scenario on the sample host: the status saved
becomes `disabled`, no backend call is issued, and the `restoreDevices` that
follows issues no call at all. -/
theorem Sample.removed_scenario :
    ((processRemovedDevice
        (Sample.manager ([] : List (List String)) [] [Sample.sink StatusEnabled])
        "u1").2.store.devices.get "u1").map Device.Status = some StatusDisabled ∧
    (processRemovedDevice
        (Sample.manager ([] : List (List String)) [] [Sample.sink StatusEnabled])
        "u1").2.calls.map (fun ev => ev.call.name) = ["SaveStreamDevice"] ∧
    (restoreDevices Sample.pulse 1 (processRemovedDevice
        (Sample.manager ([] : List (List String)) [] [Sample.sink StatusEnabled])
        "u1").2).2.calls.map (fun ev => ev.call.name) = ["SaveStreamDevice"] ∧
    (restoreDevices Sample.pulse 1 (processRemovedDevice
        (Sample.manager ([] : List (List String)) [] [Sample.sink StatusEnabled])
        "u1").2).1 = .finished 0 0 := by
  decide

/-! ## migrateDevices -/

theorem DeviceMap.delete_eq_self (m : DeviceMap) (k : String) (h : m.get k = none) :
    m.delete k = m := by
  unfold DeviceMap.delete
  rw [List.filter_eq_self]
  intro e he
  have hk := (DeviceMap.get_eq_none_iff m k).1 h
  have : e.1 ≠ k := fun hek => hk (List.mem_map.2 ⟨e, he, hek⟩)
  simpa using this

/-- `RemoveStreamDevice` deletes the key from the map, whatever the write
does. -/
theorem PersistStore.RemoveStreamDevice_devices (ps : PersistStore) (uid : String) :
    (ps.RemoveStreamDevice uid).2.devices = ps.devices.delete uid := by
  unfold PersistStore.RemoveStreamDevice
  cases hg : ps.devices.get uid with
  | none => exact (DeviceMap.delete_eq_self _ _ hg).symm
  | some d => simp only []; rw [PersistStore.save_devices]

/-- The map after a successful `SaveStreamDevice`. -/
theorem PersistStore.SaveStreamDevice_devices (ps : PersistStore) (d : Device)
    (h : (ps.SaveStreamDevice d).1 = .ok ()) :
    d.IsStream = true ∧
      (((ps.SaveStreamDevice d).2.devices = ps.devices ∧ ps.devices.get d.UID = some d) ∨
        (ps.SaveStreamDevice d).2.devices = ps.devices.set d.UID d) := by
  have hs := (PersistStore.SaveStreamDevice_ok ps d h).1
  refine ⟨hs, ?_⟩
  by_cases hg : ps.devices.get d.UID = some d
  · left
    refine ⟨?_, hg⟩
    simp [PersistStore.SaveStreamDevice, hs, hg, Device.Equal]
  · right
    rw [PersistStore.SaveStreamDevice_new ps d hs hg, PersistStore.save_devices]

/-- One round of `migrateDevices` on a device whose uid is not the uid of its
name, when the migration goes on to return no error: the old key is deleted
and the device is saved under the recomputed uid. -/
theorem migrateDevices.loop_step {σ : Type} (E : Env σ) (d0 : Device) (rest : List Device)
    (dm : DeviceManager σ) (hne : d0.UID ≠ makeDeviceUID E.machine d0.SystemName)
    (hok : (migrateDevices.loop E (d0 :: rest) dm).1 = .ok ()) :
    ∃ dm2, migrateDevices.loop E (d0 :: rest) dm = migrateDevices.loop E rest dm2 ∧
      d0.IsStream = true ∧
      ((dm2.store.devices = dm.store.devices.delete d0.UID ∧
          (dm.store.devices.delete d0.UID).get (makeDeviceUID E.machine d0.SystemName) =
            some { d0 with UID := makeDeviceUID E.machine d0.SystemName }) ∨
        dm2.store.devices = (dm.store.devices.delete d0.UID).set
          (makeDeviceUID E.machine d0.SystemName)
          { d0 with UID := makeDeviceUID E.machine d0.SystemName }) := by
  rw [migrateDevices.loop] at hok ⊢
  simp only [hne, if_false] at hok ⊢
  cases hr : (dm.store.RemoveStreamDevice d0.UID).1 with
  | error e => rw [hr] at hok; simp at hok
  | ok u =>
    rw [hr] at hok
    simp only [hr] at hok ⊢
    have hdel := PersistStore.RemoveStreamDevice_devices dm.store d0.UID
    cases hs : ((dm.store.RemoveStreamDevice d0.UID).2.SaveStreamDevice
        { d0 with UID := makeDeviceUID E.machine d0.SystemName }).1 with
    | error e =>
      rw [hs] at hok
      exfalso
      cases e <;> simp at hok
    | ok u2 =>
      have hsd := PersistStore.SaveStreamDevice_devices _ _ hs
      rw [hdel] at hsd
      exact ⟨_, rfl, hsd.1, hsd.2⟩

/-- After a migration that returns no error the store is well formed and every
device in it has the uid of its system name, provided every entry at the start
has it already or is a device still to be visited. -/
theorem migrateDevices.loop_consistent {σ : Type} (E : Env σ) :
    ∀ (l : List Device) (dm : DeviceManager σ), dm.store.WF →
    (∀ e ∈ dm.store.devices, e.2.UID = makeDeviceUID E.machine e.2.SystemName ∨ e.2 ∈ l) →
    (migrateDevices.loop E l dm).1 = .ok () →
    (migrateDevices.loop E l dm).2.store.WF ∧
      ∀ e ∈ (migrateDevices.loop E l dm).2.store.devices,
        e.2.UID = makeDeviceUID E.machine e.2.SystemName := by
  intro l
  induction l with
  | nil =>
    intro dm hwf hinv _
    refine ⟨hwf, ?_⟩
    intro e he
    rcases hinv e he with h | h
    · exact h
    · simp at h
  | cons d0 rest ih =>
    intro dm hwf hinv hok
    by_cases hc : d0.UID = makeDeviceUID E.machine d0.SystemName
    · have heq : migrateDevices.loop E (d0 :: rest) dm = migrateDevices.loop E rest dm := by
        rw [migrateDevices.loop]; simp only [hc, if_true]
      rw [heq] at hok ⊢
      apply ih dm hwf _ hok
      intro e he
      rcases hinv e he with h | h
      · exact Or.inl h
      · rcases List.mem_cons.1 h with h | h
        · left; rw [h]; exact hc
        · exact Or.inr h
    · obtain ⟨dm2, heq, _, hdev⟩ := migrateDevices.loop_step E d0 rest dm hc hok
      rw [heq] at hok ⊢
      have hdel : ∀ e ∈ dm.store.devices.delete d0.UID,
          e.2.UID = makeDeviceUID E.machine e.2.SystemName ∨ e.2 ∈ rest := by
        intro e he
        have hin := DeviceMap.delete_subset _ _ he
        rcases hinv e hin with h | h
        · exact Or.inl h
        · rcases List.mem_cons.1 h with h | h
          · exfalso
            apply DeviceMap.not_mem_keys_delete dm.store.devices d0.UID
            refine List.mem_map.2 ⟨e, he, ?_⟩
            rw [hwf.2 e hin, h]
          · exact Or.inr h
      have hwfdel : (dm.store.devices.delete d0.UID).NodupKeys ∧
          (dm.store.devices.delete d0.UID).KeyedByUID :=
        ⟨DeviceMap.nodupKeys_delete _ _ hwf.1,
          fun e he => hwf.2 e (DeviceMap.delete_subset _ _ he)⟩
      rcases hdev with ⟨hd, _⟩ | hd
      · apply ih dm2 _ _ hok
        · unfold PersistStore.WF; rw [hd]; exact hwfdel
        · rw [hd]; exact hdel
      · apply ih dm2 _ _ hok
        · unfold PersistStore.WF; rw [hd]
          exact ⟨DeviceMap.nodupKeys_set _ _ _ hwfdel.1,
            DeviceMap.keyedByUID_set _ _ _ hwfdel.2 rfl⟩
        · rw [hd]
          intro e he
          unfold DeviceMap.set at he
          rcases List.mem_cons.1 he with he | he
          · left; rw [he]
          · exact hdel e (DeviceMap.delete_subset _ _ he)

/-- The store after a migration that returns no error, when the devices still
to be visited are in the store under their uids and no recomputed uid is the
uid or the recomputed uid of another of them: a key that is neither the uid nor
the recomputed uid of a migrated device is as before, and a migrated device is
under its recomputed uid and gone from its old one. -/
theorem migrateDevices.loop_get {σ : Type} (E : Env σ) :
    ∀ (l : List Device) (dm : DeviceManager σ),
    (∀ d ∈ l, dm.store.devices.get d.UID = some d) →
    (l.map Device.UID).Nodup →
    (∀ d ∈ l, ∀ d2 ∈ l, d ≠ d2 →
      makeDeviceUID E.machine d.SystemName ≠ makeDeviceUID E.machine d2.SystemName ∧
      makeDeviceUID E.machine d.SystemName ≠ d2.UID) →
    (migrateDevices.loop E l dm).1 = .ok () →
    (∀ k, (∀ d ∈ l, d.UID ≠ makeDeviceUID E.machine d.SystemName →
        k ≠ d.UID ∧ k ≠ makeDeviceUID E.machine d.SystemName) →
      (migrateDevices.loop E l dm).2.store.devices.get k = dm.store.devices.get k) ∧
    (∀ d ∈ l, d.UID ≠ makeDeviceUID E.machine d.SystemName →
      (migrateDevices.loop E l dm).2.store.devices.get (makeDeviceUID E.machine d.SystemName) =
        some { d with UID := makeDeviceUID E.machine d.SystemName } ∧
      (migrateDevices.loop E l dm).2.store.devices.get d.UID = none) := by
  intro l
  induction l with
  | nil =>
    intro dm _ _ _ _
    exact ⟨fun _ _ => rfl, fun d hd => by simp at hd⟩
  | cons d0 rest ih =>
    intro dm ha hnd hdist hok
    have hnd2 : (rest.map Device.UID).Nodup := (List.nodup_cons.1 hnd).2
    have hd0 : ∀ d ∈ rest, d.UID ≠ d0.UID := by
      intro d hd h
      exact (List.nodup_cons.1 hnd).1 (List.mem_map.2 ⟨d, hd, h⟩)
    have hne0 : ∀ d ∈ rest, d0 ≠ d := by
      intro d hd h; exact hd0 d hd (by rw [h])
    have hdist2 : ∀ d ∈ rest, ∀ d2 ∈ rest, d ≠ d2 →
        makeDeviceUID E.machine d.SystemName ≠ makeDeviceUID E.machine d2.SystemName ∧
        makeDeviceUID E.machine d.SystemName ≠ d2.UID :=
      fun d hd d2 hd2 => hdist d (List.mem_cons_of_mem _ hd) d2 (List.mem_cons_of_mem _ hd2)
    by_cases hc : d0.UID = makeDeviceUID E.machine d0.SystemName
    · have heq : migrateDevices.loop E (d0 :: rest) dm = migrateDevices.loop E rest dm := by
        rw [migrateDevices.loop]; simp only [hc, if_true]
      rw [heq] at hok ⊢
      obtain ⟨h1, h2⟩ := ih dm (fun d hd => ha d (List.mem_cons_of_mem _ hd)) hnd2 hdist2 hok
      refine ⟨?_, ?_⟩
      · intro k hk
        exact h1 k (fun d hd => hk d (List.mem_cons_of_mem _ hd))
      · intro d hd hdne
        rcases List.mem_cons.1 hd with h | h
        · subst h; exact absurd hc hdne
        · exact h2 d h hdne
    · obtain ⟨dm2, heq, _, hdev⟩ := migrateDevices.loop_step E d0 rest dm hc hok
      rw [heq] at hok ⊢
      have hget2 : ∀ k, dm2.store.devices.get k =
          if k = makeDeviceUID E.machine d0.SystemName then
            some { d0 with UID := makeDeviceUID E.machine d0.SystemName }
          else if k = d0.UID then none else dm.store.devices.get k := by
        intro k
        rcases hdev with ⟨hd, hg⟩ | hd
        · rw [hd]
          by_cases hk : k = makeDeviceUID E.machine d0.SystemName
          · rw [if_pos hk, hk]; exact hg
          · rw [if_neg hk, DeviceMap.get_delete]
        · rw [hd, DeviceMap.get_set, DeviceMap.get_delete]
      have hrest : ∀ d ∈ rest, dm2.store.devices.get d.UID = some d := by
        intro d hd
        rw [hget2]
        have h1 := (hdist d0 (List.mem_cons_self _ _) d (List.mem_cons_of_mem _ hd)
          (hne0 d hd)).2
        rw [if_neg (fun h => h1 h.symm), if_neg (hd0 d hd)]
        exact ha d (List.mem_cons_of_mem _ hd)
      obtain ⟨h1, h2⟩ := ih dm2 hrest hnd2 hdist2 hok
      refine ⟨?_, ?_⟩
      · intro k hk
        rw [h1 k (fun d hd => hk d (List.mem_cons_of_mem _ hd)), hget2]
        have := hk d0 (List.mem_cons_self _ _) hc
        rw [if_neg this.2, if_neg this.1]
      · intro d hd hdne
        rcases List.mem_cons.1 hd with h | h
        · subst h
          have hfr : ∀ k, (k = d.UID ∨ k = makeDeviceUID E.machine d.SystemName) →
              ∀ d2 ∈ rest, d2.UID ≠ makeDeviceUID E.machine d2.SystemName →
                k ≠ d2.UID ∧ k ≠ makeDeviceUID E.machine d2.SystemName := by
            intro k hk d2 hd2 _
            have hx := hdist d (List.mem_cons_self _ _) d2 (List.mem_cons_of_mem _ hd2)
              (hne0 d2 hd2)
            have hy := hdist d2 (List.mem_cons_of_mem _ hd2) d (List.mem_cons_self _ _)
              (fun h => hne0 d2 hd2 h.symm)
            rcases hk with hk | hk
            · rw [hk]; exact ⟨fun h => hd0 d2 hd2 h.symm, fun h => hy.2 h.symm⟩
            · rw [hk]; exact ⟨hx.2, hx.1⟩
          refine ⟨?_, ?_⟩
          · rw [h1 _ (hfr _ (Or.inr rfl)), hget2, if_pos rfl]
          · rw [h1 _ (hfr _ (Or.inl rfl)), hget2, if_neg hc, if_pos rfl]
        · exact h2 d h hdne

/-- C14, as the code has it: after `migrateDevices` has returned no error on a
well-formed store, the store is well formed and every saved device has the uid
of its system name; and when no saved device's recomputed uid is the uid or
the recomputed uid of another saved device, a device that had the uid of its
name is still saved under it unchanged, and a device that had not is saved
under its recomputed uid with its other fields unchanged and is gone from its
old uid. -/
theorem migrateDevices_consistent {σ : Type} (E : Env σ) (dm : DeviceManager σ)
    (hwf : dm.store.WF) (hok : (migrateDevices E dm).1 = .ok ()) :
    ((migrateDevices E dm).2.store.WF ∧
      ∀ d ∈ (migrateDevices E dm).2.store.LoadStreamDevices,
        d.UID = makeDeviceUID E.machine d.SystemName) ∧
    ((∀ d ∈ dm.store.LoadStreamDevices, ∀ d2 ∈ dm.store.LoadStreamDevices, d ≠ d2 →
        makeDeviceUID E.machine d.SystemName ≠ makeDeviceUID E.machine d2.SystemName ∧
        makeDeviceUID E.machine d.SystemName ≠ d2.UID) →
      ∀ d ∈ dm.store.LoadStreamDevices,
        (d.UID = makeDeviceUID E.machine d.SystemName →
          (migrateDevices E dm).2.store.devices.get d.UID = some d) ∧
        (d.UID ≠ makeDeviceUID E.machine d.SystemName →
          (migrateDevices E dm).2.store.devices.get (makeDeviceUID E.machine d.SystemName) =
            some { d with UID := makeDeviceUID E.machine d.SystemName } ∧
          (migrateDevices E dm).2.store.devices.get d.UID = none)) := by
  unfold migrateDevices at hok ⊢
  have hat : ∀ d ∈ dm.store.LoadStreamDevices, dm.store.devices.get d.UID = some d := by
    intro d hd
    obtain ⟨e, he, hed⟩ := List.mem_map.1 hd
    apply DeviceMap.get_of_mem _ hwf.1
    rw [← hed, ← hwf.2 e he]; exact he
  refine ⟨?_, ?_⟩
  · obtain ⟨h1, h2⟩ := migrateDevices.loop_consistent E dm.store.LoadStreamDevices dm hwf
      (fun e he => Or.inr (List.mem_map.2 ⟨e, he, rfl⟩)) hok
    refine ⟨h1, ?_⟩
    intro d hd
    obtain ⟨e, he, hed⟩ := List.mem_map.1 hd
    rw [← hed]; exact h2 e he
  · intro hdist d hd
    obtain ⟨h1, h2⟩ := migrateDevices.loop_get E dm.store.LoadStreamDevices dm hat
      (DeviceMap.values_uid_nodup _ hwf.1 hwf.2) hdist hok
    refine ⟨?_, h2 d hd⟩
    intro hc
    rw [h1 d.UID, hat d hd]
    intro d2 hd2 hne2
    have hne : d ≠ d2 := by
      intro h; rw [← h] at hne2; exact hne2 hc
    refine ⟨?_, ?_⟩
    · intro hu
      have := hat d2 hd2
      rw [← hu, hat d hd] at this
      exact hne (Option.some.inj this)
    · rw [hc]; exact (hdist d hd d2 hd2 hne).1

set_option maxRecDepth 100000 in
/-- C14 fails as stated: of two saved devices with the same system name and
stale uids both are moved to the one recomputed uid, and the store is left with
the second of them only. -/
theorem migrateDevices_loses_device :
    (Sample.manager ([] : List (List String)) []
      [Sample.stale "a" "First", Sample.stale "b" "Second"]).store.WF ∧
    (migrateDevices Sample.pulse (Sample.manager [] []
      [Sample.stale "a" "First", Sample.stale "b" "Second"])).1 = .ok () ∧
    (migrateDevices Sample.pulse (Sample.manager [] []
      [Sample.stale "a" "First", Sample.stale "b" "Second"])).2.store.devices.get
        (makeDeviceUID "m" (Sample.stale "a" "First").SystemName) ≠
      some { Sample.stale "a" "First" with
        UID := makeDeviceUID "m" (Sample.stale "a" "First").SystemName } ∧
    (migrateDevices Sample.pulse (Sample.manager [] []
      [Sample.stale "a" "First", Sample.stale "b" "Second"])).2.store.devices.length = 1 := by
  decide

set_option maxRecDepth 100000 in
/-- C14 (as the code has it) at a store with one device saved under a stale
uid. -/
theorem migrateDevices_consistent_witness :
    (migrateDevices Sample.pulse (Sample.manager ([] : List (List String)) []
      [Sample.stale "a" "First"])).2.store.WF ∧
    ∀ d ∈ (migrateDevices Sample.pulse (Sample.manager ([] : List (List String)) []
        [Sample.stale "a" "First"])).2.store.LoadStreamDevices,
      d.UID = makeDeviceUID Sample.pulse.machine d.SystemName :=
  (migrateDevices_consistent Sample.pulse (Sample.manager ([] : List (List String)) []
    [Sample.stale "a" "First"]) (by decide) (by decide)).1

/-! ## Address and URI validation -/

/-- `URI.Fec` is a function of the scheme: `rs8m` for the schemes `rs8m` and
`rtp+rs8m`, `ldpc` for `ldpc` and `rtp+ldpc`, empty otherwise. -/
theorem URI.Fec_of_scheme (L : NetLib) (s : String) :
    URI.Fec L s =
      if URI.Scheme L s = "rs8m" ∨ URI.Scheme L s = "rtp+rs8m" then FecRs8m
      else if URI.Scheme L s = "ldpc" ∨ URI.Scheme L s = "rtp+ldpc" then FecLdpc
      else "" := by
  unfold URI.Fec URI.Scheme
  cases L.urlParse s with
  | none => simp
  | some u => rfl

/-- C15: an address that `Address.Validate` accepts has a source URI; when
the source URI has a FEC scheme the repair URI is present; and a repair URI
that is present has the FEC scheme of the source URI, where the FEC scheme is
`rs8m` for the schemes `rs8m` and `rtp+rs8m`, `ldpc` for `ldpc` and
`rtp+ldpc`, and empty otherwise. -/
theorem Address.Validate_fec (L : NetLib) (a : Address)
    (h : Address.Validate L a = .ok ()) :
    a.AudioSource ≠ "" ∧
    (URI.Fec L a.AudioSource ≠ "" → a.AudioRepair ≠ "") ∧
    (a.AudioRepair ≠ "" → URI.Fec L a.AudioRepair = URI.Fec L a.AudioSource) ∧
    (∀ s, URI.Fec L s =
      if URI.Scheme L s = "rs8m" ∨ URI.Scheme L s = "rtp+rs8m" then FecRs8m
      else if URI.Scheme L s = "ldpc" ∨ URI.Scheme L s = "rtp+ldpc" then FecLdpc
      else "") := by
  have key : a.AudioSource ≠ "" ∧
      (a.AudioRepair = "" → URI.Fec L a.AudioSource = "") ∧
      (a.AudioRepair ≠ "" → URI.Fec L a.AudioSource = URI.Fec L a.AudioRepair) := by
    unfold Address.Validate at h
    cases h1 : Address.validateURI L a.AudioSource IfaceAudioSource with
    | error e => simp [h1] at h
    | ok _ =>
      cases h2 : Address.validateURI L a.AudioRepair IfaceAudioRepair with
      | error e => simp [h1, h2] at h
      | ok _ =>
        cases h3 : Address.validateURI L a.AudioControl IfaceAudioControl with
        | error e => simp [h1, h2, h3] at h
        | ok _ =>
          simp only [h1, h2, h3] at h
          by_cases hs : a.AudioSource = ""
          · simp [hs] at h
          · by_cases hr : a.AudioRepair = ""
            · by_cases hf : URI.Fec L a.AudioSource = ""
              · exact ⟨hs, fun _ => hf, fun h => absurd hr h⟩
              · simp [hs, hr, hf] at h
            · by_cases hf : URI.Fec L a.AudioSource = URI.Fec L a.AudioRepair
              · exact ⟨hs, fun h => absurd h hr, fun _ => hf⟩
              · simp [hs, hr, hf] at h
  refine ⟨key.1, ?_, fun hr => (key.2.2 hr).symm, fun s => URI.Fec_of_scheme L s⟩
  intro hf hr
  exact hf (key.2.1 hr)

/-- C15 at the address of the create scenario. -/
theorem Address.Validate_fec_witness :
    Sample.address.AudioSource ≠ "" ∧
    (URI.Fec Sample.net Sample.address.AudioSource ≠ "" → Sample.address.AudioRepair ≠ "") ∧
    (Sample.address.AudioRepair ≠ "" →
      URI.Fec Sample.net Sample.address.AudioRepair =
        URI.Fec Sample.net Sample.address.AudioSource) :=
  ⟨(Address.Validate_fec Sample.net Sample.address (by decide)).1,
    (Address.Validate_fec Sample.net Sample.address (by decide)).2.1,
    (Address.Validate_fec Sample.net Sample.address (by decide)).2.2.1⟩

/-- What an accepted URI tells about its scheme. -/
theorem URI.Validate_ok (L : NetLib) (s : String) (iface : String)
    (h : URI.Validate L s iface = .ok ()) :
    (URI.Scheme L s = "rtp" ∨ URI.Scheme L s = "rtp+rs8m" ∨ URI.Scheme L s = "rs8m" ∨
      URI.Scheme L s = "rtp+ldpc" ∨ URI.Scheme L s = "ldpc" ∨ URI.Scheme L s = "rtcp" ∨
      URI.Scheme L s = "rtsp") ∧
    (iface = IfaceAudioSource →
      URI.Scheme L s = "rtp" ∨ URI.Scheme L s = "rtp+rs8m" ∨ URI.Scheme L s = "rtp+ldpc") ∧
    (iface = IfaceAudioRepair → URI.Scheme L s = "rs8m" ∨ URI.Scheme L s = "ldpc") ∧
    (iface = IfaceAudioControl → URI.Scheme L s = "rtcp") := by
  unfold URI.Validate at h
  cases hp : L.urlParse s with
  | none => simp [hp] at h
  | some u =>
    simp only [hp] at h
    by_cases ho : u.Opaque = ""
    · simp only [ho, ne_eq, not_true_eq_false, if_false] at h
      generalize URI.Scheme L s = sch at h ⊢
      by_cases h6 : sch = "rtp" ∨ sch = "rtp+rs8m" ∨ sch = "rs8m" ∨ sch = "rtp+ldpc" ∨
          sch = "ldpc" ∨ sch = "rtcp"
      · have h7 : sch = "rtp" ∨ sch = "rtp+rs8m" ∨ sch = "rs8m" ∨ sch = "rtp+ldpc" ∨
            sch = "ldpc" ∨ sch = "rtcp" ∨ sch = "rtsp" := by
          rcases h6 with h | h | h | h | h | h <;> simp [h]
        refine ⟨h7, ?_, ?_, ?_⟩
        · intro hi
          by_contra hn
          simp only [h6, if_true, hi, hn, if_false] at h
          split at h <;> simp at h
        · intro hi
          have hne : ¬ IfaceAudioRepair = IfaceAudioSource := by decide
          by_contra hn
          simp only [h6, if_true, hi, hne, hn, if_false] at h
          split at h <;> simp at h
        · intro hi
          have hne : ¬ IfaceAudioControl = IfaceAudioSource := by decide
          have hne2 : ¬ IfaceAudioControl = IfaceAudioRepair := by decide
          by_contra hn
          simp only [h6, if_true, hi, hne, hne2, hn, if_false] at h
          split at h <;> simp at h
      · by_cases hr : sch = "rtsp"
        · have hn1 : ¬ (sch = "rtp" ∨ sch = "rtp+rs8m" ∨ sch = "rtp+ldpc") := by
            rw [hr]; decide
          have hn2 : ¬ (sch = "rs8m" ∨ sch = "ldpc") := by rw [hr]; decide
          have hn3 : ¬ sch = "rtcp" := by rw [hr]; decide
          refine ⟨by simp [hr], ?_, ?_, ?_⟩
          · intro hi
            exfalso
            simp only [h6, if_false, hr, if_true, hi] at h
            split at h
            · simp at h
            · revert h; decide
          · intro hi
            exfalso
            simp only [h6, if_false, hr, if_true, hi] at h
            split at h
            · simp at h
            · revert h; decide
          · intro hi
            exfalso
            simp only [h6, if_false, hr, if_true, hi] at h
            split at h
            · simp at h
            · revert h; decide
        · exfalso
          simp only [h6, if_false, hr] at h
          simp at h
    · simp [ho] at h

/-- C16: `URI.Validate` accepts a URI for the role `audio_source` only with
one of the schemes `rtp`, `rtp+rs8m`, `rtp+ldpc`, for `audio_repair` only with
`rs8m` or `ldpc`, and for `audio_control` only with `rtcp`; so no URI is
accepted under two of the three roles, and a URI whose scheme is none of
`rtp`, `rtp+rs8m`, `rs8m`, `rtp+ldpc`, `ldpc`, `rtcp`, `rtsp` is refused under
every role. -/
theorem URI.Validate_roles (L : NetLib) (s : String) :
    (URI.Validate L s IfaceAudioSource = .ok () →
      URI.Scheme L s = "rtp" ∨ URI.Scheme L s = "rtp+rs8m" ∨ URI.Scheme L s = "rtp+ldpc") ∧
    (URI.Validate L s IfaceAudioRepair = .ok () →
      URI.Scheme L s = "rs8m" ∨ URI.Scheme L s = "ldpc") ∧
    (URI.Validate L s IfaceAudioControl = .ok () → URI.Scheme L s = "rtcp") ∧
    ¬ (URI.Validate L s IfaceAudioSource = .ok () ∧ URI.Validate L s IfaceAudioRepair = .ok ()) ∧
    ¬ (URI.Validate L s IfaceAudioSource = .ok () ∧
      URI.Validate L s IfaceAudioControl = .ok ()) ∧
    ¬ (URI.Validate L s IfaceAudioRepair = .ok () ∧
      URI.Validate L s IfaceAudioControl = .ok ()) ∧
    (¬ (URI.Scheme L s = "rtp" ∨ URI.Scheme L s = "rtp+rs8m" ∨ URI.Scheme L s = "rs8m" ∨
        URI.Scheme L s = "rtp+ldpc" ∨ URI.Scheme L s = "ldpc" ∨ URI.Scheme L s = "rtcp" ∨
        URI.Scheme L s = "rtsp") →
      ∀ iface, ∃ e, URI.Validate L s iface = .error e) := by
  have hsrc := fun h => (URI.Validate_ok L s IfaceAudioSource h).2.1 rfl
  have hrep := fun h => (URI.Validate_ok L s IfaceAudioRepair h).2.2.1 rfl
  have hctl := fun h => (URI.Validate_ok L s IfaceAudioControl h).2.2.2 rfl
  refine ⟨hsrc, hrep, hctl, ?_, ?_, ?_, ?_⟩
  · rintro ⟨h1, h2⟩
    have a := hsrc h1
    have b := hrep h2
    generalize URI.Scheme L s = sch at a b
    rcases a with a | a | a <;> subst a <;> revert b <;> decide
  · rintro ⟨h1, h2⟩
    have a := hsrc h1
    have b := hctl h2
    generalize URI.Scheme L s = sch at a b
    rcases a with a | a | a <;> subst a <;> revert b <;> decide
  · rintro ⟨h1, h2⟩
    have a := hrep h1
    have b := hctl h2
    generalize URI.Scheme L s = sch at a b
    rcases a with a | a <;> subst a <;> revert b <;> decide
  · intro hn iface
    cases hv : URI.Validate L s iface with
    | error e => exact ⟨e, rfl⟩
    | ok u => exact absurd (URI.Validate_ok L s iface hv).1 hn

/-- C16 at the source URI of the create scenario: it is accepted as
`audio_source`, so it is refused as `audio_repair`. -/
theorem URI.Validate_roles_witness :
    URI.Validate Sample.net "rtp+rs8m://10.0.0.1:10001" IfaceAudioSource = .ok () ∧
    URI.Validate Sample.net "rtp+rs8m://10.0.0.1:10001" IfaceAudioRepair ≠ .ok () :=
  ⟨by decide, fun h =>
    (URI.Validate_roles Sample.net "rtp+rs8m://10.0.0.1:10001").2.2.2.1 ⟨by decide, h⟩⟩

/-! ## The address lists in the uid index -/

theorem Device.SetDefaults_addressSided (d : Device) (h : d.OtherSideEmpty) :
    d.SetDefaults.AddressSided := by
  have hss : ¬ Source = Sink := by decide
  intro hs
  have hs0 : d.IsStream = true := by rw [← (Device.SetDefaults_fields d).2.2.2.2.2.2.1]; exact hs
  have ht : d.SetDefaults.Typ = d.Typ := (Device.SetDefaults_fields d).2.2.2.1
  have hlt := (Device.SetDefaults_fields d).2.2.2.2.2.2.2.2.2.2.2.1
  have hlf := (Device.SetDefaults_fields d).2.2.2.2.2.2.2.2.2.2.2.2
  rw [ht, hlt, hlf]
  refine ⟨fun hk => ⟨?_, (h hs0).1 hk⟩, fun hk => ⟨?_, (h hs0).2 hk⟩⟩
  · unfold Device.SetDefaults Device.SetMuted
    by_cases h1 : d.Status = "" <;> by_cases h2 : d.IsMuted = none <;>
      by_cases h3 : d.ToAddress = none <;> simp [h1, h2, h3, hs0, hk]
  · unfold Device.SetDefaults Device.SetMuted
    by_cases h1 : d.Status = "" <;> by_cases h2 : d.IsMuted = none <;>
      by_cases h3 : d.FromAddress = none <;> simp [h1, h2, h3, hs0, hk, hss]

/-- A patch accepted by the checks of `updateDevice` for a stream device has
no address on the side that is not of the device's type. -/
theorem updateDevice.patch_sides (L : NetLib) (dev updDev : Device)
    (h : updateDevice.validate L dev updDev = .ok ()) (hs : dev.IsStream = true) :
    (dev.Typ = Sink → AddressList.Len updDev.FromAddress = 0) ∧
    (dev.Typ = Source → AddressList.Len updDev.ToAddress = 0) := by
  have hss : ¬ Source = Sink := by decide
  unfold updateDevice.validate at h
  by_cases hst : dev.Status ≠ "" ∧ dev.Status ≠ StatusDisabled ∧ dev.Status ≠ StatusEnabled
      ∧ dev.Status ≠ StatusUnavailable
  · rw [if_pos hst] at h; simp at h
  · rw [if_neg hst, if_pos hs] at h
    refine ⟨fun hk => ?_, fun hk => ?_⟩
    · rw [if_pos hk] at h
      cases hv : AddressList.Validate L updDev.ToAddress with
      | error e => simp [hv] at h
      | ok _ =>
        simp only [hv] at h
        by_contra hn
        simp [hn] at h
    · rw [if_neg (by rw [hk]; exact hss), if_pos hk] at h
      cases hv : AddressList.Validate L updDev.FromAddress with
      | error e => simp [hv] at h
      | ok _ =>
        simp only [hv] at h
        by_contra hn
        simp [hn] at h

/-- A request accepted by the checks of `createStreamDevice` has no address on
the side that is not of its type. -/
theorem createStreamDevice.request_sides (L : NetLib) (dev : Device)
    (h : createStreamDevice.validate L dev = .ok ()) :
    (dev.Typ = Sink → AddressList.Len dev.FromAddress = 0) ∧
    (dev.Typ = Source → AddressList.Len dev.ToAddress = 0) := by
  have hss : ¬ Source = Sink := by decide
  unfold createStreamDevice.validate at h
  by_cases hu : dev.UID ≠ ""
  · rw [if_pos hu] at h; simp at h
  · rw [if_neg hu] at h
    by_cases ht : dev.Typ ≠ Sink ∧ dev.Typ ≠ Source
    · rw [if_pos ht] at h; simp at h
    · rw [if_neg ht] at h
      by_cases hst : dev.Status ≠ "" ∧ dev.Status ≠ StatusDisabled ∧ dev.Status ≠ StatusEnabled
          ∧ dev.Status ≠ StatusUnavailable
      · rw [if_pos hst] at h; simp at h
      · rw [if_neg hst] at h
        refine ⟨fun hk => ?_, fun hk => ?_⟩
        · rw [if_pos hk] at h
          cases hv : AddressList.Validate L dev.ToAddress with
          | error e => simp [hv] at h
          | ok _ =>
            simp only [hv] at h
            by_contra hn
            simp [hn] at h
        · rw [if_neg (by rw [hk]; exact hss), if_pos hk] at h
          cases hv : AddressList.Validate L dev.FromAddress with
          | error e => simp [hv] at h
          | ok _ =>
            simp only [hv] at h
            by_contra hn
            simp [hn] at h

theorem DeviceMap.addressSided_set (m : DeviceMap) (k : String) (d : Device)
    (hm : m.AddressSided) (hd : d.AddressSided) : (m.set k d).AddressSided := by
  intro e he
  unfold DeviceMap.set at he
  rcases List.mem_cons.1 he with h | h
  · rw [h]; exact hd
  · exact hm e (DeviceMap.delete_subset _ _ h)

theorem createStreamDevice.fill_sides {σ : Type} (E : Env σ) (d : Device) :
    (createStreamDevice.fill E d).IsStream = true ∧ (createStreamDevice.fill E d).Typ = d.Typ ∧
    (createStreamDevice.fill E d).ToAddress = d.ToAddress ∧
    (createStreamDevice.fill E d).FromAddress = d.FromAddress := by
  unfold createStreamDevice.fill
  by_cases h1 : d.DisplayName = "" <;>
  by_cases h2 : d.Status = "" <;>
  by_cases h3 : d.Status = StatusUnavailable <;> simp [h1, h2, h3]

/-- `createStreamDevice` keeps the sides of the address lists in the uid
index. -/
theorem createStreamDevice_addressSided {σ : Type} (E : Env σ) (fuel : Nat)
    (dm : DeviceManager σ) (dev : Device) (r : Except Err String × DeviceManager σ)
    (h : createStreamDevice E fuel dm dev = some r) (hinv : dm.deviceByUID.AddressSided) :
    r.2.deviceByUID.AddressSided := by
  have hc := createStreamDevice_carried E fuel dm dev r h Device.AddressSided
    (fun _ _ hq => hq)
    (by
      intro hval name _
      apply Device.SetDefaults_addressSided
      obtain ⟨_, f2, f3, f4⟩ := createStreamDevice.fill_sides E { dev with SystemName := name }
      have hv := createStreamDevice.request_sides E.net dev hval
      intro _
      rw [f2, f3, f4]
      exact hv)
  rcases hc.2.2 with ⟨_, h1, _⟩ | ⟨d1, hq, _, h1, _⟩
  · rw [h1]; exact hinv
  · rw [h1]; exact DeviceMap.addressSided_set _ _ _ hinv hq

/-- `updateDevice` keeps the sides of the address lists in the uid index. -/
theorem updateDevice_addressSided {σ : Type} (E : Env σ) (dm : DeviceManager σ) (uid : String)
    (updDev : Device) (filter : deviceFilter) (hinv : dm.deviceByUID.AddressSided) :
    (updateDevice E dm uid updDev filter).2.deviceByUID.AddressSided := by
  cases hidx : dm.deviceByUID.get uid with
  | none =>
    have : updateDevice E dm uid updDev filter = (.error (.notFound uid), dm) := by
      simp [updateDevice, hidx]
    rw [this]; exact hinv
  | some dev =>
    have hdev : dev.AddressSided := hinv (uid, dev) (DeviceMap.mem_of_get _ _ _ hidx)
    have hc := updateDevice_carried E dm uid updDev filter
      (fun d => d.IsStream = dev.IsStream ∧ d.Typ = dev.Typ ∧ d.AddressSided)
      (fun _ _ hq => hq)
      (by
        intro dev2 hidx2 hval
        rw [hidx] at hidx2
        have : dev = dev2 := Option.some.inj hidx2
        subst this
        refine ⟨⟨rfl, rfl, hdev⟩, fun _ hq _ => hq, fun _ hq _ => hq, ?_, ?_⟩
        · intro d hq hch
          refine ⟨hq.1, hq.2.1, ?_⟩
          intro hs
          have hs2 : dev.IsStream = true := by rw [← hq.1]; exact hs
          have hv := updateDevice.patch_sides E.net dev updDev hval hs2
          have hne : updDev.ToAddress ≠ none := by
            simp [updateDevice.toAddressChanges] at hch; exact hch.1
          have hold := hq.2.2 hs
          refine ⟨fun hk => ⟨hne, (hold.1 hk).2⟩, fun hk => ⟨(hold.2 hk).1, ?_⟩⟩
          exact hv.2 (by rw [← hq.2.1]; exact hk)
        · intro d hq hch
          refine ⟨hq.1, hq.2.1, ?_⟩
          intro hs
          have hs2 : dev.IsStream = true := by rw [← hq.1]; exact hs
          have hv := updateDevice.patch_sides E.net dev updDev hval hs2
          have hne : updDev.FromAddress ≠ none := by
            simp [updateDevice.fromAddressChanges] at hch; exact hch.1
          have hold := hq.2.2 hs
          refine ⟨fun hk => ⟨(hold.1 hk).1, ?_⟩, fun hk => ⟨hne, (hold.2 hk).2⟩⟩
          exact hv.1 (by rw [← hq.2.1]; exact hk))
    rcases hc.2.2 with ⟨_, h1, _⟩ | ⟨d2, hq, _, h1, _⟩
    · rw [h1]; exact hinv
    · rw [h1]; exact DeviceMap.addressSided_set _ _ _ hinv hq.2.2

/-- The entries of a map built by a loop whose every round keeps the map or
adds a value made of the device visited. -/
theorem DeviceMap.mem_foldl (f : DeviceMap → Device → DeviceMap) (val : Device → Device)
    (hf : ∀ (m : DeviceMap) (d : Device) (e : String × Device), e ∈ f m d → e ∈ m ∨ e.2 = val d) :
    ∀ (l : List Device) (m0 : DeviceMap) (e : String × Device),
      e ∈ l.foldl f m0 → e ∈ m0 ∨ ∃ d ∈ l, e.2 = val d := by
  intro l
  induction l with
  | nil => intro m0 e he; exact Or.inl he
  | cons d rest ih =>
    intro m0 e he
    rw [List.foldl_cons] at he
    rcases ih (f m0 d) e he with h | ⟨d2, hd2, h⟩
    · rcases hf m0 d e h with h2 | h2
      · exact Or.inl h2
      · exact Or.inr ⟨d, List.mem_cons_self _ _, h2⟩
    · exact Or.inr ⟨d2, List.mem_cons_of_mem _ hd2, h⟩

theorem DeviceMap.mem_set (m : DeviceMap) (k : String) (d : Device) (e : String × Device)
    (h : e ∈ m.set k d) : e ∈ m ∨ e.2 = d := by
  unfold DeviceMap.set at h
  rcases List.mem_cons.1 h with h | h
  · right; rw [h]
  · exact Or.inl (DeviceMap.delete_subset _ _ h)

/-- Every device of a collected map is a device of the list with defaults. -/
theorem collectDevices_origin (l : List Device) (e : String × Device)
    (h : e ∈ collectDevices l) : ∃ d ∈ l, e.2 = d.SetDefaults := by
  unfold collectDevices at h
  rcases DeviceMap.mem_foldl _ Device.SetDefaults
    (fun m d e he => DeviceMap.mem_set m _ _ e he) l [] e h with h | h
  · simp at h
  · exact h

/-- Every device of the rebuilt `deviceByUID` is a backend device, or a saved
device, an enabled one as unavailable. -/
theorem rereadDevices.byUID_origin (S B : DeviceMap) (e : String × Device)
    (h : e ∈ rereadDevices.byUID S B) :
    e.2 ∈ B.values ∨ ∃ d ∈ S.values, e.2 =
      if d.Status = StatusEnabled then { d with Status := StatusUnavailable } else d := by
  unfold rereadDevices.byUID at h
  simp only [] at h
  rcases DeviceMap.mem_foldl _
    (fun d => if d.Status = StatusEnabled then { d with Status := StatusUnavailable } else d)
    (by
      intro m d e he
      by_cases hk : (m.get d.UID).isSome = true
      · rw [if_pos hk] at he; exact Or.inl he
      · rw [if_neg hk] at he
        exact DeviceMap.mem_set m _ _ e he) S.values _ e h with h | h
  · rcases DeviceMap.mem_foldl _ id
      (fun m d e he => DeviceMap.mem_set m _ _ e he) B.values [] e h with h | ⟨d, hd, h⟩
    · simp at h
    · left; rw [h]; exact hd
  · exact Or.inr h

/-- `rereadDevices` leaves an index whose address lists are on the side of the
device type, when the saved devices and the devices the backend reports have
no address on the other side. -/
theorem rereadDevices_addressSided {σ : Type} (E : Env σ) (dm : DeviceManager σ)
    (hs : ∀ d ∈ dm.store.LoadStreamDevices, d.OtherSideEmpty)
    (hb : ∀ d ∈ (fetchDevices E dm).1, d.OtherSideEmpty)
    (hok : (rereadDevices E dm).1 = .ok ()) :
    (rereadDevices E dm).2.deviceByUID.AddressSided := by
  rw [(rereadDevices_ok E dm hok).1]
  intro e he
  rcases rereadDevices.byUID_origin _ _ e he with h | ⟨d, hd, h⟩
  · obtain ⟨e2, he2, h2⟩ := List.mem_map.1 h
    obtain ⟨d0, hd0, h0⟩ := collectDevices_origin _ e2 he2
    rw [← h2, h0]
    exact Device.SetDefaults_addressSided d0 (hb d0 hd0)
  · obtain ⟨e2, he2, h2⟩ := List.mem_map.1 hd
    obtain ⟨d0, hd0, h0⟩ := collectDevices_origin _ e2 he2
    have hsd : d.AddressSided := by
      rw [← h2, h0]; exact Device.SetDefaults_addressSided d0 (hs d0 hd0)
    rw [h]
    by_cases hst : d.Status = StatusEnabled
    · rw [if_pos hst]; exact hsd
    · rw [if_neg hst]; exact hsd

/-- A `rereadDevices` that returns an error leaves both maps as they were. -/
theorem rereadDevices_error {σ : Type} (E : Env σ) (dm : DeviceManager σ) (e : Err)
    (h : (rereadDevices E dm).1 = .error e) :
    (rereadDevices E dm).2.deviceByUID = dm.deviceByUID ∧
    (rereadDevices E dm).2.deviceByName = dm.deviceByName := by
  have hf := fetchAttempts_frame E fetchRetryCount dm
  have hu : (fetchDevices E dm).2.deviceByUID = dm.deviceByUID := hf.2.1
  have hn : (fetchDevices E dm).2.deviceByName = dm.deviceByName := hf.2.2.1
  have hst := fetchDevices_store E dm
  generalize hU : rereadDevices.updated (collectDevices dm.store.LoadStreamDevices)
    (collectDevices (fetchDevices E dm).1) = U at *
  unfold rereadDevices at h ⊢
  simp only [hU, hst] at h ⊢
  cases U with
  | nil => simp at h
  | cons e0 U =>
    simp only [List.length_cons, ne_eq, Nat.add_one_ne_zero, not_false_eq_true, if_true] at h ⊢
    cases hs : (dm.store.SaveStreamDevices (e0 :: U)).1 with
    | error err => exact ⟨hu, hn⟩
    | ok u => rw [hs] at h; simp at h

/-- C17, as the code has it: over a uid index in which every stream sink has a
`to_address` list that is present (it may be empty) and an empty or absent
`from_address`, and every stream source has a `from_address` list that is
present and an empty or absent `to_address`, `createStreamDevice` (which
returns, given rounds enough for the name) and `updateDevice` leave such an
index, and so does `rereadDevices` when no saved device and no device reported
by the backend has an address on the side that is not of its type. -/
theorem index_address_sides {σ : Type} (E : Env σ) (dm : DeviceManager σ)
    (hinv : dm.deviceByUID.AddressSided) :
    (∀ fuel dev r, createStreamDevice E fuel dm dev = some r →
      r.2.deviceByUID.AddressSided) ∧
    (∀ fuel dev, dm.lastIndex < 2 ^ 64 → dm.usedNames.length < 2 ^ 64 →
      dm.usedNames.length < fuel →
      ∃ r, createStreamDevice E fuel dm dev = some r ∧ r.2.deviceByUID.AddressSided) ∧
    (∀ uid updDev filter, (updateDevice E dm uid updDev filter).2.deviceByUID.AddressSided) ∧
    ((∀ d ∈ dm.store.LoadStreamDevices, d.OtherSideEmpty) →
      (∀ d ∈ (fetchDevices E dm).1, d.OtherSideEmpty) →
      (rereadDevices E dm).2.deviceByUID.AddressSided) := by
  refine ⟨fun fuel dev r h => createStreamDevice_addressSided E fuel dm dev r h hinv, ?_,
    fun uid updDev filter => updateDevice_addressSided E dm uid updDev filter hinv, ?_⟩
  · intro fuel dev hl hsize hfuel
    have hex : ∃ r, createStreamDevice E fuel dm dev = some r := by
      rcases createStreamDevice_total E fuel dm dev hl hsize hfuel with
        ⟨e, _, h⟩ | ⟨_, _, _, h⟩ | ⟨_, named, dm1, _, _, _, _, _, _, h⟩
      · exact ⟨_, h⟩
      · exact ⟨_, h⟩
      · exact ⟨_, h⟩
    obtain ⟨r, hr⟩ := hex
    exact ⟨r, hr, createStreamDevice_addressSided E fuel dm dev r hr hinv⟩
  · intro hs hb
    cases hr : (rereadDevices E dm).1 with
    | error e => rw [(rereadDevices_error E dm e hr).1]; exact hinv
    | ok u => exact rereadDevices_addressSided E dm hs hb hr

/-- C17 fails as stated: on an empty index a request for a disabled sink
without `to_address` is accepted, and the sink is indexed with an empty
`to_address`. -/
theorem createStreamDevice_without_address :
    (Sample.manager ([] : List (List String)) [] []).deviceByUID.AddressShaped ∧
    (createStreamDevice Sample.pulse 1 (Sample.manager [] [] [])
        { Sample.blank with Typ := Sink, Status := StatusDisabled }).map
      (fun r => (errOf r.1, decide r.2.deviceByUID.AddressShaped, r.2.deviceByUID.length)) =
      some (none, false, 1) := by
  decide

/-- C17 (as the code has it) at an indexed stream sink and a patch that
empties its `to_address` while disabling it. -/
theorem index_address_sides_witness :
    (updateDevice Sample.pulse
      (Sample.manager [] [Sample.sink StatusEnabled] [Sample.sink StatusEnabled]) "u1"
      { Sample.blank with Status := StatusDisabled, ToAddress := some [] }
      .anyDevice).2.deviceByUID.AddressSided :=
  (index_address_sides Sample.pulse
    (Sample.manager [] [Sample.sink StatusEnabled] [Sample.sink StatusEnabled])
    (by decide)).2.2.1 "u1" { Sample.blank with Status := StatusDisabled, ToAddress := some [] }
    .anyDevice

/-! ## Event dispatcher -/

/-- In a loop that writes one event of type `T` for every device that
satisfies `p`, over devices without repeated uids, the event of a uid is
written once when the device of that uid satisfies `p` and not at all
otherwise. -/
theorem EventListener.count_loop (T : String) (p : Device → Bool) :
    ∀ (vs : List Device), (vs.map Device.UID).Nodup → ∀ (uid : String),
      (vs.filterMap fun d =>
          if p d then some ({ Typ := T, DeviceUID := d.UID } : Event) else none).count
        { Typ := T, DeviceUID := uid } =
      match vs.find? (fun d => d.UID == uid) with
      | some d => if p d then 1 else 0
      | none => 0 := by
  intro vs
  induction vs with
  | nil => intro _ uid; rfl
  | cons d rest ih =>
    intro hnd uid
    have hnd2 : (rest.map Device.UID).Nodup := (List.nodup_cons.1 hnd).2
    have hnot : d.UID ∉ rest.map Device.UID := (List.nodup_cons.1 hnd).1
    by_cases hu : d.UID = uid
    · have hfind : (d :: rest).find? (fun d => d.UID == uid) = some d := by
        simp [List.find?, hu]
      have hrest : rest.find? (fun d => d.UID == uid) = none := by
        rw [List.find?_eq_none]
        intro x hx hxu
        have : x.UID = uid := by simpa using hxu
        exact hnot (List.mem_map.2 ⟨x, hx, this.trans hu.symm⟩)
      have hz := ih hnd2 uid
      rw [hrest] at hz
      rw [hfind]
      by_cases hp : p d = true
      · simp only [List.filterMap_cons, hp, if_true, List.count_cons, hz, hu]
        simp
      · simp only [List.filterMap_cons, hp, Bool.false_eq_true, if_false, hz]
    · have hfind : (d :: rest).find? (fun d => d.UID == uid) =
          rest.find? (fun d => d.UID == uid) := by
        have hb : (d.UID == uid) = false := by simpa using hu
        simp [List.find?, hb]
      rw [hfind, ← ih hnd2 uid]
      by_cases hp : p d = true
      · simp only [List.filterMap_cons, hp, if_true, List.count_cons]
        have : (({ Typ := T, DeviceUID := d.UID } : Event) == { Typ := T, DeviceUID := uid })
            = false := by
          simp [hu]
        simp [this]
      · simp only [List.filterMap_cons, hp, Bool.false_eq_true, if_false]

/-- The events of such a loop have its type. -/
theorem EventListener.typ_loop (T : String) (p : Device → Bool) (vs : List Device)
    (ev : Event)
    (h : ev ∈ vs.filterMap fun d =>
      if p d then some ({ Typ := T, DeviceUID := d.UID } : Event) else none) :
    ev.Typ = T := by
  obtain ⟨d, _, hd⟩ := List.mem_filterMap.1 h
  by_cases hp : p d = true
  · simp [hp] at hd; rw [← hd]
  · simp [hp] at hd

theorem EventListener.count_other (T T2 : String) (hT : T ≠ T2) (p : Device → Bool)
    (vs : List Device) (uid : String) :
    (vs.filterMap fun d =>
        if p d then some ({ Typ := T, DeviceUID := d.UID } : Event) else none).count
      { Typ := T2, DeviceUID := uid } = 0 := by
  rw [List.count_eq_zero]
  intro h
  exact hT (EventListener.typ_loop T p vs _ h).symm

/-- The events of `report` for two snapshots keyed by uid, counted by type and
uid. -/
theorem EventListener.report_counts (last curr : state)
    (hl1 : last.devices.NodupKeys) (hl2 : last.devices.KeyedByUID)
    (hc1 : curr.devices.NodupKeys) (hc2 : curr.devices.KeyedByUID) :
    (∀ uid, (EventListener.report last curr).count
        { Typ := EventDeviceRemoved, DeviceUID := uid } =
      if (last.devices.get uid).isSome ∧ (curr.devices.get uid).isNone then 1 else 0) ∧
    (∀ uid, (EventListener.report last curr).count
        { Typ := EventDeviceAdded, DeviceUID := uid } =
      if (curr.devices.get uid).isSome ∧ (last.devices.get uid).isNone then 1 else 0) ∧
    (∀ uid, (EventListener.report last curr).count
        { Typ := EventDeviceUpdated, DeviceUID := uid } =
      match last.devices.get uid, curr.devices.get uid with
      | some lastDev, some currDev => if lastDev.Equal currDev then 0 else 1
      | _, _ => 0) ∧
    (∀ ev ∈ EventListener.report last curr,
      ev.Typ = EventDeviceRemoved ∨ ev.Typ = EventDeviceAdded ∨ ev.Typ = EventDeviceUpdated) ∧
    (∀ uid, (curr.devices.get uid).isSome ↔
      ((last.devices.get uid).isSome ∧
          ({ Typ := EventDeviceRemoved, DeviceUID := uid } : Event) ∉
            EventListener.report last curr) ∨
        ({ Typ := EventDeviceAdded, DeviceUID := uid } : Event) ∈
          EventListener.report last curr) := by
  have hra : EventDeviceRemoved ≠ EventDeviceAdded := by decide
  have hru : EventDeviceRemoved ≠ EventDeviceUpdated := by decide
  have hau : EventDeviceAdded ≠ EventDeviceUpdated := by decide
  have hlnd := DeviceMap.values_uid_nodup _ hl1 hl2
  have hcnd := DeviceMap.values_uid_nodup _ hc1 hc2
  have hrem : ∀ uid, (EventListener.report last curr).count
      { Typ := EventDeviceRemoved, DeviceUID := uid } =
      if (last.devices.get uid).isSome ∧ (curr.devices.get uid).isNone then 1 else 0 := by
    intro uid
    unfold EventListener.report
    simp only [List.count_append]
    rw [EventListener.count_loop EventDeviceRemoved _ _ hlnd uid,
      EventListener.count_other EventDeviceAdded EventDeviceRemoved hra.symm,
      EventListener.count_other EventDeviceUpdated EventDeviceRemoved hru.symm,
      ← DeviceMap.get_eq_find _ hl2 uid]
    cases hg : last.devices.get uid with
    | none => simp
    | some d =>
      have hd : d.UID = uid := DeviceMap.uid_of_get _ hl2 _ _ hg
      simp only [hd, Option.isSome_some, true_and, Nat.add_zero]
  have hadd : ∀ uid, (EventListener.report last curr).count
      { Typ := EventDeviceAdded, DeviceUID := uid } =
      if (curr.devices.get uid).isSome ∧ (last.devices.get uid).isNone then 1 else 0 := by
    intro uid
    unfold EventListener.report
    simp only [List.count_append]
    rw [EventListener.count_loop EventDeviceAdded _ _ hcnd uid,
      EventListener.count_other EventDeviceRemoved EventDeviceAdded hra,
      EventListener.count_other EventDeviceUpdated EventDeviceAdded hau.symm,
      ← DeviceMap.get_eq_find _ hc2 uid]
    cases hg : curr.devices.get uid with
    | none => simp
    | some d =>
      have hd : d.UID = uid := DeviceMap.uid_of_get _ hc2 _ _ hg
      simp only [hd, Option.isSome_some, true_and, Nat.add_zero, Nat.zero_add]
  refine ⟨hrem, hadd, ?_, ?_, ?_⟩
  · intro uid
    unfold EventListener.report
    simp only [List.count_append]
    rw [EventListener.count_loop EventDeviceUpdated _ _ hcnd uid,
      EventListener.count_other EventDeviceRemoved EventDeviceUpdated hru,
      EventListener.count_other EventDeviceAdded EventDeviceUpdated hau,
      ← DeviceMap.get_eq_find _ hc2 uid]
    cases hg : curr.devices.get uid with
    | none => cases last.devices.get uid <;> simp
    | some d =>
      have hd : d.UID = uid := DeviceMap.uid_of_get _ hc2 _ _ hg
      simp only [hd, Nat.zero_add]
      cases hg2 : last.devices.get uid with
      | none => simp
      | some l => by_cases he : l.Equal d = true <;> simp [he]
  · intro ev hev
    unfold EventListener.report at hev
    simp only [List.mem_append] at hev
    rcases hev with (h | h) | h
    · exact Or.inl (EventListener.typ_loop _ _ _ ev h)
    · exact Or.inr (Or.inl (EventListener.typ_loop _ _ _ ev h))
    · exact Or.inr (Or.inr (EventListener.typ_loop _ _ _ ev h))
  · intro uid
    have h1 := hrem uid
    have h2 := hadd uid
    have m1 : ({ Typ := EventDeviceRemoved, DeviceUID := uid } : Event) ∈
        EventListener.report last curr ↔
        ((last.devices.get uid).isSome ∧ (curr.devices.get uid).isNone) := by
      rw [← List.count_pos_iff, h1]
      cases last.devices.get uid <;> cases curr.devices.get uid <;> simp
    have m2 : ({ Typ := EventDeviceAdded, DeviceUID := uid } : Event) ∈
        EventListener.report last curr ↔
        ((curr.devices.get uid).isSome ∧ (last.devices.get uid).isNone) := by
      rw [← List.count_pos_iff, h2]
      cases last.devices.get uid <;> cases curr.devices.get uid <;> simp
    rw [m1, m2]
    cases last.devices.get uid <;> cases curr.devices.get uid <;> simp

/-- C18: for two snapshots whose device maps are keyed by uid, `report` writes
`device_removed` once for a uid that only the last snapshot has,
`device_added` once for a uid that only the current snapshot has,
`device_updated` once for a uid that both have with devices that are not
`Equal`, no event of these types for any other uid and no event of another
type; so the uids of the current snapshot are those of the last one without
the removed ones, together with the added ones. -/
theorem EventListener.report_diff (last curr : state)
    (hl1 : last.devices.NodupKeys) (hl2 : last.devices.KeyedByUID)
    (hc1 : curr.devices.NodupKeys) (hc2 : curr.devices.KeyedByUID) :
    (∀ uid, (EventListener.report last curr).count
        { Typ := EventDeviceRemoved, DeviceUID := uid } =
      if (last.devices.get uid).isSome ∧ (curr.devices.get uid).isNone then 1 else 0) ∧
    (∀ uid, (EventListener.report last curr).count
        { Typ := EventDeviceAdded, DeviceUID := uid } =
      if (curr.devices.get uid).isSome ∧ (last.devices.get uid).isNone then 1 else 0) ∧
    (∀ uid, (EventListener.report last curr).count
        { Typ := EventDeviceUpdated, DeviceUID := uid } =
      match last.devices.get uid, curr.devices.get uid with
      | some lastDev, some currDev => if lastDev.Equal currDev then 0 else 1
      | _, _ => 0) ∧
    (∀ ev ∈ EventListener.report last curr,
      ev.Typ = EventDeviceRemoved ∨ ev.Typ = EventDeviceAdded ∨ ev.Typ = EventDeviceUpdated) ∧
    (∀ uid, (curr.devices.get uid).isSome ↔
      ((last.devices.get uid).isSome ∧
          ({ Typ := EventDeviceRemoved, DeviceUID := uid } : Event) ∉
            EventListener.report last curr) ∨
        ({ Typ := EventDeviceAdded, DeviceUID := uid } : Event) ∈
          EventListener.report last curr) :=
  EventListener.report_counts last curr hl1 hl2 hc1 hc2

/-- C18 at the two sample snapshots: no `device_removed` for the sink that
both hold. -/
theorem EventListener.report_diff_witness :
    (EventListener.report Sample.before Sample.after).count
        { Typ := EventDeviceRemoved, DeviceUID := "u1" } =
      if (Sample.before.devices.get "u1").isSome ∧ (Sample.after.devices.get "u1").isNone
      then 1 else 0 :=
  (EventListener.report_diff Sample.before Sample.after (by decide) (by decide) (by decide)
    (by decide)).1 "u1"

/-- The events of the two sample snapshots. -/
theorem Sample.report_events :
    EventListener.report Sample.before Sample.after =
      [{ Typ := EventDeviceAdded, DeviceUID := "u2" },
        { Typ := EventDeviceUpdated, DeviceUID := "u1" }] := by
  decide

/-- The map `UpdateDevices` publishes for a map keyed by uid holds the same
devices under the same keys. -/
theorem DeviceMap.rekey_get (m : DeviceMap) (h1 : m.NodupKeys) (h2 : m.KeyedByUID) :
    (m.values.foldl (fun (acc : DeviceMap) dev => acc.set dev.UID dev) []).NodupKeys ∧
    ∀ k, (m.values.foldl (fun (acc : DeviceMap) dev => acc.set dev.UID dev) []).get k =
      m.get k := by
  have hfold : m.values.foldl (fun (acc : DeviceMap) dev => acc.set dev.UID dev) [] =
      List.foldl (fun (acc : DeviceMap) d => (some d).elim acc fun v => acc.set d.UID v)
        [] m.values := rfl
  refine ⟨?_, ?_⟩
  · rw [hfold]
    exact (DeviceMap.foldl_pick_inv (fun d => some d)
      (by intro d v h; simp at h; rw [h]) m.values [] List.nodup_nil
      (by intro e he; simp at he)).1
  · intro k
    rw [hfold, DeviceMap.get_foldl_pick (fun d => some d) m.values [] k
      (DeviceMap.values_uid_nodup m h1 h2), DeviceMap.get_eq_find m h2 k]
    cases List.find? (fun d => d.UID == k) m.values <;> rfl

/-- Two maps that hold the same device under every key are `Equal`. -/
theorem DeviceMap.Equal_of_same (m m2 : DeviceMap) (h1 : m.NodupKeys) (h2 : m2.NodupKeys)
    (h : ∀ k, m.get k = m2.get k) : m.Equal m2 = true := by
  unfold DeviceMap.Equal
  rw [Bool.and_eq_true, List.all_eq_true, List.all_eq_true]
  refine ⟨?_, ?_⟩
  · intro e he
    have := DeviceMap.get_of_mem m h1 e.1 e.2 he
    rw [← h, this]
    simp [Device.Equal]
  · intro e he
    have := DeviceMap.get_of_mem m2 h2 e.1 e.2 he
    rw [h, this]
    simp [Device.Equal]

/-- C19, as the code has it: for a device map keyed by uid, a second
`UpdateDevices` with the map just published leaves the dispatcher as it is
(state, address of the state, broadcasts), so a listener that has seen the
first publication sleeps through its round and writes nothing; and `report`
of a snapshot keyed by uid against itself writes no event. -/
theorem UpdateDevices_twice (ed : EventDispatcher) (m : DeviceMap)
    (h1 : m.NodupKeys) (h2 : m.KeyedByUID) :
    (ed.UpdateDevices m).UpdateDevices m = ed.UpdateDevices m ∧
    (∀ el : EventListener, el.lastPtr = (ed.UpdateDevices m).ptr →
      el.round ((ed.UpdateDevices m).UpdateDevices m) = el) ∧
    (∀ s : state, s.devices.NodupKeys → s.devices.KeyedByUID →
      EventListener.report s s = []) := by
  have htwice : (ed.UpdateDevices m).UpdateDevices m = ed.UpdateDevices m := by
    by_cases he : ed.state.devices.Equal m = true
    · have h0 : ed.UpdateDevices m = ed := by
        unfold EventDispatcher.UpdateDevices; rw [if_pos he]
      rw [h0, h0]
    · have h0 : ed.UpdateDevices m =
          { state := { ed.state with
              devices := m.values.foldl (fun (acc : DeviceMap) dev => acc.set dev.UID dev) [] }
            ptr := ed.ptr + 1
            broadcasts := ed.broadcasts + 1 } := by
        unfold EventDispatcher.UpdateDevices; rw [if_neg he]
      obtain ⟨hn, hg⟩ := DeviceMap.rekey_get m h1 h2
      have heq := DeviceMap.Equal_of_same _ m hn h1 hg
      rw [h0]
      unfold EventDispatcher.UpdateDevices
      rw [if_pos heq]
  refine ⟨htwice, ?_, ?_⟩
  · intro el hel
    rw [htwice]
    unfold EventListener.round
    rw [if_pos hel]
  · intro s hs1 hs2
    obtain ⟨hr, ha, hu, ht, _⟩ := EventListener.report_counts s s hs1 hs2 hs1 hs2
    rw [List.eq_nil_iff_forall_not_mem]
    intro ev hev
    have hpos := List.count_pos_iff.2 hev
    rcases ht ev hev with h | h | h
    · have := hr ev.DeviceUID
      rw [← h] at this
      rw [this] at hpos
      cases hg : s.devices.get ev.DeviceUID <;> simp [hg] at hpos
    · have := ha ev.DeviceUID
      rw [← h] at this
      rw [this] at hpos
      cases hg : s.devices.get ev.DeviceUID <;> simp [hg] at hpos
    · have := hu ev.DeviceUID
      rw [← h] at this
      rw [this] at hpos
      cases hg : s.devices.get ev.DeviceUID <;> simp [hg, Device.Equal] at hpos

/-- C19 fails as stated: for a map that holds a device under a key other than
its uid, the second `UpdateDevices` allocates a new state and broadcasts, and a
listener that has seen the first publication takes a round, though it writes
no event. -/
theorem UpdateDevices_rekeys :
    ((NewEventDispatcher.UpdateDevices [("x", Sample.card)]).UpdateDevices
        [("x", Sample.card)]).ptr ≠
      (NewEventDispatcher.UpdateDevices [("x", Sample.card)]).ptr ∧
    ((NewEventDispatcher.UpdateDevices [("x", Sample.card)]).UpdateDevices
        [("x", Sample.card)]).broadcasts = 2 ∧
    ((NewEventDispatcher.UpdateDevices [("x", Sample.card)]).UpdateDevices
        [("x", Sample.card)]).state =
      (NewEventDispatcher.UpdateDevices [("x", Sample.card)]).state ∧
    EventListener.round
        { lastState := (NewEventDispatcher.UpdateDevices [("x", Sample.card)]).state,
          lastPtr := (NewEventDispatcher.UpdateDevices [("x", Sample.card)]).ptr,
          written := [] }
        ((NewEventDispatcher.UpdateDevices [("x", Sample.card)]).UpdateDevices
          [("x", Sample.card)]) =
      { lastState := (NewEventDispatcher.UpdateDevices [("x", Sample.card)]).state,
        lastPtr := 2, written := [] } := by
  decide

/-- C19 (as the code has it) at the sound card published under its uid. -/
theorem UpdateDevices_twice_witness :
    (NewEventDispatcher.UpdateDevices [("u2", Sample.card)]).UpdateDevices
        [("u2", Sample.card)] =
      NewEventDispatcher.UpdateDevices [("u2", Sample.card)] :=
  (UpdateDevices_twice NewEventDispatcher [("u2", Sample.card)]
    (by decide) (by decide)).1

/-! ## openBackend -/

/-- The loop of `openBackend`: the backends are initialised in the order of
the list, each after the ones before it returned `errNotAvailable`, and the
loop ends at the first `init` that returns nil (with that backend), at the
first that returns another error (with that error), or after the last backend
(with "no device backend available"). -/
theorem openBackend.probe_spec {ω : Type} :
    ∀ (l : List (Registered ω)) (w : ω) (probed : List (Registered ω × Option Err)),
    ∃ new, (openBackend.probe l w probed).2.1 = probed ++ new ∧
      new.map Prod.fst <+: l ∧
      (∀ p ∈ new.dropLast, p.2 = some .notAvailable) ∧
      new.head? = l.head?.map (fun b => (b, (b.init w).1)) ∧
      ((∃ b init, (openBackend.probe l w probed).1 = .ok b ∧ new = init ++ [(b, none)]) ∨
        (∃ e b init, (openBackend.probe l w probed).1 = .error e ∧ e ≠ .notAvailable ∧
          new = init ++ [(b, some e)]) ∨
        ((openBackend.probe l w probed).1 = .error .noBackend ∧ new.map Prod.fst = l ∧
          ∀ p ∈ new, p.2 = some .notAvailable)) := by
  intro l
  induction l with
  | nil =>
    intro w probed
    refine ⟨[], by simp [openBackend.probe], by simp, by simp, rfl, Or.inr (Or.inr ?_)⟩
    exact ⟨rfl, rfl, by simp⟩
  | cons back rest ih =>
    intro w probed
    rw [openBackend.probe]
    cases hr : (back.init w).1 with
    | none =>
      refine ⟨[(back, none)], rfl, ?_, by simp, by simp [hr], Or.inl ⟨back, [], rfl, rfl⟩⟩
      simp
    | some err =>
      by_cases hna : err = .notAvailable
      · simp only [hna, if_true]
        obtain ⟨new, h1, h2, h3, _, h5⟩ := ih (back.init w).2
          (probed ++ [(back, some .notAvailable)])
        refine ⟨(back, some .notAvailable) :: new, ?_, ?_, ?_, ?_, ?_⟩
        · rw [h1]; simp
        · simpa using h2
        · intro p hp
          cases new with
          | nil => simp at hp
          | cons q qs =>
            rw [List.dropLast_cons₂] at hp
            rcases List.mem_cons.1 hp with h | h
            · rw [h]
            · exact h3 p h
        · simp [hr, hna]
        · rcases h5 with ⟨b, init, hb, hn⟩ | ⟨e, b, init, he, hne, hn⟩ | ⟨he, hm, hall⟩
          · exact Or.inl ⟨b, (back, some .notAvailable) :: init, hb, by rw [hn]; rfl⟩
          · exact Or.inr (Or.inl ⟨e, b, (back, some .notAvailable) :: init, he, hne,
              by rw [hn]; rfl⟩)
          · refine Or.inr (Or.inr ⟨he, by simp [hm], ?_⟩)
            intro p hp
            rcases List.mem_cons.1 hp with h | h
            · rw [h]
            · exact hall p h
      · simp only [hna, if_false]
        refine ⟨[(back, some err)], rfl, ?_, by simp, by simp [hr],
          Or.inr (Or.inl ⟨err, back, [], rfl, hna, rfl⟩)⟩
        simp

/-- `less` is: higher priority, or the same priority and a smaller driver
tag. -/
theorem openBackend.less_iff {ω : Type} (a b : Registered ω) :
    openBackend.less a b = true ↔
      a.prio > b.prio ∨ (a.prio = b.prio ∧ a.driver < b.driver) := by
  unfold openBackend.less
  by_cases h1 : a.prio > b.prio
  · simp [h1]
  · by_cases h2 : a.prio < b.prio
    · have : ¬ a.prio = b.prio := by omega
      simp [h1, h2, this]
    · have : a.prio = b.prio := by omega
      simp [this]

/-- `sort.Slice` leaves the registered backends in the order of descending
priority and, within a priority, ascending driver tag. -/
theorem openBackend.sort_spec {ω : Type} (backends : List (Registered ω)) :
    (openBackend.sort backends).Perm backends ∧
    (openBackend.sort backends).Sorted
      (fun a b => a.prio > b.prio ∨ (a.prio = b.prio ∧ a.driver ≤ b.driver)) := by
  have hrel : ∀ a b : Registered ω, openBackend.less b a = false ↔
      (a.prio > b.prio ∨ (a.prio = b.prio ∧ a.driver ≤ b.driver)) := by
    intro a b
    rw [← Bool.not_eq_true, openBackend.less_iff]
    constructor
    · intro h
      by_cases h1 : a.prio > b.prio
      · exact Or.inl h1
      · right
        have h2 : ¬ b.prio > a.prio := fun hh => h (Or.inl hh)
        have h3 : a.prio = b.prio := by omega
        refine ⟨h3, ?_⟩
        exact not_lt.1 (fun hh => h (Or.inr ⟨h3.symm, hh⟩))
    · rintro (h | ⟨h1, h2⟩) (h3 | ⟨h3, h4⟩)
      · omega
      · omega
      · omega
      · exact absurd h4 (not_lt.2 h2)
  haveI : IsTotal (Registered ω) (fun a b => openBackend.less b a = false) := ⟨by
    intro a b
    rw [hrel, hrel]
    by_cases h1 : a.prio > b.prio
    · exact Or.inl (Or.inl h1)
    · by_cases h2 : b.prio > a.prio
      · exact Or.inr (Or.inl h2)
      · have h3 : a.prio = b.prio := by omega
        rcases le_total a.driver b.driver with h | h
        · exact Or.inl (Or.inr ⟨h3, h⟩)
        · exact Or.inr (Or.inr ⟨h3.symm, h⟩)⟩
  haveI : IsTrans (Registered ω) (fun a b => openBackend.less b a = false) := ⟨by
    intro a b c
    rw [hrel, hrel, hrel]
    rintro (h1 | ⟨h1, h2⟩) (h3 | ⟨h3, h4⟩)
    · left; omega
    · left; omega
    · left; omega
    · right; exact ⟨h1.trans h3, le_trans h2 h4⟩⟩
  refine ⟨List.perm_insertionSort _ _, ?_⟩
  have hs := List.sorted_insertionSort (fun a b : Registered ω => openBackend.less b a = false)
    backends
  exact List.Pairwise.imp (fun {a b} h => (hrel a b).1 h) hs

theorem openBackend.sort_pair {ω : Type} (hi med : Registered ω) (h1 : hi.prio = prioHigh)
    (h2 : med.prio = prioMedium) :
    openBackend.sort [hi, med] = [hi, med] ∧ openBackend.sort [med, hi] = [hi, med] := by
  constructor <;>
    simp [openBackend.sort, List.insertionSort, List.orderedInsert, openBackend.less, h1, h2,
      prioHigh, prioMedium]

/-- C20: `openBackend` sorts the registered backends by descending priority
and, within a priority, ascending driver tag, and initialises them in this
order, each after all before it returned `errNotAvailable`; it ends at the
first `init` that returns something else: with that backend when it returns
nil, no later backend being initialised, and with its error otherwise; when
every `init` returned `errNotAvailable`, or no backend is registered, it
returns the error "no device backend available". Of a high-priority and a
medium-priority backend the high one is returned when its `init` returns nil,
and the medium one when the high one is not available and its own `init`
returns nil. -/
theorem openBackend_order {ω : Type} (backends : List (Registered ω)) (w : ω) :
    (openBackend.sort backends).Perm backends ∧
    (openBackend.sort backends).Sorted
      (fun a b => a.prio > b.prio ∨ (a.prio = b.prio ∧ a.driver ≤ b.driver)) ∧
    (openBackend backends w).2.1.map Prod.fst <+: openBackend.sort backends ∧
    (∀ p ∈ (openBackend backends w).2.1.dropLast, p.2 = some .notAvailable) ∧
    (openBackend backends w).2.1.head? =
      (openBackend.sort backends).head?.map (fun b => (b, (b.init w).1)) ∧
    ((∃ b init, (openBackend backends w).1 = .ok b ∧
        (openBackend backends w).2.1 = init ++ [(b, none)]) ∨
      (∃ e b init, (openBackend backends w).1 = .error e ∧ e ≠ .notAvailable ∧
        (openBackend backends w).2.1 = init ++ [(b, some e)]) ∨
      ((openBackend backends w).1 = .error .noBackend ∧
        (openBackend backends w).2.1.map Prod.fst = openBackend.sort backends ∧
        ∀ p ∈ (openBackend backends w).2.1, p.2 = some .notAvailable)) ∧
    (∀ hi med : Registered ω, hi.prio = prioHigh → med.prio = prioMedium →
      (backends = [hi, med] ∨ backends = [med, hi]) →
      ((hi.init w).1 = none → (openBackend backends w).1 = .ok hi) ∧
      ((hi.init w).1 = some .notAvailable → (med.init (hi.init w).2).1 = none →
        (openBackend backends w).1 = .ok med)) := by
  obtain ⟨hp, hs⟩ := openBackend.sort_spec backends
  obtain ⟨new, h1, h2, h3, h4, h5⟩ := openBackend.probe_spec (openBackend.sort backends) w []
  have hnew : (openBackend backends w).2.1 = new := by
    unfold openBackend; rw [h1]; rfl
  refine ⟨hp, hs, ?_, ?_, ?_, ?_, ?_⟩
  · rw [hnew]; exact h2
  · rw [hnew]; exact h3
  · rw [hnew]; exact h4
  · rw [hnew]; exact h5
  · intro hi med hhi hmed hb
    have hsort : openBackend.sort backends = [hi, med] := by
      rcases hb with hb | hb <;> rw [hb]
      · exact (openBackend.sort_pair hi med hhi hmed).1
      · exact (openBackend.sort_pair hi med hhi hmed).2
    unfold openBackend
    rw [hsort]
    refine ⟨?_, ?_⟩
    · intro hok
      simp [openBackend.probe, hok]
    · intro hna hok
      simp [openBackend.probe, hna, hok]

/-- C20 at PulseAudio registered before PipeWire, PipeWire not available:
PulseAudio is opened. -/
theorem openBackend_order_witness :
    (openBackend [Sample.pulseEntry, Sample.pipewireEntry false] []).1 =
      .ok Sample.pulseEntry :=
  ((openBackend_order [Sample.pulseEntry, Sample.pipewireEntry false] []).2.2.2.2.2.2
    (Sample.pipewireEntry false) Sample.pulseEntry rfl rfl (Or.inr rfl)).2 rfl rfl

/-- The backends initialised on the sample host: PipeWire first, then
PulseAudio when PipeWire is not available. -/
theorem Sample.openBackend_probes :
    (openBackend [Sample.pulseEntry, Sample.pipewireEntry true] []).2.2 = [DriverPipewire] ∧
    (openBackend [Sample.pulseEntry, Sample.pipewireEntry false] []).2.2 =
      [DriverPipewire, DriverPulseaudio] ∧
    (openBackend [Sample.pipewireEntry false] []).2.1.map (fun p => (p.1.driver, p.2)) =
      [(DriverPipewire, some .notAvailable)] ∧
    (openBackend ([] : List (Registered (List String))) []).2.2 = [] := by
  decide

/-! ## DeleteStreamDevice -/

/-- C12, what the code does for a stream device that is saved and not
reported by the backend: after the reread of `DeleteStreamDevice` the uid
index holds the saved device (an enabled one as `unavailable`), so the first
call issued after the reread is `destroyStreamDevice` for it; when that call
fails, `DeleteStreamDevice` returns "failed to remove device" with the error
of the backend and the record stays in the store. -/
theorem DeleteStreamDevice_store_only {σ : Type} (E : Env σ) (dm : DeviceManager σ)
    (uid : String) (d : Device) (hwf : dm.store.WF)
    (hst : dm.store.devices.get uid = some d) (hs : d.IsStream = true)
    (habs : ∀ a ∈ (fetchDevices E dm).1, a.UID ≠ uid)
    (hok : (rereadDevices E dm).1 = .ok ()) :
    ∃ dev, (rereadDevices E dm).2.deviceByUID.get uid = some dev ∧
      dev = (if d.SetDefaults.Status = StatusEnabled then
        { d.SetDefaults with Status := StatusUnavailable } else d.SetDefaults) ∧
      (∃ err, ((rereadDevices E dm).2.newCalls (DeleteStreamDevice E dm uid).2).head? =
        some { call := .destroyStreamDevice dev, err := err }) ∧
      (∀ e, (E.backend.destroyStreamDevice (rereadDevices E dm).2.backend dev).1 = .error e →
        (DeleteStreamDevice E dm uid).1 = .error (.removeDevice (.backend e)) ∧
        (DeleteStreamDevice E dm uid).2.store.devices.get uid = some d) := by
  obtain ⟨hidx, _, _, _⟩ := rereadDevices_ok E dm hok
  obtain ⟨hcS1, hcS2⟩ := collectDevices_inv dm.store.LoadStreamDevices
  obtain ⟨hcB1, hcB2⟩ := collectDevices_inv (fetchDevices E dm).1
  have hB : (collectDevices (fetchDevices E dm).1).get uid = none :=
    (collectDevices_get_none _ uid).2 habs
  have hS : (collectDevices dm.store.LoadStreamDevices).get uid = some d.SetDefaults := by
    rw [collectDevices_store dm.store hwf uid, hst]; rfl
  have hget : (rereadDevices E dm).2.deviceByUID.get uid =
      some (if d.SetDefaults.Status = StatusEnabled then
        { d.SetDefaults with Status := StatusUnavailable } else d.SetDefaults) := by
    rw [hidx, rereadDevices.byUID_get _ _ hcS2 hcB1 hcB2 uid, hB, hS]; rfl
  have hstore : (rereadDevices E dm).2.store.devices.get uid = some d := by
    rw [(rereadDevices_store E dm hwf hok).2 uid,
      rereadDevices.updated_get _ _ hcS1 hcS2 uid, hS, hB, hst]
  refine ⟨_, hget, rfl, ?_, ?_⟩
  all_goals
    generalize hdev : (if d.SetDefaults.Status = StatusEnabled then
      { d.SetDefaults with Status := StatusUnavailable } else d.SetDefaults) = dev at hget ⊢
    have hdevs : dev.IsStream = true := by
      rw [← hdev]
      have := (Device.SetDefaults_fields d).2.2.2.2.2.2.1
      by_cases hse : d.SetDefaults.Status = StatusEnabled
      · rw [if_pos hse]; exact this.trans hs
      · rw [if_neg hse]; exact this.trans hs
    have hD : DeleteStreamDevice E dm uid = deleteStreamDevice E (rereadDevices E dm).2 uid := by
      unfold DeleteStreamDevice; simp only [hok]
    rw [hD]
    generalize rereadDevices E dm = r at hget hstore ⊢
    unfold deleteStreamDevice
    simp only [hget, hdevs, Bool.not_true, Bool.false_eq_true, if_false]
  · unfold callBackend
    cases hop : (E.backend.destroyStreamDevice r.2.backend dev).1 with
    | error e =>
      refine ⟨some (.backend e), ?_⟩
      simp [hop, DeviceManager.newCalls]
    | ok h =>
      refine ⟨none, ?_⟩
      have hhas : r.2.store.HasStreamDevice uid = true := by
        simp [PersistStore.HasStreamDevice, hstore]
      simp only [hop, hhas, deleteStreamDevice.forget, if_true]
      cases hrm : (r.2.store.RemoveStreamDevice uid).1 <;>
        simp [DeviceManager.newCalls]
  · intro e he
    unfold callBackend
    simp only [he]
    exact ⟨trivial, hstore⟩

/-- C12 at the sample sink, saved and not reported by PulseAudio: the reread
leaves it in the uid index as `unavailable`. -/
theorem DeleteStreamDevice_store_only_witness :
    ∃ dev, (rereadDevices Sample.pulse
        (Sample.manager [] [] [Sample.sink StatusEnabled])).2.deviceByUID.get "u1" = some dev ∧
      dev = (if (Sample.sink StatusEnabled).SetDefaults.Status = StatusEnabled then
        { (Sample.sink StatusEnabled).SetDefaults with Status := StatusUnavailable }
        else (Sample.sink StatusEnabled).SetDefaults) :=
  have h := DeleteStreamDevice_store_only Sample.pulse
    (Sample.manager [] [] [Sample.sink StatusEnabled]) "u1" (Sample.sink StatusEnabled)
    (by decide) (by decide) (by decide) (by decide) (by decide)
  h.elim fun dev hd => ⟨dev, hd.1, hd.2.1⟩

/-! ## makeDeviceUID -/

/-- A hex digit is one of the sixteen lowercase digits. -/
theorem hexDigit_mem (n : Nat) : hexDigit n ∈ "0123456789abcdef".toList := by
  by_cases h : n < 16
  · interval_cases n <;> decide
  · have h16 : 16 ≤ n := Nat.le_of_not_lt h
    obtain ⟨k, rfl⟩ := Nat.exists_eq_add_of_le h16
    have : hexDigit (16 + k) = '0' := by
      unfold hexDigit
      rw [show (16 + k) = k + 16 by omega]
      rfl
    rw [this]; decide

theorem hexDigit_ne_dash (n : Nat) : (hexDigit n != '-') = true := by
  have h := hexDigit_mem n
  generalize hexDigit n = c at h
  revert h
  simp only [String.toList]
  intro h
  simp only [List.mem_cons, List.mem_singleton] at h
  rcases h with h | h | h | h | h | h | h | h | h | h | h | h | h | h | h | h | h <;>
    first | (subst h; decide) | (simp at h)

/-- The digest has twenty bytes: five words of four bytes. -/
theorem sha1_words (msg : List Nat) :
    ∃ a b c d e, sha1 msg = beBytes 4 a ++ beBytes 4 b ++ beBytes 4 c ++ beBytes 4 d ++ beBytes 4 e :=
  ⟨_, _, _, _, _, rfl⟩

/-- The hex form of a digest: forty characters, each a lowercase hex digit. -/
theorem hexEncode_sha1 (msg : List Nat) :
    ∃ c0 c1 c2 c3 c4 c5 c6 c7 c8 c9 c10 c11 c12 c13 c14 c15 c16 c17 c18 c19
      c20 c21 c22 c23 c24 c25 c26 c27 c28 c29 c30 c31 c32 c33 c34 c35 c36 c37 c38 c39 : Char,
      (hexEncode (sha1 msg)).toList =
        [c0, c1, c2, c3, c4, c5, c6, c7, c8, c9, c10, c11, c12, c13, c14, c15, c16, c17,
         c18, c19, c20, c21, c22, c23, c24, c25, c26, c27, c28, c29, c30, c31, c32, c33,
         c34, c35, c36, c37, c38, c39] ∧
      ∀ c ∈ [c0, c1, c2, c3, c4, c5, c6, c7, c8, c9, c10, c11, c12, c13, c14, c15, c16, c17,
         c18, c19, c20, c21, c22, c23, c24, c25, c26, c27, c28, c29, c30, c31, c32, c33,
         c34, c35, c36, c37, c38, c39],
        c ∈ "0123456789abcdef".toList := by
  obtain ⟨a, b, c, d, e, h⟩ := sha1_words msg
  refine ⟨_, _, _, _, _, _, _, _, _, _, _, _, _, _, _, _, _, _, _, _, _, _, _, _, _, _, _, _, _,
    _, _, _, _, _, _, _, _, _, _, _,
    by rw [h]; rfl, ?_⟩
  intro x hx
  simp only [List.mem_cons, List.mem_singleton, List.not_mem_nil, or_false] at hx
  rcases hx with hx | hx | hx | hx | hx | hx | hx | hx | hx | hx | hx | hx | hx | hx | hx | hx | hx | hx | hx | hx | hx | hx | hx | hx | hx | hx | hx | hx | hx | hx | hx | hx | hx | hx | hx | hx | hx | hx | hx | hx <;>
    (rw [hx]; exact hexDigit_mem _)

/-- The loop of `makeDeviceUID` on forty characters. -/
theorem insertDashes_forty (c0 c1 c2 c3 c4 c5 c6 c7 c8 c9 c10 c11 c12 c13 c14 c15 c16 c17 c18 c19
    c20 c21 c22 c23 c24 c25 c26 c27 c28 c29 c30 c31 c32 c33 c34 c35 c36 c37 c38 c39 : Char) :
    insertDashes 0
      [c0, c1, c2, c3, c4, c5, c6, c7, c8, c9, c10, c11, c12, c13, c14, c15, c16, c17,
       c18, c19, c20, c21, c22, c23, c24, c25, c26, c27, c28, c29, c30, c31, c32, c33,
       c34, c35, c36, c37, c38, c39] =
      [c0, c1, c2, c3, c4, c5, c6, c7, '-', c8, c9, c10, c11, c12, c13, c14, c15, '-',
       c16, c17, c18, c19, c20, c21, c22, c23, '-', c24, c25, c26, c27, c28, c29, c30,
       c31, '-', c32, c33, c34, c35, c36, c37, c38, c39] := by
  rfl

/-- C21: for every machine id and system name, `makeDeviceUID` returns 44
characters: a dash at each of the indices 8, 17, 26 and 35 and a lowercase
hexadecimal digit at every other index, so five groups of eight digits; with
the dashes removed it is the hex encoding of the SHA-1 digest of
`machine=<machine>,device=<systemName>`. The result is a function of the two
strings alone. -/
theorem makeDeviceUID_format (machine systemName : String) :
    (makeDeviceUID machine systemName).length = 44 ∧
    (∀ i, i < 44 →
      if i = 8 ∨ i = 17 ∨ i = 26 ∨ i = 35 then
        (makeDeviceUID machine systemName).toList.get? i = some '-'
      else ∃ c, (makeDeviceUID machine systemName).toList.get? i = some c ∧
        c ∈ "0123456789abcdef".toList) ∧
    (makeDeviceUID machine systemName).toList.filter (fun c => c != '-') =
      (hexEncode (sha1 (utf8Bytes ("machine=" ++ machine ++ ",device=" ++ systemName)))).toList := by
  unfold makeDeviceUID
  obtain ⟨c0, c1, c2, c3, c4, c5, c6, c7, c8, c9, c10, c11, c12, c13, c14, c15, c16, c17, c18,
    c19, c20, c21, c22, c23, c24, c25, c26, c27, c28, c29, c30, c31, c32, c33, c34, c35, c36,
    c37, c38, c39, hl, hm⟩ :=
    hexEncode_sha1 (utf8Bytes ("machine=" ++ machine ++ ",device=" ++ systemName))
  simp only [hl, insertDashes_forty]
  have hd : ∀ c, c ∈ "0123456789abcdef".toList → (c != '-') = true := by decide
  have hne := fun c h => hd c (hm c h)
  simp only [List.mem_cons, List.mem_singleton, List.not_mem_nil, or_false, forall_eq_or_imp,
    forall_eq] at hm hne
  refine ⟨by simp [String.length], ?_, ?_⟩
  · generalize "0123456789abcdef".toList = H at hm
    intro i hi
    interval_cases i <;> simp [hm]
  · simp [List.filter_cons, hne]

/-! ## generateDeviceName -/

/-- The decimal digits of a number hold no dot. -/
theorem toDigitsCore_no_dot (fuel : Nat) : ∀ (n : Nat) (ds : List Char),
    (∀ c ∈ ds, c ≠ '.') → ∀ c ∈ Nat.toDigitsCore 10 fuel n ds, c ≠ '.' := by
  induction fuel with
  | zero => intro n ds h c hc; exact h c hc
  | succ fuel ih =>
    intro n ds h
    have hd : Nat.digitChar (n % 10) ≠ '.' := by
      have : n % 10 < 10 := Nat.mod_lt _ (by decide)
      interval_cases (n % 10) <;> decide
    have h2 : ∀ c ∈ Nat.digitChar (n % 10) :: ds, c ≠ '.' := by
      intro c hc
      rcases List.mem_cons.1 hc with rfl | hc
      · exact hd
      · exact h c hc
    unfold Nat.toDigitsCore
    by_cases h0 : n / 10 = 0
    · simp only [h0, if_true]; exact h2
    · simp only [h0, if_false]; exact ih _ _ h2

theorem toString_nat_no_dot (n : Nat) : ∀ c ∈ (toString n).data, c ≠ '.' := by
  have h : (toString n).data = Nat.toDigits 10 n := rfl
  rw [h]
  exact toDigitsCore_no_dot _ _ _ (by simp)

/-- Two lists that end with a dot followed by dot-free tails have the same
tail when they are equal. -/
theorem dot_tail_unique : ∀ (t1 t2 : List Char), (∀ c ∈ t1, c ≠ '.') → (∀ c ∈ t2, c ≠ '.') →
    ∀ (x1 x2 : List Char), x1 ++ '.' :: t1 = x2 ++ '.' :: t2 → t1 = t2 := by
  intro t1 t2 h1 h2 x1 x2 h
  have hr := congrArg List.reverse h
  simp only [List.reverse_append, List.reverse_cons, List.append_assoc, List.singleton_append]
    at hr
  have key : ∀ (a b : List Char), (∀ c ∈ a, c ≠ '.') → (∀ c ∈ b, c ≠ '.') →
      ∀ (r1 r2 : List Char), a ++ '.' :: r1 = b ++ '.' :: r2 → a = b := by
    intro a
    induction a with
    | nil =>
      intro b _ hb r1 r2 h
      cases b with
      | nil => rfl
      | cons c b =>
        simp only [List.nil_append, List.cons_append, List.cons.injEq] at h
        exact absurd h.1.symm (hb c (List.mem_cons_self _ _))
    | cons c a ih =>
      intro b ha hb r1 r2 h
      cases b with
      | nil =>
        simp only [List.nil_append, List.cons_append, List.cons.injEq] at h
        exact absurd h.1 (ha c (List.mem_cons_self _ _))
      | cons d b =>
        simp only [List.cons_append, List.cons.injEq] at h
        rw [h.1, ih b (fun c hc => ha c (List.mem_cons_of_mem _ hc))
          (fun c hc => hb c (List.mem_cons_of_mem _ hc)) r1 r2 h.2]
  have := key t1.reverse t2.reverse (by simpa using h1) (by simpa using h2) _ _ hr
  exact List.reverse_injective this

/-- The last index of a generated name is determined by the name, whatever the
device type and the base index. -/
theorem deviceName_index (dt1 dt2 : String) (b1 b2 n1 n2 : Nat)
    (h : deviceName dt1 b1 n1 = deviceName dt2 b2 n2) : n1 = n2 := by
  unfold deviceName at h
  have h2 := congrArg String.data h
  simp only [String.data_append] at h2
  have h3 := dot_tail_unique _ _ (toString_nat_no_dot n1) (toString_nat_no_dot n2)
    (("rocd.stream_" : String).data ++ dt1.data ++ ['.'] ++ (toString b1).data)
    (("rocd.stream_" : String).data ++ dt2.data ++ ['.'] ++ (toString b2).data)
    (by simpa [List.append_assoc] using h2)
  exact toString_nat_injective n1 n2 (String.ext h3)

/-- The round in which `generateDeviceName` returns: the candidates of the
earlier rounds are taken, the returned one is free, and `lastIndex` is left
one past it as a `uint64`. -/
theorem generateDeviceName.rounds {σ : Type} (dt : String) :
    ∀ (fuel : Nat) (dm : DeviceManager σ) (r : String × DeviceManager σ),
      dm.lastIndex < 2 ^ 64 → generateDeviceName dt fuel dm = some r →
        ∃ i, i < fuel ∧ r.1 = deviceName dt dm.baseIndex ((dm.lastIndex + i) % 2 ^ 64) ∧
          r.1 ∉ dm.usedNames ∧
          r.2 = { dm with lastIndex := (dm.lastIndex + i + 1) % 2 ^ 64 } ∧
          ∀ j < i, deviceName dt dm.baseIndex ((dm.lastIndex + j) % 2 ^ 64) ∈ dm.usedNames := by
  intro fuel
  induction fuel with
  | zero => intro dm r _ h; simp [generateDeviceName] at h
  | succ fuel ih =>
    intro dm r hl h
    rw [generateDeviceName.succ] at h
    have h0 : (dm.lastIndex + 0) % 2 ^ 64 = dm.lastIndex := by
      rw [Nat.add_zero]; exact Nat.mod_eq_of_lt hl
    by_cases hm : deviceName dt dm.baseIndex dm.lastIndex ∈ dm.usedNames
    · rw [if_pos hm] at h
      obtain ⟨i, hi, h1, h2, h3, h4⟩ := ih _ r (Nat.mod_lt _ (by decide)) h
      have e1 : ((dm.lastIndex + 1) % 2 ^ 64 + i) % 2 ^ 64 = (dm.lastIndex + (i + 1)) % 2 ^ 64 := by
        omega
      have e2 : ((dm.lastIndex + 1) % 2 ^ 64 + i + 1) % 2 ^ 64 =
          (dm.lastIndex + (i + 1) + 1) % 2 ^ 64 := by omega
      refine ⟨i + 1, by omega, ?_, h2, ?_, ?_⟩
      · rw [h1]; simp only [e1]
      · rw [h3]; simp only [e2]
      · intro j hj
        cases j with
        | zero => rw [h0]; exact hm
        | succ j =>
          have := h4 j (by omega)
          have e3 : ((dm.lastIndex + 1) % 2 ^ 64 + j) % 2 ^ 64 =
              (dm.lastIndex + (j + 1)) % 2 ^ 64 := by omega
          simp only [e3] at this
          exact this
    · rw [if_neg hm] at h
      simp only [Option.some.injEq] at h
      subst h
      refine ⟨0, by omega, ?_, hm, ?_, ?_⟩
      · rw [h0]
      · rfl
      · intro j hj; omega

/-- No more candidates in a row can be taken than there are used names. -/
theorem generateDeviceName.taken_bound {σ : Type} (dt : String) (dm : DeviceManager σ)
    (hsize : dm.usedNames.length < 2 ^ 64) (i : Nat)
    (h : ∀ j < i, deviceName dt dm.baseIndex ((dm.lastIndex + j) % 2 ^ 64) ∈ dm.usedNames) :
    i ≤ dm.usedNames.length := by
  by_contra hc
  have hnodup : ((List.range (dm.usedNames.length + 1)).map
      (fun j => deviceName dt dm.baseIndex ((dm.lastIndex + j) % 2 ^ 64))).Nodup := by
    refine List.Nodup.map_on ?_ (List.nodup_range _)
    intro a ha b hb hab
    have := deviceName_injective _ _ _ _ hab
    rw [List.mem_range] at ha hb
    omega
  have hsub : (List.range (dm.usedNames.length + 1)).map
      (fun j => deviceName dt dm.baseIndex ((dm.lastIndex + j) % 2 ^ 64)) ⊆ dm.usedNames := by
    intro x hx
    rw [List.mem_map] at hx
    obtain ⟨j, hj, rfl⟩ := hx
    exact h j (by have := List.mem_range.1 hj; omega)
  have hle := (List.subperm_of_subset hnodup hsub).length_le
  simp at hle

/-- C30, amended: with fewer used names than a `uint64` has values,
`generateDeviceName` returns once it has one round more than there are used
names; the name is `rocd.stream_<type>.<baseIndex>.<n>`, it is no key of
`deviceByName` and no saved system name, only `lastIndex` changes, and it is
left at `n + 1` as a `uint64`. When `lastIndex` plus the number of used names
stays below `2 ^ 64 - 1` there is no wrap: `lastIndex` is `n + 1`, greater
than before, and a later call from a manager with this base index and a
`lastIndex` not below it, again without wrap, returns another name. -/
theorem generateDeviceName_fresh {σ : Type} (dt : String) (dm : DeviceManager σ) (fuel : Nat)
    (hl : dm.lastIndex < 2 ^ 64) (hsize : dm.usedNames.length < 2 ^ 64)
    (hfuel : dm.usedNames.length < fuel) :
    ∃ n, n < 2 ^ 64 ∧
      generateDeviceName dt fuel dm =
        some (deviceName dt dm.baseIndex n, { dm with lastIndex := (n + 1) % 2 ^ 64 }) ∧
      dm.deviceByName.get (deviceName dt dm.baseIndex n) = none ∧
      (∀ d ∈ dm.store.LoadStreamDevices, d.SystemName ≠ deviceName dt dm.baseIndex n) ∧
      (dm.lastIndex + dm.usedNames.length < 2 ^ 64 - 1 →
        dm.lastIndex ≤ n ∧ (n + 1) % 2 ^ 64 = n + 1 ∧ dm.lastIndex < n + 1 ∧
        ∀ (dt2 : String) (fuel2 : Nat) (dm2 : DeviceManager σ) (r2 : String × DeviceManager σ),
          dm2.baseIndex = dm.baseIndex → n + 1 ≤ dm2.lastIndex →
          dm2.lastIndex + dm2.usedNames.length < 2 ^ 64 - 1 →
          generateDeviceName dt2 fuel2 dm2 = some r2 →
            r2.1 ≠ deviceName dt dm.baseIndex n) := by
  obtain ⟨r, hr⟩ := generateDeviceName.terminates dt dm hl hsize _ (Nat.lt_succ_self _)
  obtain ⟨i, _, h1, h2, h3, h4⟩ := generateDeviceName.rounds dt _ dm r hl hr
  have hi := generateDeviceName.taken_bound dt dm hsize i h4
  obtain ⟨k, rfl⟩ : ∃ k, fuel = dm.usedNames.length + 1 + k :=
    ⟨fuel - (dm.usedNames.length + 1), by omega⟩
  have hfull := generateDeviceName.mono dt _ dm r k hr
  have hused : deviceName dt dm.baseIndex ((dm.lastIndex + i) % 2 ^ 64) ∉ dm.usedNames := by
    rw [← h1]; exact h2
  have hsucc : ((dm.lastIndex + i) % 2 ^ 64 + 1) % 2 ^ 64 = (dm.lastIndex + i + 1) % 2 ^ 64 := by
    omega
  refine ⟨(dm.lastIndex + i) % 2 ^ 64, Nat.mod_lt _ (by decide), ?_, ?_, ?_, ?_⟩
  · rw [hfull, hsucc, ← h1, ← h3]
  · rw [DeviceMap.get_eq_none_iff]
    intro hk
    exact hused (List.mem_append_left _ hk)
  · intro d hd hn
    apply hused
    unfold DeviceManager.usedNames
    exact List.mem_append_right _ (List.mem_map.2 ⟨d, hd, hn⟩)
  · intro hroom
    have hn : (dm.lastIndex + i) % 2 ^ 64 = dm.lastIndex + i := Nat.mod_eq_of_lt (by omega)
    rw [hn]
    refine ⟨by omega, Nat.mod_eq_of_lt (by omega), by omega, ?_⟩
    intro dt2 fuel2 dm2 r2 hb hle hroom2 hr2 heq
    obtain ⟨j, _, g1, _, _, g4⟩ := generateDeviceName.rounds dt2 fuel2 dm2 r2 (by omega) hr2
    have hj := generateDeviceName.taken_bound dt2 dm2 (by omega) j g4
    rw [g1, hb] at heq
    have := deviceName_index _ _ _ _ _ _ heq
    have hm : (dm2.lastIndex + j) % 2 ^ 64 = dm2.lastIndex + j := Nat.mod_eq_of_lt (by omega)
    omega

/-- C30 at a manager whose name index holds the sample sink, named with the
first candidate: the second candidate is returned. -/
theorem generateDeviceName_fresh_witness :
    ∃ n, n < 2 ^ 64 ∧
      generateDeviceName Sink 2
          (Sample.manager ([] : List (List String)) [Sample.sink StatusEnabled] []) =
        some (deviceName Sink 7 n,
          { Sample.manager ([] : List (List String)) [Sample.sink StatusEnabled] [] with
            lastIndex := (n + 1) % 2 ^ 64 }) ∧
      (Sample.manager ([] : List (List String)) [Sample.sink StatusEnabled] []).deviceByName.get
        (deviceName Sink 7 n) = none ∧
      1 < n + 1 :=
  (generateDeviceName_fresh Sink
      (Sample.manager ([] : List (List String)) [Sample.sink StatusEnabled] []) 2
      (by decide) (by decide) (by decide)).elim
    fun n h => ⟨n, h.1, h.2.1, h.2.2.1, (h.2.2.2.2 (by decide)).2.2.1⟩

/-- C30 as stated fails at the last value of the counter: from `lastIndex`
`2 ^ 64 - 1` the name with this index is returned and `lastIndex` is left at
zero, below its value before the call. -/
theorem generateDeviceName_wraps :
    ∃ r, generateDeviceName Sink 1
        { Sample.manager ([] : List (List String)) [] [] with lastIndex := 2 ^ 64 - 1 } = some r ∧
      r.1 = deviceName Sink 7 (2 ^ 64 - 1) ∧ r.2.lastIndex = 0 ∧
      r.2.lastIndex ≠ (2 ^ 64 - 1) + 1 ∧ ¬ (2 ^ 64 - 1 < r.2.lastIndex) :=
  ⟨_, rfl, rfl, rfl, by decide, by decide⟩

/-! ## applyEnabled twice -/

/-- A second `applyEnabled` of the PipeWire backend on a disabled device, right
after a successful one: nothing is run and nil is returned. -/
theorem PipewireBackend.pw_disabled_again {ω : Type} (L : NetLib) (H : Host ω)
    (b b1 : PwState ω) (dev : Device) (h : Handles) (hd : dev.GetEnabled = false)
    (h1 : PipewireBackend.applyEnabled L H b dev = (.ok h, b1)) :
    PipewireBackend.applyEnabled L H b1 { dev with NodeID := h.NodeID, ModuleID := h.ModuleID } =
      (.ok h, b1) := by
  have hd1 : Device.GetEnabled { dev with NodeID := h.NodeID, ModuleID := h.ModuleID } = false := hd
  unfold PipewireBackend.applyEnabled at h1 ⊢
  simp only [hd, hd1, Bool.false_eq_true, if_false] at h1 ⊢
  unfold PipewireBackend.destroyStreamDevice PipewireBackend.removeDevice at h1 ⊢
  simp only [Prod.mk.injEq, Except.ok.injEq] at h1
  obtain ⟨hh, hb⟩ := h1
  have hn : h.NodeID = "" := by rw [← hh]; rfl
  have hm : h.ModuleID = dev.ModuleID := by rw [← hh]; rfl
  have hmem : dev.UID ∉ b1.streamDevMap := by
    rw [← hb]
    by_cases hu : dev.UID ∈ b.streamDevMap
    · simp [hu]
    · simp [hu]
  simp only [hn, ne_eq, not_true_eq_false, if_false, hmem]
  refine Prod.ext ?_ rfl
  simp only [Device.handles, Except.ok.injEq]
  cases h
  simp_all

/-- A second `applyEnabled` of the PulseAudio backend on a disabled device,
right after a successful one: nothing is run and the error of the missing
module id is returned. -/
theorem PulseaudioBackend.pulse_disabled_again {ω : Type} (L : NetLib) (H : Host ω)
    (w w1 : ω) (dev : Device) (h : Handles) (hd : dev.GetEnabled = false)
    (h1 : PulseaudioBackend.applyEnabled L H w dev = (.ok h, w1)) :
    PulseaudioBackend.applyEnabled L H w1 { dev with NodeID := h.NodeID, ModuleID := h.ModuleID } =
      (.error "failed to delete device: owner module not known", w1) := by
  have hd1 : Device.GetEnabled { dev with NodeID := h.NodeID, ModuleID := h.ModuleID } = false := hd
  unfold PulseaudioBackend.applyEnabled at h1 ⊢
  simp only [hd, hd1, Bool.false_eq_true, if_false] at h1 ⊢
  unfold PulseaudioBackend.destroyStreamDevice at h1 ⊢
  by_cases hm : dev.ModuleID = ""
  · simp [hm] at h1
  · simp only [hm, if_false] at h1
    cases hr : (H.run w ["pactl", "unload-module", dev.ModuleID]).1 with
    | some e => simp [hr] at h1
    | none =>
      simp only [hr, Prod.mk.injEq, Except.ok.injEq] at h1
      have : h.ModuleID = "" := by rw [← h1.1]
      simp [this]

/-- The arguments of the PulseAudio module do not read the handles. -/
theorem pulseModuleArgs_handles (L : NetLib) (dev : Device) (n m : String) :
    pulseModuleArgs L { dev with NodeID := n, ModuleID := m } = pulseModuleArgs L dev := rfl

/-- The arguments of the PipeWire module do not read the handles. -/
theorem pwModuleArgs_handles (L : NetLib) (dev : Device) (n m : String) :
    pwModuleArgs L { dev with NodeID := n, ModuleID := m } = pwModuleArgs L dev := rfl

/-- A second `applyEnabled` of the PulseAudio backend on an enabled device,
right after a successful one: `load-module` is run again with the same
arguments, straight away when the first call left no module id. -/
theorem PulseaudioBackend.pulse_enabled_again {ω : Type} (L : NetLib) (H : Host ω)
    (w w1 : ω) (dev : Device) (h : Handles) (hd : dev.GetEnabled = true)
    (h1 : PulseaudioBackend.applyEnabled L H w dev = (.ok h, w1)) :
    ∃ args w2, pulseModuleArgs L dev = .ok args ∧ (h.ModuleID = "" → w2 = w1) ∧
      (PulseaudioBackend.applyEnabled L H w1
          { dev with NodeID := h.NodeID, ModuleID := h.ModuleID }).2 =
        (H.run w2 ("pactl" :: "load-module" ::
          (if dev.Typ = Sink then "module-roc-sink" else "module-roc-source") :: args)).2 := by
  have hd1 : Device.GetEnabled { dev with NodeID := h.NodeID, ModuleID := h.ModuleID } = true := hd
  have hargs : ∃ args, pulseModuleArgs L dev = .ok args := by
    unfold PulseaudioBackend.applyEnabled PulseaudioBackend.resetStreamDevice at h1
    simp only [hd, if_true, Bool.not_true, Bool.false_eq_true, if_false] at h1
    cases ha : pulseModuleArgs L dev with
    | ok args => exact ⟨args, rfl⟩
    | error e =>
      exfalso
      split at h1
      · rename_i e2 he
        simp at h1
      · rename_i args he
        have : pulseModuleArgs L dev = .ok args := by
          rw [← he]
          split <;> try split
          all_goals rfl
        rw [ha] at this
        cases this
  obtain ⟨args, ha⟩ := hargs
  unfold PulseaudioBackend.applyEnabled PulseaudioBackend.resetStreamDevice
  simp only [hd1, if_true, Bool.not_true, Bool.false_eq_true, if_false]
  by_cases hm : h.ModuleID = ""
  · refine ⟨args, w1, ha, fun _ => rfl, ?_⟩
    have ha1 : pulseModuleArgs L { dev with NodeID := h.NodeID, ModuleID := h.ModuleID } = .ok args :=
      ha
    simp only [hm, ne_eq, not_true_eq_false, if_false] at ha1 ⊢
    simp only [ha1]
    cases hr : (H.run w1 ("pactl" :: "load-module" ::
      (if dev.Typ = Sink then "module-roc-sink" else "module-roc-source") :: args)).1 <;> simp [hr]
  · refine ⟨args, (PulseaudioBackend.destroyStreamDevice H w1
      { dev with NodeID := h.NodeID, ModuleID := h.ModuleID }).2, ha, fun h0 => absurd h0 hm, ?_⟩
    simp only [ne_eq, hm, not_false_eq_true, if_true]
    cases hdes : (PulseaudioBackend.destroyStreamDevice H w1
      { dev with NodeID := h.NodeID, ModuleID := h.ModuleID }).1 with
    | error e =>
      simp only [hdes]
      have ha1 : pulseModuleArgs L { dev with NodeID := h.NodeID, ModuleID := h.ModuleID } =
        .ok args := ha
      simp only [ha1]
      cases hr : (H.run (PulseaudioBackend.destroyStreamDevice H w1
        { dev with NodeID := h.NodeID, ModuleID := h.ModuleID }).2 ("pactl" :: "load-module" ::
        (if dev.Typ = Sink then "module-roc-sink" else "module-roc-source") :: args)).1 <;>
        simp [hr]
    | ok h2 =>
      simp only [hdes]
      have ha1 : pulseModuleArgs L { dev with NodeID := h2.NodeID, ModuleID := h2.ModuleID } =
        .ok args := ha
      simp only [ha1]
      cases hr : (H.run (PulseaudioBackend.destroyStreamDevice H w1
        { dev with NodeID := h.NodeID, ModuleID := h.ModuleID }).2 ("pactl" :: "load-module" ::
        (if dev.Typ = Sink then "module-roc-sink" else "module-roc-source") :: args)).1 <;>
        simp [hr]

/-- A second `applyEnabled` of the PipeWire backend on an enabled device, right
after a successful one: the helper started by the first call is stopped and a
new one is started with the same arguments. -/
theorem PipewireBackend.pw_enabled_again {ω : Type} (L : NetLib) (H : Host ω)
    (b b1 : PwState ω) (dev : Device) (h : Handles) (hd : dev.GetEnabled = true)
    (h1 : PipewireBackend.applyEnabled L H b dev = (.ok h, b1)) :
    ∃ args, pwModuleArgs L dev = .ok args ∧ dev.UID ∈ b1.streamDevMap ∧ h.NodeID = "" ∧
      (PipewireBackend.applyEnabled L H b1
          { dev with NodeID := h.NodeID, ModuleID := h.ModuleID }) =
        PipewireBackend.resetStreamDevice L H b1
          { dev with NodeID := h.NodeID, ModuleID := h.ModuleID } ∧
      (PipewireBackend.removeDevice H b1
          { dev with NodeID := h.NodeID, ModuleID := h.ModuleID }).2 =
        { streamDevMap := b1.streamDevMap.filter (fun u => u != dev.UID),
          world := H.kill b1.world dev.UID } ∧
      (PipewireBackend.createDevice L H
          { streamDevMap := b1.streamDevMap.filter (fun u => u != dev.UID),
            world := H.kill b1.world dev.UID }
          { dev with NodeID := "", ModuleID := h.ModuleID }).2.world =
        (H.start (H.kill b1.world dev.UID) ["pw-cli", "-m", "load-module",
          (if dev.Typ = Sink then "libpipewire-module-roc-sink"
            else "libpipewire-module-roc-source"), args]).2 := by
  have hd1 : Device.GetEnabled { dev with NodeID := h.NodeID, ModuleID := h.ModuleID } = true := hd
  unfold PipewireBackend.applyEnabled at h1 ⊢
  simp only [hd, hd1, if_true] at h1 ⊢
  unfold PipewireBackend.resetStreamDevice at h1
  simp only [hd, Bool.not_true, Bool.false_eq_true, if_false] at h1
  have hrem : (PipewireBackend.removeDevice H b dev).1 = { dev with NodeID := "" } := rfl
  cases hc : (PipewireBackend.createDevice L H (PipewireBackend.removeDevice H b dev).2
      (PipewireBackend.removeDevice H b dev).1).1 with
  | some e => simp [hc] at h1
  | none =>
    simp only [hc] at h1
    have hargs : ∃ args, pwModuleArgs L dev = .ok args := by
      cases ha : pwModuleArgs L dev with
      | ok args => exact ⟨args, rfl⟩
      | error e =>
        exfalso
        have ha2 : pwModuleArgs L (PipewireBackend.removeDevice H b dev).1 = .error e := ha
        unfold PipewireBackend.createDevice at hc
        simp [ha2] at hc
    obtain ⟨args, ha⟩ := hargs
    have ha2 : pwModuleArgs L (PipewireBackend.removeDevice H b dev).1 = .ok args := ha
    have hmap : dev.UID ∈ (PipewireBackend.createDevice L H (PipewireBackend.removeDevice H b dev).2
        (PipewireBackend.removeDevice H b dev).1).2.streamDevMap := by
      unfold PipewireBackend.createDevice at hc ⊢
      simp only [ha2] at hc ⊢
      cases hs : (H.start (PipewireBackend.removeDevice H b dev).2.world
        ["pw-cli", "-m", "load-module",
          if (PipewireBackend.removeDevice H b dev).1.Typ = Sink then "libpipewire-module-roc-sink"
          else "libpipewire-module-roc-source", args]).1 with
      | some e => simp [hs] at hc
      | none => simp [hs, hrem]
    unfold PipewireBackend.waitDevice at h1
    cases hw : (H.wait (PipewireBackend.createDevice L H (PipewireBackend.removeDevice H b dev).2
        (PipewireBackend.removeDevice H b dev).1).2.world
        (PipewireBackend.removeDevice H b dev).1).1 with
    | helperExited => simp [hw] at h1
    | timeout => simp [hw] at h1
    | appeared =>
      simp only [hw, Prod.mk.injEq, Except.ok.injEq] at h1
      obtain ⟨hh, hb⟩ := h1
      have hn : h.NodeID = "" := by rw [← hh]; rfl
      have hmem : dev.UID ∈ b1.streamDevMap := by rw [← hb]; exact hmap
      refine ⟨args, ha, hmem, hn, trivial, ?_, ?_⟩
      · unfold PipewireBackend.removeDevice
        simp [hn, hmem]
      · unfold PipewireBackend.createDevice
        have ha3 : pwModuleArgs L { dev with NodeID := "", ModuleID := h.ModuleID } = .ok args := ha
        simp only [ha3]
        cases hs : (H.start (H.kill b1.world dev.UID) ["pw-cli", "-m", "load-module",
          (if dev.Typ = Sink then "libpipewire-module-roc-sink"
            else "libpipewire-module-roc-source"), args]).1 <;> simp [hs]

/-- C24, amended: a second `applyEnabled` right after a successful one, on the
device as the first call left it. For a disabled device the PipeWire backend
runs nothing and returns nil, and the PulseAudio backend runs nothing and
returns the error of the missing module id. For an enabled device both
backends create the device again: PipeWire stops the helper of the first call
and starts a new one with the same arguments, PulseAudio runs `load-module`
with the same arguments once more. -/
theorem applyEnabled_again {ω : Type} (L : NetLib) (H : Host ω) (dev : Device) (h : Handles) :
    (∀ b b1 : PwState ω, PipewireBackend.applyEnabled L H b dev = (.ok h, b1) →
      (dev.GetEnabled = false →
        PipewireBackend.applyEnabled L H b1
          { dev with NodeID := h.NodeID, ModuleID := h.ModuleID } = (.ok h, b1)) ∧
      (dev.GetEnabled = true →
        ∃ args, pwModuleArgs L dev = .ok args ∧ dev.UID ∈ b1.streamDevMap ∧ h.NodeID = "" ∧
          (PipewireBackend.applyEnabled L H b1
              { dev with NodeID := h.NodeID, ModuleID := h.ModuleID }) =
            PipewireBackend.resetStreamDevice L H b1
              { dev with NodeID := h.NodeID, ModuleID := h.ModuleID } ∧
          (PipewireBackend.removeDevice H b1
              { dev with NodeID := h.NodeID, ModuleID := h.ModuleID }).2 =
            { streamDevMap := b1.streamDevMap.filter (fun u => u != dev.UID),
              world := H.kill b1.world dev.UID } ∧
          (PipewireBackend.createDevice L H
              { streamDevMap := b1.streamDevMap.filter (fun u => u != dev.UID),
                world := H.kill b1.world dev.UID }
              { dev with NodeID := "", ModuleID := h.ModuleID }).2.world =
            (H.start (H.kill b1.world dev.UID) ["pw-cli", "-m", "load-module",
              (if dev.Typ = Sink then "libpipewire-module-roc-sink"
                else "libpipewire-module-roc-source"), args]).2)) ∧
    (∀ w w1 : ω, PulseaudioBackend.applyEnabled L H w dev = (.ok h, w1) →
      (dev.GetEnabled = false →
        PulseaudioBackend.applyEnabled L H w1
            { dev with NodeID := h.NodeID, ModuleID := h.ModuleID } =
          (.error "failed to delete device: owner module not known", w1)) ∧
      (dev.GetEnabled = true →
        ∃ args w2, pulseModuleArgs L dev = .ok args ∧ (h.ModuleID = "" → w2 = w1) ∧
          (PulseaudioBackend.applyEnabled L H w1
              { dev with NodeID := h.NodeID, ModuleID := h.ModuleID }).2 =
            (H.run w2 ("pactl" :: "load-module" ::
              (if dev.Typ = Sink then "module-roc-sink" else "module-roc-source") :: args)).2)) :=
  ⟨fun b b1 h1 =>
    ⟨fun hd => PipewireBackend.pw_disabled_again L H b b1 dev h hd h1,
      fun hd => PipewireBackend.pw_enabled_again L H b b1 dev h hd h1⟩,
   fun w w1 h1 =>
    ⟨fun hd => PulseaudioBackend.pulse_disabled_again L H w w1 dev h hd h1,
      fun hd => PulseaudioBackend.pulse_enabled_again L H w w1 dev h hd h1⟩⟩

/-- C24 at the sample sink, disabled and with a node id, on the PipeWire
backend whose map of helpers holds it: the first call destroys the node and
stops the helper, the second runs nothing. -/
theorem applyEnabled_again_witness :
    PipewireBackend.applyEnabled Sample.net Sample.host
        { streamDevMap := [], world := [["pw-cli", "destroy", "42"], ["kill", "u1"]] }
        { Sample.sink StatusDisabled with NodeID := "" } =
      (.ok { NodeID := "", ModuleID := "" },
        { streamDevMap := [], world := [["pw-cli", "destroy", "42"], ["kill", "u1"]] }) :=
  ((applyEnabled_again Sample.net Sample.host { Sample.sink StatusDisabled with NodeID := "42" }
      { NodeID := "", ModuleID := "" }).1
    { streamDevMap := ["u1"], world := [] }
    { streamDevMap := [], world := [["pw-cli", "destroy", "42"], ["kill", "u1"]] }
    rfl).1 (by decide)

/-- C24 as stated fails on the PulseAudio backend: for the enabled sample sink
the second call runs the `load-module` of the first call again, and for the
disabled one, whose module the first call unloaded, the second call returns an
error. -/
theorem applyEnabled_loads_again :
    PulseaudioBackend.applyEnabled Sample.net Sample.host [] (Sample.sink StatusEnabled) =
      (.ok { NodeID := "", ModuleID := "" },
        (PulseaudioBackend.applyEnabled Sample.net Sample.host []
          (Sample.sink StatusEnabled)).2) ∧
    (PulseaudioBackend.applyEnabled Sample.net Sample.host []
      (Sample.sink StatusEnabled)).2.map (fun cmd => cmd.take 3) =
        [["pactl", "load-module", "module-roc-sink"]] ∧
    PulseaudioBackend.applyEnabled Sample.net Sample.host
        (PulseaudioBackend.applyEnabled Sample.net Sample.host [] (Sample.sink StatusEnabled)).2
        { Sample.sink StatusEnabled with NodeID := "", ModuleID := "" } =
      (.ok { NodeID := "", ModuleID := "" },
        (PulseaudioBackend.applyEnabled Sample.net Sample.host []
            (Sample.sink StatusEnabled)).2 ++
          (PulseaudioBackend.applyEnabled Sample.net Sample.host []
            (Sample.sink StatusEnabled)).2) ∧
    PulseaudioBackend.applyEnabled Sample.net Sample.host []
        { Sample.sink StatusDisabled with ModuleID := "17" } =
      (.ok { NodeID := "", ModuleID := "" }, [["pactl", "unload-module", "17"]]) ∧
    PulseaudioBackend.applyEnabled Sample.net Sample.host [["pactl", "unload-module", "17"]]
        { Sample.sink StatusDisabled with NodeID := "", ModuleID := "" } =
      (.error "failed to delete device: owner module not known",
        [["pactl", "unload-module", "17"]]) := by
  decide

/-! ## Rate limiters -/

/-- C25 on the code: both limiters have burst 1, but the `rate.Limit` handed
to `rate.NewLimiter` is the interval itself, its count of nanoseconds, not
`10 ^ 9` divided by it: 20,000,000 events per second where the claim has 50 in
`listenEvents`, and 10,000,000 where it has 100 in `EventListener.run`. -/
theorem listenEvents_limit :
    listenEvents.limiter = { limit := 20000000, burst := 1 } ∧
    EventListener.limiter = { limit := 10000000, burst := 1 } ∧
    10 ^ 9 / eventMinInterval = 50 ∧ 10 ^ 9 / eventInterval = 100 ∧
    listenEvents.limiter.limit ≠ 10 ^ 9 / eventMinInterval ∧
    EventListener.limiter.limit ≠ 10 ^ 9 / eventInterval := by
  decide

/-! ## The module arguments of both backends -/

/-- The first switch of both argument builders picks the one element of the
relevant list, or fails when there is not exactly one. -/
theorem moduleAddress_relevant (who : String) (dev : Device)
    (ht : dev.Typ = Sink ∨ dev.Typ = Source) :
    (∃ a, relevantAddress dev = some [a] ∧
      moduleAddress who dev = .ok (a, if dev.Typ = Sink then "remote" else "local")) ∨
    ((∀ a, relevantAddress dev ≠ some [a]) ∧ ∃ e, moduleAddress who dev = .error e) := by
  unfold relevantAddress moduleAddress
  by_cases hs : dev.Typ = Sink
  · simp only [hs, if_true]
    rcases hl : dev.ToAddress with _ | l
    · right; simp
    · rcases l with _ | ⟨a, _ | ⟨b, l⟩⟩
      · right; simp
      · left; exact ⟨a, rfl, rfl⟩
      · right; simp
  · have hso : dev.Typ = Source := ht.resolve_left hs
    simp only [hs, if_false]
    simp only [hso, if_true]
    rcases hl : dev.FromAddress with _ | l
    · right; simp
    · rcases l with _ | ⟨a, _ | ⟨b, l⟩⟩
      · right; simp
      · left; exact ⟨a, rfl, rfl⟩
      · right; simp

/-- The checks of the address fail exactly on the addresses the specification
rejects. -/
theorem moduleAddressCheck_error (L : NetLib) (who : String) (a : Address) :
    (∃ e, moduleAddressCheck L who a = .error e) ↔
      (a.AudioSource = "" ∨
        (a.AudioRepair ≠ "" ∧ URI.IP L a.AudioRepair ≠ URI.IP L a.AudioSource) ∨
        (a.AudioControl ≠ "" ∧ URI.IP L a.AudioControl ≠ URI.IP L a.AudioSource)) := by
  unfold moduleAddressCheck
  by_cases h1 : a.AudioSource = ""
  · simp [h1]
  · by_cases h2 : (a.AudioRepair ≠ "" ∧ URI.IP L a.AudioRepair ≠ URI.IP L a.AudioSource) ∨
        (a.AudioControl ≠ "" ∧ URI.IP L a.AudioControl ≠ URI.IP L a.AudioSource)
    · rw [if_neg h1, if_pos h2]
      exact ⟨fun _ => Or.inr h2, fun _ => ⟨_, rfl⟩⟩
    · rw [if_neg h1, if_neg h2]
      constructor
      · rintro ⟨e, he⟩; cases he
      · rintro (h | h)
        · exact absurd h h1
        · exact absurd h h2

/-- What both argument builders do on a sink or source, through the shared
steps: an error exactly when the specification rejects the device, and
otherwise the address is the one element of the relevant list and passed the
checks. -/
theorem moduleArgs_steps (L : NetLib) (who : String) (dev : Device)
    (ht : dev.Typ = Sink ∨ dev.Typ = Source) :
    (addressRejected L dev = true ∧
      ((∃ e, moduleAddress who dev = .error e) ∨
        ∃ a k e, moduleAddress who dev = .ok (a, k) ∧ moduleAddressCheck L who a = .error e)) ∨
    (addressRejected L dev = false ∧ ∃ a, relevantAddress dev = some [a] ∧
      moduleAddress who dev = .ok (a, if dev.Typ = Sink then "remote" else "local") ∧
      moduleAddressCheck L who a = .ok ()) := by
  rcases moduleAddress_relevant who dev ht with ⟨a, hr, hm⟩ | ⟨hn, e, he⟩
  · by_cases hc : ∃ e, moduleAddressCheck L who a = .error e
    · left
      refine ⟨?_, Or.inr ⟨a, _, hc.choose, hm, hc.choose_spec⟩⟩
      have := (moduleAddressCheck_error L who a).1 hc
      unfold addressRejected
      rw [hr]
      simpa using this
    · right
      have hn := fun h => hc ((moduleAddressCheck_error L who a).2 h)
      refine ⟨?_, a, hr, hm, ?_⟩
      · unfold addressRejected
        rw [hr]
        simpa using hn
      · cases hk : moduleAddressCheck L who a with
        | ok u => rfl
        | error e => exact absurd ⟨e, hk⟩ hc
  · left
    refine ⟨?_, Or.inl ⟨e, he⟩⟩
    unfold addressRejected
    split
    · rename_i a h
      exact absurd h (hn a)
    · rfl

/-- C28: for a sink or a source, `pwModuleArgs` and `pulseModuleArgs` each
return an error exactly when the relevant address list (`to_address` of a
sink, `from_address` of a source) does not have exactly one element, or the
`audio_source` of that element is empty, or its non-empty `audio_repair` or
`audio_control` has another IP than `audio_source`; so both reject the same
devices. On success the last line of the PipeWire arguments and the last
PulseAudio argument carry the FEC code: the `Fec` of `audio_source`, or
`disable` when it has none. -/
theorem moduleArgs_reject (L : NetLib) (dev : Device) (ht : dev.Typ = Sink ∨ dev.Typ = Source) :
    ((∃ e, pwModuleArgs L dev = .error e) ↔ addressRejected L dev = true) ∧
    ((∃ e, pulseModuleArgs L dev = .error e) ↔ addressRejected L dev = true) ∧
    ((∃ e, pwModuleArgs L dev = .error e) ↔ ∃ e, pulseModuleArgs L dev = .error e) ∧
    (∀ s, pwModuleArgs L dev = .ok s → ∃ a pre, relevantAddress dev = some [a] ∧
      s = pre ++ "  fec.code = " ++
        (if URI.Fec L a.AudioSource = "" then "disable" else URI.Fec L a.AudioSource) ++
        "\n" ++ "\x7d") ∧
    (∀ args, pulseModuleArgs L dev = .ok args → ∃ a pre, relevantAddress dev = some [a] ∧
      args = pre ++ ["fec_encoding=" ++
        (if URI.Fec L a.AudioSource = "" then "disable" else URI.Fec L a.AudioSource)]) := by
  have hpw : ((∃ e, pwModuleArgs L dev = .error e) ↔ addressRejected L dev = true) ∧
      (∀ s, pwModuleArgs L dev = .ok s → ∃ a pre, relevantAddress dev = some [a] ∧
        s = pre ++ "  fec.code = " ++
          (if URI.Fec L a.AudioSource = "" then "disable" else URI.Fec L a.AudioSource) ++
          "\n" ++ "\x7d") := by
    rcases moduleArgs_steps L "pipewire" dev ht with ⟨hr, ⟨e, he⟩ | ⟨a, k, e, hm, hc⟩⟩ |
      ⟨hr, a, hl, hm, hc⟩
    · have : pwModuleArgs L dev = .error e := by unfold pwModuleArgs; rw [he]
      exact ⟨⟨fun _ => hr, fun _ => ⟨e, this⟩⟩, fun s hs => by rw [this] at hs; cases hs⟩
    · have : pwModuleArgs L dev = .error e := by unfold pwModuleArgs; rw [hm]; simp only [hc]
      exact ⟨⟨fun _ => hr, fun _ => ⟨e, this⟩⟩, fun s hs => by rw [this] at hs; cases hs⟩
    · refine ⟨⟨?_, fun h => by rw [hr] at h; cases h⟩, ?_⟩
      · rintro ⟨e, he⟩
        unfold pwModuleArgs at he
        rw [hm] at he
        simp only [hc] at he
        cases he
      · intro s hs
        unfold pwModuleArgs at hs
        rw [hm] at hs
        simp only [hc, Except.ok.injEq] at hs
        exact ⟨a, _, hl, hs.symm⟩
  have hpulse : ((∃ e, pulseModuleArgs L dev = .error e) ↔ addressRejected L dev = true) ∧
      (∀ args, pulseModuleArgs L dev = .ok args → ∃ a pre, relevantAddress dev = some [a] ∧
        args = pre ++ ["fec_encoding=" ++
          (if URI.Fec L a.AudioSource = "" then "disable" else URI.Fec L a.AudioSource)]) := by
    rcases moduleArgs_steps L "pulseaudio" dev ht with ⟨hr, ⟨e, he⟩ | ⟨a, k, e, hm, hc⟩⟩ |
      ⟨hr, a, hl, hm, hc⟩
    · have : pulseModuleArgs L dev = .error e := by unfold pulseModuleArgs; rw [he]
      exact ⟨⟨fun _ => hr, fun _ => ⟨e, this⟩⟩, fun s hs => by rw [this] at hs; cases hs⟩
    · have : pulseModuleArgs L dev = .error e := by
        unfold pulseModuleArgs; rw [hm]; simp only [hc]
      exact ⟨⟨fun _ => hr, fun _ => ⟨e, this⟩⟩, fun s hs => by rw [this] at hs; cases hs⟩
    · refine ⟨⟨?_, fun h => by rw [hr] at h; cases h⟩, ?_⟩
      · rintro ⟨e, he⟩
        unfold pulseModuleArgs at he
        rw [hm] at he
        simp only [hc] at he
        cases he
      · intro s hs
        unfold pulseModuleArgs at hs
        rw [hm] at hs
        simp only [hc, Except.ok.injEq] at hs
        exact ⟨a, _, hl, hs.symm⟩
  exact ⟨hpw.1, hpulse.1, hpw.1.trans hpulse.1.symm, hpw.2, hpulse.2⟩

/-- C28 at the sample sink, whose one address has a repair URI on the host of
the source URI: neither builder rejects it. -/
theorem moduleArgs_reject_witness :
    (Sample.sink StatusEnabled).Typ = Sink ∧
    addressRejected Sample.net (Sample.sink StatusEnabled) = false ∧
    (¬ ∃ e, pwModuleArgs Sample.net (Sample.sink StatusEnabled) = .error e) ∧
    (¬ ∃ e, pulseModuleArgs Sample.net (Sample.sink StatusEnabled) = .error e) :=
  ⟨rfl, by decide,
    fun h => absurd
      ((moduleArgs_reject Sample.net (Sample.sink StatusEnabled) (Or.inl rfl)).1.1 h) (by decide),
    fun h => absurd
      ((moduleArgs_reject Sample.net (Sample.sink StatusEnabled) (Or.inl rfl)).2.1.1 h)
      (by decide)⟩

/-! ## listDevices -/

/-- `Compare` is negative when the type is smaller, or the types agree and the
generated comparison is negative. -/
theorem Device.Compare_neg_iff (derived : Device → Device → Int) (a b : Device) :
    Device.Compare derived a b < 0 ↔ a.Typ < b.Typ ∨ (a.Typ = b.Typ ∧ derived a b < 0) := by
  unfold Device.Compare
  simp only [gt_iff_lt, ← String.lt_iff_toList_lt]
  rcases lt_trichotomy a.Typ b.Typ with h | h | h
  · simp [h]
  · simp [h]
  · have h1 : ¬ a.Typ < b.Typ := lt_asymm h
    have h2 : a.Typ ≠ b.Typ := ne_of_gt h
    simp [h1, h2, h]

/-- `Compare` is at most zero when the type is smaller, or the types agree and
the generated comparison is at most zero. -/
theorem Device.Compare_nonpos_iff (derived : Device → Device → Int) (a b : Device) :
    Device.Compare derived a b ≤ 0 ↔ a.Typ < b.Typ ∨ (a.Typ = b.Typ ∧ derived a b ≤ 0) := by
  unfold Device.Compare
  simp only [gt_iff_lt, ← String.lt_iff_toList_lt]
  rcases lt_trichotomy a.Typ b.Typ with h | h | h
  · simp [h]
  · simp [h]
  · have h1 : ¬ a.Typ < b.Typ := lt_asymm h
    have h2 : a.Typ ≠ b.Typ := ne_of_gt h
    simp [h1, h2, h]

/-- The order `sort.Slice` leaves behind, read as `Compare`. -/
theorem listDevices.less_false_iff (derived : Device → Device → Int) (hd : CompareOrder derived)
    (a b : Device) :
    listDevices.less derived b a = false ↔ Device.Compare derived a b ≤ 0 := by
  unfold listDevices.less
  rw [decide_eq_false_iff_not, Device.Compare_neg_iff, Device.Compare_nonpos_iff]
  rcases lt_trichotomy a.Typ b.Typ with h | h | h
  · have h1 : ¬ b.Typ < a.Typ := lt_asymm h
    have h2 : b.Typ ≠ a.Typ := ne_of_gt h
    simp [h, h1, h2]
  · have hirr : ¬ b.Typ < b.Typ := lt_irrefl _
    rw [h]
    simp only [hirr, false_or, true_and]
    rw [hd.swap b a]
    exact Int.not_lt
  · have h1 : ¬ a.Typ < b.Typ := lt_asymm h
    have h2 : a.Typ ≠ b.Typ := ne_of_gt h
    simp [h, h1, h2]

theorem Sink_lt_Source : Sink < Source := by
  rw [String.lt_iff_toList_lt]
  decide

/-- `sort.Slice` in `listDevices`: the devices are kept and come out ordered
by `Compare`. -/
theorem listDevices.sorted_by_compare (derived : Device → Device → Int) (hd : CompareOrder derived)
    (l : List Device) :
    (l.insertionSort (fun a b => listDevices.less derived b a = false)).Perm l ∧
    (l.insertionSort (fun a b => listDevices.less derived b a = false)).Sorted
      (fun a b => Device.Compare derived a b ≤ 0) := by
  haveI : IsTotal Device (fun a b => listDevices.less derived b a = false) := ⟨by
    intro a b
    rw [listDevices.less_false_iff derived hd, listDevices.less_false_iff derived hd,
      Device.Compare_nonpos_iff, Device.Compare_nonpos_iff]
    rcases lt_trichotomy a.Typ b.Typ with h | h | h
    · exact Or.inl (Or.inl h)
    · by_cases h1 : derived a b ≤ 0
      · exact Or.inl (Or.inr ⟨h, h1⟩)
      · right; right
        refine ⟨h.symm, ?_⟩
        have : 0 < derived a b := not_le.1 h1
        exact le_of_lt ((hd.swap b a).2 this)
    · exact Or.inr (Or.inl h)⟩
  haveI : IsTrans Device (fun a b => listDevices.less derived b a = false) := ⟨by
    intro a b c
    rw [listDevices.less_false_iff derived hd, listDevices.less_false_iff derived hd,
      listDevices.less_false_iff derived hd, Device.Compare_nonpos_iff,
      Device.Compare_nonpos_iff, Device.Compare_nonpos_iff]
    rintro (h1 | ⟨h1, h2⟩) (h3 | ⟨h3, h4⟩)
    · exact Or.inl (lt_trans h1 h3)
    · exact Or.inl (h3 ▸ h1)
    · exact Or.inl (h1 ▸ h3)
    · exact Or.inr ⟨h1.trans h3, hd.trans a b c h2 h4⟩⟩
  refine ⟨List.perm_insertionSort _ l, ?_⟩
  have hs := List.sorted_insertionSort (fun a b => listDevices.less derived b a = false) l
  exact hs.imp (fun h => (listDevices.less_false_iff derived hd _ _).1 h)

theorem Sample.byUID_order : CompareOrder Sample.byUID := by
  constructor
  · intro a b
    unfold Sample.byUID
    simp only [← String.lt_iff_toList_lt]
    rcases lt_trichotomy a.UID b.UID with h | h | h
    · have h1 : ¬ b.UID < a.UID := lt_asymm h
      simp [h, h1]
    · simp [h]
    · have h1 : ¬ a.UID < b.UID := lt_asymm h
      simp [h, h1]
  · intro a b c
    unfold Sample.byUID
    simp only [← String.lt_iff_toList_lt]
    rcases lt_trichotomy a.UID b.UID with h | h | h
    · rcases lt_trichotomy b.UID c.UID with g | g | g
      · have := lt_trans h g
        simp [this]
      · rw [← g]; simp [h]
      · have g1 : ¬ b.UID < c.UID := lt_asymm g
        simp [g, g1]
    · rw [h]; exact fun _ h2 => h2
    · have h1 : ¬ a.UID < b.UID := lt_asymm h
      simp [h, h1]

/-- C22: over a uid index without repeated keys that holds every device under
its uid, `listDevices` returns the devices of the index, with the stream
filter those with `is_stream` only, each exactly once; the result is ordered
by `Device.Compare`, and no source comes before a sink. The generated
comparison `deriveCompareDevice` is taken to be a three-way comparison of a
total preorder. -/
theorem listDevices_sorted {σ : Type} (derived : Device → Device → Int)
    (hd : CompareOrder derived) (dm : DeviceManager σ) (filter : deviceFilter)
    (hk : dm.deviceByUID.NodupKeys) (hu : dm.deviceByUID.KeyedByUID) :
    (∀ d, d ∈ listDevices derived dm filter ↔
      (dm.deviceByUID.get d.UID = some d ∧ (filter = .streamDevice → d.IsStream = true))) ∧
    (listDevices derived dm filter).Nodup ∧
    ((listDevices derived dm filter).map Device.UID).Nodup ∧
    (listDevices derived dm filter).Pairwise (fun a b => Device.Compare derived a b ≤ 0) ∧
    (listDevices derived dm filter).Pairwise (fun a b => ¬ (a.Typ = Source ∧ b.Typ = Sink)) := by
  obtain ⟨hperm, hsort⟩ := listDevices.sorted_by_compare derived hd
    (dm.deviceByUID.values.filter (fun dev => !(decide (filter = .streamDevice) && !dev.IsStream)))
  have hnd : (dm.deviceByUID.values.map Device.UID).Nodup :=
    DeviceMap.values_uid_nodup _ hk hu
  have hnd2 : ((dm.deviceByUID.values.filter
      (fun dev => !(decide (filter = .streamDevice) && !dev.IsStream))).map Device.UID).Nodup :=
    (List.filter_sublist _).map Device.UID |>.nodup hnd
  have huids : ((listDevices derived dm filter).map Device.UID).Nodup :=
    (hperm.map Device.UID).nodup_iff.2 hnd2
  refine ⟨?_, List.Nodup.of_map _ huids, huids, hsort, ?_⟩
  · intro d
    unfold listDevices
    rw [hperm.mem_iff, List.mem_filter]
    have hmem : d ∈ dm.deviceByUID.values ↔ dm.deviceByUID.get d.UID = some d := by
      constructor
      · intro h
        obtain ⟨e, he, rfl⟩ := List.mem_map.1 h
        have hkey := hu e he
        have := DeviceMap.get_of_mem _ hk e.1 e.2 he
        rw [← hkey]; exact this
      · intro h
        exact List.mem_map.2 ⟨(d.UID, d), DeviceMap.mem_of_get _ _ _ h, rfl⟩
    rw [hmem]
    cases filter <;> cases hs : d.IsStream <;> simp
  · refine hsort.imp ?_
    intro a b hab ⟨ha, hb⟩
    rw [Device.Compare_nonpos_iff, ha, hb] at hab
    rcases hab with h | ⟨h, _⟩
    · exact lt_asymm h Sink_lt_Source
    · exact absurd h (ne_of_gt Sink_lt_Source)

/-- C22 at an index with a source, a stream sink and a sound card, the
generated comparison being the order of the uids: the source comes last, and
the stream filter leaves out the sound card. -/
theorem listDevices_sorted_witness :
    listDevices Sample.byUID
        (Sample.manager ([] : List (List String))
          [Sample.source, Sample.sink StatusEnabled, Sample.card] []) .anyDevice =
      [Sample.sink StatusEnabled, Sample.card, Sample.source] ∧
    listDevices Sample.byUID
        (Sample.manager ([] : List (List String))
          [Sample.source, Sample.sink StatusEnabled, Sample.card] []) .streamDevice =
      [Sample.sink StatusEnabled, Sample.source] ∧
    (listDevices Sample.byUID
        (Sample.manager ([] : List (List String))
          [Sample.source, Sample.sink StatusEnabled, Sample.card] []) .anyDevice).Pairwise
      (fun a b => ¬ (a.Typ = Source ∧ b.Typ = Sink)) :=
  ⟨by decide, by decide,
    (listDevices_sorted Sample.byUID Sample.byUID_order
      (Sample.manager ([] : List (List String))
        [Sample.source, Sample.sink StatusEnabled, Sample.card] []) .anyDevice
      (by decide) (by decide)).2.2.2.2⟩

/-! ## A failed write of the store -/

/-- The two ways `SaveStreamDevice` fails: on a device that is no stream
device, with the store as it was, and on the write of the file, with the
device already put into the map. -/
theorem PersistStore.SaveStreamDevice_error (ps : PersistStore) (d : Device) (e : Err)
    (h : (ps.SaveStreamDevice d).1 = .error e) :
    (d.IsStream = false ∧ e = .panic "not a stream device" ∧ (ps.SaveStreamDevice d).2 = ps) ∨
    (d.IsStream = true ∧ ps.devices.get d.UID ≠ some d ∧ ∃ msg rest,
      ps.writeErrs = some msg :: rest ∧ e = .writeFile msg ∧
      (ps.SaveStreamDevice d).2 =
        { ps with devices := ps.devices.set d.UID d, writeErrs := rest,
                  nWrites := ps.nWrites + 1 }) := by
  by_cases hs : d.IsStream = true
  · right
    have hne : ps.devices.get d.UID ≠ some d := by
      intro hg
      unfold PersistStore.SaveStreamDevice at h
      simp [hs, hg, Device.Equal] at h
    refine ⟨hs, hne, ?_⟩
    rw [PersistStore.SaveStreamDevice_new ps d hs hne] at h ⊢
    unfold PersistStore.save at h ⊢
    rcases hw : ps.writeErrs with _ | ⟨_ | msg, rest⟩
    · simp [hw] at h
    · simp [hw] at h
    · simp only [hw] at h ⊢
      simp only [Except.error.injEq] at h
      exact ⟨msg, rest, rfl, h.symm, rfl⟩
  · left
    have hs2 : d.IsStream = false := by simpa using hs
    unfold PersistStore.SaveStreamDevice at h ⊢
    simp only [hs2, Bool.not_false, if_true, Except.error.injEq] at h ⊢
    exact ⟨trivial, h.symm, trivial⟩

/-- The field checks of `updateDevice` do not report a failed save. -/
theorem updateDevice.patch_not_save (L : NetLib) (dev updDev : Device) (c : Err) :
    updateDevice.validate L dev updDev ≠ .error (.saveDevice c) := by
  unfold updateDevice.validate
  intro h
  repeat' split at h
  all_goals cases h

/-- The field checks of `createStreamDevice` do not report a failed save. -/
theorem createStreamDevice.request_not_save (L : NetLib) (dev : Device) (c : Err) :
    createStreamDevice.validate L dev ≠ .error (.saveDevice c) := by
  unfold createStreamDevice.validate
  intro h
  repeat' split at h
  all_goals cases h

/-- An `updateDevice` that reports a failed save got as far as the commit:
"Apply changes" returned a device, and the result is that of the commit. -/
theorem updateDevice_save_failed {σ : Type} (E : Env σ) (dm : DeviceManager σ) (uid : String)
    (updDev : Device) (filter : deviceFilter) (c : Err)
    (h : (updateDevice E dm uid updDev filter).1 = .error (.saveDevice c)) :
    ∃ dev d, dm.deviceByUID.get uid = some dev ∧
      (updateDevice.apply E dm dev updDev).1 = .ok d ∧
      updateDevice E dm uid updDev filter =
        updateDevice.commit (updateDevice.apply E dm dev updDev).2 uid d := by
  unfold updateDevice at h ⊢
  cases hg : dm.deviceByUID.get uid with
  | none => simp [hg] at h
  | some dev =>
    simp only [hg] at h ⊢
    by_cases hf : filter = .streamDevice ∧ (!dev.IsStream) = true
    · rw [if_pos hf] at h; cases h
    · rw [if_neg hf] at h ⊢
      cases hi : updateDevice.checkImmutable dev updDev with
      | error e =>
        simp only [hi] at h
        rcases updateDevice.checkImmutable_error dev updDev e hi with h1 | h1 | h1 | h1 <;>
          (rw [h1] at h; cases h)
      | ok _ =>
        simp only [hi] at h ⊢
        cases hv : updateDevice.validate E.net dev updDev with
        | error e =>
          simp only [hv, Except.error.injEq] at h
          rw [h] at hv
          exact absurd hv (updateDevice.patch_not_save _ _ _ _)
        | ok _ =>
          simp only [hv] at h ⊢
          cases ha : (updateDevice.apply E dm dev updDev).1 with
          | error e =>
            simp only [ha, Except.error.injEq] at h
            obtain ⟨msg, hm⟩ := updateDevice.apply_error E dm dev updDev e ha
            rw [hm] at h; cases h
          | ok d => exact ⟨dev, d, rfl, ha, by simp only [ha]⟩

/-- A `createStreamDevice` that reports a failed save got as far as the save:
the backend created the device, and the manager differs from the one before
the call in the counter of names, the backend, the calls and the store, which
is the one `SaveStreamDevice` left. -/
theorem createStreamDevice_save_failed {σ : Type} (E : Env σ) (fuel : Nat) (dm : DeviceManager σ)
    (dev : Device) (r : Except Err String × DeviceManager σ) (c : Err)
    (h : createStreamDevice E fuel dm dev = some r) (hr : r.1 = .error (.saveDevice c)) :
    ∃ d, (dm.store.SaveStreamDevice d).1 = .error c ∧
      r.2.store = (dm.store.SaveStreamDevice d).2 ∧
      r.2.deviceByUID = dm.deviceByUID ∧ r.2.deviceByName = dm.deviceByName := by
  rcases createStreamDevice_inv E fuel dm dev r h with ⟨e, hv, rfl⟩ | ⟨_, st, hname, hst⟩
  · simp only [Except.error.injEq] at hr
    rw [hr] at hv
    exact absurd hv (createStreamDevice.request_not_save _ _ _)
  · have hframe : st.2.store = dm.store ∧ st.2.deviceByUID = dm.deviceByUID ∧
        st.2.deviceByName = dm.deviceByName ∧ ∀ e, st.1 = .error e → ∃ n, e = .systemNameExists n := by
      rcases createStreamDevice.name_inv fuel dm dev st hname with
        ⟨_, _, hs⟩ | ⟨_, _, hs⟩ | ⟨_, n, _, _, hs⟩
      · subst hs
        exact ⟨rfl, rfl, rfl, fun e he => ⟨_, (Except.error.inj he).symm⟩⟩
      · subst hs
        exact ⟨rfl, rfl, rfl, fun e he => by cases he⟩
      · subst hs
        exact ⟨rfl, rfl, rfl, fun e he => by cases he⟩
    obtain ⟨hs1, hs2, hs3, hs4⟩ := hframe
    rcases hst with ⟨e, he, rfl⟩ | ⟨named, _, rfl⟩
    · obtain ⟨n, hn⟩ := hs4 e he
      simp only [Except.error.injEq] at hr
      rw [hn] at hr; cases hr
    · generalize createStreamDevice.defaults E named = d at hr ⊢
      rcases createStreamDevice.create_spec E st.2 d with
        ⟨_, hc⟩ | ⟨_, e, _, h1, _⟩ | ⟨_, hd, e, _, hsave, h1, h2⟩ | ⟨_, hd, _, _, h1, _⟩
      · rw [hc] at hr; cases hr
      · rw [h1] at hr; cases hr
      · rw [h1] at hr
        simp only [Except.error.injEq, Err.saveDevice.injEq] at hr
        subst hr
        refine ⟨{ d with NodeID := hd.NodeID, ModuleID := hd.ModuleID }, ?_, ?_, ?_, ?_⟩
        · rw [← hs1]; exact hsave
        · rw [h2, ← hs1]
        · rw [h2]; exact hs2
        · rw [h2]; exact hs3
      · rw [h1] at hr; cases hr

/-- The store after a save that failed on the write of the file. -/
theorem PersistStore.SaveStreamDevice_write_failed (ps : PersistStore) (d : Device) (msg : String)
    (h : (ps.SaveStreamDevice d).1 = .error (.writeFile msg)) :
    d.IsStream = true ∧ ps.LoadStreamDevice d.UID ≠ some d ∧
      (ps.SaveStreamDevice d).2.devices = ps.devices.set d.UID d ∧
      (ps.SaveStreamDevice d).2.file = ps.file ∧
      (ps.SaveStreamDevice d).2.LoadStreamDevice d.UID = some d ∧
      d ∈ (ps.SaveStreamDevice d).2.LoadStreamDevices := by
  rcases PersistStore.SaveStreamDevice_error ps d _ h with ⟨_, he, _⟩ | ⟨hs, hne, m, rest, _, _, h2⟩
  · cases he
  · have hget : (ps.devices.set d.UID d).get d.UID = some d := by
      rw [DeviceMap.get_set]; simp
    refine ⟨hs, hne, by rw [h2], by rw [h2], ?_, ?_⟩
    · rw [h2]; exact hget
    · rw [h2]
      exact List.mem_map.2 ⟨(d.UID, d), DeviceMap.mem_of_get _ _ _ hget, rfl⟩

/-- C23, amended: when the write of the file fails during the
`SaveStreamDevice` of `updateDevice` or `createStreamDevice`, the error is
returned wrapped as "failed to save device", both indices of the manager are
as before the call and the file keeps its content, but the map of the store
is not rolled back: it holds the new record under its uid, which differs from
what it held, so a following `LoadStreamDevice` and `LoadStreamDevices`, the
read of `rereadDevices`, return the new record. -/
theorem save_failure_kept {σ : Type} (E : Env σ) (dm : DeviceManager σ) (msg : String) :
    (∀ uid updDev filter,
      (updateDevice E dm uid updDev filter).1 = .error (.saveDevice (.writeFile msg)) →
        (updateDevice E dm uid updDev filter).2.deviceByUID = dm.deviceByUID ∧
        (updateDevice E dm uid updDev filter).2.deviceByName = dm.deviceByName ∧
        (updateDevice E dm uid updDev filter).2.store.file = dm.store.file ∧
        ∃ d, d.IsStream = true ∧ dm.store.LoadStreamDevice d.UID ≠ some d ∧
          (updateDevice E dm uid updDev filter).2.store.devices =
            dm.store.devices.set d.UID d ∧
          (updateDevice E dm uid updDev filter).2.store.LoadStreamDevice d.UID = some d ∧
          d ∈ (updateDevice E dm uid updDev filter).2.store.LoadStreamDevices) ∧
    (∀ fuel dev r, createStreamDevice E fuel dm dev = some r →
      r.1 = .error (.saveDevice (.writeFile msg)) →
        r.2.deviceByUID = dm.deviceByUID ∧ r.2.deviceByName = dm.deviceByName ∧
        r.2.store.file = dm.store.file ∧
        ∃ d, d.IsStream = true ∧ dm.store.LoadStreamDevice d.UID ≠ some d ∧
          r.2.store.devices = dm.store.devices.set d.UID d ∧
          r.2.store.LoadStreamDevice d.UID = some d ∧ d ∈ r.2.store.LoadStreamDevices) := by
  constructor
  · intro uid updDev filter h
    obtain ⟨dev, d, _, ha, hc⟩ := updateDevice_save_failed E dm uid updDev filter _ h
    have hap := updateDevice.apply_applied E dm dev updDev
    rw [hc] at h ⊢
    have hidx := (updateDevice.commit_spec (updateDevice.apply E dm dev updDev).2 uid d).2.1 _ h
    have hstream : d.IsStream = true := by
      by_contra hs
      simp [updateDevice.commit, hs] at h
    have hstore : (updateDevice.commit (updateDevice.apply E dm dev updDev).2 uid d).2.store =
        (dm.store.SaveStreamDevice d).2 := by
      rw [← hap.store]
      unfold updateDevice.commit
      simp only [hstream, if_true]
      cases hr : ((updateDevice.apply E dm dev updDev).2.store.SaveStreamDevice d).1 <;> rfl
    have herr : (dm.store.SaveStreamDevice d).1 = .error (.writeFile msg) := by
      rw [← hap.store]
      unfold updateDevice.commit at h
      simp only [hstream, if_true] at h
      cases hr : ((updateDevice.apply E dm dev updDev).2.store.SaveStreamDevice d).1 with
      | ok _ => simp [hr] at h
      | error e => simp only [hr, Except.error.injEq, Err.saveDevice.injEq] at h; rw [h]
    obtain ⟨h1, h2, h3, h4, h5, h6⟩ := PersistStore.SaveStreamDevice_write_failed dm.store d msg herr
    rw [hstore]
    exact ⟨hidx.1.trans hap.byUID, hidx.2.trans hap.byName, h4, d, h1, h2, h3, h5, h6⟩
  · intro fuel dev r h hr
    obtain ⟨d, herr, hstore, hu, hn⟩ := createStreamDevice_save_failed E fuel dm dev r _ h hr
    obtain ⟨h1, h2, h3, h4, h5, h6⟩ := PersistStore.SaveStreamDevice_write_failed dm.store d msg herr
    rw [hstore]
    exact ⟨hu, hn, h4, d, h1, h2, h3, h5, h6⟩

set_option maxRecDepth 100000 in
/-- C23 at the create scenario on a manager whose store fails the write: the
indices stay empty and the file stays empty. -/
theorem save_failure_kept_witness :
    ∃ r, createStreamDevice Sample.pulse 1 Sample.fullDisk Sample.request = some r ∧
      r.1 = .error (.saveDevice (.writeFile "no space left on device")) ∧
      r.2.deviceByUID = [] ∧ r.2.deviceByName = [] ∧ r.2.store.file = [] :=
  ⟨(createStreamDevice.create Sample.pulse
      { Sample.fullDisk with lastIndex := 2 }
      (createStreamDevice.defaults Sample.pulse
        { Sample.request with SystemName := "rocd.stream_sink.7.1" })), by rfl, by decide,
    ((save_failure_kept Sample.pulse Sample.fullDisk "no space left on device").2 1 Sample.request
      _ (by rfl) (by decide)).1,
    ((save_failure_kept Sample.pulse Sample.fullDisk "no space left on device").2 1 Sample.request
      _ (by rfl) (by decide)).2.1,
    ((save_failure_kept Sample.pulse Sample.fullDisk "no space left on device").2 1 Sample.request
      _ (by rfl) (by decide)).2.2.1⟩

set_option maxRecDepth 100000 in
/-- C23 as stated fails: after the create scenario on a manager whose store
fails the write, the error is returned and the indices are as before, but the
map of the store, empty before the call, holds the new device, and
`LoadStreamDevice` of its uid returns it. -/
theorem save_failure_not_rolled_back :
    Sample.fullDisk.store.LoadStreamDevice Sample.created.UID = none ∧
    Sample.fullDisk.store.devices = [] ∧
    (createStreamDevice Sample.pulse 1 Sample.fullDisk Sample.request).map (fun r => r.1) =
      some (.error (.saveDevice (.writeFile "no space left on device"))) ∧
    (createStreamDevice Sample.pulse 1 Sample.fullDisk Sample.request).map
      (fun r => r.2.store.LoadStreamDevice Sample.created.UID) = some (some Sample.created) ∧
    (createStreamDevice Sample.pulse 1 Sample.fullDisk Sample.request).map
      (fun r => r.2.store.devices) = some [(Sample.created.UID, Sample.created)] ∧
    (createStreamDevice Sample.pulse 1 Sample.fullDisk Sample.request).map
      (fun r => (r.2.deviceByUID, r.2.deviceByName, r.2.store.file)) = some ([], [], []) := by
  decide

/-! ## The name index -/

/-- An entry of a map after `m[k] = d` is the new entry or an entry of `m`
under another key. -/
theorem DeviceMap.mem_set_iff (m : DeviceMap) (k : String) (d : Device) (e : String × Device) :
    e ∈ m.set k d ↔ e = (k, d) ∨ (e ∈ m ∧ e.1 ≠ k) := by
  unfold DeviceMap.set DeviceMap.delete
  simp [List.mem_filter]

/-- An entry of a map after `delete(m, k)` is an entry of `m` under another
key. -/
theorem DeviceMap.mem_delete_iff (m : DeviceMap) (k : String) (e : String × Device) :
    e ∈ m.delete k ↔ e ∈ m ∧ e.1 ≠ k := by
  unfold DeviceMap.delete
  simp [List.mem_filter]

/-- A property of entries that holds of the start map and of every entry a
loop of assignments writes holds of the map the loop builds. -/
theorem DeviceMap.forall_foldl_set (key : Device → String) (val : Device → Device)
    (P : String × Device → Prop) :
    ∀ (l : List Device) (m0 : DeviceMap), (∀ e ∈ m0, P e) → (∀ d ∈ l, P (key d, val d)) →
      ∀ e ∈ l.foldl (fun (m : DeviceMap) d => m.set (key d) (val d)) m0, P e := by
  intro l
  induction l with
  | nil => intro m0 h0 _ e he; exact h0 e he
  | cons a l ih =>
    intro m0 h0 hl e he
    rw [List.foldl_cons] at he
    refine ih (m0.set (key a) (val a)) ?_ (fun d hd => hl d (List.mem_cons_of_mem _ hd)) e he
    intro e2 he2
    rcases (DeviceMap.mem_set_iff _ _ _ _).1 he2 with rfl | ⟨h, _⟩
    · exact hl a (List.mem_cons_self _ _)
    · exact h0 e2 h

/-- The lookup in a map whose struct `old` has become `new`. -/
theorem DeviceMap.get_share (m : DeviceMap) (old new : Device) (k : String) :
    (m.share old new).get k = (m.get k).map (fun d => if d = old then new else d) := by
  induction m with
  | nil => rfl
  | cons e m ih =>
    have hc : DeviceMap.share (e :: m) old new =
        (if e.2 = old then (e.1, new) else e) :: DeviceMap.share m old new := rfl
    rw [hc, DeviceMap.get_cons, DeviceMap.get_cons, ih]
    by_cases he : e.2 = old
    · simp only [he, if_true]
      by_cases hk : k = e.1
      · simp [hk]
      · simp [hk]
    · simp only [he, if_false]
      by_cases hk : k = e.1
      · simp [hk, he]
      · simp [hk]

/-- The entries of a map whose struct `old` has become `new`. -/
theorem DeviceMap.mem_share (m : DeviceMap) (old new : Device) (e : String × Device)
    (h : e ∈ m.share old new) :
    ∃ e0 ∈ m, e.1 = e0.1 ∧ e.2 = if e0.2 = old then new else e0.2 := by
  unfold DeviceMap.share at h
  obtain ⟨e0, h0, rfl⟩ := List.mem_map.1 h
  refine ⟨e0, h0, ?_, ?_⟩
  · by_cases hc : e0.2 = old <;> simp [hc]
  · by_cases hc : e0.2 = old <;> simp [hc]

/-- A successful `rereadDevices` leaves the name index keyed by system name,
each of its devices being the entry of the uid index under its uid. -/
theorem rereadDevices_nameIndexed {σ : Type} (E : Env σ) (dm : DeviceManager σ)
    (h : (rereadDevices E dm).1 = .ok ()) : (rereadDevices E dm).2.NameIndexed := by
  obtain ⟨hu, hn, _, _⟩ := rereadDevices_ok E dm h
  intro e he
  rw [hn] at he
  rw [hu]
  have hS : (collectDevices dm.store.LoadStreamDevices).KeyedByUID := (collectDevices_inv _).2
  have hBinv := collectDevices_inv (fetchDevices E dm).1
  generalize collectDevices dm.store.LoadStreamDevices = S at hS he ⊢
  generalize collectDevices (fetchDevices E dm).1 = B at hBinv he ⊢
  have key := DeviceMap.forall_foldl_set Device.SystemName id
    (fun e => e.1 = e.2.SystemName ∧ e.2 ∈ B.values) B.values []
    (by intro e he; cases he) (by intro d hd; exact ⟨rfl, hd⟩) e he
  refine ⟨key.1, ?_⟩
  obtain ⟨e0, he0, hv⟩ := List.mem_map.1 key.2
  have hk : e0.1 = e.2.UID := by rw [← hv]; exact hBinv.2 e0 he0
  have hget : B.get e.2.UID = some e.2 := by
    rw [← hk, ← hv]
    exact DeviceMap.get_of_mem B hBinv.1 e0.1 e0.2 he0
  rw [rereadDevices.byUID_get S B hS hBinv.1 hBinv.2, hget]

/-- The maps after `createStreamDevice`: as before when it fails; when it
succeeds, a device whose uid was missing from the uid index is put under its
uid and under its system name. -/
theorem createStreamDevice_maps {σ : Type} (E : Env σ) (fuel : Nat) (dm : DeviceManager σ)
    (dev : Device) (r : Except Err String × DeviceManager σ)
    (h : createStreamDevice E fuel dm dev = some r) :
    ((∃ e, r.1 = .error e) ∧ r.2.deviceByUID = dm.deviceByUID ∧
      r.2.deviceByName = dm.deviceByName) ∨
    ∃ d, r.1 = .ok d.UID ∧ dm.deviceByUID.get d.UID = none ∧
      r.2.deviceByUID = dm.deviceByUID.set d.UID d ∧
      r.2.deviceByName = dm.deviceByName.set d.SystemName d := by
  rcases createStreamDevice_inv E fuel dm dev r h with ⟨e, _, rfl⟩ | ⟨_, st, hname, hst⟩
  · exact Or.inl ⟨⟨e, rfl⟩, rfl, rfl⟩
  · have hframe : st.2.deviceByUID = dm.deviceByUID ∧ st.2.deviceByName = dm.deviceByName := by
      rcases createStreamDevice.name_inv fuel dm dev st hname with
        ⟨_, _, hs⟩ | ⟨_, _, hs⟩ | ⟨_, n, _, _, hs⟩ <;> (subst hs; exact ⟨rfl, rfl⟩)
    obtain ⟨hs2, hs3⟩ := hframe
    rcases hst with ⟨e, he, rfl⟩ | ⟨named, _, rfl⟩
    · exact Or.inl ⟨⟨e, rfl⟩, hs2, hs3⟩
    · generalize createStreamDevice.defaults E named = d
      rcases createStreamDevice.create_spec E st.2 d with
        ⟨_, hc⟩ | ⟨_, e, _, h1, h2⟩ | ⟨_, hd, e, _, _, h1, h2⟩ | ⟨hnone, hd, _, _, h1, h2⟩
      · rw [hc]; exact Or.inl ⟨⟨_, rfl⟩, hs2, hs3⟩
      · refine Or.inl ⟨⟨_, h1⟩, ?_, ?_⟩
        · rw [h2]; exact hs2
        · rw [h2]; exact hs3
      · refine Or.inl ⟨⟨_, h1⟩, ?_, ?_⟩
        · rw [h2]; exact hs2
        · rw [h2]; exact hs3
      · right
        refine ⟨{ d with NodeID := hd.NodeID, ModuleID := hd.ModuleID }, h1, ?_, ?_, ?_⟩
        · rw [← hs2]; exact hnone
        · rw [h2, ← hs2]
        · rw [h2, ← hs3]

/-- `createStreamDevice` keeps the invariant of the name index. -/
theorem createStreamDevice_nameIndexed {σ : Type} (E : Env σ) (fuel : Nat)
    (dm : DeviceManager σ) (dev : Device) (r : Except Err String × DeviceManager σ)
    (h : createStreamDevice E fuel dm dev = some r) (hinv : dm.NameIndexed) :
    r.2.NameIndexed := by
  rcases createStreamDevice_maps E fuel dm dev r h with ⟨_, hu, hn⟩ | ⟨d, _, hnone, hu, hn⟩
  · intro e he
    rw [hn] at he
    rw [hu]
    exact hinv e he
  · intro e he
    rw [hn] at he
    rw [hu]
    rcases (DeviceMap.mem_set_iff _ _ _ _).1 he with rfl | ⟨hmem, _⟩
    · refine ⟨rfl, ?_⟩
      rw [DeviceMap.get_set]; simp
    · obtain ⟨h1, h2⟩ := hinv e hmem
      refine ⟨h1, ?_⟩
      rw [DeviceMap.get_set]
      by_cases hk : e.2.UID = d.UID
      · rw [hk, hnone] at h2; cases h2
      · rw [if_neg hk]; exact h2

/-- The removal from the store leaves both maps as they are. -/
theorem deleteStreamDevice.forget_maps {σ : Type} (dm : DeviceManager σ) (uid : String)
    (b : Bool) :
    (deleteStreamDevice.forget dm uid b).2.deviceByUID = dm.deviceByUID ∧
    (deleteStreamDevice.forget dm uid b).2.deviceByName = dm.deviceByName := by
  unfold deleteStreamDevice.forget
  cases b
  · exact ⟨rfl, rfl⟩
  · simp only [if_true]
    cases (dm.store.RemoveStreamDevice uid).1 <;> exact ⟨rfl, rfl⟩

/-- A backend command leaves both maps as they are. -/
theorem callBackend_maps {σ : Type} (op : σ → Device → Except String Handles × σ)
    (call : Device → Call) (dm : DeviceManager σ) (dev : Device) :
    (callBackend op call dm dev).2.deviceByUID = dm.deviceByUID ∧
    (callBackend op call dm dev).2.deviceByName = dm.deviceByName ∧
    ∀ d, (callBackend op call dm dev).1 = .ok d → d.UID = dev.UID ∧
      d.SystemName = dev.SystemName := by
  unfold callBackend
  cases h : (op dm.backend dev).1 with
  | error e =>
    simp only [h]
    exact ⟨trivial, trivial, fun d hd => by cases hd⟩
  | ok hs =>
    simp only [h]
    refine ⟨trivial, trivial, fun d hd => ?_⟩
    simp only [Except.ok.injEq] at hd
    subst hd
    exact ⟨rfl, rfl⟩

/-- The invariant of the name index, over a uid index keyed by uid, survives
the writing of handles into the struct of an indexed device. -/
theorem DeviceManager.nameIndexed_share {σ : Type} (dm : DeviceManager σ) (dev dev2 : Device)
    (hinv : dm.NameIndexed) (hu : dev2.UID = dev.UID) (hn : dev2.SystemName = dev.SystemName) :
    ∀ e ∈ dm.deviceByName.share dev dev2,
      e.1 = e.2.SystemName ∧ (dm.deviceByUID.share dev dev2).get e.2.UID = some e.2 := by
  intro e he
  obtain ⟨e0, h0, h1, h2⟩ := DeviceMap.mem_share _ _ _ _ he
  obtain ⟨g1, g2⟩ := hinv e0 h0
  rw [DeviceMap.get_share]
  by_cases hc : e0.2 = dev
  · rw [if_pos hc] at h2
    refine ⟨by rw [h1, g1, h2, hn, hc], ?_⟩
    rw [h2, hu, ← hc, g2]
    simp [hc]
  · rw [if_neg hc] at h2
    refine ⟨by rw [h1, g1, h2], ?_⟩
    rw [h2, g2]
    simp [hc]

/-- `deleteStreamDevice` keeps the invariant of the name index over a uid
index keyed by uid. -/
theorem deleteStreamDevice_nameIndexed {σ : Type} (E : Env σ) (dm : DeviceManager σ)
    (uid : String) (hinv : dm.NameIndexed) (hk : dm.deviceByUID.KeyedByUID) :
    (deleteStreamDevice E dm uid).2.NameIndexed := by
  unfold deleteStreamDevice
  cases hg : dm.deviceByUID.get uid with
  | none =>
    simp only []
    by_cases hs : (!dm.store.HasStreamDevice uid) = true
    · rw [if_pos hs]; exact hinv
    · rw [if_neg hs]
      intro e he
      rw [(deleteStreamDevice.forget_maps dm uid _).2] at he
      rw [(deleteStreamDevice.forget_maps dm uid _).1]
      exact hinv e he
  | some dev =>
    simp only []
    have huid : dev.UID = uid := DeviceMap.uid_of_get _ hk _ _ hg
    by_cases hs : (!dev.IsStream) = true
    · rw [if_pos hs]; exact hinv
    · rw [if_neg hs]
      obtain ⟨c1, c2, c3⟩ :=
        callBackend_maps E.backend.destroyStreamDevice Call.destroyStreamDevice dm dev
      cases hst : (callBackend E.backend.destroyStreamDevice Call.destroyStreamDevice dm dev).1 with
      | error e =>
        simp only []
        intro e he
        rw [c2] at he
        rw [c1]
        exact hinv e he
      | ok dev2 =>
        simp only []
        obtain ⟨hu2, hn2⟩ := c3 dev2 hst
        have hshare := DeviceManager.nameIndexed_share dm dev dev2 hinv hu2 hn2
        generalize hdm2 : ({ (callBackend E.backend.destroyStreamDevice Call.destroyStreamDevice
          dm dev).2 with
          deviceByUID := (callBackend E.backend.destroyStreamDevice Call.destroyStreamDevice
            dm dev).2.deviceByUID.share dev dev2
          deviceByName := (callBackend E.backend.destroyStreamDevice Call.destroyStreamDevice
            dm dev).2.deviceByName.share dev dev2 } : DeviceManager σ) = dm2
        have hm1 : dm2.deviceByUID = dm.deviceByUID.share dev dev2 := by rw [← hdm2, c1]
        have hm2 : dm2.deviceByName = dm.deviceByName.share dev dev2 := by rw [← hdm2, c2]
        obtain ⟨f1, f2⟩ := deleteStreamDevice.forget_maps dm2 uid (dm.store.HasStreamDevice uid)
        cases hr : (deleteStreamDevice.forget dm2 uid (dm.store.HasStreamDevice uid)).1 with
        | error e =>
          simp only []
          intro e he
          rw [f2, hm2] at he
          rw [f1, hm1]
          exact hshare e he
        | ok _ =>
          simp only []
          intro e he
          simp only [f1, f2, hm1, hm2] at he ⊢
          obtain ⟨hmem, hne⟩ := (DeviceMap.mem_delete_iff _ _ _).1 he
          obtain ⟨g1, g2⟩ := hshare e hmem
          refine ⟨g1, ?_⟩
          rw [DeviceMap.get_delete]
          by_cases hc : e.2.UID = dev2.UID
          · exfalso
            rw [hc, hu2, DeviceMap.get_share, huid, hg] at g2
            simp only [Option.map_some', if_true, Option.some.injEq] at g2
            apply hne
            rw [g1, ← g2]
          · rw [if_neg hc]; exact g2

/-- C29 on the code, the operations that keep the invariant: a successful
`rereadDevices` leaves every entry of `deviceByName` under the system name of
its device, the device being the entry of `deviceByUID` under its uid; and
from a manager of which this holds, it holds again after a `rereadDevices`
that fails, after `createStreamDevice`, after `deleteStreamDevice` when the
uid index is keyed by uid, and after an `updateDevice` that fails. -/
theorem nameIndex_kept {σ : Type} (E : Env σ) (dm : DeviceManager σ) :
    ((rereadDevices E dm).1 = .ok () → (rereadDevices E dm).2.NameIndexed) ∧
    (dm.NameIndexed →
      (rereadDevices E dm).2.NameIndexed ∧
      (∀ fuel dev r, createStreamDevice E fuel dm dev = some r → r.2.NameIndexed) ∧
      (dm.deviceByUID.KeyedByUID → ∀ uid, (deleteStreamDevice E dm uid).2.NameIndexed) ∧
      (∀ uid updDev filter e, (updateDevice E dm uid updDev filter).1 = .error e →
        (updateDevice E dm uid updDev filter).2.NameIndexed)) := by
  refine ⟨rereadDevices_nameIndexed E dm, fun hinv => ⟨?_, ?_, ?_, ?_⟩⟩
  · cases hr : (rereadDevices E dm).1 with
    | ok _ => exact rereadDevices_nameIndexed E dm hr
    | error e =>
      obtain ⟨h1, h2⟩ := rereadDevices_error E dm e hr
      intro x hx
      rw [h2] at hx
      rw [h1]
      exact hinv x hx
  · intro fuel dev r h
    exact createStreamDevice_nameIndexed E fuel dm dev r h hinv
  · intro hk uid
    exact deleteStreamDevice_nameIndexed E dm uid hinv hk
  · intro uid updDev filter e he
    have hc := (updateDevice_carried E dm uid updDev filter (fun _ => True)
      (fun _ _ _ => trivial)
      (fun _ _ _ => ⟨trivial, fun _ _ _ => trivial, fun _ _ _ => trivial,
        fun _ _ _ => trivial, fun _ _ _ => trivial⟩)).2.2
    rcases hc with ⟨_, h1, h2⟩ | ⟨_, _, hok, _⟩
    · intro x hx
      rw [h2] at hx
      rw [h1]
      exact hinv x hx
    · rw [he] at hok; cases hok

set_option maxRecDepth 100000 in
/-- C29 at the create scenario on a manager that indexes the sound card: the
name index holds the card and the new device, each under its system name. -/
theorem nameIndex_kept_witness :
    ∃ r, createStreamDevice Sample.pulse 1
          (Sample.manager ([] : List (List String)) [Sample.card] []) Sample.request = some r ∧
      r.2.deviceByName.map Prod.fst = ["rocd.stream_sink.7.1", "alsa_output.pci"] ∧
      r.2.NameIndexed :=
  ⟨_, rfl, by decide,
    ((nameIndex_kept Sample.pulse
      (Sample.manager ([] : List (List String)) [Sample.card] [])).2 (by decide)).2.1 1
      Sample.request _ rfl⟩

/-- C29 fails after a successful `updateDevice`: muting the indexed sample
sink commits the device to `deviceByName` under its uid "u1", not under its
system name, and leaves the entry under the system name with the device as it
was before the update, which is no longer the entry of `deviceByUID`. -/
theorem updateDevice_breaks_nameIndex :
    (Sample.manager ([] : List (List String)) [Sample.sink StatusEnabled] []).NameIndexed ∧
    (updateDevice Sample.pulse
      (Sample.manager ([] : List (List String)) [Sample.sink StatusEnabled] []) "u1"
      { Sample.blank with IsMuted := some true } .streamDevice).1 = .ok () ∧
    (updateDevice Sample.pulse
      (Sample.manager ([] : List (List String)) [Sample.sink StatusEnabled] []) "u1"
      { Sample.blank with IsMuted := some true } .streamDevice).2.deviceByName =
      [("u1", { Sample.sink StatusEnabled with IsMuted := some true }),
        ("rocd.stream_sink.7.1", Sample.sink StatusEnabled)] ∧
    (updateDevice Sample.pulse
      (Sample.manager ([] : List (List String)) [Sample.sink StatusEnabled] []) "u1"
      { Sample.blank with IsMuted := some true } .streamDevice).2.deviceByUID =
      [("u1", { Sample.sink StatusEnabled with IsMuted := some true })] ∧
    ¬ (updateDevice Sample.pulse
      (Sample.manager ([] : List (List String)) [Sample.sink StatusEnabled] []) "u1"
      { Sample.blank with IsMuted := some true } .streamDevice).2.NameIndexed := by
  decide

/-! ## The maps rebuilt by rereadDevices -/

/-- A device found in a collected map is a device of the list, with defaults,
that has the uid looked up. -/
theorem collectDevices_get_some (l : List Device) (k : String) (d : Device)
    (h : (collectDevices l).get k = some d) : ∃ a ∈ l, a.UID = k ∧ d = a.SetDefaults := by
  have hmem := DeviceMap.mem_of_get _ _ _ h
  obtain ⟨a, ha, hd⟩ := collectDevices_origin l (k, d) hmem
  have hk : k = d.UID := (collectDevices_inv l).2 (k, d) hmem
  refine ⟨a, ha, ?_, hd⟩
  have hd2 : d = a.SetDefaults := hd
  rw [hk, hd2]
  exact (Device.SetDefaults_fields a).1.symm

/-- A loop that assigns every device of a list under a key that tells the
devices of the list apart leaves each of them under its key. -/
theorem DeviceMap.get_foldl_set_key (key : Device → String) :
    ∀ (l : List Device) (m0 : DeviceMap),
      (∀ a ∈ l, ∀ b ∈ l, key a = key b → a = b) →
      (∀ d ∈ l, (l.foldl (fun (m : DeviceMap) d => m.set (key d) d) m0).get (key d) = some d) ∧
      (∀ k, k ∉ l.map key →
        (l.foldl (fun (m : DeviceMap) d => m.set (key d) d) m0).get k = m0.get k) := by
  intro l
  induction l with
  | nil => intro m0 _; exact ⟨fun d hd => (by cases hd), fun k _ => rfl⟩
  | cons a l ih =>
    intro m0 hinj
    have hinj2 : ∀ x ∈ l, ∀ y ∈ l, key x = key y → x = y := fun x hx y hy =>
      hinj x (List.mem_cons_of_mem _ hx) y (List.mem_cons_of_mem _ hy)
    obtain ⟨ih1, ih2⟩ := ih (m0.set (key a) a) hinj2
    rw [List.foldl_cons]
    constructor
    · intro d hd
      by_cases hdl : d ∈ l
      · exact ih1 d hdl
      · have hda : d = a := by
          rcases List.mem_cons.1 hd with h | h
          · exact h
          · exact absurd h hdl
        subst hda
        have hk : key d ∉ l.map key := by
          intro hk
          obtain ⟨b, hb, hkb⟩ := List.mem_map.1 hk
          have := hinj b (List.mem_cons_of_mem _ hb) d (List.mem_cons_self _ _) hkb
          exact hdl (this ▸ hb)
        rw [ih2 _ hk, DeviceMap.get_set]
        simp
    · intro k hk
      have hk1 : k ≠ key a := fun h => hk (by rw [h]; exact List.mem_map.2 ⟨a, List.mem_cons_self _ _, rfl⟩)
      have hk2 : k ∉ l.map key := fun h => hk (by
        obtain ⟨b, hb, hkb⟩ := List.mem_map.1 h
        exact List.mem_map.2 ⟨b, List.mem_cons_of_mem _ hb, hkb⟩)
      rw [ih2 k hk2, DeviceMap.get_set, if_neg hk1]

/-- C26: after a successful `rereadDevices` over a well-formed store `D` and
the fetched list `A`: the uids under which `deviceByUID` holds a device are
those of `A` and of `D`, and each device is held under its own uid; a uid
reported by the backend holds a record of the backend with that uid, with
defaults; a saved uid that the backend does not report holds the saved
record as `rereadDevices` reads it, with defaults, its status turned to
`unavailable` when it was `enabled` and unchanged otherwise, so `disabled`
stays `disabled`; every entry of `deviceByName` is a backend device under its
system name, also held by `deviceByUID`, so no device known from the store
only; and when devices of `A` with one system name have one uid, as the uids
made of the names by both backends do, every backend record of the uid index
is in `deviceByName` under its system name. -/
theorem rereadDevices_rebuilds {σ : Type} (E : Env σ) (dm : DeviceManager σ) (A : List Device)
    (hwf : dm.store.WF) (hfetch : (fetchDevices E dm).1 = A)
    (hok : (rereadDevices E dm).1 = .ok ()) :
    (∀ u, (∃ d, (rereadDevices E dm).2.deviceByUID.get u = some d) ↔
      ((∃ a ∈ A, a.UID = u) ∨ ∃ p, dm.store.devices.get u = some p)) ∧
    (∀ u d, (rereadDevices E dm).2.deviceByUID.get u = some d → d.UID = u) ∧
    (∀ u, (∃ a ∈ A, a.UID = u) →
      ∃ a ∈ A, a.UID = u ∧ (rereadDevices E dm).2.deviceByUID.get u = some a.SetDefaults) ∧
    (∀ u p, (∀ a ∈ A, a.UID ≠ u) → dm.store.devices.get u = some p →
      (rereadDevices E dm).2.deviceByUID.get u =
        some (if p.SetDefaults.Status = StatusEnabled then
          { p.SetDefaults with Status := StatusUnavailable } else p.SetDefaults) ∧
      (p.Status = StatusEnabled →
        ((rereadDevices E dm).2.deviceByUID.get u).map Device.Status = some StatusUnavailable) ∧
      (p.Status = StatusDisabled →
        ((rereadDevices E dm).2.deviceByUID.get u).map Device.Status = some StatusDisabled) ∧
      (p.SetDefaults = p → (rereadDevices E dm).2.deviceByUID.get u =
        some (if p.Status = StatusEnabled then { p with Status := StatusUnavailable } else p))) ∧
    (∀ n d, (rereadDevices E dm).2.deviceByName.get n = some d →
      d.SystemName = n ∧ (∃ a ∈ A, d = a.SetDefaults) ∧
      (rereadDevices E dm).2.deviceByUID.get d.UID = some d) ∧
    ((∀ a ∈ A, ∀ b ∈ A, a.SystemName = b.SystemName → a.UID = b.UID) →
      ∀ u d, (collectDevices A).get u = some d →
        (rereadDevices E dm).2.deviceByUID.get u = some d ∧
        (rereadDevices E dm).2.deviceByName.get d.SystemName = some d) := by
  obtain ⟨hidx, hname, _, _⟩ := rereadDevices_ok E dm hok
  rw [hfetch] at hidx hname
  have hBinv := collectDevices_inv A
  have hget : ∀ u, (rereadDevices E dm).2.deviceByUID.get u =
      match (collectDevices A).get u with
      | some b => some b
      | none => (dm.store.devices.get u).map (fun p =>
          if p.SetDefaults.Status = StatusEnabled then
            { p.SetDefaults with Status := StatusUnavailable } else p.SetDefaults) := by
    intro u
    rw [hidx, rereadDevices.byUID_get _ _ (collectDevices_inv _).2 hBinv.1 hBinv.2,
      collectDevices_store dm.store hwf]
    cases (collectDevices A).get u with
    | some b => rfl
    | none =>
      cases dm.store.devices.get u with
      | none => rfl
      | some p => rfl
  have hnoneA : ∀ u, (collectDevices A).get u = none ↔ ∀ a ∈ A, a.UID ≠ u :=
    collectDevices_get_none A
  have hnm := rereadDevices_nameIndexed E dm hok
  refine ⟨?_, ?_, ?_, ?_, ?_, ?_⟩
  · intro u
    rw [hget]
    cases hB : (collectDevices A).get u with
    | some b =>
      obtain ⟨a, ha, hu, _⟩ := collectDevices_get_some A u b hB
      exact ⟨fun _ => Or.inl ⟨a, ha, hu⟩, fun _ => ⟨b, rfl⟩⟩
    | none =>
      have hno := (hnoneA u).1 hB
      constructor
      · rintro ⟨d, hd⟩
        right
        cases hp : dm.store.devices.get u with
        | none => rw [hp] at hd; cases hd
        | some p => exact ⟨p, rfl⟩
      · rintro (⟨a, ha, hu⟩ | ⟨p, hp⟩)
        · exact absurd hu (hno a ha)
        · rw [hp]; exact ⟨_, rfl⟩
  · intro u d hd
    rw [hget] at hd
    cases hB : (collectDevices A).get u with
    | some b =>
      rw [hB] at hd
      simp only [Option.some.injEq] at hd
      rw [← hd]
      exact DeviceMap.uid_of_get _ hBinv.2 _ _ hB
    | none =>
      rw [hB] at hd
      cases hp : dm.store.devices.get u with
      | none => rw [hp] at hd; cases hd
      | some p =>
        rw [hp] at hd
        simp only [Option.map_some', Option.some.injEq] at hd
        have hpu : p.UID = u := DeviceMap.uid_of_get _ hwf.2 _ _ hp
        have hsu : p.SetDefaults.UID = p.UID := (Device.SetDefaults_fields p).1
        rw [← hd, ← hpu, ← hsu]
        split <;> rfl
  · rintro u ⟨a0, ha0, hu0⟩
    cases hB : (collectDevices A).get u with
    | none => exact absurd hu0 ((hnoneA u).1 hB a0 ha0)
    | some b =>
      obtain ⟨a, ha, hu, hb⟩ := collectDevices_get_some A u b hB
      refine ⟨a, ha, hu, ?_⟩
      rw [hget, hB, hb]
  · intro u p hno hp
    have hB : (collectDevices A).get u = none := (hnoneA u).2 hno
    have hentry : (rereadDevices E dm).2.deviceByUID.get u =
        some (if p.SetDefaults.Status = StatusEnabled then
          { p.SetDefaults with Status := StatusUnavailable } else p.SetDefaults) := by
      rw [hget, hB, hp]; rfl
    have hst : p.Status ≠ "" → p.SetDefaults.Status = p.Status := by
      intro h
      unfold Device.SetDefaults
      simp only [h, if_false]
      repeat' split
      all_goals rfl
    refine ⟨hentry, ?_, ?_, ?_⟩
    · intro he
      have h1 : p.SetDefaults.Status = StatusEnabled := by
        rw [hst (by rw [he]; decide), he]
      rw [hentry, if_pos h1]; rfl
    · intro hd
      have h1 : p.SetDefaults.Status = StatusDisabled := by
        rw [hst (by rw [hd]; decide), hd]
      have h2 : p.SetDefaults.Status ≠ StatusEnabled := by rw [h1]; decide
      rw [hentry, if_neg h2]
      simp [h1]
    · intro hdef
      rw [hentry, hdef]
  · intro n d hd
    rw [hname] at hd
    have hmem := DeviceMap.mem_of_get _ _ _ hd
    have hinv := hnm (n, d) (by rw [hname]; exact hmem)
    have key := DeviceMap.forall_foldl_set Device.SystemName id
      (fun e => e.2 ∈ (collectDevices A).values) (collectDevices A).values []
      (by intro e he; cases he) (by intro d hd; exact hd) (n, d) hmem
    obtain ⟨e0, he0, hv⟩ := List.mem_map.1 key
    obtain ⟨a, ha, hda⟩ := collectDevices_origin A e0 he0
    refine ⟨hinv.1.symm, ⟨a, ha, ?_⟩, hinv.2⟩
    have hv2 : e0.2 = d := hv
    rw [← hv2]; exact hda
  · intro hnames u d hB
    have hinj : ∀ x ∈ (collectDevices A).values, ∀ y ∈ (collectDevices A).values,
        x.SystemName = y.SystemName → x = y := by
      intro x hx y hy hxy
      obtain ⟨ex, hex, rfl⟩ := List.mem_map.1 hx
      obtain ⟨ey, hey, rfl⟩ := List.mem_map.1 hy
      obtain ⟨ax, hax, hdx⟩ := collectDevices_origin A ex hex
      obtain ⟨ay, hay, hdy⟩ := collectDevices_origin A ey hey
      have hn : ax.SystemName = ay.SystemName := by
        have h1 := (Device.SetDefaults_fields ax).2.1
        have h2 := (Device.SetDefaults_fields ay).2.1
        rw [← h1, ← h2, ← hdx, ← hdy]; exact hxy
      have hu := hnames ax hax ay hay hn
      have hkx : ex.1 = ex.2.UID := hBinv.2 ex hex
      have hky : ey.1 = ey.2.UID := hBinv.2 ey hey
      have huu : ex.2.UID = ey.2.UID := by
        rw [hdx, hdy, (Device.SetDefaults_fields ax).1, (Device.SetDefaults_fields ay).1]
        exact hu
      have g1 := DeviceMap.get_of_mem _ hBinv.1 ex.1 ex.2 hex
      have g2 := DeviceMap.get_of_mem _ hBinv.1 ey.1 ey.2 hey
      rw [hkx, huu, ← hky, g2] at g1
      exact (Option.some.inj g1).symm
    have hdmem : d ∈ (collectDevices A).values :=
      List.mem_map.2 ⟨(u, d), DeviceMap.mem_of_get _ _ _ hB, rfl⟩
    have hfold := (DeviceMap.get_foldl_set_key Device.SystemName (collectDevices A).values []
      hinj).1 d hdmem
    refine ⟨?_, ?_⟩
    · rw [hget, hB]
    · rw [hname]
      exact hfold

/-- C26 at a store with the sample sink and a second saved sink "u3", both
`enabled`, and a backend that reports the first one only: the second one is
indexed as `unavailable`. -/
theorem rereadDevices_rebuilds_witness :
    ((rereadDevices (Sample.pulseOn Sample.liveHost)
      (Sample.manager [] [] [Sample.sink StatusEnabled, Sample.stale "u3" "Old"])).2.deviceByUID.get
        "u3").map Device.Status = some StatusUnavailable :=
  ((rereadDevices_rebuilds (Sample.pulseOn Sample.liveHost)
    (Sample.manager [] [] [Sample.sink StatusEnabled, Sample.stale "u3" "Old"])
    (fetchDevices (Sample.pulseOn Sample.liveHost)
      (Sample.manager [] [] [Sample.sink StatusEnabled, Sample.stale "u3" "Old"])).1
    (by decide) rfl (by decide)).2.2.2.1 "u3" (Sample.stale "u3" "Old")
    (by decide) (by decide)).2.1 (by decide)

/-! ## restoreDevices after the reread -/

/-- The field checks of `updateDevice` do not panic. -/
theorem updateDevice.patch_no_panic (L : NetLib) (dev updDev : Device) (msg : String) :
    updateDevice.validate L dev updDev ≠ .error (.panic msg) := by
  unfold updateDevice.validate
  intro h
  repeat' split at h
  all_goals cases h

/-- No error that `updateDevice` returns is a panic. -/
theorem updateDevice_no_panic {σ : Type} (E : Env σ) (dm : DeviceManager σ) (uid : String)
    (updDev : Device) (filter : deviceFilter) (msg : String) :
    (updateDevice E dm uid updDev filter).1 ≠ .error (.panic msg) := by
  intro h
  unfold updateDevice at h
  cases hg : dm.deviceByUID.get uid with
  | none => simp [hg] at h
  | some dev =>
    simp only [hg] at h
    by_cases hf : filter = .streamDevice ∧ (!dev.IsStream) = true
    · rw [if_pos hf] at h; cases h
    · rw [if_neg hf] at h
      cases hi : updateDevice.checkImmutable dev updDev with
      | error e =>
        simp only [hi] at h
        rcases updateDevice.checkImmutable_error dev updDev e hi with h1 | h1 | h1 | h1 <;>
          (rw [h1] at h; cases h)
      | ok _ =>
        simp only [hi] at h
        cases hv : updateDevice.validate E.net dev updDev with
        | error e =>
          simp only [hv, Except.error.injEq] at h
          rw [h] at hv
          exact absurd hv (updateDevice.patch_no_panic _ _ _ _)
        | ok _ =>
          simp only [hv] at h
          cases ha : (updateDevice.apply E dm dev updDev).1 with
          | error e =>
            simp only [ha, Except.error.injEq] at h
            obtain ⟨m, hm⟩ := updateDevice.apply_error E dm dev updDev e ha
            rw [hm] at h; cases h
          | ok d =>
            simp only [ha] at h
            obtain ⟨c, hc⟩ := updateDevice.commit_error _ uid d _ h
            cases hc

/-- The calls of `updateDevice`: applies of the backend, then at most one save
of the store. -/
theorem updateDevice_calls {σ : Type} (E : Env σ) (dm : DeviceManager σ) (uid : String)
    (updDev : Device) (filter : deviceFilter) :
    (updateDevice E dm uid updDev filter).2.calls =
      dm.calls ++ dm.newCalls (updateDevice E dm uid updDev filter).2 ∧
    ∀ ev ∈ dm.newCalls (updateDevice E dm uid updDev filter).2,
      ev.call.isApplyOrSave = true := by
  rcases updateDevice_cases E dm uid updDev filter with ⟨_, h⟩ | ⟨dev, _, _, _, _, h⟩
  · rw [h]
    refine ⟨by simp [DeviceManager.newCalls], ?_⟩
    intro ev hev; simp [DeviceManager.newCalls] at hev
  · have hap := updateDevice.apply_applied E dm dev updDev
    have happ : ∀ ev ∈ dm.newCalls (updateDevice.apply E dm dev updDev).2,
        ev.call.isApplyOrSave = true := by
      intro ev hev
      unfold Call.isApplyOrSave
      rw [hap.applies ev hev]; rfl
    rcases h with ⟨e, _, hr⟩ | ⟨d, _, hr⟩
    · rw [hr]
      exact ⟨hap.calls, happ⟩
    · rw [hr]
      have hcs := updateDevice.commit_spec (updateDevice.apply E dm dev updDev).2 uid d
      have hn := DeviceManager.newCalls_append dm (updateDevice.apply E dm dev updDev).2
        (updateDevice.commit (updateDevice.apply E dm dev updDev).2 uid d).2 _ hap.calls hcs.1
      refine ⟨?_, ?_⟩
      · rw [hn, ← List.append_assoc, ← hap.calls]; exact hcs.1
      · intro ev hev
        rw [hn] at hev
        rcases List.mem_append.1 hev with hev | hev
        · exact happ ev hev
        · by_cases hs : d.IsStream = true
          · simp [hs] at hev; subst hev; rfl
          · simp [hs] at hev

/-- The step of `restoreDevices` for a saved device whose uid is indexed with
a status other than `enabled`: no device is created; the device is enabled
through `updateDevice`, whose error is no panic and leaves the uid index as it
was, and whose success puts a stream device with status `enabled` under the
uid. -/
theorem restoreDevices.branch_indexed {σ : Type} (E : Env σ) (fuel : Nat)
    (dm : DeviceManager σ) (s0 x : Device) (hget : dm.deviceByUID.get s0.UID = some x)
    (hx : x.Status ≠ StatusEnabled) :
    ∃ res dm2, restoreDevices.branch E fuel dm s0 = some (res, dm2) ∧
      dm2.calls = dm.calls ++ dm.newCalls dm2 ∧
      (∀ ev ∈ dm.newCalls dm2, ev.call.isApplyOrSave = true) ∧
      (∀ e, res = .error e → (∀ msg, e ≠ .panic msg) ∧ dm2.deviceByUID = dm.deviceByUID) ∧
      (∀ d, res = .ok d → d.UID = s0.UID ∧ ∃ d2,
        dm2.deviceByUID = dm.deviceByUID.set s0.UID d2 ∧ d2.Status = StatusEnabled ∧
        d2.IsStream = true) := by
  have hcalls := updateDevice_calls E dm s0.UID { s0 with Status := StatusEnabled } .streamDevice
  have hbr : restoreDevices.branch E fuel dm s0 =
      some (match (updateDevice E dm s0.UID { s0 with Status := StatusEnabled }
          .streamDevice).1 with
        | .error e => .error e
        | .ok _ => .ok { s0 with Status := StatusEnabled },
        (updateDevice E dm s0.UID { s0 with Status := StatusEnabled } .streamDevice).2) := by
    unfold restoreDevices.branch
    simp only [hget]
    cases (updateDevice E dm s0.UID { s0 with Status := StatusEnabled } .streamDevice).1 <;> rfl
  refine ⟨_, _, hbr, hcalls.1, hcalls.2, ?_, ?_⟩
  · intro e he
    cases hr : (updateDevice E dm s0.UID { s0 with Status := StatusEnabled }
        .streamDevice).1 with
    | ok _ => rw [hr] at he; cases he
    | error e2 =>
      rw [hr] at he
      simp only [Except.error.injEq] at he
      subst he
      refine ⟨fun msg hm => ?_, ?_⟩
      · rw [hm] at hr
        exact updateDevice_no_panic E dm s0.UID _ _ msg hr
      · have hc := (updateDevice_carried E dm s0.UID { s0 with Status := StatusEnabled }
          .streamDevice (fun _ => True) (fun _ _ _ => trivial)
          (fun _ _ _ => ⟨trivial, fun _ _ _ => trivial, fun _ _ _ => trivial,
            fun _ _ _ => trivial, fun _ _ _ => trivial⟩)).2.2
        rcases hc with ⟨_, h1, _⟩ | ⟨_, _, hok, _⟩
        · exact h1
        · rw [hr] at hok; cases hok
  · intro d hd
    cases hr : (updateDevice E dm s0.UID { s0 with Status := StatusEnabled }
        .streamDevice).1 with
    | error e => rw [hr] at hd; cases hd
    | ok _ =>
      rw [hr] at hd
      simp only [Except.ok.injEq] at hd
      refine ⟨by rw [← hd], ?_⟩
      obtain ⟨d2, had, hres⟩ := updateDevice_ok_inv E dm s0.UID x
        { s0 with Status := StatusEnabled } .streamDevice hget hr
      have hap := updateDevice.apply_applied E dm x { s0 with Status := StatusEnabled }
      obtain ⟨⟨hstream, _, _, hstat⟩, _, _⟩ := hap.ok d2 had
      have hcs := updateDevice.commit_spec
        (updateDevice.apply E dm x { s0 with Status := StatusEnabled }).2 s0.UID d2
      have hok2 : (updateDevice.commit
          (updateDevice.apply E dm x { s0 with Status := StatusEnabled }).2 s0.UID d2).1 =
          .ok () := by rw [← hres]; exact hr
      refine ⟨d2, ?_, ?_, ?_⟩
      · rw [hres, (hcs.2.2 hok2).1, hap.byUID]
      · have hch : updateDevice.statusChanges x { s0 with Status := StatusEnabled } = true := by
          simp [updateDevice.statusChanges, hx]
        have hge : Device.GetEnabled { s0 with Status := StatusEnabled } = true := by
          simp [Device.GetEnabled, StatusEnabled, StatusDisabled]
        rw [hstat, if_pos hch, if_pos hge]
      · rw [hstream]
        by_contra hns
        have hns2 : x.IsStream = false := by simpa using hns
        have : (updateDevice E dm s0.UID { s0 with Status := StatusEnabled }
            .streamDevice).1 = .error .notStreamDevice := by
          simp [updateDevice, hget, hns2]
        rw [hr] at this; cases this

/-- The save at the end of a round of `restoreDevices` when the uid holds a
stream device: one save at most, no panic, both maps as they were. -/
theorem restoreDevices.saveBack_indexed {σ : Type} (dm : DeviceManager σ) (d d2 : Device)
    (hget : dm.deviceByUID.get d.UID = some d2) (hs : d2.IsStream = true) :
    (restoreDevices.saveBack dm d).2.calls =
        dm.calls ++ dm.newCalls (restoreDevices.saveBack dm d).2 ∧
      (∀ ev ∈ dm.newCalls (restoreDevices.saveBack dm d).2, ev.call.isApplyOrSave = true) ∧
      (restoreDevices.saveBack dm d).2.deviceByUID = dm.deviceByUID ∧
      (∀ msg, (restoreDevices.saveBack dm d).1 ≠ .error (.panic msg)) := by
  unfold restoreDevices.saveBack
  simp only [hget]
  by_cases he : d2.Equal d = true
  · simp only [he, Bool.not_true, Bool.false_eq_true, if_false]
    refine ⟨by simp [DeviceManager.newCalls], ?_, trivial, fun msg h => by cases h⟩
    intro ev hev; simp [DeviceManager.newCalls] at hev
  · simp only [he, Bool.not_false, if_true]
    refine ⟨by simp [DeviceManager.newCalls], ?_, trivial, ?_⟩
    · intro ev hev
      simp [DeviceManager.newCalls] at hev; subst hev; rfl
    · intro msg h
      rcases PersistStore.SaveStreamDevice_error dm.store d2 _ h with ⟨h1, _, _⟩ |
        ⟨_, _, m, _, _, h2, _⟩
      · rw [hs] at h1; cases h1
      · cases h2

/-- Over saved devices with distinct uids that are all indexed,
`restoreDevices` creates no device and returns: it issues applies and saves
only, leaves the uids of other devices alone and every indexed uid indexed,
and when it counts no new error every saved device that is not disabled is
indexed as `enabled` under its uid. -/
theorem restoreDevices.loop_indexed {σ : Type} (E : Env σ) (fuel : Nat) :
    ∀ (l : List Device) (dm : DeviceManager σ) (nR nE : Nat),
    (∀ s ∈ l, ∃ x, dm.deviceByUID.get s.UID = some x) → (l.map Device.UID).Nodup →
    ∃ nR2 nE2 dm2, restoreDevices.loop E fuel l dm nR nE = (.finished nR2 nE2, dm2) ∧
      nE ≤ nE2 ∧
      dm2.calls = dm.calls ++ dm.newCalls dm2 ∧
      (∀ ev ∈ dm.newCalls dm2, ev.call.isApplyOrSave = true) ∧
      (∀ k, k ∉ l.map Device.UID → dm2.deviceByUID.get k = dm.deviceByUID.get k) ∧
      (∀ k x, dm.deviceByUID.get k = some x → ∃ y, dm2.deviceByUID.get k = some y) ∧
      (nE2 = nE → ∀ s ∈ l, s.Status ≠ StatusDisabled →
        (dm2.deviceByUID.get s.UID).map Device.Status = some StatusEnabled) := by
  intro l
  induction l with
  | nil =>
    intro dm nR nE _ _
    refine ⟨nR, nE, dm, by simp [restoreDevices.loop], le_refl _,
      by simp [DeviceManager.newCalls], ?_, fun _ _ => rfl, fun k x h => ⟨x, h⟩, ?_⟩
    · intro ev hev; simp [DeviceManager.newCalls] at hev
    · intro _ s hs; cases hs
  | cons s0 rest ih =>
    intro dm nR nE hcov hnd
    have hnd2 : (rest.map Device.UID).Nodup := (List.nodup_cons.1 hnd).2
    have hs0 : s0.UID ∉ rest.map Device.UID := (List.nodup_cons.1 hnd).1
    have hcov2 : ∀ s ∈ rest, ∃ x, dm.deviceByUID.get s.UID = some x :=
      fun s hs => hcov s (List.mem_cons_of_mem _ hs)
    have hnot : ∀ k, k ∉ (s0 :: rest).map Device.UID → k ∉ rest.map Device.UID := by
      intro k hk h
      exact hk (List.mem_cons_of_mem _ h)
    -- the rounds that leave the manager as it is
    have skip : (s0.Status ≠ StatusDisabled →
          (dm.deviceByUID.get s0.UID).map Device.Status = some StatusEnabled) →
        ∃ nR2 nE2 dm2, restoreDevices.loop E fuel rest dm nR nE = (.finished nR2 nE2, dm2) ∧
          nE ≤ nE2 ∧
          dm2.calls = dm.calls ++ dm.newCalls dm2 ∧
          (∀ ev ∈ dm.newCalls dm2, ev.call.isApplyOrSave = true) ∧
          (∀ k, k ∉ (s0 :: rest).map Device.UID →
            dm2.deviceByUID.get k = dm.deviceByUID.get k) ∧
          (∀ k x, dm.deviceByUID.get k = some x → ∃ y, dm2.deviceByUID.get k = some y) ∧
          (nE2 = nE → ∀ s ∈ s0 :: rest, s.Status ≠ StatusDisabled →
            (dm2.deviceByUID.get s.UID).map Device.Status = some StatusEnabled) := by
      intro hown
      obtain ⟨nR2, nE2, dm2, h1, h2, h3, h4, h5, h6, h7⟩ := ih dm nR nE hcov2 hnd2
      refine ⟨nR2, nE2, dm2, h1, h2, h3, h4, fun k hk => h5 k (hnot k hk), h6, ?_⟩
      intro hE s hs hen
      rcases List.mem_cons.1 hs with rfl | hs
      · rw [h5 _ hs0]; exact hown hen
      · exact h7 hE s hs hen
    rw [restoreDevices.loop]
    by_cases hen : s0.GetEnabled = true
    · simp only [hen, Bool.not_true, Bool.false_eq_true, if_false]
      by_cases hst : (dm.deviceByUID.get s0.UID).map Device.Status = some StatusEnabled
      · simp only [hst, if_true]
        exact skip (fun _ => hst)
      · simp only [hst, if_false]
        obtain ⟨x, hx⟩ := hcov s0 (List.mem_cons_self _ _)
        have hxs : x.Status ≠ StatusEnabled := by
          intro h
          apply hst
          rw [hx]; simp [h]
        obtain ⟨res, dm1, hb, hc, hk, herr, hok⟩ :=
          restoreDevices.branch_indexed E fuel dm s0 x hx hxs
        rw [hb]
        split
        · rename_i heq; simp at heq
        · rename_i msg dm3 heq
          simp at heq
          exact absurd rfl ((herr _ heq.1).1 msg)
        · rename_i e dm3 _ heq
          simp at heq
          obtain ⟨h1, h2⟩ := heq
          subst h2
          have hmaps := (herr e h1).2
          have hcov3 : ∀ s ∈ rest, ∃ x, dm1.deviceByUID.get s.UID = some x := by
            intro s hs; rw [hmaps]; exact hcov2 s hs
          obtain ⟨nR2, nE2, dm2, g1, g2, g3, g4, g5, g6, _⟩ :=
            ih dm1 nR (nE + 1) hcov3 hnd2
          obtain ⟨ha, hb2⟩ := DeviceManager.newCalls_trans dm dm1 dm2 hc g3
          refine ⟨nR2, nE2, dm2, g1, by omega, ha, ?_, ?_, ?_, ?_⟩
          · intro ev hev
            rw [hb2] at hev
            rcases List.mem_append.1 hev with hev | hev
            · exact hk ev hev
            · exact g4 ev hev
          · intro k hk2
            rw [g5 k (hnot k hk2), hmaps]
          · intro k y hy
            rw [← hmaps] at hy
            exact g6 k y hy
          · intro hE; omega
        · rename_i d dm3 heq
          simp at heq
          obtain ⟨h1, h2⟩ := heq
          subst h2
          obtain ⟨hdu, d2, hmaps, hd2s, hd2i⟩ := hok d h1
          have hget2 : dm1.deviceByUID.get d.UID = some d2 := by
            rw [hmaps, hdu, DeviceMap.get_set]; simp
          obtain ⟨s1, s2, s3, s4⟩ := restoreDevices.saveBack_indexed dm1 d d2 hget2 hd2i
          have hget3 : ∀ k, (restoreDevices.saveBack dm1 d).2.deviceByUID.get k =
              if k = s0.UID then some d2 else dm.deviceByUID.get k := by
            intro k; rw [s3, hmaps, DeviceMap.get_set]
          have hcov3 : ∀ s ∈ rest,
              ∃ x, (restoreDevices.saveBack dm1 d).2.deviceByUID.get s.UID = some x := by
            intro s hs
            rw [hget3]
            by_cases hk2 : s.UID = s0.UID
            · rw [if_pos hk2]; exact ⟨d2, rfl⟩
            · rw [if_neg hk2]; exact hcov2 s hs
          obtain ⟨t1, t2⟩ := DeviceManager.newCalls_trans dm dm1 _ hc s1
          have tcalls : ∀ ev ∈ dm.newCalls (restoreDevices.saveBack dm1 d).2,
              ev.call.isApplyOrSave = true := by
            intro ev hev
            rw [t2] at hev
            rcases List.mem_append.1 hev with hev | hev
            · exact hk ev hev
            · exact s2 ev hev
          have finish : ∀ (nRa nEa : Nat), nE ≤ nEa →
              ∃ nR2 nE2 dm2, restoreDevices.loop E fuel rest (restoreDevices.saveBack dm1 d).2
                  nRa nEa = (.finished nR2 nE2, dm2) ∧
                nE ≤ nE2 ∧
                dm2.calls = dm.calls ++ dm.newCalls dm2 ∧
                (∀ ev ∈ dm.newCalls dm2, ev.call.isApplyOrSave = true) ∧
                (∀ k, k ∉ (s0 :: rest).map Device.UID →
                  dm2.deviceByUID.get k = dm.deviceByUID.get k) ∧
                (∀ k x, dm.deviceByUID.get k = some x → ∃ y, dm2.deviceByUID.get k = some y) ∧
                (nE2 = nE → nEa = nE ∧ ∀ s ∈ s0 :: rest, s.Status ≠ StatusDisabled →
                  (dm2.deviceByUID.get s.UID).map Device.Status = some StatusEnabled) := by
            intro nRa nEa hle
            obtain ⟨nR2, nE2, dm2, g1, g2, g3, g4, g5, g6, g7⟩ :=
              ih (restoreDevices.saveBack dm1 d).2 nRa nEa hcov3 hnd2
            obtain ⟨ha, hb2⟩ := DeviceManager.newCalls_trans dm _ dm2 t1 g3
            refine ⟨nR2, nE2, dm2, g1, by omega, ha, ?_, ?_, ?_, ?_⟩
            · intro ev hev
              rw [hb2] at hev
              rcases List.mem_append.1 hev with hev | hev
              · exact tcalls ev hev
              · exact g4 ev hev
            · intro k hk2
              rw [g5 k (hnot k hk2), hget3]
              have : k ≠ s0.UID := fun h => hk2 (by rw [h]; exact List.mem_cons_self _ _)
              rw [if_neg this]
            · intro k y hy
              have : ∃ z, (restoreDevices.saveBack dm1 d).2.deviceByUID.get k = some z := by
                rw [hget3]
                by_cases hk2 : k = s0.UID
                · rw [if_pos hk2]; exact ⟨d2, rfl⟩
                · rw [if_neg hk2]; exact ⟨y, hy⟩
              obtain ⟨z, hz⟩ := this
              exact g6 k z hz
            · intro hE
              have hEa : nEa = nE := by omega
              refine ⟨hEa, ?_⟩
              intro s hs hsen
              rcases List.mem_cons.1 hs with rfl | hs
              · rw [g5 _ hs0, hget3, if_pos rfl]
                simp [hd2s]
              · exact g7 (by omega) s hs hsen
          split
          · rename_i msg heq
            exact absurd heq (s4 msg)
          · obtain ⟨nR2, nE2, dm2, g1, g2, g3, g4, g5, g6, g7⟩ := finish (nR + 1) (nE + 1) (by omega)
            refine ⟨nR2, nE2, dm2, g1, g2, g3, g4, g5, g6, ?_⟩
            intro hE
            have := (g7 hE).1
            omega
          · obtain ⟨nR2, nE2, dm2, g1, g2, g3, g4, g5, g6, g7⟩ := finish (nR + 1) nE (le_refl _)
            exact ⟨nR2, nE2, dm2, g1, g2, g3, g4, g5, g6, fun hE => (g7 hE).2⟩
    · have hen2 : s0.GetEnabled = false := by simpa using hen
      simp only [hen2, Bool.not_false, if_true]
      refine skip (fun h => ?_)
      exfalso
      have : s0.GetEnabled = true := by simp [Device.GetEnabled, h]
      rw [hen2] at this; cases this

/-- After a successful `rereadDevices` over a well-formed store every saved
device is indexed under its uid, and the saved devices have distinct uids. -/
theorem rereadDevices_covers_store {σ : Type} (E : Env σ) (dm : DeviceManager σ)
    (hwf : dm.store.WF) (hok : (rereadDevices E dm).1 = .ok ()) :
    (∀ s ∈ (rereadDevices E dm).2.store.LoadStreamDevices,
      ∃ x, (rereadDevices E dm).2.deviceByUID.get s.UID = some x) ∧
    ((rereadDevices E dm).2.store.LoadStreamDevices.map Device.UID).Nodup := by
  obtain ⟨hwf2, hstore⟩ := rereadDevices_store E dm hwf hok
  obtain ⟨hidx, _, _, _⟩ := rereadDevices_ok E dm hok
  have hSinv := collectDevices_inv dm.store.LoadStreamDevices
  have hBinv := collectDevices_inv (fetchDevices E dm).1
  refine ⟨?_, DeviceMap.values_uid_nodup _ hwf2.1 hwf2.2⟩
  intro s hs
  obtain ⟨e, he, hes⟩ := List.mem_map.1 hs
  have hkey : e.1 = s.UID := by rw [← hes]; exact hwf2.2 e he
  have hg : (rereadDevices E dm).2.store.devices.get s.UID = some s := by
    rw [← hkey, ← hes]
    exact DeviceMap.get_of_mem _ hwf2.1 e.1 e.2 he
  rw [hstore] at hg
  rw [hidx, rereadDevices.byUID_get _ _ hSinv.2 hBinv.1 hBinv.2, collectDevices_store dm.store hwf]
  cases hB : (collectDevices (fetchDevices E dm).1).get s.UID with
  | some b => exact ⟨b, rfl⟩
  | none =>
    have hU : (rereadDevices.updated (collectDevices dm.store.LoadStreamDevices)
        (collectDevices (fetchDevices E dm).1)).get s.UID = none := by
      rw [rereadDevices.updated_get _ _ hSinv.1 hSinv.2, hB]
      cases (collectDevices dm.store.LoadStreamDevices).get s.UID <;> rfl
    rw [hU] at hg
    simp only at hg
    rw [hg]
    exact ⟨_, rfl⟩

/-- C27, amended: `restoreDevices` runs only in the list-wiped case of
`processEvent`, after a successful `rereadDevices`. Over a well-formed store,
in the state this reread leaves, no saved device is absent from the uid
index, so `restoreDevices` creates no device and does not reach the uid
guard: whatever the rounds left to `generateDeviceName`, it returns normally
and issues applies of the backend and saves of the store only; the case goes
on to its second reread; and when `restoreDevices` counts no error, every
saved device with a status other than `disabled` is in the uid index under its
stored uid with status `enabled`. -/
theorem restoreDevices_after_reread {σ : Type} (E : Env σ) (fuel : Nat) (dm : DeviceManager σ)
    (hwf : dm.store.WF) (hok : (rereadDevices E dm).1 = .ok ()) :
    (∀ s ∈ (rereadDevices E dm).2.store.LoadStreamDevices,
      ∃ x, (rereadDevices E dm).2.deviceByUID.get s.UID = some x) ∧
    ∃ nRestored nErrors,
      (restoreDevices E fuel (rereadDevices E dm).2).1 = .finished nRestored nErrors ∧
      processEvent.listWiped E fuel dm =
        (some (.finished nRestored nErrors),
          (rereadDevices E (restoreDevices E fuel (rereadDevices E dm).2).2).2) ∧
      (∀ ev ∈ (rereadDevices E dm).2.newCalls (restoreDevices E fuel (rereadDevices E dm).2).2,
        ev.call.isApplyOrSave = true ∧ ∀ d, ev.call ≠ .resetStreamDevice d) ∧
      (nErrors = 0 → ∀ s ∈ (rereadDevices E dm).2.store.LoadStreamDevices,
        s.Status ≠ StatusDisabled →
        ((restoreDevices E fuel (rereadDevices E dm).2).2.deviceByUID.get s.UID).map
          Device.Status = some StatusEnabled) := by
  obtain ⟨hcov, hnd⟩ := rereadDevices_covers_store E dm hwf hok
  obtain ⟨nR, nE, dm2, h1, _, _, h4, _, _, h7⟩ :=
    restoreDevices.loop_indexed E fuel _ (rereadDevices E dm).2 0 0 hcov hnd
  have hres : restoreDevices E fuel (rereadDevices E dm).2 = (.finished nR nE, dm2) := h1
  refine ⟨hcov, nR, nE, by rw [hres], ?_, ?_, ?_⟩
  · unfold processEvent.listWiped
    simp only [hok, hres]
  · rw [hres]
    intro ev hev
    refine ⟨h4 ev hev, fun d hd => ?_⟩
    have := h4 ev hev
    rw [hd] at this
    cases this
  · rw [hres]
    intro hE
    exact h7 hE

set_option maxRecDepth 100000 in
/-- C27 at the device of the create scenario, saved as `enabled`, on a
PulseAudio backend that reports no device: after the reread the device is
indexed, and `restoreDevices`, with no round left for a name, returns. -/
theorem restoreDevices_after_reread_witness :
    (∀ s ∈ (rereadDevices Sample.pulse
        (Sample.manager ([] : List (List String)) [] [Sample.created])).2.store.LoadStreamDevices,
      ∃ x, (rereadDevices Sample.pulse
        (Sample.manager ([] : List (List String)) [] [Sample.created])).2.deviceByUID.get s.UID =
          some x) ∧
    ∃ nRestored nErrors,
      (restoreDevices Sample.pulse 0 (rereadDevices Sample.pulse
        (Sample.manager ([] : List (List String)) [] [Sample.created])).2).1 =
          .finished nRestored nErrors :=
  ⟨(restoreDevices_after_reread Sample.pulse 0
      (Sample.manager ([] : List (List String)) [] [Sample.created]) (by decide) (by decide)).1,
    (restoreDevices_after_reread Sample.pulse 0
      (Sample.manager ([] : List (List String)) [] [Sample.created]) (by decide)
      (by decide)).2.elim fun nR h => h.elim fun nE h2 => ⟨nR, nE, h2.1⟩⟩

set_option maxRecDepth 100000 in
/-- C27 as stated fails on the sample host, for the device of the create
scenario saved as `enabled`. In the state the claim describes, the saved
device absent from the uid index, a state `processEvent` never hands to
`restoreDevices`, the device is created, saved and indexed as `enabled`, and
then the guard, which reads the copy that `createStreamDevice` cloned and left
with its blanked uid, aborts with "unexpected uid change". In the list-wiped
case as it runs, the reread has indexed the device as `unavailable`, and
`restoreDevices` does not go through `createStreamDevice`: it issues
`applyEnabled` and a save, and returns with the device indexed as
`enabled`. -/
theorem restoreDevices_not_through_create :
    Sample.created.Status ≠ StatusDisabled ∧
    Sample.created.UID = makeDeviceUID Sample.pulse.machine Sample.created.SystemName ∧
    (Sample.manager ([] : List (List String)) [] [Sample.created]).deviceByUID.get
      Sample.created.UID = none ∧
    (restoreDevices Sample.pulse 1
      (Sample.manager ([] : List (List String)) [] [Sample.created])).1 =
        .panicked "unexpected uid change" ∧
    (restoreDevices Sample.pulse 1
      (Sample.manager ([] : List (List String)) [] [Sample.created])).2.calls.map
        (fun ev => (ev.call.name, ev.err)) =
      [("resetStreamDevice", none), ("SaveStreamDevice", none)] ∧
    ((rereadDevices Sample.pulse
      (Sample.manager ([] : List (List String)) [] [Sample.created])).2.deviceByUID.get
        Sample.created.UID).map Device.Status = some StatusUnavailable ∧
    (processEvent.listWiped Sample.pulse 1
      (Sample.manager ([] : List (List String)) [] [Sample.created])).1 =
        some (.finished 1 0) ∧
    (processEvent.listWiped Sample.pulse 1
      (Sample.manager ([] : List (List String)) [] [Sample.created])).2.calls.map
        (fun ev => (ev.call.name, ev.err)) =
      [("fetchDevices", none), ("applyEnabled", none), ("SaveStreamDevice", none),
        ("fetchDevices", none)] ∧
    ((restoreDevices Sample.pulse 1 (rereadDevices Sample.pulse
      (Sample.manager ([] : List (List String)) [] [Sample.created])).2).2.deviceByUID.get
        Sample.created.UID).map Device.Status = some StatusEnabled := by
  decide

end Rocd
